import Mathlib

/-!
# Eff-DSDV: wire headers and the per-node routing engine

A shallow embedding of `eff-dsdv-packet.cc` / `eff-dsdv-packet.h` and of
`eff-dsdv-routing-protocol.cc`.

Conventions of the embedding

* machine integers are `Nat` (or `Int`) with the wrap-around written out
  (`% 2 ^ 16`, `% 2 ^ 32`);
* an `Ipv4Address` is the 32-bit number returned by `Ipv4Address::Get`;
* a `Time` is the signed number of nanoseconds that ns-3 stores in `Time::m_data`;
* a packet is the list of its bytes, first byte first;
* a `Buffer::Iterator` is the list of bytes that are still in front of it;
* member functions that mutate their object return the new object;
* a `double` is an exact rational number;
* a route lookup of the protocol hands back, with its result, the `SendRouteRequest` calls it
  made;
* the snapshot map that `SendTriggeredUpdate`, `MergeTriggerPeriodicUpdates` or
  `SendPeriodicUpdate` fills from a table is gone through in ascending order of the destination
  address, the order of a `std::map`;
* the assertion that the loop of `SendTriggeredUpdate` makes on the event registry is part of
  the embedding: the function has no result when it fails.
-/

namespace ns3

/-- The 32-bit value of an `Ipv4Address`. -/
abbrev Ipv4Address := Nat

/-- The value of a default-constructed `Ipv4Address ()`, the ns-3 placeholder `0x66666666`. -/
def Ipv4Address.placeholder : Ipv4Address := 0x66666666

/-- The address `Ipv4Address::GetLoopback ()`, `127.0.0.1`. -/
def Ipv4Address.GetLoopback : Ipv4Address := 0x7f000001

/-- The count of nanoseconds held by an ns-3 `Time`. -/
abbrev Time := Int

/-- The bytes of a packet buffer, first byte first. -/
abbrev Packet := List Nat

/-! ## ns-3 time helpers -/

/-- The ns-3 factory `Seconds (n)` for a whole number of seconds. -/
def Seconds (n : Int) : Time := n * 1000000000

/-- The ns-3 factory `MilliSeconds (n)`. -/
def MilliSeconds (n : Int) : Time := n * 1000000

/-- The ns-3 factory `MicroSeconds (n)`. -/
def MicroSeconds (n : Int) : Time := n * 1000

/-- The accessor `Time::GetMilliSeconds`: 64-bit integer division, rounding towards zero. -/
def Time.GetMilliSeconds (t : Time) : Int := Int.tdiv t 1000000

/-- The accessor `Time::GetSeconds`, a `double` in the source; the embedding keeps the exact
quotient as a rational number. -/
def Time.GetSeconds (t : Time) : ℚ := (t : ℚ) / 1000000000

/-! ## ns-3 `Buffer::Iterator` primitives -/

namespace Buffer

/-- Bytes written by `Iterator::WriteU16`: low byte first. -/
def WriteU16 (data : Nat) : List Nat := [data % 256, data / 256 % 256]

/-- Bytes written by `Iterator::WriteHtonU16`: network order, high byte first. -/
def WriteHtonU16 (data : Nat) : List Nat := [data / 256 % 256, data % 256]

/-- Bytes written by `Iterator::WriteHtonU32`: network order. -/
def WriteHtonU32 (data : Nat) : List Nat :=
  [data / 16777216 % 256, data / 65536 % 256, data / 256 % 256, data % 256]

/-- Bytes written by `WriteTo (i, Ipv4Address)`: the address in network order. -/
def WriteTo (ad : Ipv4Address) : List Nat := WriteHtonU32 ad

/-- One byte read through the iterator; `none` when the buffer is exhausted. -/
def ReadU8 : List Nat → Option (Nat × List Nat)
  | [] => none
  | b :: i => some (b % 256, i)

/-- The read `Iterator::ReadU16`: low byte first. -/
def ReadU16 (i : List Nat) : Option (Nat × List Nat) :=
  match ReadU8 i with
  | none => none
  | some (byte0, i1) =>
    match ReadU8 i1 with
    | none => none
    | some (byte1, i2) => some (byte1 * 256 + byte0, i2)

/-- The read `Iterator::ReadNtohU16`: high byte first. -/
def ReadNtohU16 (i : List Nat) : Option (Nat × List Nat) :=
  match ReadU8 i with
  | none => none
  | some (byte0, i1) =>
    match ReadU8 i1 with
    | none => none
    | some (byte1, i2) => some (byte0 * 256 + byte1, i2)

/-- The read `Iterator::ReadNtohU32`: four bytes, high byte first. -/
def ReadNtohU32 (i : List Nat) : Option (Nat × List Nat) :=
  match ReadU8 i with
  | none => none
  | some (byte0, i1) =>
    match ReadU8 i1 with
    | none => none
    | some (byte1, i2) =>
      match ReadU8 i2 with
      | none => none
      | some (byte2, i3) =>
        match ReadU8 i3 with
        | none => none
        | some (byte3, i4) =>
          some (byte0 * 16777216 + byte1 * 65536 + byte2 * 256 + byte3, i4)

/-- The read `ReadFrom (i, Ipv4Address &)`. -/
def ReadFrom (i : List Nat) : Option (Ipv4Address × List Nat) := ReadNtohU32 i

/-- The distance `i.GetDistanceFrom (start)` between an iterator and the one it was copied
from. -/
def GetDistanceFrom (i start : List Nat) : Nat := start.length - i.length

end Buffer

/-! ## `eff-dsdv-packet` -/

namespace effdsdv

/-- The enumeration `MessageType`. -/
inductive MessageType where
  | DSDVTYPE_DSDV
  | DSDVTYPE_RREQ
  | DSDVTYPE_RACK
  deriving DecidableEq, Repr

/-- The enumerator values: 1, 2 and 3. -/
def MessageType.toNat : MessageType → Nat
  | .DSDVTYPE_DSDV => 1
  | .DSDVTYPE_RREQ => 2
  | .DSDVTYPE_RACK => 3

/-- The class `TypeHeader`. -/
structure TypeHeader where
  m_type : MessageType
  m_valid : Bool
  deriving DecidableEq, Repr

namespace TypeHeader

/-- The constructor `TypeHeader (MessageType t = DSDVTYPE_DSDV)`. -/
def mk1 (t : MessageType) : TypeHeader := { m_type := t, m_valid := true }

def Get (h : TypeHeader) : MessageType := h.m_type

def IsValid (h : TypeHeader) : Bool := h.m_valid

def GetSerializedSize (_h : TypeHeader) : Nat := 2

def Serialize (h : TypeHeader) : List Nat := Buffer.WriteU16 h.m_type.toNat

/-- The member `TypeHeader::Deserialize`: the header after the read and the distance covered.
An unknown type value clears `m_valid` and leaves `m_type` as it was. -/
def Deserialize (h : TypeHeader) (start : List Nat) : Option (TypeHeader × Nat) :=
  match Buffer.ReadU16 start with
  | none => none
  | some (type, i) =>
    let h1 : TypeHeader :=
      if type = 1 then { m_type := .DSDVTYPE_DSDV, m_valid := true }
      else if type = 2 then { m_type := .DSDVTYPE_RREQ, m_valid := true }
      else if type = 3 then { m_type := .DSDVTYPE_RACK, m_valid := true }
      else { h with m_valid := false }
    some (h1, Buffer.GetDistanceFrom i start)

end TypeHeader

/-- The class `DsdvHeader`. -/
structure DsdvHeader where
  m_dst : Ipv4Address
  m_hopCount : Nat
  m_dstSeqNo : Nat
  deriving DecidableEq, Repr

namespace DsdvHeader

/-- The constructor with its default arguments `(Ipv4Address (), 0, 0)`. -/
def default : DsdvHeader := { m_dst := Ipv4Address.placeholder, m_hopCount := 0, m_dstSeqNo := 0 }

def GetDst (h : DsdvHeader) : Ipv4Address := h.m_dst

def GetHopCount (h : DsdvHeader) : Nat := h.m_hopCount

def GetDstSeqno (h : DsdvHeader) : Nat := h.m_dstSeqNo

/-- The setter `SetHopCount (uint16_t)`. -/
def SetHopCount (h : DsdvHeader) (hopCount : Nat) : DsdvHeader :=
  { h with m_hopCount := hopCount % 2 ^ 16 }

/-- The setter `SetDstSeqno (uint32_t)`. -/
def SetDstSeqno (h : DsdvHeader) (sequenceNumber : Nat) : DsdvHeader :=
  { h with m_dstSeqNo := sequenceNumber % 2 ^ 32 }

def SetDst (h : DsdvHeader) (destination : Ipv4Address) : DsdvHeader :=
  { h with m_dst := destination }

def GetSerializedSize (_h : DsdvHeader) : Nat := 10

def Serialize (h : DsdvHeader) : List Nat :=
  Buffer.WriteTo h.m_dst ++ Buffer.WriteHtonU16 h.m_hopCount ++ Buffer.WriteHtonU32 h.m_dstSeqNo

def Deserialize (_h : DsdvHeader) (start : List Nat) : Option (DsdvHeader × Nat) :=
  match Buffer.ReadFrom start with
  | none => none
  | some (dst, i1) =>
    match Buffer.ReadNtohU16 i1 with
    | none => none
    | some (hopCount, i2) =>
      match Buffer.ReadNtohU32 i2 with
      | none => none
      | some (dstSeqNo, i3) =>
        some ({ m_dst := dst, m_hopCount := hopCount, m_dstSeqNo := dstSeqNo },
              Buffer.GetDistanceFrom i3 start)

end DsdvHeader

/-- The class `RreqHeader`; `m_reserved` is a `uint8_t`. -/
structure RreqHeader where
  m_dst : Ipv4Address
  m_reserved : Nat
  deriving DecidableEq, Repr

namespace RreqHeader

/-- The constructor `RreqHeader (Ipv4Address dst = Ipv4Address (), uint8_t reserved = 0)`. -/
def mk2 (dst : Ipv4Address) (reserved : Nat) : RreqHeader :=
  { m_dst := dst, m_reserved := reserved % 2 ^ 8 }

def default : RreqHeader := mk2 Ipv4Address.placeholder 0

def GetDst (h : RreqHeader) : Ipv4Address := h.m_dst

def SetDst (h : RreqHeader) (destination : Ipv4Address) : RreqHeader :=
  { h with m_dst := destination }

def GetSerializedSize (_h : RreqHeader) : Nat := 6

def Serialize (h : RreqHeader) : List Nat :=
  Buffer.WriteTo h.m_dst ++ Buffer.WriteU16 h.m_reserved

/-- The member `RreqHeader::Deserialize`; the 16-bit read is narrowed to the `uint8_t`
member. -/
def Deserialize (_h : RreqHeader) (start : List Nat) : Option (RreqHeader × Nat) :=
  match Buffer.ReadFrom start with
  | none => none
  | some (dst, i1) =>
    match Buffer.ReadU16 i1 with
    | none => none
    | some (reserved, i2) =>
      some ({ m_dst := dst, m_reserved := reserved % 2 ^ 8 }, Buffer.GetDistanceFrom i2 start)

end RreqHeader

/-- The class `RackHeader`; `m_updateTime` is a `uint32_t` count of milliseconds. -/
structure RackHeader where
  m_dst : Ipv4Address
  m_hopCount : Nat
  m_updateTime : Nat
  deriving DecidableEq, Repr

namespace RackHeader

/-- The constructor `RackHeader (dst, hopCount, updateTime)`:
`m_updateTime = uint32_t (updateTime.GetMilliSeconds ())`. -/
def mk3 (dst : Ipv4Address) (hopCount : Nat) (updateTime : Time) : RackHeader :=
  { m_dst := dst
    m_hopCount := hopCount % 2 ^ 16
    m_updateTime := (updateTime.GetMilliSeconds % 2 ^ 32).toNat }

def default : RackHeader := mk3 Ipv4Address.placeholder 0 (MilliSeconds 0)

def GetDst (h : RackHeader) : Ipv4Address := h.m_dst

def GetHopCount (h : RackHeader) : Nat := h.m_hopCount

def SetHopCount (h : RackHeader) (hopCount : Nat) : RackHeader :=
  { h with m_hopCount := hopCount % 2 ^ 16 }

/-- The accessor `GetUpdateTime`: `MilliSeconds (m_updateTime)`. -/
def GetUpdateTime (h : RackHeader) : Time := MilliSeconds h.m_updateTime

def GetSerializedSize (_h : RackHeader) : Nat := 10

def Serialize (h : RackHeader) : List Nat :=
  Buffer.WriteTo h.m_dst ++ Buffer.WriteHtonU16 h.m_hopCount ++ Buffer.WriteHtonU32 h.m_updateTime

def Deserialize (_h : RackHeader) (start : List Nat) : Option (RackHeader × Nat) :=
  match Buffer.ReadFrom start with
  | none => none
  | some (dst, i1) =>
    match Buffer.ReadNtohU16 i1 with
    | none => none
    | some (hopCount, i2) =>
      match Buffer.ReadNtohU32 i2 with
      | none => none
      | some (updateTime, i3) =>
        some ({ m_dst := dst, m_hopCount := hopCount, m_updateTime := updateTime },
              Buffer.GetDistanceFrom i3 start)

end RackHeader

/-! ## Routing table (`eff-dsdv-rtable`) -/

/-- Modelled from the spec: the route flag of `eff-dsdv-rtable.h`, which is not among the
sources; section 3 lists the values `VALID`, `INVALID`, `INSEARCH`. -/
inductive RouteFlags where
  | VALID
  | INVALID
  | INSEARCH
  deriving DecidableEq, Repr

/-- The ns-3 class `Ipv4InterfaceAddress`, reduced to local address, mask and broadcast
address. -/
structure Ipv4InterfaceAddress where
  m_local : Ipv4Address
  m_mask : Nat
  m_broadcast : Ipv4Address
  deriving DecidableEq, Repr

namespace Ipv4InterfaceAddress

def GetLocal (a : Ipv4InterfaceAddress) : Ipv4Address := a.m_local

def GetMask (a : Ipv4InterfaceAddress) : Nat := a.m_mask

def GetBroadcast (a : Ipv4InterfaceAddress) : Ipv4Address := a.m_broadcast

/-- The default-constructed `Ipv4InterfaceAddress ()`. -/
def default : Ipv4InterfaceAddress :=
  { m_local := Ipv4Address.placeholder, m_mask := 0, m_broadcast := Ipv4Address.placeholder }

end Ipv4InterfaceAddress

/-- Modelled from the spec: the class `RoutingTableEntry` of `eff-dsdv-rtable.h`, which is not
among the sources; the fields are those of section 3. `m_lifeTime` and `m_installTime` hold the
time stamps written by `SetLifeTime` and `SetInstallTime`; the getters report the time elapsed
since. `m_dev` and `m_iface` are the binding handed to the transport layer (`-1`: no device). -/
structure RoutingTableEntry where
  m_dst : Ipv4Address
  m_nextHop : Ipv4Address
  m_seqNo : Nat
  m_hops : Nat
  m_lifeTime : Time
  m_settlingTime : Time
  m_installTime : Time
  m_flag : RouteFlags
  m_entriesChanged : Bool
  m_iface : Ipv4InterfaceAddress
  m_dev : Int
  deriving DecidableEq, Repr

namespace RoutingTableEntry

/-- Modelled from the spec: the nine-argument constructor used by the protocol,
`RoutingTableEntry (dev, dst, seqNo, iface, hops, nextHop, lifetime, settlingTime, changed)`.
A new entry is `VALID`; the install time, which is no constructor argument, is the
default-constructed `Time ()`. -/
def mk9 (dev : Int) (dst : Ipv4Address) (seqNo : Nat) (iface : Ipv4InterfaceAddress) (hops : Nat)
    (nextHop : Ipv4Address) (lifetime settlingTime : Time) (areChanged : Bool) :
    RoutingTableEntry :=
  { m_dst := dst
    m_nextHop := nextHop
    m_seqNo := seqNo % 2 ^ 32
    m_hops := hops % 2 ^ 32
    m_lifeTime := lifetime
    m_settlingTime := settlingTime
    m_installTime := 0
    m_flag := .VALID
    m_entriesChanged := areChanged
    m_iface := iface
    m_dev := dev }

/-- Modelled from the spec: a default-constructed entry (`RoutingTableEntry rt;`), whose time
stamps default to `Simulator::Now ()`. -/
def default (now : Time) : RoutingTableEntry :=
  mk9 (-1) Ipv4Address.placeholder 0 Ipv4InterfaceAddress.default 0 Ipv4Address.placeholder
    now now false

/-- Modelled from the spec: the getter of the `destination` (section 3). -/
def GetDestination (rt : RoutingTableEntry) : Ipv4Address := rt.m_dst

/-- Modelled from the spec: the getter of the `nextHop` (section 3). -/
def GetNextHop (rt : RoutingTableEntry) : Ipv4Address := rt.m_nextHop

/-- Modelled from the spec: the getter of the `sequenceNumber` (section 3). -/
def GetSeqNo (rt : RoutingTableEntry) : Nat := rt.m_seqNo

/-- Modelled from the spec: the getter of the `hopCount` (section 3). -/
def GetHop (rt : RoutingTableEntry) : Nat := rt.m_hops

/-- Modelled from the spec: the getter of the `flag` (section 3). -/
def GetFlag (rt : RoutingTableEntry) : RouteFlags := rt.m_flag

/-- Modelled from the spec: the getter of the `entriesChanged` (section 3). -/
def GetEntriesChanged (rt : RoutingTableEntry) : Bool := rt.m_entriesChanged

/-- Modelled from the spec: the getter of the `settlingTime` (section 3). -/
def GetSettlingTime (rt : RoutingTableEntry) : Time := rt.m_settlingTime

/-- Modelled from the spec: the getter of the interface binding (section 3). -/
def GetInterface (rt : RoutingTableEntry) : Ipv4InterfaceAddress := rt.m_iface

/-- Modelled from the spec: the getter of the output device binding (section 3). -/
def GetOutputDevice (rt : RoutingTableEntry) : Int := rt.m_dev

/-- Modelled from the spec: `GetLifeTime`, the time elapsed since the entry was last
refreshed (section 3: recomputed relative to "now" at query time). -/
def GetLifeTime (rt : RoutingTableEntry) (now : Time) : Time := now - rt.m_lifeTime

/-- Modelled from the spec: `GetInstallTime`, the age of the entry since it was installed. -/
def GetInstallTime (rt : RoutingTableEntry) (now : Time) : Time := now - rt.m_installTime

/-- Modelled from the spec: the setter of `sequenceNumber`, a `uint32_t`. -/
def SetSeqNo (rt : RoutingTableEntry) (sn : Nat) : RoutingTableEntry :=
  { rt with m_seqNo := sn % 2 ^ 32 }

/-- Modelled from the spec: the setter of `hopCount`, a `uint32_t`. -/
def SetHop (rt : RoutingTableEntry) (hopCount : Nat) : RoutingTableEntry :=
  { rt with m_hops := hopCount % 2 ^ 32 }

/-- Modelled from the spec: the setter of `nextHop` (section 3). -/
def SetNextHop (rt : RoutingTableEntry) (nextHop : Ipv4Address) : RoutingTableEntry :=
  { rt with m_nextHop := nextHop }

/-- Modelled from the spec: the setter of the time stamp behind `lifetime` (section 3). -/
def SetLifeTime (rt : RoutingTableEntry) (lifeTime : Time) : RoutingTableEntry :=
  { rt with m_lifeTime := lifeTime }

/-- Modelled from the spec: the setter of `settlingTime` (section 3). -/
def SetSettlingTime (rt : RoutingTableEntry) (settlingTime : Time) : RoutingTableEntry :=
  { rt with m_settlingTime := settlingTime }

/-- Modelled from the spec: the setter of `installTime` (section 3). -/
def SetInstallTime (rt : RoutingTableEntry) (installTime : Time) : RoutingTableEntry :=
  { rt with m_installTime := installTime }

/-- Modelled from the spec: the setter of `flag` (section 3). -/
def SetFlag (rt : RoutingTableEntry) (flag : RouteFlags) : RoutingTableEntry :=
  { rt with m_flag := flag }

/-- Modelled from the spec: the setter of `entriesChanged` (section 3). -/
def SetEntriesChanged (rt : RoutingTableEntry) (entriesChanged : Bool) : RoutingTableEntry :=
  { rt with m_entriesChanged := entriesChanged }

/-- Modelled from the spec: the setter of the interface binding (section 3). -/
def SetInterface (rt : RoutingTableEntry) (iface : Ipv4InterfaceAddress) : RoutingTableEntry :=
  { rt with m_iface := iface }

/-- Modelled from the spec: the setter of the output device binding (section 3). -/
def SetOutputDevice (rt : RoutingTableEntry) (device : Int) : RoutingTableEntry :=
  { rt with m_dev := device }

/-- Modelled from the spec: `GetRoute`, the opaque next-hop/interface binding that is handed to
the transport layer (section 3): the next hop, the interface address and the output device of
the entry. -/
def GetRoute (rt : RoutingTableEntry) : Ipv4Address × Ipv4InterfaceAddress × Int :=
  (rt.m_nextHop, rt.m_iface, rt.m_dev)

/-- Modelled from the spec: `SetRoute`, which installs a binding obtained with `GetRoute`. -/
def SetRoute (rt : RoutingTableEntry) (route : Ipv4Address × Ipv4InterfaceAddress × Int) :
    RoutingTableEntry :=
  { rt with m_nextHop := route.1, m_iface := route.2.1, m_dev := route.2.2 }

end RoutingTableEntry

/-- The uid of an ns-3 `EventId`; a default-constructed `EventId` has uid 0. -/
abbrev EventId := Nat

/-- The callback bound by a `Simulator::Schedule` call of the protocol. -/
inductive EventImpl where
  | SendTriggeredUpdate
  | SendTo (socket : Nat) (packet : Packet) (destination : Ipv4Address)
  deriving DecidableEq, Repr

/-- One event held by the ns-3 scheduler: its uid, the time it is due, the bound callback, and
whether `Simulator::Cancel` was called on it. -/
structure Event where
  uid : Nat
  ts : Time
  impl : EventImpl
  cancelled : Bool
  deriving DecidableEq, Repr

/-- The ns-3 `Simulator` as seen by one node: the clock, the next free uid, and the events that
are scheduled and have not run yet. -/
structure Simulator where
  m_currentTs : Time
  m_uid : Nat
  m_events : List Event
  deriving DecidableEq, Repr

namespace Simulator

def Now (sim : Simulator) : Time := sim.m_currentTs

/-- The call `Simulator::Schedule (delay, callback)`: the event gets the next uid. -/
def Schedule (sim : Simulator) (delay : Time) (impl : EventImpl) : Simulator × EventId :=
  ({ sim with
      m_uid := sim.m_uid + 1
      m_events := sim.m_events ++
        [{ uid := sim.m_uid, ts := sim.m_currentTs + delay, impl := impl, cancelled := false }] },
   sim.m_uid)

/-- The call `Simulator::Cancel (id)`: the event stays in the queue, marked as cancelled. -/
def Cancel (sim : Simulator) (id : EventId) : Simulator :=
  { sim with
      m_events := sim.m_events.map
        (fun e => if e.uid = id then { e with cancelled := true } else e) }

/-- The test `EventId::IsRunning`: scheduled, not yet run and not cancelled. -/
def IsRunning (sim : Simulator) (id : EventId) : Bool :=
  sim.m_events.any (fun e => decide (e.uid = id) && !e.cancelled)

end Simulator

/-- Modelled from the spec: the class `RoutingTable` of `eff-dsdv-rtable`, which is not among
the sources. Section 3 keeps at most one entry per destination and associates each destination
of the advertisement table with at most one settling-timer event; section 4.1 lists the
operations. Entries are kept in insertion order, keyed by their destination. -/
structure RoutingTable where
  m_ipv4AddressEntry : List RoutingTableEntry
  m_ipv4Events : List (Ipv4Address × EventId)
  m_holddownTime : Time
  deriving DecidableEq, Repr

namespace RoutingTable

/-- Modelled from the spec: `LookupRoute(dest) -> entry|absent` (section 4.1). -/
def LookupRoute (t : RoutingTable) (id : Ipv4Address) : Option RoutingTableEntry :=
  t.m_ipv4AddressEntry.find? (fun e => decide (e.GetDestination = id))

/-- Modelled from the spec: the overload `LookupRoute (id, rt, forRouteInput)` of the table,
which is not among the sources. Section 4.1 gives the table one lookup query,
`LookupRoute(dest) -> entry|absent`, and says nothing of the flag: the overload answers as that
query does. -/
def LookupRouteForRouteInput (t : RoutingTable) (id : Ipv4Address) (_forRouteInput : Bool) :
    Option RoutingTableEntry :=
  t.LookupRoute id

/-- Modelled from the spec: `AddRoute`, which fails if the destination is already present
(section 4.1). -/
def AddRoute (t : RoutingTable) (rt : RoutingTableEntry) : Bool × RoutingTable :=
  match t.LookupRoute rt.GetDestination with
  | some _ => (false, t)
  | none => (true, { t with m_ipv4AddressEntry := t.m_ipv4AddressEntry ++ [rt] })

/-- Modelled from the spec: `Update`, which fails if the destination is absent
(section 4.1). -/
def Update (t : RoutingTable) (rt : RoutingTableEntry) : Bool × RoutingTable :=
  match t.LookupRoute rt.GetDestination with
  | none => (false, t)
  | some _ =>
    (true, { t with
      m_ipv4AddressEntry := t.m_ipv4AddressEntry.map
        (fun e => if e.GetDestination = rt.GetDestination then rt else e) })

/-- Modelled from the spec: `DeleteRoute` (section 4.1); reports whether an entry was
removed. -/
def DeleteRoute (t : RoutingTable) (dst : Ipv4Address) : Bool × RoutingTable :=
  match t.LookupRoute dst with
  | none => (false, t)
  | some _ =>
    (true, { t with
      m_ipv4AddressEntry := t.m_ipv4AddressEntry.filter
        (fun e => !decide (e.GetDestination = dst)) })

/-- Modelled from the spec: `ListDestinationsWithNextHop(nextHop)` (section 4.1). -/
def GetListOfDestinationWithNextHop (t : RoutingTable) (nextHop : Ipv4Address) :
    List RoutingTableEntry :=
  t.m_ipv4AddressEntry.filter (fun e => decide (e.GetNextHop = nextHop))

/-- Modelled from the spec: `ListAllRoutes` (section 4.1), the routes that a periodic update
advertises (section 4.5): every entry, whatever its flag, but the loopback entry, the
administrative placeholder of section 3. `SendPeriodicUpdate` returns at once when the list is
empty, as it is for a table that holds the loopback entry only, and takes every listed entry
with hop count 0 for the entry of the node itself. -/
def GetListOfAllRoutes (t : RoutingTable) : List RoutingTableEntry :=
  t.m_ipv4AddressEntry.filter (fun e => !decide (e.GetDestination = Ipv4Address.GetLoopback))

/-- Modelled from the spec: `ListValidRoutes` (section 4.1), the entries whose flag is
`VALID`. -/
def GetListOfAllValidRoutes (t : RoutingTable) : List RoutingTableEntry :=
  t.m_ipv4AddressEntry.filter (fun e => decide (e.GetFlag = RouteFlags.VALID))

/-- Modelled from the spec: the event registered for a destination, if any; a destination
without one yields the default `EventId`. -/
def GetEventId (t : RoutingTable) (address : Ipv4Address) : EventId :=
  match t.m_ipv4Events.find? (fun p => decide (p.1 = address)) with
  | some p => p.2
  | none => 0

/-- Modelled from the spec: `AddIpv4Event`, which registers a settling-timer event for a
destination. A destination holds at most one event (section 3), so a destination that already
has one keeps it and the call reports failure. -/
def AddIpv4Event (t : RoutingTable) (address : Ipv4Address) (id : EventId) :
    Bool × RoutingTable :=
  match t.m_ipv4Events.find? (fun p => decide (p.1 = address)) with
  | some _ => (false, t)
  | none => (true, { t with m_ipv4Events := t.m_ipv4Events ++ [(address, id)] })

/-- Modelled from the spec: `AnyRunningEvent`, whether the event registered for the destination
is still outstanding. -/
def AnyRunningEvent (t : RoutingTable) (sim : Simulator) (address : Ipv4Address) : Bool :=
  match t.m_ipv4Events.find? (fun p => decide (p.1 = address)) with
  | some p => sim.IsRunning p.2
  | none => false

/-- Modelled from the spec: `ForceDeleteIpv4Event`, which cancels the event registered for
the destination and removes the registration; reports whether there was one. -/
def ForceDeleteIpv4Event (t : RoutingTable) (sim : Simulator) (address : Ipv4Address) :
    Bool × RoutingTable × Simulator :=
  match t.m_ipv4Events.find? (fun p => decide (p.1 = address)) with
  | none => (false, t, sim)
  | some p =>
    (true,
     { t with m_ipv4Events := t.m_ipv4Events.filter (fun q => !decide (q.1 = address)) },
     sim.Cancel p.2)

/-- Modelled from the spec: `DeleteIpv4Event`, which removes the registration of an event that
is no longer outstanding; a running event is left registered. -/
def DeleteIpv4Event (t : RoutingTable) (sim : Simulator) (address : Ipv4Address) :
    Bool × RoutingTable :=
  match t.m_ipv4Events.find? (fun p => decide (p.1 = address)) with
  | none => (false, t)
  | some p =>
    if sim.IsRunning p.2 then (false, t)
    else
      (true,
       { t with m_ipv4Events := t.m_ipv4Events.filter (fun q => !decide (q.1 = address)) })

/-- Modelled from the spec: `Purge() -> (removed, invalidated)` (section 4.1 and scenario 5).
An entry is over age when its lifetime exceeds the hold-down time. An over-age neighbour entry
(hop count 1) is removed together with every destination whose next hop is that neighbour; any
other over-age entry is kept and marked `INVALID`. The result is the swept table, the removed
entries and the invalidated entries (as they were before the sweep). -/
def Purge (t : RoutingTable) (now : Time) :
    RoutingTable × List RoutingTableEntry × List RoutingTableEntry :=
  let overAge : RoutingTableEntry → Bool := fun e => decide (e.GetLifeTime now > t.m_holddownTime)
  let lost : List Ipv4Address :=
    (t.m_ipv4AddressEntry.filter (fun e => overAge e && decide (e.GetHop = 1))).map
      RoutingTableEntry.GetDestination
  let isRemoved : RoutingTableEntry → Bool := fun e =>
    (overAge e && decide (e.GetHop = 1)) || lost.contains e.GetNextHop
  let removed := t.m_ipv4AddressEntry.filter isRemoved
  let invalidated := t.m_ipv4AddressEntry.filter (fun e => !isRemoved e && overAge e)
  let kept := (t.m_ipv4AddressEntry.filter (fun e => !isRemoved e)).map
    (fun e => if overAge e then e.SetFlag RouteFlags.INVALID else e)
  ({ t with m_ipv4AddressEntry := kept }, removed, invalidated)

end RoutingTable

/-! ## The routing protocol (`eff-dsdv-routing-protocol.cc`) -/

/-- The conversion `Time (double v)`: `lround (v)` ticks, rounding halves away from zero. The
`double` is kept as an exact rational number. -/
def Time.ofDouble (v : ℚ) : Time :=
  if 0 ≤ v then Rat.floor (v + 1 / 2) else -Rat.floor (-v + 1 / 2)

/-- The factory `Seconds (double)`: the integer part of the value scaled to nanoseconds. -/
def SecondsD (v : ℚ) : Time := Rat.floor (v * 1000000000)

/-- The conversion `int (double)`: truncation towards zero. -/
def intOfDouble (v : ℚ) : Int := if 0 ≤ v then Rat.floor v else -Rat.floor (-v)

/-- The ns-3 `Ipv4` stack of the node, reduced to the address of each interface (interface 0
is the loopback interface). -/
structure Ipv4 where
  m_interfaces : List Ipv4InterfaceAddress
  deriving DecidableEq, Repr

namespace Ipv4

/-- The query `GetInterfaceForAddress`: the index of the interface that owns the address, or
`-1`. -/
def GetInterfaceForAddress (ip : Ipv4) (address : Ipv4Address) : Int :=
  match ip.m_interfaces.findIdx? (fun a => decide (a.GetLocal = address)) with
  | some i => (i : Int)
  | none => -1

/-- The query `GetNetDevice`: devices are named by their interface index. -/
def GetNetDevice (_ip : Ipv4) (i : Int) : Int := i

/-- The query `GetAddress (i, 0)`. -/
def GetAddress (ip : Ipv4) (i : Int) : Ipv4InterfaceAddress :=
  if 0 ≤ i then (ip.m_interfaces.get? i.toNat).getD Ipv4InterfaceAddress.default
  else Ipv4InterfaceAddress.default

end Ipv4

/-- A datagram handed to `Socket::SendTo`: the socket (if one was found), the packet, and the
destination address and port. -/
structure SentPacket where
  socket : Option Nat
  packet : Packet
  destination : Ipv4Address
  port : Nat
  deriving DecidableEq, Repr

/-- The class `RoutingProtocol`: its attributes, its three tables, and the parts of the
simulation it acts on (scheduler, periodic timer, random stream, transmitted datagrams). -/
structure RoutingProtocol where
  m_periodicUpdateInterval : Time
  m_settlingTime : Time
  Holdtimes : Nat
  EnableWST : Bool
  EnableRouteAggregation : Bool
  m_routeAggregationTime : Time
  m_weightedFactor : ℚ
  m_mainAddress : Ipv4Address
  m_ipv4 : Ipv4
  m_socketAddresses : List (Nat × Ipv4InterfaceAddress)
  m_routingTable : RoutingTable
  m_advRoutingTable : RoutingTable
  m_altRoutingTable : RoutingTable
  /-- The time at which the periodic update timer expires, when it is running. -/
  m_periodicUpdateTimer : Option Time
  /-- The draws that `m_uniformRandomVariable` will deliver, next draw first. -/
  m_uniformRandomVariable : List Nat
  m_simulator : Simulator
  /-- The datagrams passed to `Socket::SendTo`, oldest first. -/
  m_sent : List SentPacket
  deriving DecidableEq, Repr

namespace RoutingProtocol

/-- The constant `DSDV_PORT`. -/
def DSDV_PORT : Nat := 269

/-- The draw `m_uniformRandomVariable->GetInteger (min, max)`: the next value of the stream,
reduced into the interval; an exhausted stream delivers `min`. -/
def GetInteger (s : RoutingProtocol) (min max : Nat) : Nat × RoutingProtocol :=
  match s.m_uniformRandomVariable with
  | [] => (min, s)
  | r :: rest => (min + r % (max - min + 1), { s with m_uniformRandomVariable := rest })

/-- The query `m_periodicUpdateTimer.GetDelayLeft ()`; zero when the timer is not running. -/
def GetDelayLeft (s : RoutingProtocol) : Time :=
  match s.m_periodicUpdateTimer with
  | none => 0
  | some ts => ts - s.m_simulator.Now

def FindSocketWithInterfaceAddress (s : RoutingProtocol) (addr : Ipv4InterfaceAddress) :
    Option Nat :=
  (s.m_socketAddresses.find? (fun j => decide (j.2 = addr))).map Prod.fst

def IsMyOwnAddress (s : RoutingProtocol) (src : Ipv4Address) : Bool :=
  s.m_socketAddresses.any (fun j => decide (src = j.2.GetLocal))

def GetSettlingTime (s : RoutingProtocol) (address : Ipv4Address) : Time :=
  let mainrt :=
    (s.m_routingTable.LookupRoute address).getD (RoutingTableEntry.default s.m_simulator.Now)
  if s.EnableWST then
    if mainrt.GetSettlingTime = Seconds 0 then Seconds 0
    else
      Time.ofDouble (s.m_weightedFactor * mainrt.GetSettlingTime.GetSeconds
        + (1 - s.m_weightedFactor) * (mainrt.GetLifeTime s.m_simulator.Now).GetSeconds)
  else mainrt.GetSettlingTime

def IsRouteAlive (s : RoutingProtocol) (rt : RoutingTableEntry) (bufferInSec : ℚ) : Bool :=
  if rt.GetLifeTime s.m_simulator.Now > s.m_periodicUpdateInterval + SecondsD bufferInSec then
    false
  else if rt.GetFlag = RouteFlags.VALID then true
  else false

/-- The part of `RecvDsdv` that handles an update with an even sequence number for a
destination of the main table (the `if (dsdvHeader.GetDstSeqno () % 2 != 1)` block): `s0` is
the state once the advertisement table holds an entry for the destination, `advTableEntry`
that entry. -/
def RecvDsdvReachable (s0 : RoutingProtocol) (advTableEntry : RoutingTableEntry)
    (dsdvHeader : DsdvHeader) (src : Ipv4Address) : RoutingProtocol :=
  let now := s0.m_simulator.Now
  if dsdvHeader.GetDstSeqno > advTableEntry.GetSeqNo then
    -- better seq number: clear any old event that is running
    let fd := s0.m_advRoutingTable.ForceDeleteIpv4Event s0.m_simulator dsdvHeader.GetDst
    let s1 : RoutingProtocol :=
      { s0 with m_advRoutingTable := fd.2.1, m_simulator := fd.2.2 }
    let s2 : RoutingProtocol :=
      if dsdvHeader.GetHopCount ≠ advTableEntry.GetHop then
        let adv1 :=
          (((((advTableEntry.SetSeqNo dsdvHeader.GetDstSeqno).SetLifeTime now).SetFlag
            RouteFlags.VALID).SetEntriesChanged true).SetNextHop src).SetHop
            dsdvHeader.GetHopCount
        let tempSettlingtime := s1.GetSettlingTime dsdvHeader.GetDst
        let adv2 := adv1.SetSettlingTime tempSettlingtime
        let sched := s1.m_simulator.Schedule tempSettlingtime EventImpl.SendTriggeredUpdate
        let advTable1 := (s1.m_advRoutingTable.AddIpv4Event dsdvHeader.GetDst sched.2).2
        { s1 with
            m_simulator := sched.1
            m_routingTable := (s1.m_routingTable.Update adv2).2
            m_advRoutingTable := (advTable1.Update adv2).2 }
      else
        let adv1 :=
          (((((advTableEntry.SetSeqNo dsdvHeader.GetDstSeqno).SetLifeTime now).SetFlag
            RouteFlags.VALID).SetEntriesChanged true).SetNextHop src).SetHop
            dsdvHeader.GetHopCount
        { s1 with m_advRoutingTable := (s1.m_advRoutingTable.Update adv1).2 }
    { s2 with m_altRoutingTable := (s2.m_altRoutingTable.DeleteRoute dsdvHeader.GetDst).2 }
  else if dsdvHeader.GetDstSeqno = advTableEntry.GetSeqNo then
    if dsdvHeader.GetHopCount < advTableEntry.GetHop then
      -- same seq number and better hop count
      let fd := s0.m_advRoutingTable.ForceDeleteIpv4Event s0.m_simulator dsdvHeader.GetDst
      let s1 : RoutingProtocol :=
        { s0 with m_advRoutingTable := fd.2.1, m_simulator := fd.2.2 }
      let adv1 :=
        (((((advTableEntry.SetSeqNo dsdvHeader.GetDstSeqno).SetLifeTime now).SetFlag
          RouteFlags.VALID).SetEntriesChanged true).SetNextHop src).SetHop
          dsdvHeader.GetHopCount
      let tempSettlingtime := s1.GetSettlingTime dsdvHeader.GetDst
      let adv2 := adv1.SetSettlingTime tempSettlingtime
      let sched := s1.m_simulator.Schedule tempSettlingtime EventImpl.SendTriggeredUpdate
      let advTable1 := (s1.m_advRoutingTable.AddIpv4Event dsdvHeader.GetDst sched.2).2
      { s1 with
          m_simulator := sched.1
          m_routingTable := (s1.m_routingTable.Update adv2).2
          m_advRoutingTable := (advTable1.Update adv2).2
          m_altRoutingTable := (s1.m_altRoutingTable.DeleteRoute adv2.GetDestination).2 }
    else
      -- same seq number, same or greater hop count: discard
      if !s0.m_advRoutingTable.AnyRunningEvent s0.m_simulator dsdvHeader.GetDst then
        let s1 : RoutingProtocol :=
          if advTableEntry.GetNextHop = src then
            { s0 with
                m_routingTable :=
                  (s0.m_routingTable.Update (advTableEntry.SetLifeTime now)).2 }
          else s0
        { s1 with
            m_advRoutingTable := (s1.m_advRoutingTable.DeleteRoute dsdvHeader.GetDst).2 }
      else s0
  else
    -- old sequence number: discard
    if !s0.m_advRoutingTable.AnyRunningEvent s0.m_simulator dsdvHeader.GetDst then
      { s0 with
          m_advRoutingTable := (s0.m_advRoutingTable.DeleteRoute dsdvHeader.GetDst).2 }
    else s0

/-- The body of the first loop of the infinite-metric branch of `RecvDsdv`, run for every
destination `i` that was routed through the unreachable one: its sequence number is raised by
one, it is marked changed and offered to the advertisement table, and its main-table entry is
deleted. -/
def PoisonRouted (st : RoutingProtocol) (i : RoutingTableEntry) : RoutingProtocol :=
  let i1 := (i.SetSeqNo (i.GetSeqNo + 1)).SetEntriesChanged true
  { st with
      m_advRoutingTable := (st.m_advRoutingTable.AddRoute i1).2
      m_routingTable := (st.m_routingTable.DeleteRoute i1.GetDestination).2 }

/-- The body of the second loop of the infinite-metric branch of `RecvDsdv`: the alternate
route of `i` is deleted. -/
def DropAlternate (st : RoutingProtocol) (i : RoutingTableEntry) : RoutingProtocol :=
  { st with m_altRoutingTable := (st.m_altRoutingTable.DeleteRoute i.GetDestination).2 }

/-- The part of `RecvDsdv` that handles an update with an odd sequence number (infinite
metric) for a destination of the main table (the matching `else` block); `s0` and
`advTableEntry` are as in `RecvDsdvReachable`. -/
def RecvDsdvUnreachable (s0 : RoutingProtocol) (advTableEntry : RoutingTableEntry)
    (dsdvHeader : DsdvHeader) (src : Ipv4Address) : RoutingProtocol :=
  -- delete the route only if the update came from my nexthop neighbour
  if src = advTableEntry.GetNextHop then
    let dstsWithNextHopSrc :=
      s0.m_routingTable.GetListOfDestinationWithNextHop dsdvHeader.GetDst
    let altDstsWithNextHopSrc :=
      s0.m_altRoutingTable.GetListOfDestinationWithNextHop dsdvHeader.GetDst
    let adv1 := (advTableEntry.SetSeqNo dsdvHeader.GetDstSeqno).SetEntriesChanged true
    let s1 : RoutingProtocol :=
      { s0 with
          m_routingTable := (s0.m_routingTable.DeleteRoute dsdvHeader.GetDst).2
          m_altRoutingTable := (s0.m_altRoutingTable.DeleteRoute dsdvHeader.GetDst).2
          m_advRoutingTable := (s0.m_advRoutingTable.Update adv1).2 }
    let s2 : RoutingProtocol := dstsWithNextHopSrc.foldl PoisonRouted s1
    altDstsWithNextHopSrc.foldl DropAlternate s2
  else
    if !s0.m_advRoutingTable.AnyRunningEvent s0.m_simulator dsdvHeader.GetDst then
      { s0 with
          m_advRoutingTable := (s0.m_advRoutingTable.DeleteRoute dsdvHeader.GetDst).2 }
    else s0

/-- The step of `RecvDsdv` for a destination that is in the main table but not in the
advertisement table: the main-table entry is copied into the advertisement table. -/
def StageAdvertisement (s : RoutingProtocol) (dst : Ipv4Address)
    (fwdTableEntry : RoutingTableEntry) : RoutingProtocol :=
  match s.m_advRoutingTable.LookupRoute dst with
  | some _ => s
  | none => { s with m_advRoutingTable := (s.m_advRoutingTable.AddRoute fwdTableEntry).2 }

/-- The body of `RecvDsdv` after `p->RemoveHeader (dsdvHeader)`: the handling of one
distance-vector update received on the interface `receiver` from the neighbour `src`. -/
def RecvDsdvUpdate (s : RoutingProtocol) (dsdvHeader : DsdvHeader) (receiver src : Ipv4Address) :
    RoutingProtocol :=
  let now := s.m_simulator.Now
  let dev := s.m_ipv4.GetNetDevice (s.m_ipv4.GetInterfaceForAddress receiver)
  let count :=
    (s.m_socketAddresses.filter (fun j => decide (dsdvHeader.GetDst = j.2.GetLocal))).length
  if count > 0 then s
  else
    match s.m_routingTable.LookupRoute dsdvHeader.GetDst with
    | none =>
      if dsdvHeader.GetDstSeqno % 2 ≠ 1 then
        let newEntry :=
          (RoutingTableEntry.mk9 dev dsdvHeader.GetDst dsdvHeader.GetDstSeqno
            (s.m_ipv4.GetAddress (s.m_ipv4.GetInterfaceForAddress receiver))
            dsdvHeader.GetHopCount src now s.m_settlingTime true).SetFlag RouteFlags.VALID
        { s with
            m_routingTable := (s.m_routingTable.AddRoute newEntry).2
            m_advRoutingTable := (s.m_advRoutingTable.AddRoute newEntry).2 }
      else
        { s with m_altRoutingTable := (s.m_altRoutingTable.DeleteRoute dsdvHeader.GetDst).2 }
    | some fwdTableEntry =>
      let s0 := s.StageAdvertisement dsdvHeader.GetDst fwdTableEntry
      let advTableEntry : RoutingTableEntry :=
        (s0.m_advRoutingTable.LookupRoute dsdvHeader.GetDst).getD (RoutingTableEntry.default now)
      if dsdvHeader.GetDstSeqno % 2 ≠ 1 then
        s0.RecvDsdvReachable advTableEntry dsdvHeader src
      else
        s0.RecvDsdvUnreachable advTableEntry dsdvHeader src

/-- The call `p->RemoveHeader (header)`: the header is read from the front of the packet and
the bytes it covered are removed. `none`: the packet is shorter than the header (the read runs
off the buffer and the simulation stops). -/
def RemoveHeader {H : Type} (deserialize : List Nat → Option (H × Nat)) (p : Packet) :
    Option (H × Packet) :=
  match deserialize p with
  | none => none
  | some (h, deserialized) => some (h, p.drop deserialized)

/-- The member `RecvDsdv (p, receiver, src)`: the state after the call and the packet with the
update header removed. -/
def RecvDsdv (s : RoutingProtocol) (p : Packet) (receiver src : Ipv4Address) :
    Option (RoutingProtocol × Packet) :=
  match RemoveHeader (DsdvHeader.Deserialize DsdvHeader.default) p with
  | none => none
  | some (dsdvHeader, p1) => some (s.RecvDsdvUpdate dsdvHeader receiver src, p1)

def SendRouteAck (s : RoutingProtocol) (toDst : RoutingTableEntry)
    (requester _acknowledger : Ipv4Address) : RoutingProtocol :=
  let rackHeader :=
    RackHeader.mk3 toDst.GetDestination ((toDst.GetHop + 1) % 2 ^ 32)
      (toDst.GetLifeTime s.m_simulator.Now)
  let packet : Packet := (TypeHeader.mk1 .DSDVTYPE_RACK).Serialize ++ rackHeader.Serialize
  let socket :=
    s.FindSocketWithInterfaceAddress
      (s.m_ipv4.GetAddress (s.m_ipv4.GetInterfaceForAddress s.m_mainAddress))
  { s with
      m_sent := s.m_sent ++
        [{ socket := socket, packet := packet, destination := requester, port := DSDV_PORT }] }

/-- The body of `RecvRouteRequest` after `p->RemoveHeader (rreqHeader)`. A comparison of a
`double` number of seconds with a `Time`, as in `GetSeconds () <= Seconds (5)`, is made by the
source on the raw numbers: seconds on the left, nanosecond ticks on the right. -/
def RecvRouteRequestHeader (s : RoutingProtocol) (rreqHeader : RreqHeader)
    (receiver src : Ipv4Address) : RoutingProtocol :=
  let now := s.m_simulator.Now
  let dst := rreqHeader.GetDst
  if s.GetDelayLeft.GetSeconds < 1 then s
  else
    let s1 : RoutingProtocol := { s with m_routingTable := (s.m_routingTable.Purge now).1 }
    match s1.m_routingTable.LookupRoute dst with
    | some toDst =>
      if toDst.GetNextHop = src then s1
      else
        let nextHop :=
          (s1.m_routingTable.LookupRoute toDst.GetNextHop).getD (RoutingTableEntry.default now)
        if s1.IsRouteAlive toDst 0 then
          if toDst.GetNextHop ≠ toDst.GetDestination then
            if s1.IsRouteAlive nextHop 0 then s1.SendRouteAck toDst src receiver else s1
          else s1.SendRouteAck toDst src receiver
        else s1
    | none =>
      match s1.m_altRoutingTable.LookupRoute dst with
      | some toDst =>
        if toDst.GetNextHop = src then
          { s1 with m_altRoutingTable := (s1.m_altRoutingTable.DeleteRoute dst).2 }
        else
          let nextHop :=
            (s1.m_altRoutingTable.LookupRoute toDst.GetNextHop).getD
              (RoutingTableEntry.default now)
          if (toDst.GetInstallTime now).GetSeconds ≤ ((Seconds 5 : Int) : ℚ)
              ∧ toDst.GetFlag = RouteFlags.VALID then
            if toDst.GetNextHop ≠ toDst.GetDestination then
              if (nextHop.GetInstallTime now).GetSeconds ≤ ((Seconds 5 : Int) : ℚ)
                  ∧ nextHop.GetFlag = RouteFlags.VALID then
                s1.SendRouteAck toDst src receiver
              else s1
            else s1.SendRouteAck toDst src receiver
          else s1
      | none => s1

/-- The member `RecvRouteRequest (p, receiver, src)`. -/
def RecvRouteRequest (s : RoutingProtocol) (p : Packet) (receiver src : Ipv4Address) :
    Option (RoutingProtocol × Packet) :=
  match RemoveHeader (RreqHeader.Deserialize RreqHeader.default) p with
  | none => none
  | some (rreqHeader, p1) => some (s.RecvRouteRequestHeader rreqHeader receiver src, p1)

/-- The body of `RecvRouteAck` after `p->RemoveHeader (rackHeader)`. Mixed comparisons of
plain numbers with a `Time` are made on the raw numbers, as in `RecvRouteRequestHeader`. -/
def RecvRouteAckHeader (s : RoutingProtocol) (rackHeader : RackHeader)
    (receiver sender : Ipv4Address) : RoutingProtocol :=
  let now := s.m_simulator.Now
  let dst := rackHeader.GetDst
  let redundant : Bool :=
    match s.m_routingTable.LookupRoute dst with
    | some mainRte =>
      decide (mainRte.GetNextHop = sender) &&
        decide (intOfDouble (mainRte.GetLifeTime now).GetSeconds
          - intOfDouble rackHeader.GetUpdateTime.GetSeconds > Seconds 1)
    | none => false
  if redundant then s
  else
    let hop := rackHeader.GetHopCount % 2 ^ 8
    let dev := s.m_ipv4.GetNetDevice (s.m_ipv4.GetInterfaceForAddress receiver)
    let newEntry :=
      ((RoutingTableEntry.mk9 dev dst 0
          (s.m_ipv4.GetAddress (s.m_ipv4.GetInterfaceForAddress receiver)) hop sender
          (now - rackHeader.GetUpdateTime) s.m_settlingTime true).SetFlag
        RouteFlags.VALID).SetInstallTime now
    match s.m_altRoutingTable.LookupRoute dst with
    | some rt =>
      if rt.GetFlag = RouteFlags.INSEARCH then
        { s with m_altRoutingTable := (s.m_altRoutingTable.Update newEntry).2 }
      else if hop ≤ rt.GetHop then
        if hop = rt.GetHop then
          if rackHeader.GetUpdateTime.GetSeconds < ((rt.GetLifeTime now : Int) : ℚ) then
            let rt1 :=
              ((rt.SetNextHop sender).SetLifeTime (now - rackHeader.GetUpdateTime)).SetInstallTime
                now
            { s with m_altRoutingTable := (s.m_altRoutingTable.Update rt1).2 }
          else s
        else
          let rt1 :=
            (((rt.SetNextHop sender).SetLifeTime (now - rackHeader.GetUpdateTime)).SetHop
              hop).SetInstallTime now
          { s with m_altRoutingTable := (s.m_altRoutingTable.Update rt1).2 }
      else s
    | none => { s with m_altRoutingTable := (s.m_altRoutingTable.AddRoute newEntry).2 }

/-- The member `RecvRouteAck (p, receiver, sender)`. -/
def RecvRouteAck (s : RoutingProtocol) (p : Packet) (receiver sender : Ipv4Address) :
    Option (RoutingProtocol × Packet) :=
  match RemoveHeader (RackHeader.Deserialize RackHeader.default) p with
  | none => none
  | some (rackHeader, p1) => some (s.RecvRouteAckHeader rackHeader receiver sender, p1)

/-- How a run of the receive loop of `RecvEffDsdv` ends. -/
inductive RecvLoopResult where
  /-- The loop condition failed; the flag is `containedStandardDSDV`. -/
  | finished (s : RoutingProtocol) (containedStandardDSDV : Bool)
  /-- An unknown type tag was met and the function returned at once. -/
  | dropped (s : RoutingProtocol)
  /-- A header read ran off the end of the packet. -/
  | truncated
  /-- The iteration bound of the embedding was used up. -/
  | outOfFuel
  deriving DecidableEq, Repr

/-- The receive loop of `RecvEffDsdv`,
`for (; packetSize > 0; packetSize = packetSize - substractionPacketSize)`, with the 32-bit
counter `packetSize`; `fuel` bounds the number of iterations. -/
def RecvEffDsdvLoop (receiver sender : Ipv4Address) :
    Nat → RoutingProtocol → Packet → Nat → Bool → RecvLoopResult
  | 0, _, _, _, _ => .outOfFuel
  | fuel + 1, s, packet, packetSize, containedStandardDSDV =>
    if packetSize > 0 then
      match RemoveHeader (TypeHeader.Deserialize (TypeHeader.mk1 .DSDVTYPE_DSDV)) packet with
      | none => .truncated
      | some (tHeader, packet1) =>
        if !tHeader.IsValid then .dropped s
        else
          match tHeader.Get with
          | .DSDVTYPE_DSDV =>
            match s.RecvDsdv packet1 receiver sender with
            | none => .truncated
            | some (s1, packet2) =>
              RecvEffDsdvLoop receiver sender fuel s1 packet2
                ((packetSize + 2 ^ 32 - 12) % 2 ^ 32) true
          | .DSDVTYPE_RREQ =>
            match s.RecvRouteRequest packet1 receiver sender with
            | none => .truncated
            | some (s1, packet2) =>
              RecvEffDsdvLoop receiver sender fuel s1 packet2
                ((packetSize + 2 ^ 32 - 8) % 2 ^ 32) containedStandardDSDV
          | .DSDVTYPE_RACK =>
            match s.RecvRouteAck packet1 receiver sender with
            | none => .truncated
            | some (s1, packet2) =>
              RecvEffDsdvLoop receiver sender fuel s1 packet2
                ((packetSize + 2 ^ 32 - 12) % 2 ^ 32) containedStandardDSDV
    else .finished s containedStandardDSDV

/-- The subscript `m_socketAddresses[socket]` of `std::map`: the address bound to the socket;
a socket that has no entry is given a default-constructed one first. -/
def SocketAddressesIndex (s : RoutingProtocol) (socket : Nat) :
    RoutingProtocol × Ipv4InterfaceAddress :=
  match s.m_socketAddresses.find? (fun j => decide (j.1 = socket)) with
  | some j => (s, j.2)
  | none =>
    ({ s with
        m_socketAddresses := s.m_socketAddresses ++ [(socket, Ipv4InterfaceAddress.default)] },
     Ipv4InterfaceAddress.default)

/-- The member `RecvEffDsdv (socket)`, for the datagram `packet` from `sender` that
`socket->RecvFrom` delivers. `none`: a header read ran off the end of the packet. Every
iteration of the loop removes at least two bytes, so `packet.length + 1` iterations are
enough. -/
def RecvEffDsdv (s : RoutingProtocol) (socket : Nat) (packet : Packet) (sender : Ipv4Address) :
    Option RoutingProtocol :=
  let s0 := (s.SocketAddressesIndex socket).1
  let receiver : Ipv4Address := (s.SocketAddressesIndex socket).2.GetLocal
  let packetSize := packet.length % 2 ^ 32
  match RecvEffDsdvLoop receiver sender (packet.length + 1) s0 packet packetSize false with
  | .outOfFuel => none
  | .truncated => none
  | .dropped s1 => some s1
  | .finished s1 containedStandardDSDV =>
    if containedStandardDSDV then
      let allRoutes := s1.m_advRoutingTable.GetListOfAllValidRoutes
      if s1.EnableRouteAggregation ∧ allRoutes.length > 0 then
        some { s1 with
          m_simulator :=
            (s1.m_simulator.Schedule s1.m_routeAggregationTime EventImpl.SendTriggeredUpdate).1 }
      else
        let r := s1.GetInteger 0 1000
        some { r.2 with
          m_simulator :=
            (r.2.m_simulator.Schedule (MicroSeconds r.1) EventImpl.SendTriggeredUpdate).1 }
    else some s1

/-- The entry `newEntry` that `SendRouteRequest` builds for a destination without an alternate
entry: an `INSEARCH` placeholder, refreshed now. -/
def PlaceholderEntry (s : RoutingProtocol) (dst : Ipv4Address) : RoutingTableEntry :=
  let dev := s.m_ipv4.GetNetDevice (s.m_ipv4.GetInterfaceForAddress s.m_mainAddress)
  (RoutingTableEntry.mk9 dev dst 0
    (s.m_ipv4.GetAddress (s.m_ipv4.GetInterfaceForAddress s.m_mainAddress)) 0 s.m_mainAddress
    s.m_simulator.Now s.m_settlingTime true).SetFlag RouteFlags.INSEARCH

/-- The block `if (!m_altRoutingTable.LookupRoute (dst, rt))` of `SendRouteRequest`: a
destination without an alternate entry gets the placeholder. -/
def InstallPlaceholder (s : RoutingProtocol) (dst : Ipv4Address) : RoutingProtocol :=
  match s.m_altRoutingTable.LookupRoute dst with
  | some _ => s
  | none =>
    { s with m_altRoutingTable := (s.m_altRoutingTable.AddRoute (s.PlaceholderEntry dst)).2 }

/-- The packet that `SendRouteRequest` builds for each interface: the request header under the
type header. -/
def RouteRequestPacket (rreqHeader : RreqHeader) : Packet :=
  (TypeHeader.mk1 .DSDVTYPE_RREQ).Serialize ++ rreqHeader.Serialize

/-- The address a broadcast leaves for on an interface: all-hosts broadcast on a `/32` address,
subnet-directed otherwise. -/
def BroadcastDestination (iface : Ipv4InterfaceAddress) : Ipv4Address :=
  if iface.GetMask = 4294967295 then 4294967295 else iface.GetBroadcast

/-- The body of the loop of `SendRouteRequest` over `m_socketAddresses`: the request is
scheduled for sending on the socket `j`, after a random delay of 0 to 50 milliseconds. -/
def ScheduleRouteRequest (rreqHeader : RreqHeader) (st : RoutingProtocol)
    (j : Nat × Ipv4InterfaceAddress) : RoutingProtocol :=
  let r := st.GetInteger 0 50
  { r.2 with
      m_simulator :=
        (r.2.m_simulator.Schedule (MilliSeconds r.1)
          (EventImpl.SendTo j.1 (RouteRequestPacket rreqHeader) (BroadcastDestination j.2))).1 }

/-- The part of `SendRouteRequest` after the check for a request in progress: the placeholder
is installed and the request is scheduled on every interface. -/
def BroadcastRouteRequest (s : RoutingProtocol) (dst : Ipv4Address) : RoutingProtocol :=
  let s1 := s.InstallPlaceholder dst
  s1.m_socketAddresses.foldl (ScheduleRouteRequest (RreqHeader.default.SetDst dst)) s1

def SendRouteRequest (s : RoutingProtocol) (dst : Ipv4Address) : RoutingProtocol :=
  let now := s.m_simulator.Now
  match s.m_altRoutingTable.LookupRoute dst with
  | some rt =>
    if rt.GetFlag = RouteFlags.INSEARCH ∧ rt.GetLifeTime now ≤ Seconds 4 then
      -- request still in progress: discard
      s
    else if rt.GetFlag = RouteFlags.INSEARCH ∧ rt.GetLifeTime now > Seconds 4 then
      -- not answered in time: send a new request
      BroadcastRouteRequest
        { s with m_altRoutingTable := (s.m_altRoutingTable.DeleteRoute dst).2 } dst
    else s.BroadcastRouteRequest dst
  | none => s.BroadcastRouteRequest dst

/-- What a route lookup of the protocol hands back: the return value, the entry left in the
reference parameter `rt`, the state of the node after the call, and the destinations of the
`SendRouteRequest` calls that the lookup made, in order. -/
structure LookupResult where
  found : Bool
  rt : RoutingTableEntry
  state : RoutingProtocol
  requests : List Ipv4Address
  deriving DecidableEq, Repr

/-- The assignments of `LookupRoute` that put the alternate route `altRt` into the returned
entry `rt`. -/
def SpliceAlternate (rt altRt : RoutingTableEntry) (now : Time) : RoutingTableEntry :=
  ((((((((rt.SetSettlingTime altRt.GetSettlingTime).SetFlag altRt.GetFlag).SetHop
    altRt.GetHop).SetNextHop altRt.GetNextHop).SetSeqNo altRt.GetSeqNo).SetLifeTime
    (altRt.GetLifeTime now)).SetInterface altRt.GetInterface).SetOutputDevice
    altRt.GetOutputDevice).SetRoute altRt.GetRoute

/-- The member `LookupRoute (id, rt)` of the protocol; `rt0` is the entry that the caller
passes in. -/
def LookupRoute (s : RoutingProtocol) (id : Ipv4Address) (rt0 : RoutingTableEntry) :
    LookupResult :=
  let now := s.m_simulator.Now
  match s.m_routingTable.LookupRoute id with
  | some rt =>
    -- there is a main route
    let nextHop :=
      (s.m_routingTable.LookupRoute rt.GetNextHop).getD (RoutingTableEntry.default now)
    if s.IsRouteAlive rt 2 then
      if rt.GetNextHop ≠ rt.GetDestination then
        if s.IsRouteAlive nextHop 2 then
          { found := true, rt := rt, state := s, requests := [] }
        else { found := false, rt := rt, state := s, requests := [] }
      else { found := true, rt := rt, state := s, requests := [] }
    else if rt.GetNextHop ≠ rt.GetDestination ∧ s.IsRouteAlive nextHop 2 then
      { found := true, rt := rt, state := s, requests := [] }
    else
      match s.m_altRoutingTable.LookupRoute id with
      | some altRt =>
        if altRt.GetFlag = RouteFlags.INSEARCH then
          { found := false, rt := rt, state := s.SendRouteRequest id, requests := [id] }
        else if altRt.GetFlag = RouteFlags.VALID then
          let rt1 := SpliceAlternate rt altRt now
          let stale : Bool :=
            decide ((altRt.GetInstallTime now).GetSeconds
              > s.m_periodicUpdateInterval.GetSeconds / 3)
          let s1 : RoutingProtocol := if stale then s.SendRouteRequest id else s
          let requests : List Ipv4Address := if stale then [id] else []
          if (altRt.GetInstallTime now).GetSeconds
              > s.m_periodicUpdateInterval.GetSeconds / 3 + 2 then
            { found := false
              rt := rt1
              state :=
                { s1 with
                    m_altRoutingTable :=
                      (s1.m_altRoutingTable.DeleteRoute altRt.GetDestination).2 }
              requests := requests }
          else { found := true, rt := rt1, state := s1, requests := requests }
        else { found := false, rt := rt, state := s, requests := [] }
      | none => { found := false, rt := rt, state := s.SendRouteRequest id, requests := [id] }
  | none => { found := false, rt := rt0, state := s, requests := [] }

/-- The member `LookupRoute (id, rt, forRouteInput)` of the protocol, which `RouteInput` calls
to forward a broadcast. -/
def LookupRouteForRouteInput (s : RoutingProtocol) (id : Ipv4Address) (rt0 : RoutingTableEntry)
    (forRouteInput : Bool) : LookupResult :=
  let now := s.m_simulator.Now
  match s.m_routingTable.LookupRouteForRouteInput id forRouteInput with
  | some rt =>
    -- there is a main route
    let nextHop :=
      (s.m_routingTable.LookupRoute rt.GetNextHop).getD (RoutingTableEntry.default now)
    if s.IsRouteAlive rt 2 then
      if rt.GetNextHop ≠ rt.GetDestination then
        if s.IsRouteAlive nextHop 2 then
          { found := true, rt := rt, state := s, requests := [] }
        else { found := false, rt := rt, state := s, requests := [] }
      else { found := true, rt := rt, state := s, requests := [] }
    else if rt.GetNextHop ≠ rt.GetDestination ∧ s.IsRouteAlive nextHop 2 then
      { found := true, rt := rt, state := s, requests := [] }
    else
      match s.m_altRoutingTable.LookupRouteForRouteInput id forRouteInput with
      | some altRt =>
        if altRt.GetFlag = RouteFlags.INSEARCH then
          { found := false, rt := rt, state := s.SendRouteRequest id, requests := [id] }
        else if altRt.GetFlag = RouteFlags.VALID then
          let rt1 := SpliceAlternate rt altRt now
          let stale : Bool :=
            decide ((altRt.GetInstallTime now).GetSeconds
              > s.m_periodicUpdateInterval.GetSeconds / 3)
          let s1 : RoutingProtocol := if stale then s.SendRouteRequest id else s
          let requests : List Ipv4Address := if stale then [id] else []
          if (altRt.GetInstallTime now).GetSeconds
              > s.m_periodicUpdateInterval.GetSeconds / 3 + 2 then
            { found := false
              rt := rt1
              state :=
                { s1 with
                    m_altRoutingTable :=
                      (s1.m_altRoutingTable.DeleteRoute altRt.GetDestination).2 }
              requests := requests }
          else { found := true, rt := rt1, state := s1, requests := requests }
        else { found := false, rt := rt, state := s, requests := [] }
      | none => { found := false, rt := rt, state := s.SendRouteRequest id, requests := [id] }
  | none => { found := false, rt := rt0, state := s, requests := [] }

/-- The iteration order of a `std::map<Ipv4Address, RoutingTableEntry>` that was filled with
the given entries: ascending destination address. -/
def InMapOrder (routes : List RoutingTableEntry) : List RoutingTableEntry :=
  routes.insertionSort (fun a b => a.GetDestination ≤ b.GetDestination)

/-- The body of the inner loop of `SendTriggeredUpdate`, run for the entry `i` of the snapshot
`allRoutes`, on the node and the packet under construction. The header `dsdvHeader`, declared
outside the loop, has all its fields set before it is added. For an entry that is not flushed
the loop asserts that the advertisement table has an event registered for the destination,
`NS_ASSERT (event.GetUid () != 0)`; the result is `none` when the assertion fails and the run
stops. -/
def FlushAdvertisement (acc : RoutingProtocol × Packet) (i : RoutingTableEntry) :
    Option (RoutingProtocol × Packet) :=
  let st := acc.1
  if i.GetEntriesChanged = true
      ∧ st.m_advRoutingTable.AnyRunningEvent st.m_simulator i.GetDestination = false then
    let dsdvHeader : DsdvHeader :=
      ((DsdvHeader.default.SetDst i.GetDestination).SetDstSeqno i.GetSeqNo).SetHopCount
        ((i.GetHop + 1) % 2 ^ 32)
    let temp := (i.SetFlag RouteFlags.VALID).SetEntriesChanged false
    let adv1 := (st.m_advRoutingTable.DeleteIpv4Event st.m_simulator temp.GetDestination).2
    let main1 :=
      if temp.GetSeqNo % 2 = 0 then (st.m_routingTable.Update temp).2 else st.m_routingTable
    some
      ({ st with
           m_routingTable := main1
           m_advRoutingTable := (adv1.DeleteRoute temp.GetDestination).2 },
       (TypeHeader.mk1 .DSDVTYPE_DSDV).Serialize ++ dsdvHeader.Serialize ++ acc.2)
  else
    let event := st.m_advRoutingTable.GetEventId i.GetDestination
    if event ≠ 0 then some acc else none

/-- The body of the outer loop of `SendTriggeredUpdate` for the socket `j`: the entries of the
snapshot are flushed into a new packet; a packet that holds an update gets the update of the
node itself in front and is sent to the broadcast address of the interface. The result is
`none` when an assertion of the inner loop fails. -/
def SendTriggeredUpdateOn (allRoutes : List RoutingTableEntry) (st : RoutingProtocol)
    (j : Nat × Ipv4InterfaceAddress) : Option RoutingProtocol :=
  match allRoutes.foldlM FlushAdvertisement (st, []) with
  | none => none
  | some r =>
    if r.2.length ≥ 12 then
      let temp2 :=
        (r.1.m_routingTable.LookupRoute (r.1.m_ipv4.GetAddress 1).GetBroadcast).getD
          (RoutingTableEntry.default r.1.m_simulator.Now)
      let dsdvHeader : DsdvHeader :=
        ((DsdvHeader.default.SetDst (r.1.m_ipv4.GetAddress 1).GetLocal).SetDstSeqno
          temp2.GetSeqNo).SetHopCount ((temp2.GetHop + 1) % 2 ^ 32)
      let packet : Packet :=
        (TypeHeader.mk1 .DSDVTYPE_DSDV).Serialize ++ dsdvHeader.Serialize ++ r.2
      some
        { r.1 with
            m_sent := r.1.m_sent ++
              [{ socket := some j.1, packet := packet, destination := BroadcastDestination j.2,
                 port := DSDV_PORT }] }
    else some r.1

/-- The member `SendTriggeredUpdate`: the valid routes of the advertisement table are listed
once, and the list is gone through for every socket. The result is `none` when an assertion of
the inner loop fails. -/
def SendTriggeredUpdate (s : RoutingProtocol) : Option RoutingProtocol :=
  let allRoutes := InMapOrder s.m_advRoutingTable.GetListOfAllValidRoutes
  s.m_socketAddresses.foldlM (SendTriggeredUpdateOn allRoutes) s

/-- The body of the loop of `MergeTriggerPeriodicUpdates`, run for the entry `advEntry` of the
snapshot `allRoutes`. -/
def MergeAdvertisement (st : RoutingProtocol) (advEntry : RoutingTableEntry) :
    RoutingProtocol :=
  if advEntry.GetEntriesChanged = true
      ∧ st.m_advRoutingTable.AnyRunningEvent st.m_simulator advEntry.GetDestination = false then
    let main1 :=
      if advEntry.GetSeqNo % 2 = 0 then
        (st.m_routingTable.Update
          ((advEntry.SetFlag RouteFlags.VALID).SetEntriesChanged false)).2
      else st.m_routingTable
    { st with
        m_routingTable := main1
        m_advRoutingTable := (st.m_advRoutingTable.DeleteRoute advEntry.GetDestination).2 }
  else st

/-- The member `MergeTriggerPeriodicUpdates`. -/
def MergeTriggerPeriodicUpdates (s : RoutingProtocol) : RoutingProtocol :=
  let allRoutes := InMapOrder s.m_advRoutingTable.GetListOfAllValidRoutes
  if allRoutes.length > 0 then allRoutes.foldl MergeAdvertisement s else s

/-- The body of the first inner loop of `SendPeriodicUpdate`, run for the entry `i` of the
snapshot `allRoutes`, on the node and the packet under construction. An entry with hop count 0
is taken for the entry of the node itself: the address of interface 1 is advertised with the
sequence number of `i` plus 2, and the sequence number is stored in the entry of the broadcast
address of interface 1. -/
def AdvertiseRoute (acc : RoutingProtocol × Packet) (i : RoutingTableEntry) :
    RoutingProtocol × Packet :=
  let st := acc.1
  if i.GetHop = 0 then
    let dsdvHeader : DsdvHeader :=
      ((DsdvHeader.default.SetDst (st.m_ipv4.GetAddress 1).GetLocal).SetDstSeqno
        ((i.GetSeqNo + 2) % 2 ^ 32)).SetHopCount ((i.GetHop + 1) % 2 ^ 32)
    let ownEntry :=
      ((st.m_routingTable.LookupRoute (st.m_ipv4.GetAddress 1).GetBroadcast).getD
        (RoutingTableEntry.default st.m_simulator.Now)).SetSeqNo dsdvHeader.GetDstSeqno
    ({ st with m_routingTable := (st.m_routingTable.Update ownEntry).2 },
     (TypeHeader.mk1 .DSDVTYPE_DSDV).Serialize ++ dsdvHeader.Serialize ++ acc.2)
  else
    let dsdvHeader : DsdvHeader :=
      ((DsdvHeader.default.SetDst i.GetDestination).SetDstSeqno i.GetSeqNo).SetHopCount
        ((i.GetHop + 1) % 2 ^ 32)
    (st, (TypeHeader.mk1 .DSDVTYPE_DSDV).Serialize ++ dsdvHeader.Serialize ++ acc.2)

/-- The body of the second inner loop of `SendPeriodicUpdate`: the update for an entry that
the purge removed, with its sequence number raised by one. -/
def AdvertiseRemoved (packet : Packet) (rm : RoutingTableEntry) : Packet :=
  let removedHeader : DsdvHeader :=
    ((DsdvHeader.default.SetDst rm.GetDestination).SetDstSeqno
      ((rm.GetSeqNo + 1) % 2 ^ 32)).SetHopCount ((rm.GetHop + 1) % 2 ^ 32)
  (TypeHeader.mk1 .DSDVTYPE_DSDV).Serialize ++ removedHeader.Serialize ++ packet

/-- The body of the outer loop of `SendPeriodicUpdate` for the socket `j`. The call
`socket->Send (packet)` on the socket, which is bound and never connected, hands the packet to
no destination; the call `socket->SendTo` sends it to the broadcast address of the interface. -/
def SendPeriodicUpdateOn (allRoutes removedAddresses : List RoutingTableEntry)
    (st : RoutingProtocol) (j : Nat × Ipv4InterfaceAddress) : RoutingProtocol :=
  let r := allRoutes.foldl AdvertiseRoute (st, [])
  let packet := removedAddresses.foldl AdvertiseRemoved r.2
  { r.1 with
      m_sent := r.1.m_sent ++
        [{ socket := some j.1, packet := packet, destination := BroadcastDestination j.2,
           port := DSDV_PORT }] }

/-- The member `SendPeriodicUpdate`. -/
def SendPeriodicUpdate (s : RoutingProtocol) : RoutingProtocol :=
  let purged := s.m_routingTable.Purge s.m_simulator.Now
  let s1 := MergeTriggerPeriodicUpdates { s with m_routingTable := purged.1 }
  let allRoutes := InMapOrder s1.m_routingTable.GetListOfAllRoutes
  if allRoutes.isEmpty then s1
  else
    let s2 :=
      s1.m_socketAddresses.foldl (SendPeriodicUpdateOn allRoutes (InMapOrder purged.2.1)) s1
    let r := s2.GetInteger 0 1000
    { r.2 with
        m_periodicUpdateTimer :=
          some (r.2.m_simulator.Now + (r.2.m_periodicUpdateInterval + MicroSeconds (25 * r.1))) }

/-- A run of `RecvDsdv` calls: the updates `(header, receiver, src)` are handled one after the
other. -/
def RecvDsdvSeq (s : RoutingProtocol) (updates : List (DsdvHeader × Ipv4Address × Ipv4Address)) :
    RoutingProtocol :=
  updates.foldl (fun st u => st.RecvDsdvUpdate u.1 u.2.1 u.2.2) s

end RoutingProtocol

/-! ## Vocabulary of the statements -/

/-- One wire message of an Eff-DSDV datagram, decoded. -/
inductive Message where
  | dsdv (h : DsdvHeader)
  | rreq (h : RreqHeader)
  | rack (h : RackHeader)
  deriving DecidableEq, Repr

namespace Message

/-- The bytes of a message: the 2-byte type tag followed by the payload header, as the senders
of the protocol build them with `AddHeader`. -/
def encode : Message → List Nat
  | .dsdv h => (TypeHeader.mk1 .DSDVTYPE_DSDV).Serialize ++ h.Serialize
  | .rreq h => (TypeHeader.mk1 .DSDVTYPE_RREQ).Serialize ++ h.Serialize
  | .rack h => (TypeHeader.mk1 .DSDVTYPE_RACK).Serialize ++ h.Serialize

/-- The fields of the message fit their wire widths. -/
def WellFormed : Message → Prop
  | .dsdv h => h.m_dst < 2 ^ 32 ∧ h.m_hopCount < 2 ^ 16 ∧ h.m_dstSeqNo < 2 ^ 32
  | .rreq h => h.m_dst < 2 ^ 32 ∧ h.m_reserved < 2 ^ 8
  | .rack h => h.m_dst < 2 ^ 32 ∧ h.m_hopCount < 2 ^ 16 ∧ h.m_updateTime < 2 ^ 32

/-- The handler that `RecvEffDsdv` runs for a decoded message. -/
def handle (receiver sender : Ipv4Address) (s : RoutingProtocol) : Message → RoutingProtocol
  | .dsdv h => s.RecvDsdvUpdate h receiver sender
  | .rreq h => s.RecvRouteRequestHeader h receiver sender
  | .rack h => s.RecvRouteAckHeader h receiver sender

/-- The bytes of a list of messages, in order. -/
def encodeAll (msgs : List Message) : List Nat := (msgs.map encode).flatten

end Message

/-- The settling-timer events registered in the advertisement table for a destination that are
still outstanding. -/
def RoutingProtocol.outstandingSettlingEvents (s : RoutingProtocol) (dst : Ipv4Address) :
    List EventId :=
  ((s.m_advRoutingTable.m_ipv4Events.filter
    (fun p => decide (p.1 = dst) && s.m_simulator.IsRunning p.2)).map Prod.snd)

/-- Each advertisement entry has a main-table entry for the same destination whose sequence
number is not higher. -/
def AdvConsistent (s : RoutingProtocol) : Prop :=
  ∀ id a, s.m_advRoutingTable.LookupRoute id = some a →
    ∃ m, s.m_routingTable.LookupRoute id = some m ∧ m.GetSeqNo ≤ a.GetSeqNo

/-- No destination has two registered events, and every uid in use lies below the next free
uid of the scheduler. -/
def EventsWellFormed (s : RoutingProtocol) : Prop :=
  (s.m_advRoutingTable.m_ipv4Events.map Prod.fst).Nodup
  ∧ (∀ p ∈ s.m_advRoutingTable.m_ipv4Events, p.2 < s.m_simulator.m_uid)
  ∧ (∀ e ∈ s.m_simulator.m_events, e.uid < s.m_simulator.m_uid)

/-- Every event of the scheduler with a uid of at least `uid0` that is not cancelled is the
registered event of some destination. -/
def ScheduledAreRegistered (uid0 : Nat) (s : RoutingProtocol) : Prop :=
  ∀ e ∈ s.m_simulator.m_events, uid0 ≤ e.uid → e.cancelled = false →
    ∃ D, (D, e.uid) ∈ s.m_advRoutingTable.m_ipv4Events

/-- The main-table steps of a lookup of `id` fail on the entry `e` of the main table: `e` is not
alive, and the route to its next hop is no live next segment either (`e` is a direct neighbour,
or the entry of its next hop is not alive). The lookup goes on to the alternate table. -/
@[reducible] def RoutingProtocol.MainRouteBroken (s : RoutingProtocol) (id : Ipv4Address)
    (e : RoutingTableEntry) : Prop :=
  s.m_routingTable.LookupRoute id = some e
  ∧ s.IsRouteAlive e 2 = false
  ∧ ¬ (e.GetNextHop ≠ e.GetDestination
      ∧ s.IsRouteAlive
          ((s.m_routingTable.LookupRoute e.GetNextHop).getD
            (RoutingTableEntry.default s.m_simulator.Now)) 2 = true)

/-! ## A concrete node

The single-interface node of the scenarios, as `SetIpv4` and `NotifyInterfaceUp` leave it:
interface 1 has address `10.1.1.1/24`, the main table holds the loopback and the broadcast
entry, the other tables are empty, and the attributes have their default values. -/

/-- The interface address `10.1.1.1/24`. -/
def exampleIface : Ipv4InterfaceAddress :=
  { m_local := 167837953, m_mask := 4294967040, m_broadcast := 167838207 }

/-- A table without entries whose hold-down time is `Holdtimes * m_periodicUpdateInterval`. -/
def emptyTable : RoutingTable :=
  { m_ipv4AddressEntry := [], m_ipv4Events := [], m_holddownTime := 3 * Seconds 15 }

/-- The loopback address `127.0.0.1`. -/
def loopback : Ipv4Address := 2130706433

/-- The value of `Simulator::GetMaximumSimulationTime ()`. -/
def maximumSimulationTime : Time := 9223372036854775807

/-- The loopback entry that `SetIpv4` adds to the main table. -/
def loopbackRoute : RoutingTableEntry :=
  ((RoutingTableEntry.mk9 0 loopback 0
      { m_local := loopback, m_mask := 4278190080, m_broadcast := 2147483647 } 0 loopback
      maximumSimulationTime 0 false).SetFlag RouteFlags.INVALID).SetEntriesChanged false

/-- The broadcast entry that `NotifyInterfaceUp` adds to the main table. -/
def broadcastRoute : RoutingTableEntry :=
  RoutingTableEntry.mk9 1 exampleIface.GetBroadcast 0 exampleIface 0 exampleIface.GetBroadcast
    maximumSimulationTime 0 false

/-- The example node, 20 seconds into the simulation. -/
def exampleNode : RoutingProtocol :=
  { m_periodicUpdateInterval := Seconds 15
    m_settlingTime := Seconds 5
    Holdtimes := 3
    EnableWST := true
    EnableRouteAggregation := false
    m_routeAggregationTime := Seconds 1
    m_weightedFactor := 7 / 8
    m_mainAddress := 167837953
    m_ipv4 :=
      { m_interfaces :=
          [{ m_local := loopback, m_mask := 4278190080, m_broadcast := 2147483647 },
           exampleIface] }
    m_socketAddresses := [(1, exampleIface)]
    m_routingTable := { emptyTable with m_ipv4AddressEntry := [loopbackRoute, broadcastRoute] }
    m_advRoutingTable := emptyTable
    m_altRoutingTable := emptyTable
    m_periodicUpdateTimer := some (Seconds 30)
    m_uniformRandomVariable := []
    m_simulator := { m_currentTs := Seconds 20, m_uid := 4, m_events := [] }
    m_sent := [] }

/-- The neighbour `S`, `10.1.1.2`. -/
def exampleS : Ipv4Address := 167837954

/-- The destination `D`, `10.1.1.4`. -/
def exampleD : Ipv4Address := 167837956

/-- The main-table entry `(D, seq=4, hop=1, nextHop=S)` of the scenarios, refreshed at second
18. -/
def exampleRoute : RoutingTableEntry :=
  RoutingTableEntry.mk9 1 exampleD 4 exampleIface 1 exampleS (Seconds 18) (Seconds 5) false

/-- The example node holding `exampleRoute` in its main table as well. -/
def exampleNodeWithRoute : RoutingProtocol :=
  { exampleNode with
      m_routingTable :=
        { emptyTable with
            m_ipv4AddressEntry := [loopbackRoute, broadcastRoute, exampleRoute] } }

/-- The main-table entry of the neighbour `D`, last refreshed at second 0: at second 20 its
lifetime is over the aliveness limit of 17 seconds and under the hold-down time of 45 seconds. -/
def staleRoute : RoutingTableEntry :=
  RoutingTableEntry.mk9 1 exampleD 4 exampleIface 1 exampleD (Seconds 0) (Seconds 5) false

/-- The example node holding `staleRoute` in its main table. -/
def exampleNodeStale : RoutingProtocol :=
  { exampleNode with
      m_routingTable :=
        { emptyTable with
            m_ipv4AddressEntry := [loopbackRoute, broadcastRoute, staleRoute] } }

/-- The alternate entry for `D` via `S` that `RecvRouteAck` builds from an acknowledge received
at the time `installed`. -/
def alternateRoute (installed : Time) : RoutingTableEntry :=
  ((RoutingTableEntry.mk9 1 exampleD 0 exampleIface 2 exampleS installed (Seconds 5)
    true).SetFlag RouteFlags.VALID).SetInstallTime installed

/-- The `INSEARCH` placeholder for `D` that `SendRouteRequest` installed at second 15. -/
def placeholderRoute : RoutingTableEntry :=
  (RoutingTableEntry.mk9 1 exampleD 0 exampleIface 0 167837953 (Seconds 15) (Seconds 5)
    true).SetFlag RouteFlags.INSEARCH

/-- The node with the stale main route, holding the placeholder of a request for `D`. -/
def exampleNodeSearching : RoutingProtocol :=
  { exampleNodeStale with
      m_altRoutingTable := { emptyTable with m_ipv4AddressEntry := [placeholderRoute] } }

/-- The main-table entry of the neighbour `D`, refreshed at second 18. -/
def neighbourRoute : RoutingTableEntry :=
  RoutingTableEntry.mk9 1 exampleD 4 exampleIface 1 exampleD (Seconds 18) (Seconds 5) false

/-- The main-table entry of the neighbour `S`, refreshed at second 18. -/
def neighbourRouteS : RoutingTableEntry :=
  RoutingTableEntry.mk9 1 exampleS 6 exampleIface 1 exampleS (Seconds 18) (Seconds 5) false

/-- The main-table entry of `D` by way of `S`, last refreshed at second 0. -/
def staleRouteViaS : RoutingTableEntry :=
  RoutingTableEntry.mk9 1 exampleD 4 exampleIface 2 exampleS (Seconds 0) (Seconds 5) false

/-- The example node holding a live route to the neighbour `S` and a stale route to `D` by way
of `S`. -/
def exampleNodeLiveSegment : RoutingProtocol :=
  { exampleNode with
      m_routingTable :=
        { emptyTable with
            m_ipv4AddressEntry :=
              [loopbackRoute, broadcastRoute, neighbourRouteS, staleRouteViaS] } }

/-- The example node holding `neighbourRoute` in its main table. -/
def exampleNodeWithNeighbour : RoutingProtocol :=
  { exampleNode with
      m_routingTable :=
        { emptyTable with
            m_ipv4AddressEntry := [loopbackRoute, broadcastRoute, neighbourRoute] } }

/-- The alternate entry for `D` that `RecvRouteAck` builds from an acknowledge that `D` itself
sent at second 58. -/
def directAlternate : RoutingTableEntry :=
  ((RoutingTableEntry.mk9 1 exampleD 0 exampleIface 1 exampleD (Seconds 58) (Seconds 5)
    true).SetFlag RouteFlags.VALID).SetInstallTime (Seconds 58)

/-- The example node at second 60, the next periodic update being due at second 73. Its main
table holds the neighbour `S` and the destination `D` by way of `S`, both last refreshed at
second 14, which is more than the hold-down time of 45 seconds ago; the alternate table holds
`directAlternate`. -/
def exampleNodeLostNeighbour : RoutingProtocol :=
  { exampleNode with
      m_simulator := { m_currentTs := Seconds 60, m_uid := 4, m_events := [] }
      m_periodicUpdateTimer := some (Seconds 73)
      m_routingTable :=
        { emptyTable with
            m_ipv4AddressEntry :=
              [loopbackRoute, broadcastRoute,
               RoutingTableEntry.mk9 1 exampleS 6 exampleIface 1 exampleS (Seconds 14) (Seconds 5)
                 false,
               RoutingTableEntry.mk9 1 exampleD 4 exampleIface 2 exampleS (Seconds 14) (Seconds 5)
                 false] }
      m_altRoutingTable := { emptyTable with m_ipv4AddressEntry := [directAlternate] } }

/-- The example node holding an alternate route to `D`, installed at second 18, and no
main-table entry for `D`. -/
def exampleNodeAlternateOnly : RoutingProtocol :=
  { exampleNode with
      m_altRoutingTable :=
        { emptyTable with m_ipv4AddressEntry := [alternateRoute (Seconds 18)] } }

/-- The node with the route to `D` after it received `(D, seq=6, hop=1)` from `S`: the
advertisement table holds `(D, seq=6, hop=1, nextHop=S)`, which waits to be advertised, and the
main table still holds `(D, seq=4, hop=1, nextHop=S)`. -/
def exampleNodePending : RoutingProtocol :=
  exampleNodeWithRoute.RecvDsdvUpdate { m_dst := exampleD, m_hopCount := 1, m_dstSeqNo := 6 }
    exampleIface.GetLocal exampleS

/-- The example node with the route to `D`, half a second before its periodic update is due. -/
def exampleNodeDue : RoutingProtocol :=
  { exampleNodeWithRoute with m_periodicUpdateTimer := some (Seconds 20 + MilliSeconds 500) }

/-- The test with which `RecvRouteAck` discards an acknowledge from `sender` as redundant: the
main table holds a route to the destination by way of `sender`, and the whole seconds of its
lifetime exceed the whole seconds of the update time of the acknowledge by more than the number
of ticks of `Seconds (1)`. -/
def RoutingProtocol.AckIsRedundant (s : RoutingProtocol) (rackHeader : RackHeader)
    (sender : Ipv4Address) : Prop :=
  ∃ mainRte : RoutingTableEntry,
    s.m_routingTable.LookupRoute rackHeader.GetDst = some mainRte
    ∧ mainRte.GetNextHop = sender
    ∧ intOfDouble (mainRte.GetLifeTime s.m_simulator.Now).GetSeconds
        - intOfDouble rackHeader.GetUpdateTime.GetSeconds > Seconds 1

/-- The alternate entry that `RecvRouteAck` builds from an acknowledge: the variable
`newEntry`. -/
def RoutingProtocol.AcknowledgedEntry (s : RoutingProtocol) (rackHeader : RackHeader)
    (receiver sender : Ipv4Address) : RoutingTableEntry :=
  ((RoutingTableEntry.mk9 (s.m_ipv4.GetNetDevice (s.m_ipv4.GetInterfaceForAddress receiver))
      rackHeader.GetDst 0 (s.m_ipv4.GetAddress (s.m_ipv4.GetInterfaceForAddress receiver))
      (rackHeader.GetHopCount % 2 ^ 8) sender (s.m_simulator.Now - rackHeader.GetUpdateTime)
      s.m_settlingTime true).SetFlag RouteFlags.VALID).SetInstallTime s.m_simulator.Now

/-- The main-table entry `(D, seq=4, hop=2, nextHop=S)`, refreshed at second 18. -/
def routeViaS : RoutingTableEntry :=
  RoutingTableEntry.mk9 1 exampleD 4 exampleIface 2 exampleS (Seconds 18) (Seconds 5) false

/-- The alternate entry for `D` by way of the neighbour `10.1.1.3`, three hops, installed at
second 18. -/
def alternateViaN : RoutingTableEntry :=
  ((RoutingTableEntry.mk9 1 exampleD 0 exampleIface 3 167837955 (Seconds 18) (Seconds 5)
    true).SetFlag RouteFlags.VALID).SetInstallTime (Seconds 18)

/-- The example node whose main table holds the neighbour `S` and the destination `D` by way of
`S`, and whose alternate table holds a route to `D` by way of the neighbour `10.1.1.3`. -/
def exampleNodeThroughS : RoutingProtocol :=
  { exampleNode with
      m_routingTable :=
        { emptyTable with
            m_ipv4AddressEntry := [loopbackRoute, broadcastRoute, neighbourRouteS, routeViaS] }
      m_altRoutingTable := { emptyTable with m_ipv4AddressEntry := [alternateViaN] } }

/-- The node `exampleNodeThroughS` after it received `(D, seq=6, hop=2)` from `S`: the
advertisement table holds `(D, seq=6, hop=2, nextHop=S)`, which waits to be advertised, and the
main table still holds `(D, seq=4, hop=2, nextHop=S)`. -/
def exampleNodeThroughSPending : RoutingProtocol :=
  exampleNodeThroughS.RecvDsdvUpdate { m_dst := exampleD, m_hopCount := 2, m_dstSeqNo := 6 }
    exampleIface.GetLocal exampleS

/-- The advertisement entry `(D, seq=6, hop=1, nextHop=S)` of `exampleNodePending`. -/
def pendingRoute : RoutingTableEntry :=
  (((((exampleRoute.SetSeqNo 6).SetLifeTime (Seconds 20)).SetFlag
    RouteFlags.VALID).SetEntriesChanged true).SetNextHop exampleS).SetHop 1

/-- The example node at second 60, the next periodic update being due at second 73. Its main
table holds the neighbour `S`, refreshed at second 58, and the destination `D` by way of `S`,
last refreshed at second 14, which is more than the hold-down time of 45 seconds ago. -/
def exampleNodeOverAge : RoutingProtocol :=
  { exampleNode with
      m_simulator := { m_currentTs := Seconds 60, m_uid := 4, m_events := [] }
      m_periodicUpdateTimer := some (Seconds 73)
      m_routingTable :=
        { emptyTable with
            m_ipv4AddressEntry :=
              [loopbackRoute, broadcastRoute,
               RoutingTableEntry.mk9 1 exampleS 6 exampleIface 1 exampleS (Seconds 58) (Seconds 5)
                 false,
               RoutingTableEntry.mk9 1 exampleD 4 exampleIface 2 exampleS (Seconds 14) (Seconds 5)
                 false] } }

/-- The advertisement entry `(D, seq=5, hop=2, nextHop=S)`, marked changed, with the flag
`INVALID`. -/
def invalidPoisonedRoute : RoutingTableEntry :=
  (((RoutingTableEntry.mk9 1 exampleD 4 exampleIface 2 exampleS (Seconds 14) (Seconds 5)
    false).SetFlag RouteFlags.INVALID).SetSeqNo 5).SetEntriesChanged true

/-- The node `exampleNodeOverAge` after a purge of its main table, which marks the entry for `D`
as `INVALID`, and the receipt of `(D, seq=5)` from `S`: the main table has lost the entry for
`D`, and the advertisement table holds `invalidPoisonedRoute`. -/
def exampleNodeInvalidPoisoned : RoutingProtocol :=
  RoutingProtocol.RecvDsdvUpdate
    { exampleNodeOverAge with
        m_routingTable := (exampleNodeOverAge.m_routingTable.Purge (Seconds 60)).1 }
    { m_dst := exampleD, m_hopCount := 3, m_dstSeqNo := 5 } exampleIface.GetLocal exampleS

/-- The node with the route to `D` by way of `S` after it received `(D, seq=6, hop=1)` from
the neighbour `10.1.1.3`: the advertisement table holds `(D, seq=6, hop=1, nextHop=10.1.1.3)`,
which waits to be advertised, and the main table still holds `(D, seq=4, hop=1, nextHop=S)`. -/
def exampleNodePendingViaN : RoutingProtocol :=
  exampleNodeWithRoute.RecvDsdvUpdate { m_dst := exampleD, m_hopCount := 1, m_dstSeqNo := 6 }
    exampleIface.GetLocal 167837955

/-- Whether the message is a distance-vector update, the kind that makes `RecvEffDsdv` set
`containedStandardDSDV`. -/
def Message.IsUpdate : Message → Bool
  | .dsdv _ => true
  | _ => false

/-- The main-table entry `(D, seq=4, hop=1, nextHop=S)` with a settling time of 5 seconds, last
refreshed at second 12: at second 20 its lifetime is 8 seconds. -/
def settlingRoute : RoutingTableEntry :=
  RoutingTableEntry.mk9 1 exampleD 4 exampleIface 1 exampleS (Seconds 12) (Seconds 5) false

/-- The example node, with weighted settling time enabled and the weighted factor 0.875, holding
`settlingRoute` in its main table. -/
def exampleNodeSettling : RoutingProtocol :=
  { exampleNode with
      m_routingTable :=
        { emptyTable with
            m_ipv4AddressEntry := [loopbackRoute, broadcastRoute, settlingRoute] } }

/-- The main-table entry of the neighbour `S`, last refreshed at second 0: at second 20 it is
not alive. -/
def staleNeighbourS : RoutingTableEntry :=
  RoutingTableEntry.mk9 1 exampleS 6 exampleIface 1 exampleS (Seconds 0) (Seconds 5) false

/-- The example node holding a live route to `D` by way of `S`, a route to the neighbour `S`
that is not alive, and a fresh alternate route to `D` by way of the neighbour `10.1.1.3`. -/
def exampleNodeDeadNextHop : RoutingProtocol :=
  { exampleNode with
      m_routingTable :=
        { emptyTable with
            m_ipv4AddressEntry := [loopbackRoute, broadcastRoute, staleNeighbourS, routeViaS] }
      m_altRoutingTable := { emptyTable with m_ipv4AddressEntry := [alternateViaN] } }

/-- The own entry of a single-interface node as the periodic update needs it: the main table,
with at most one entry per destination, holds an entry for the broadcast address of interface
1, with hop count 0 and that address as next hop; no other listed route has hop count 0; and no
advertisement entry has hop count 0 or is for that address. -/
def RoutingProtocol.OwnEntryOnly (s : RoutingProtocol) : Prop :=
  (s.m_routingTable.m_ipv4AddressEntry.map RoutingTableEntry.GetDestination).Nodup
  ∧ (∃ own, s.m_routingTable.LookupRoute (s.m_ipv4.GetAddress 1).GetBroadcast = some own
      ∧ own.GetHop = 0 ∧ own.GetNextHop = (s.m_ipv4.GetAddress 1).GetBroadcast)
  ∧ (s.m_ipv4.GetAddress 1).GetBroadcast ≠ Ipv4Address.GetLoopback
  ∧ (∀ e ∈ s.m_routingTable.GetListOfAllRoutes,
      e.GetHop = 0 → e.GetDestination = (s.m_ipv4.GetAddress 1).GetBroadcast)
  ∧ (∀ a ∈ s.m_advRoutingTable.m_ipv4AddressEntry,
      a.GetHop ≠ 0 ∧ a.GetDestination ≠ (s.m_ipv4.GetAddress 1).GetBroadcast)
  ∧ ∃ j, s.m_socketAddresses = [j]

/-- The sequence number stored for the node itself: that of the main-table entry for the
broadcast address of interface 1. -/
def RoutingProtocol.OwnSeqNo (s : RoutingProtocol) : Option Nat :=
  (s.m_routingTable.LookupRoute (s.m_ipv4.GetAddress 1).GetBroadcast).map
    RoutingTableEntry.GetSeqNo

/-- A run of periodic updates: for each time of the list in turn, the clock of the node is set
to that time and `SendPeriodicUpdate` runs. -/
def RoutingProtocol.PeriodicUpdatesAt (s : RoutingProtocol) (ts : List Time) :
    RoutingProtocol :=
  ts.foldl
    (fun st t =>
      RoutingProtocol.SendPeriodicUpdate
        { st with m_simulator := { st.m_simulator with m_currentTs := t } })
    s

/-- The member `NotifyInterfaceUp`. The socket that is created for the interface is named by
the index of the interface; the entry for the broadcast address of the interface is built with
seven constructor arguments, which leaves the settling time at its default `Simulator::Now ()`
and the changed mark at its default `false`. -/
def RoutingProtocol.NotifyInterfaceUp (s : RoutingProtocol) (i : Nat) : RoutingProtocol :=
  let iface := s.m_ipv4.GetAddress i
  if iface.GetLocal = 0x7f000001 then s
  else
    let socket := i
    let dev := s.m_ipv4.GetNetDevice (s.m_ipv4.GetInterfaceForAddress iface.GetLocal)
    let rt := RoutingTableEntry.mk9 dev iface.GetBroadcast 0 iface 0 iface.GetBroadcast
      maximumSimulationTime s.m_simulator.Now false
    { s with
        m_socketAddresses := s.m_socketAddresses ++ [(socket, iface)]
        m_routingTable := (s.m_routingTable.AddRoute rt).2
        m_mainAddress :=
          if s.m_mainAddress = Ipv4Address.placeholder then iface.GetLocal
          else s.m_mainAddress }

/-- The example node at the start of the simulation, as `SetIpv4` leaves it: interface 1 is not
up yet, the main table holds the loopback entry only, and the node has no socket and no main
address. -/
def exampleNodeStarting : RoutingProtocol :=
  { exampleNode with
      m_mainAddress := Ipv4Address.placeholder
      m_socketAddresses := []
      m_routingTable := { emptyTable with m_ipv4AddressEntry := [loopbackRoute] }
      m_periodicUpdateTimer := none
      m_simulator := { m_currentTs := 0, m_uid := 0, m_events := [] } }

/-- The assertions of `SendTriggeredUpdate` hold on the node: every `VALID` entry of the
advertisement table that is not flushed, being unchanged or having a running settling timer,
has an event registered for its destination. -/
def RoutingProtocol.TriggeredUpdateAsserts (s : RoutingProtocol) : Prop :=
  ∀ i ∈ s.m_advRoutingTable.GetListOfAllValidRoutes,
    ¬ (i.GetEntriesChanged = true
      ∧ s.m_advRoutingTable.AnyRunningEvent s.m_simulator i.GetDestination = false) →
    s.m_advRoutingTable.GetEventId i.GetDestination ≠ 0

/-- The node with the route to `D` whose advertisement table holds `(D, seq=4, hop=1,
nextHop=S)`, not marked changed, with no settling event registered for `D`. -/
def exampleNodeUnchangedAdvertisement : RoutingProtocol :=
  { exampleNodeWithRoute with
      m_advRoutingTable := { emptyTable with m_ipv4AddressEntry := [exampleRoute] } }

end effdsdv

end ns3

/-! # Theorems -/

namespace ns3

namespace Buffer

theorem ReadU16_WriteU16 (n : Nat) (h : n < 2 ^ 16) (rest : List Nat) :
    ReadU16 (WriteU16 n ++ rest) = some (n, rest) := by
  simp only [ReadU16, WriteU16, ReadU8, List.cons_append, List.nil_append, Nat.mod_mod]
  have : n / 256 % 256 * 256 + n % 256 = n := by omega
  rw [this]

theorem ReadNtohU16_WriteHtonU16 (n : Nat) (h : n < 2 ^ 16) (rest : List Nat) :
    ReadNtohU16 (WriteHtonU16 n ++ rest) = some (n, rest) := by
  simp only [ReadNtohU16, WriteHtonU16, ReadU8, List.cons_append, List.nil_append, Nat.mod_mod]
  have : n / 256 % 256 * 256 + n % 256 = n := by omega
  rw [this]

theorem ReadNtohU32_WriteHtonU32 (n : Nat) (h : n < 2 ^ 32) (rest : List Nat) :
    ReadNtohU32 (WriteHtonU32 n ++ rest) = some (n, rest) := by
  simp only [ReadNtohU32, WriteHtonU32, ReadU8, List.cons_append, List.nil_append, Nat.mod_mod]
  have : n / 16777216 % 256 * 16777216 + n / 65536 % 256 * 65536 + n / 256 % 256 * 256
      + n % 256 = n := by omega
  rw [this]

end Buffer

namespace effdsdv

theorem DsdvHeader_Deserialize_Serialize (h h0 : DsdvHeader) (hd : h.m_dst < 2 ^ 32)
    (hh : h.m_hopCount < 2 ^ 16) (hs : h.m_dstSeqNo < 2 ^ 32) (rest : List Nat) :
    DsdvHeader.Deserialize h0 (h.Serialize ++ rest) = some (h, 10) := by
  simp only [DsdvHeader.Deserialize, DsdvHeader.Serialize, Buffer.ReadFrom, Buffer.WriteTo,
    List.append_assoc, Buffer.ReadNtohU32_WriteHtonU32 _ hd,
    Buffer.ReadNtohU16_WriteHtonU16 _ hh, Buffer.ReadNtohU32_WriteHtonU32 _ hs,
    Buffer.GetDistanceFrom]
  simp only [Buffer.WriteHtonU32, Buffer.WriteHtonU16, List.cons_append, List.nil_append,
    List.length_cons, Option.some.injEq, Prod.mk.injEq, true_and]
  omega

theorem RackHeader_Deserialize_Serialize (h h0 : RackHeader) (hd : h.m_dst < 2 ^ 32)
    (hh : h.m_hopCount < 2 ^ 16) (hs : h.m_updateTime < 2 ^ 32) (rest : List Nat) :
    RackHeader.Deserialize h0 (h.Serialize ++ rest) = some (h, 10) := by
  simp only [RackHeader.Deserialize, RackHeader.Serialize, Buffer.ReadFrom, Buffer.WriteTo,
    List.append_assoc, Buffer.ReadNtohU32_WriteHtonU32 _ hd,
    Buffer.ReadNtohU16_WriteHtonU16 _ hh, Buffer.ReadNtohU32_WriteHtonU32 _ hs,
    Buffer.GetDistanceFrom]
  simp only [Buffer.WriteHtonU32, Buffer.WriteHtonU16, List.cons_append, List.nil_append,
    List.length_cons, Option.some.injEq, Prod.mk.injEq, true_and]
  omega

theorem RreqHeader_Deserialize_Serialize (h h0 : RreqHeader) (hd : h.m_dst < 2 ^ 32)
    (hr : h.m_reserved < 2 ^ 8) (rest : List Nat) :
    RreqHeader.Deserialize h0 (h.Serialize ++ rest) = some (h, 6) := by
  have hr16 : h.m_reserved < 2 ^ 16 := by omega
  simp only [RreqHeader.Deserialize, RreqHeader.Serialize, Buffer.ReadFrom, Buffer.WriteTo,
    List.append_assoc, Buffer.ReadNtohU32_WriteHtonU32 _ hd,
    Buffer.ReadU16_WriteU16 _ hr16, Buffer.GetDistanceFrom]
  have hmod : h.m_reserved % 2 ^ 8 = h.m_reserved := Nat.mod_eq_of_lt hr
  simp only [Buffer.WriteHtonU32, Buffer.WriteU16, List.cons_append, List.nil_append,
    List.length_cons, Option.some.injEq, Prod.mk.injEq, hmod, true_and]
  omega

/-! ## Lookups in a table after an operation -/

theorem RoutingTable_LookupRoute_dst (t : RoutingTable) (id : Ipv4Address) (e : RoutingTableEntry)
    (h : t.LookupRoute id = some e) : e.GetDestination = id := by
  have := List.find?_some h
  simpa using this

theorem RoutingTable_LookupRoute_AddRoute (t : RoutingTable) (rt : RoutingTableEntry)
    (id : Ipv4Address) :
    (t.AddRoute rt).2.LookupRoute id
      = if rt.GetDestination = id then some ((t.LookupRoute id).getD rt) else t.LookupRoute id := by
  unfold RoutingTable.AddRoute
  cases hl : t.LookupRoute rt.GetDestination with
  | some e =>
    simp only
    split
    · next h => subst h; simp [hl]
    · rfl
  | none =>
    simp only [RoutingTable.LookupRoute] at hl ⊢
    rw [List.find?_append]
    split
    · next h => subst h; simp [hl]
    · next h => simp [h]

theorem RoutingTable_LookupRoute_Update (t : RoutingTable) (rt : RoutingTableEntry)
    (id : Ipv4Address) :
    (t.Update rt).2.LookupRoute id
      = if rt.GetDestination = id then (t.LookupRoute id).map (fun _ => rt)
        else t.LookupRoute id := by
  unfold RoutingTable.Update
  cases hl : t.LookupRoute rt.GetDestination with
  | none =>
    simp only
    split
    · next h => subst h; simp [hl]
    · rfl
  | some e =>
    simp only [RoutingTable.LookupRoute]
    clear hl
    induction t.m_ipv4AddressEntry with
    | nil => simp
    | cons a l ih =>
      simp only [List.map_cons, List.find?_cons]
      by_cases hai : a.GetDestination = id
      · subst hai
        by_cases ha : a.GetDestination = rt.GetDestination
        · simp [ha]
        · have ha2 : ¬ rt.GetDestination = a.GetDestination := fun h => ha h.symm
          simp [ha, ha2]
      · by_cases ha : a.GetDestination = rt.GetDestination
        · have hid : ¬ rt.GetDestination = id := by rw [← ha]; exact hai
          simp only [ha, hid, hai, if_true, if_false, decide_False] at ih ⊢
          exact ih
        · simp only [ha, hai, if_false, decide_False] at ih ⊢
          exact ih

theorem RoutingTable_LookupRoute_DeleteRoute (t : RoutingTable) (dst id : Ipv4Address) :
    (t.DeleteRoute dst).2.LookupRoute id = if dst = id then none else t.LookupRoute id := by
  unfold RoutingTable.DeleteRoute
  cases hl : t.LookupRoute dst with
  | none =>
    simp only
    split
    · next h => subst h; exact hl
    · rfl
  | some e =>
    simp only [RoutingTable.LookupRoute]
    clear hl
    induction t.m_ipv4AddressEntry with
    | nil => simp
    | cons a l ih =>
      simp only [List.filter_cons, List.find?_cons]
      by_cases hai : a.GetDestination = id
      · subst hai
        by_cases ha : a.GetDestination = dst
        · simp only [ha, decide_True, Bool.not_true, if_true] at ih ⊢
          simp
        · have ha2 : ¬ dst = a.GetDestination := fun h => ha h.symm
          simp [ha, ha2]
      · by_cases ha : a.GetDestination = dst
        · have hid : ¬ dst = id := by rw [← ha]; exact hai
          simp only [ha, decide_True, Bool.not_true, hid, decide_False, if_false] at ih ⊢
          simpa using ih
        · simp only [ha, decide_False, Bool.not_false, if_true, List.find?_cons, hai] at ih ⊢
          exact ih

theorem RoutingTable_AddRoute_events (t : RoutingTable) (rt : RoutingTableEntry) :
    (t.AddRoute rt).2.m_ipv4Events = t.m_ipv4Events := by
  unfold RoutingTable.AddRoute
  cases t.LookupRoute rt.GetDestination <;> rfl

theorem RoutingTable_Update_events (t : RoutingTable) (rt : RoutingTableEntry) :
    (t.Update rt).2.m_ipv4Events = t.m_ipv4Events := by
  unfold RoutingTable.Update
  cases t.LookupRoute rt.GetDestination <;> rfl

theorem RoutingTable_DeleteRoute_events (t : RoutingTable) (dst : Ipv4Address) :
    (t.DeleteRoute dst).2.m_ipv4Events = t.m_ipv4Events := by
  unfold RoutingTable.DeleteRoute
  cases t.LookupRoute dst <;> rfl

theorem RoutingTable_LookupRoute_AddIpv4Event (t : RoutingTable) (address : Ipv4Address)
    (ev : EventId) (id : Ipv4Address) :
    (t.AddIpv4Event address ev).2.LookupRoute id = t.LookupRoute id := by
  unfold RoutingTable.AddIpv4Event
  cases t.m_ipv4Events.find? (fun p => decide (p.1 = address)) <;> rfl

theorem RoutingTable_LookupRoute_ForceDeleteIpv4Event (t : RoutingTable) (sim : Simulator)
    (address id : Ipv4Address) :
    (t.ForceDeleteIpv4Event sim address).2.1.LookupRoute id = t.LookupRoute id := by
  unfold RoutingTable.ForceDeleteIpv4Event
  cases t.m_ipv4Events.find? (fun p => decide (p.1 = address)) <;> rfl

/-! ## Receiving one update -/

theorem RecvDsdv_Serialize (s : RoutingProtocol) (h : DsdvHeader) (rest : List Nat)
    (receiver src : Ipv4Address) (hd : h.m_dst < 2 ^ 32) (hh : h.m_hopCount < 2 ^ 16)
    (hs : h.m_dstSeqNo < 2 ^ 32) :
    s.RecvDsdv (h.Serialize ++ rest) receiver src
      = some (s.RecvDsdvUpdate h receiver src, rest) := by
  have hdrop : (h.Serialize ++ rest).drop 10 = rest := by
    simp [DsdvHeader.Serialize, Buffer.WriteTo, Buffer.WriteHtonU32, Buffer.WriteHtonU16]
  simp only [RoutingProtocol.RecvDsdv, RoutingProtocol.RemoveHeader,
    DsdvHeader_Deserialize_Serialize h _ hd hh hs rest, hdrop]

theorem not_own_count (s : RoutingProtocol) (D : Ipv4Address)
    (hown : ∀ j ∈ s.m_socketAddresses, j.2.GetLocal ≠ D) :
    (s.m_socketAddresses.filter (fun j => decide (D = j.2.GetLocal))).length = 0 := by
  rw [List.length_eq_zero, List.filter_eq_nil_iff]
  intro j hj
  have := hown j hj
  simp only [decide_eq_true_eq]
  exact fun h => this h.symm

/-- C1: for every destination address, 16-bit hop count and 32-bit sequence number,
`DsdvHeader::Deserialize` applied to the bytes written by `DsdvHeader::Serialize` (whatever
follows them in the buffer, and whatever the header held before) yields a header with the same
destination, hop count and sequence number and consumes exactly 10 bytes; the serialized form
is 10 bytes long and `GetSerializedSize` is 10. -/
theorem DsdvHeader_round_trip (dst hop seq : Nat) (hd : dst < 2 ^ 32) (hh : hop < 2 ^ 16)
    (hs : seq < 2 ^ 32) (h0 : DsdvHeader) (rest : List Nat) :
    DsdvHeader.Deserialize h0
        (({ m_dst := dst, m_hopCount := hop, m_dstSeqNo := seq } : DsdvHeader).Serialize ++ rest)
      = some ({ m_dst := dst, m_hopCount := hop, m_dstSeqNo := seq }, 10)
    ∧ (DsdvHeader.GetDst { m_dst := dst, m_hopCount := hop, m_dstSeqNo := seq } = dst
      ∧ DsdvHeader.GetHopCount { m_dst := dst, m_hopCount := hop, m_dstSeqNo := seq } = hop
      ∧ DsdvHeader.GetDstSeqno { m_dst := dst, m_hopCount := hop, m_dstSeqNo := seq } = seq)
    ∧ (({ m_dst := dst, m_hopCount := hop, m_dstSeqNo := seq } : DsdvHeader).Serialize).length
      = 10
    ∧ DsdvHeader.GetSerializedSize { m_dst := dst, m_hopCount := hop, m_dstSeqNo := seq } = 10 :=
  ⟨DsdvHeader_Deserialize_Serialize _ h0 hd hh hs rest, ⟨rfl, rfl, rfl⟩, rfl, rfl⟩

/-- Witness for C1: the header `10.1.1.2`, hop count 2, sequence number 2 of the test suite. -/
theorem DsdvHeader_round_trip_witness :
    (167837954 < 2 ^ 32 ∧ 2 < 2 ^ 16 ∧ 2 < 2 ^ 32)
    ∧ DsdvHeader.Deserialize DsdvHeader.default
        (({ m_dst := 167837954, m_hopCount := 2, m_dstSeqNo := 2 } : DsdvHeader).Serialize ++ [])
      = some ({ m_dst := 167837954, m_hopCount := 2, m_dstSeqNo := 2 }, 10)
    ∧ (({ m_dst := 167837954, m_hopCount := 2, m_dstSeqNo := 2 } : DsdvHeader).Serialize).length
      = 10 :=
  ⟨by decide,
   (DsdvHeader_round_trip 167837954 2 2 (by decide) (by decide) (by decide)
      DsdvHeader.default []).1,
   (DsdvHeader_round_trip 167837954 2 2 (by decide) (by decide) (by decide)
      DsdvHeader.default []).2.2.1⟩

/-- C2: for every destination address, 16-bit hop count and update time that is a whole number
`ms` of milliseconds in `[0, 2^32)`, the `RackHeader` built from them, serialized and then
deserialized (whatever follows in the buffer), is reproduced exactly and reports the same
destination, hop count and update time; the decode consumes exactly 10 bytes. -/
theorem RackHeader_round_trip (dst hop ms : Nat) (hd : dst < 2 ^ 32) (hh : hop < 2 ^ 16)
    (hm : ms < 2 ^ 32) (h0 : RackHeader) (rest : List Nat) :
    RackHeader.Deserialize h0 ((RackHeader.mk3 dst hop (MilliSeconds ms)).Serialize ++ rest)
      = some (RackHeader.mk3 dst hop (MilliSeconds ms), 10)
    ∧ (RackHeader.mk3 dst hop (MilliSeconds ms)).GetDst = dst
    ∧ (RackHeader.mk3 dst hop (MilliSeconds ms)).GetHopCount = hop
    ∧ (RackHeader.mk3 dst hop (MilliSeconds ms)).GetUpdateTime = MilliSeconds ms := by
  have hms : ((MilliSeconds (ms : Int)).GetMilliSeconds % 2 ^ 32).toNat = ms := by
    have h1 : (MilliSeconds (ms : Int)).GetMilliSeconds = (ms : Int) := by
      simp [MilliSeconds, Time.GetMilliSeconds]
    rw [h1]
    omega
  have hhop : hop % 2 ^ 16 = hop := Nat.mod_eq_of_lt hh
  refine ⟨?_, rfl, ?_, ?_⟩
  · apply RackHeader_Deserialize_Serialize
    · exact hd
    · simp only [RackHeader.mk3]; omega
    · simp only [RackHeader.mk3, hms]; exact hm
  · simp only [RackHeader.mk3, RackHeader.GetHopCount, hhop]
  · simp only [RackHeader.mk3, RackHeader.GetUpdateTime, hms]

/-- Witness for C2: the header of the test suite, `1.2.3.4`, 5 hops, 10 seconds. -/
theorem RackHeader_round_trip_witness :
    (16909060 < 2 ^ 32 ∧ 5 < 2 ^ 16 ∧ 10000 < 2 ^ 32)
    ∧ RackHeader.Deserialize RackHeader.default
        ((RackHeader.mk3 16909060 5 (MilliSeconds (10000 : Nat))).Serialize ++ [])
      = some (RackHeader.mk3 16909060 5 (MilliSeconds (10000 : Nat)), 10)
    ∧ (RackHeader.mk3 16909060 5 (MilliSeconds (10000 : Nat))).GetUpdateTime
      = MilliSeconds (10000 : Nat) :=
  ⟨by decide,
   (RackHeader_round_trip 16909060 5 10000 (by decide) (by decide) (by decide)
      RackHeader.default []).1,
   (RackHeader_round_trip 16909060 5 10000 (by decide) (by decide) (by decide)
      RackHeader.default []).2.2.2⟩

/-- C3: for every destination address, the `RreqHeader` built with that destination and the
default reserved value 0 is encoded as exactly 6 bytes, the 4 address bytes followed by 2 zero
bytes; `Deserialize` on these bytes reproduces the header, which reports the same destination,
and returns 6. -/
theorem RreqHeader_round_trip (dst : Nat) (hd : dst < 2 ^ 32) (h0 : RreqHeader)
    (rest : List Nat) :
    (RreqHeader.mk2 dst 0).Serialize = Buffer.WriteTo dst ++ [0, 0]
    ∧ ((RreqHeader.mk2 dst 0).Serialize).length = 6
    ∧ (RreqHeader.mk2 dst 0).GetSerializedSize = 6
    ∧ RreqHeader.Deserialize h0 ((RreqHeader.mk2 dst 0).Serialize ++ rest)
      = some (RreqHeader.mk2 dst 0, 6)
    ∧ (RreqHeader.mk2 dst 0).GetDst = dst := by
  have hr : (RreqHeader.mk2 dst 0).m_reserved < 2 ^ 8 := by
    simp only [RreqHeader.mk2]; omega
  refine ⟨?_, ?_, rfl, ?_, rfl⟩
  · simp [RreqHeader.Serialize, RreqHeader.mk2, Buffer.WriteU16]
  · simp [RreqHeader.Serialize, RreqHeader.mk2, Buffer.WriteU16, Buffer.WriteTo,
      Buffer.WriteHtonU32]
  · exact RreqHeader_Deserialize_Serialize _ h0 hd hr rest

/-- Witness for C3: the request for `1.2.3.4` of the test suite. -/
theorem RreqHeader_round_trip_witness :
    16909060 < 2 ^ 32
    ∧ RreqHeader.Deserialize RreqHeader.default ((RreqHeader.mk2 16909060 0).Serialize ++ [])
      = some (RreqHeader.mk2 16909060 0, 6) :=
  ⟨by decide, (RreqHeader_round_trip 16909060 (by decide) RreqHeader.default []).2.2.2.1⟩

/-- C4: for every 16-bit value `v`, `TypeHeader::Deserialize` on the 2-byte encoding of `v`
consumes exactly 2 bytes and leaves `IsValid ()` true if and only if `v` is 1, 2 or 3, in
which case `Get ()` is the message type with value `v`; hence `Serialize` followed by
`Deserialize` reproduces each of the three message types. -/
theorem TypeHeader_Deserialize_valid_iff (v : Nat) (hv : v < 2 ^ 16) (h0 : TypeHeader)
    (rest : List Nat) :
    (∃ h : TypeHeader,
      TypeHeader.Deserialize h0 (Buffer.WriteU16 v ++ rest) = some (h, 2)
      ∧ (h.IsValid = true ↔ (v = 1 ∨ v = 2 ∨ v = 3))
      ∧ (h.IsValid = true → h.Get.toNat = v))
    ∧ ∀ t : MessageType,
      TypeHeader.Deserialize h0 ((TypeHeader.mk1 t).Serialize ++ rest)
        = some (TypeHeader.mk1 t, 2) := by
  constructor
  · have hlen : Buffer.GetDistanceFrom rest (Buffer.WriteU16 v ++ rest) = 2 := by
      simp only [Buffer.GetDistanceFrom, Buffer.WriteU16, List.cons_append, List.nil_append,
        List.length_cons]
      omega
    simp only [TypeHeader.Deserialize, Buffer.ReadU16_WriteU16 v hv, hlen]
    by_cases h1 : v = 1
    · subst h1; exact ⟨_, rfl, by simp [TypeHeader.IsValid], fun _ => rfl⟩
    · by_cases h2 : v = 2
      · subst h2; exact ⟨_, rfl, by simp [TypeHeader.IsValid], fun _ => rfl⟩
      · by_cases h3 : v = 3
        · subst h3; exact ⟨_, rfl, by simp [TypeHeader.IsValid], fun _ => rfl⟩
        · refine ⟨_, rfl, ?_, ?_⟩ <;> simp [TypeHeader.IsValid, h1, h2, h3]
  · intro t
    have hlen : ∀ n, Buffer.GetDistanceFrom rest (Buffer.WriteU16 n ++ rest) = 2 := by
      intro n
      simp only [Buffer.GetDistanceFrom, Buffer.WriteU16, List.cons_append, List.nil_append,
        List.length_cons]
      omega
    cases t <;>
      simp [TypeHeader.Deserialize, TypeHeader.Serialize, TypeHeader.mk1, MessageType.toNat,
        Buffer.ReadU16_WriteU16, hlen]

/-- Witness for C4: the value 4, the first unassigned type value. -/
theorem TypeHeader_Deserialize_valid_iff_witness :
    4 < 2 ^ 16
    ∧ ∃ h : TypeHeader,
      TypeHeader.Deserialize (TypeHeader.mk1 .DSDVTYPE_DSDV) (Buffer.WriteU16 4 ++ [])
        = some (h, 2)
      ∧ (h.IsValid = true ↔ ((4 : Nat) = 1 ∨ (4 : Nat) = 2 ∨ (4 : Nat) = 3))
      ∧ (h.IsValid = true → h.Get.toNat = 4) :=
  ⟨by decide,
   (TypeHeader_Deserialize_valid_iff 4 (by decide) (TypeHeader.mk1 .DSDVTYPE_DSDV) []).1⟩

theorem StageAdvertisement_lookup (s : RoutingProtocol) (D : Ipv4Address)
    (fwd : RoutingTableEntry) (hfwd : fwd.GetDestination = D) :
    (s.StageAdvertisement D fwd).m_advRoutingTable.LookupRoute D
      = some ((s.m_advRoutingTable.LookupRoute D).getD fwd) := by
  unfold RoutingProtocol.StageAdvertisement
  cases h : s.m_advRoutingTable.LookupRoute D with
  | none => simp [RoutingTable_LookupRoute_AddRoute, hfwd, h]
  | some a => simp [h]

theorem RecvDsdvUpdate_known (s : RoutingProtocol) (h : DsdvHeader) (receiver src : Ipv4Address)
    (fwd : RoutingTableEntry)
    (hown : ∀ j ∈ s.m_socketAddresses, j.2.GetLocal ≠ h.m_dst)
    (hmain : s.m_routingTable.LookupRoute h.m_dst = some fwd) :
    s.RecvDsdvUpdate h receiver src
      = if h.m_dstSeqNo % 2 ≠ 1 then
          (s.StageAdvertisement h.m_dst fwd).RecvDsdvReachable
            ((s.m_advRoutingTable.LookupRoute h.m_dst).getD fwd) h src
        else
          (s.StageAdvertisement h.m_dst fwd).RecvDsdvUnreachable
            ((s.m_advRoutingTable.LookupRoute h.m_dst).getD fwd) h src := by
  have hfwd : fwd.GetDestination = h.m_dst := RoutingTable_LookupRoute_dst _ _ _ hmain
  simp only [RoutingProtocol.RecvDsdvUpdate, DsdvHeader.GetDst, DsdvHeader.GetDstSeqno,
    not_own_count s h.m_dst hown, hmain, gt_iff_lt, lt_self_iff_false, if_false,
    StageAdvertisement_lookup s h.m_dst fwd hfwd, Option.getD_some]

/-- C6: for every received update `(D, seq, hop)` with even `seq` from the neighbour `src`,
where `D` is none of the node's own addresses and has a main-table entry, let `(s0, h0)` be the
sequence number and hop count of the advertisement entry for `D` before the call (of the copy
of the main entry when the advertisement table had none). If `seq > s0`, or `seq = s0` and
`hop < h0`, `RecvDsdv` accepts the update: afterwards the advertisement entry for `D` carries
`seq`, `hop`, next hop `src` and is marked changed. Otherwise it does not: the advertisement
entry for `D` is either removed or exactly the entry compared against. -/
theorem RecvDsdv_accepts_iff_fresher (s : RoutingProtocol) (D seq hop src receiver : Nat)
    (rest : List Nat) (fwd : RoutingTableEntry) (hD : D < 2 ^ 32) (hseq : seq < 2 ^ 32)
    (hhop : hop < 2 ^ 16) (heven : seq % 2 = 0)
    (hown : ∀ j ∈ s.m_socketAddresses, j.2.GetLocal ≠ D)
    (hmain : s.m_routingTable.LookupRoute D = some fwd) :
    ∃ s1 : RoutingProtocol,
      s.RecvDsdv (({ m_dst := D, m_hopCount := hop, m_dstSeqNo := seq } : DsdvHeader).Serialize
          ++ rest) receiver src = some (s1, rest)
      ∧ ((seq > ((s.m_advRoutingTable.LookupRoute D).getD fwd).GetSeqNo
            ∨ (seq = ((s.m_advRoutingTable.LookupRoute D).getD fwd).GetSeqNo
              ∧ hop < ((s.m_advRoutingTable.LookupRoute D).getD fwd).GetHop)) →
          ∃ e : RoutingTableEntry, s1.m_advRoutingTable.LookupRoute D = some e
            ∧ e.GetSeqNo = seq ∧ e.GetHop = hop ∧ e.GetNextHop = src
            ∧ e.GetEntriesChanged = true)
      ∧ (¬ (seq > ((s.m_advRoutingTable.LookupRoute D).getD fwd).GetSeqNo
            ∨ (seq = ((s.m_advRoutingTable.LookupRoute D).getD fwd).GetSeqNo
              ∧ hop < ((s.m_advRoutingTable.LookupRoute D).getD fwd).GetHop)) →
          s1.m_advRoutingTable.LookupRoute D = none
            ∨ s1.m_advRoutingTable.LookupRoute D
              = some ((s.m_advRoutingTable.LookupRoute D).getD fwd)) := by
  have hne : ¬ seq % 2 = 1 := by omega
  have hs32 : seq % 2 ^ 32 = seq := Nat.mod_eq_of_lt hseq
  have hh32 : hop % 2 ^ 32 = hop := Nat.mod_eq_of_lt (by omega)
  have hfwd : fwd.GetDestination = D := RoutingTable_LookupRoute_dst _ _ _ hmain
  refine ⟨s.RecvDsdvUpdate { m_dst := D, m_hopCount := hop, m_dstSeqNo := seq } receiver src,
    RecvDsdv_Serialize s _ rest receiver src hD hhop hseq, ?_⟩
  rw [RecvDsdvUpdate_known s _ receiver src fwd hown hmain]
  simp only [ne_eq, hne, not_false_eq_true, if_true]
  have hstage := StageAdvertisement_lookup s D fwd hfwd
  have hdst : ((s.m_advRoutingTable.LookupRoute D).getD fwd).m_dst = D := by
    have := RoutingTable_LookupRoute_dst _ _ _ hstage
    exact this
  generalize (s.m_advRoutingTable.LookupRoute D).getD fwd = a0 at hstage hdst ⊢
  generalize s.StageAdvertisement D fwd = s0 at hstage ⊢
  simp only [RoutingProtocol.RecvDsdvReachable, DsdvHeader.GetDst, DsdvHeader.GetDstSeqno,
    DsdvHeader.GetHopCount]
  constructor
  · intro hc
    split_ifs <;>
      first
      | omega
      | (simp [RoutingTable_LookupRoute_Update, RoutingTable_LookupRoute_AddIpv4Event,
          RoutingTable_LookupRoute_ForceDeleteIpv4Event, RoutingTableEntry.GetDestination,
          RoutingTableEntry.SetSeqNo, RoutingTableEntry.SetLifeTime, RoutingTableEntry.SetFlag,
          RoutingTableEntry.SetEntriesChanged, RoutingTableEntry.SetNextHop,
          RoutingTableEntry.SetHop, RoutingTableEntry.SetSettlingTime,
          RoutingTableEntry.GetSeqNo, RoutingTableEntry.GetHop, RoutingTableEntry.GetNextHop,
          RoutingTableEntry.GetEntriesChanged, hdst, hstage, hs32, hh32]; omega)
  · intro hc
    split_ifs <;>
      first
      | omega
      | simp [RoutingTable_LookupRoute_DeleteRoute, hstage]


/-- Witness for C6: the node holding `(D, seq=4, hop=1, nextHop=S)` receives `(D, seq=6, hop=2)`
from `S`. -/
theorem RecvDsdv_accepts_iff_fresher_witness :
    (exampleD < 2 ^ 32 ∧ 6 < 2 ^ 32 ∧ 2 < 2 ^ 16 ∧ 6 % 2 = 0
      ∧ (∀ j ∈ exampleNodeWithRoute.m_socketAddresses, j.2.GetLocal ≠ exampleD)
      ∧ exampleNodeWithRoute.m_routingTable.LookupRoute exampleD = some exampleRoute)
    ∧ ∃ s1 : RoutingProtocol,
      exampleNodeWithRoute.RecvDsdv
          (({ m_dst := exampleD, m_hopCount := 2, m_dstSeqNo := 6 } : DsdvHeader).Serialize ++ [])
          exampleIface.GetLocal exampleS = some (s1, [])
      ∧ ((6 > ((exampleNodeWithRoute.m_advRoutingTable.LookupRoute exampleD).getD
              exampleRoute).GetSeqNo
            ∨ (6 = ((exampleNodeWithRoute.m_advRoutingTable.LookupRoute exampleD).getD
                exampleRoute).GetSeqNo
              ∧ 2 < ((exampleNodeWithRoute.m_advRoutingTable.LookupRoute exampleD).getD
                exampleRoute).GetHop)) →
          ∃ e : RoutingTableEntry, s1.m_advRoutingTable.LookupRoute exampleD = some e
            ∧ e.GetSeqNo = 6 ∧ e.GetHop = 2 ∧ e.GetNextHop = exampleS
            ∧ e.GetEntriesChanged = true)
      ∧ (¬ (6 > ((exampleNodeWithRoute.m_advRoutingTable.LookupRoute exampleD).getD
              exampleRoute).GetSeqNo
            ∨ (6 = ((exampleNodeWithRoute.m_advRoutingTable.LookupRoute exampleD).getD
                exampleRoute).GetSeqNo
              ∧ 2 < ((exampleNodeWithRoute.m_advRoutingTable.LookupRoute exampleD).getD
                exampleRoute).GetHop)) →
          s1.m_advRoutingTable.LookupRoute exampleD = none
            ∨ s1.m_advRoutingTable.LookupRoute exampleD
              = some ((exampleNodeWithRoute.m_advRoutingTable.LookupRoute exampleD).getD
                  exampleRoute)) :=
  ⟨by decide,
   RecvDsdv_accepts_iff_fresher exampleNodeWithRoute exampleD 6 2 exampleS exampleIface.GetLocal
     [] exampleRoute (by decide) (by decide) (by decide) (by decide) (by decide) (by decide)⟩

/-- C8: for every destination `D` that is none of the node's own addresses and has no
main-table entry, and every update `(D, seq, hop)` with even `seq` received from the neighbour
`S`, `RecvDsdv` adds a main-table entry for `D` with next hop `S`, hop count `hop`, sequence
number `seq` and flag `VALID`. -/
theorem RecvDsdv_installs_new_route (s : RoutingProtocol) (D seq hop S receiver : Nat)
    (rest : List Nat) (hD : D < 2 ^ 32) (hseq : seq < 2 ^ 32) (hhop : hop < 2 ^ 16)
    (hown : ∀ j ∈ s.m_socketAddresses, j.2.GetLocal ≠ D)
    (hmain : s.m_routingTable.LookupRoute D = none) (heven : seq % 2 = 0) :
    ∃ (s1 : RoutingProtocol) (e : RoutingTableEntry),
      s.RecvDsdv (({ m_dst := D, m_hopCount := hop, m_dstSeqNo := seq } : DsdvHeader).Serialize
          ++ rest) receiver S = some (s1, rest)
      ∧ s1.m_routingTable.LookupRoute D = some e
      ∧ e.GetNextHop = S ∧ e.GetHop = hop ∧ e.GetSeqNo = seq
      ∧ e.GetFlag = RouteFlags.VALID := by
  have hne : ¬ seq % 2 = 1 := by omega
  have hs32 : seq % 2 ^ 32 = seq := Nat.mod_eq_of_lt hseq
  have hh32 : hop % 2 ^ 32 = hop := Nat.mod_eq_of_lt (by omega)
  refine ⟨s.RecvDsdvUpdate { m_dst := D, m_hopCount := hop, m_dstSeqNo := seq } receiver S,
    (RoutingTableEntry.mk9 (s.m_ipv4.GetNetDevice (s.m_ipv4.GetInterfaceForAddress receiver)) D seq
      (s.m_ipv4.GetAddress (s.m_ipv4.GetInterfaceForAddress receiver)) hop S s.m_simulator.Now
      s.m_settlingTime true).SetFlag RouteFlags.VALID,
    RecvDsdv_Serialize s _ rest receiver S hD hhop hseq, ?_, ?_⟩
  · simp only [RoutingProtocol.RecvDsdvUpdate, DsdvHeader.GetDst, DsdvHeader.GetDstSeqno,
      DsdvHeader.GetHopCount,
      not_own_count s D hown, hmain, gt_iff_lt, lt_self_iff_false, if_false, ne_eq, hne,
      not_false_eq_true, if_true, RoutingTable_LookupRoute_AddRoute]
    simp [RoutingTableEntry.SetFlag, RoutingTableEntry.mk9, RoutingTableEntry.GetDestination, hmain]
  · simp [RoutingTableEntry.SetFlag, RoutingTableEntry.mk9, RoutingTableEntry.GetNextHop,
      RoutingTableEntry.GetHop, RoutingTableEntry.GetSeqNo, RoutingTableEntry.GetFlag, hs32, hh32]
    constructor <;> omega

/-- Witness for C8: the node without a route to `D` receives `(D, seq=4, hop=1)` from `S`. -/
theorem RecvDsdv_installs_new_route_witness :
    (exampleD < 2 ^ 32 ∧ 4 < 2 ^ 32 ∧ 1 < 2 ^ 16
      ∧ (∀ j ∈ exampleNode.m_socketAddresses, j.2.GetLocal ≠ exampleD)
      ∧ exampleNode.m_routingTable.LookupRoute exampleD = none ∧ 4 % 2 = 0)
    ∧ ∃ (s1 : RoutingProtocol) (e : RoutingTableEntry),
      exampleNode.RecvDsdv
          (({ m_dst := exampleD, m_hopCount := 1, m_dstSeqNo := 4 } : DsdvHeader).Serialize ++ [])
          exampleIface.GetLocal exampleS = some (s1, [])
      ∧ s1.m_routingTable.LookupRoute exampleD = some e
      ∧ e.GetNextHop = exampleS ∧ e.GetHop = 1 ∧ e.GetSeqNo = 4
      ∧ e.GetFlag = RouteFlags.VALID :=
  ⟨by decide,
   RecvDsdv_installs_new_route exampleNode exampleD 4 1 exampleS exampleIface.GetLocal []
     (by decide) (by decide) (by decide) (by decide) (by decide) (by decide)⟩

theorem PoisonRouted_foldl_frame (l : List RoutingTableEntry) (st : RoutingProtocol) :
    (l.foldl RoutingProtocol.PoisonRouted st).m_simulator = st.m_simulator
    ∧ (l.foldl RoutingProtocol.PoisonRouted st).m_altRoutingTable = st.m_altRoutingTable
    ∧ (l.foldl RoutingProtocol.PoisonRouted st).m_advRoutingTable.m_ipv4Events
      = st.m_advRoutingTable.m_ipv4Events
    ∧ (l.foldl RoutingProtocol.PoisonRouted st).m_sent = st.m_sent := by
  induction l generalizing st with
  | nil => exact ⟨rfl, rfl, rfl, rfl⟩
  | cons i l ih =>
    simp only [List.foldl_cons]
    obtain ⟨h1, h2, h3, h4⟩ := ih (st.PoisonRouted i)
    refine ⟨h1, h2, ?_, h4⟩
    rw [h3]
    simp only [RoutingProtocol.PoisonRouted, RoutingTable_AddRoute_events]

theorem PoisonRouted_foldl_main (l : List RoutingTableEntry) (st : RoutingProtocol)
    (id : Ipv4Address) :
    (l.foldl RoutingProtocol.PoisonRouted st).m_routingTable.LookupRoute id
      = if id ∈ l.map RoutingTableEntry.GetDestination then none
        else st.m_routingTable.LookupRoute id := by
  induction l generalizing st with
  | nil => simp
  | cons i l ih =>
    simp only [List.foldl_cons, List.map_cons, List.mem_cons]
    rw [ih]
    by_cases h1 : id ∈ l.map RoutingTableEntry.GetDestination
    · simp [h1]
    · simp only [h1, if_false, or_false]
      simp only [RoutingProtocol.PoisonRouted, RoutingTable_LookupRoute_DeleteRoute,
        RoutingTableEntry.SetEntriesChanged, RoutingTableEntry.SetSeqNo,
        RoutingTableEntry.GetDestination]
      by_cases h2 : i.m_dst = id
      · simp [h2]
      · have h3 : ¬ id = i.m_dst := fun h => h2 h.symm
        simp [h2, h3]

theorem PoisonRouted_foldl_adv (l : List RoutingTableEntry) (st : RoutingProtocol)
    (id : Ipv4Address) (e : RoutingTableEntry)
    (h : st.m_advRoutingTable.LookupRoute id = some e) :
    (l.foldl RoutingProtocol.PoisonRouted st).m_advRoutingTable.LookupRoute id = some e := by
  induction l generalizing st with
  | nil => exact h
  | cons i l ih =>
    simp only [List.foldl_cons]
    apply ih
    simp only [RoutingProtocol.PoisonRouted, RoutingTable_LookupRoute_AddRoute]
    split
    · simp [h]
    · exact h

theorem DropAlternate_foldl_frame (l : List RoutingTableEntry) (st : RoutingProtocol) :
    (l.foldl RoutingProtocol.DropAlternate st).m_simulator = st.m_simulator
    ∧ (l.foldl RoutingProtocol.DropAlternate st).m_routingTable = st.m_routingTable
    ∧ (l.foldl RoutingProtocol.DropAlternate st).m_advRoutingTable = st.m_advRoutingTable
    ∧ (l.foldl RoutingProtocol.DropAlternate st).m_sent = st.m_sent := by
  induction l generalizing st with
  | nil => exact ⟨rfl, rfl, rfl, rfl⟩
  | cons i l ih =>
    simp only [List.foldl_cons]
    exact ih (st.DropAlternate i)

theorem StageAdvertisement_frame (s : RoutingProtocol) (D : Ipv4Address)
    (fwd : RoutingTableEntry) :
    (s.StageAdvertisement D fwd).m_simulator = s.m_simulator
    ∧ (s.StageAdvertisement D fwd).m_routingTable = s.m_routingTable
    ∧ (s.StageAdvertisement D fwd).m_altRoutingTable = s.m_altRoutingTable
    ∧ (s.StageAdvertisement D fwd).m_advRoutingTable.m_ipv4Events
      = s.m_advRoutingTable.m_ipv4Events
    ∧ (s.StageAdvertisement D fwd).m_sent = s.m_sent := by
  unfold RoutingProtocol.StageAdvertisement
  cases s.m_advRoutingTable.LookupRoute D with
  | none => exact ⟨rfl, rfl, rfl, RoutingTable_AddRoute_events _ _, rfl⟩
  | some a => exact ⟨rfl, rfl, rfl, rfl, rfl⟩

/-- C9, as amended: a node whose main table holds an entry for `D` with next hop `S` (such as
`(D, seq=4, hop=1, nextHop=S)`), whose advertisement entry for `D`, if any, also has next hop
`S`, and that receives the update `(D, seq=5, hop=3)` from `S`, takes the odd sequence number
as an unreachability notice: when `RecvDsdv` returns, the main-table entry for `D` has been
removed, the advertisement entry for `D` is the entry compared against with sequence number 5
and the changed mark set (hop count and next hop as before), and no settling timer has been
scheduled or registered. -/
theorem RecvDsdv_odd_update_removes_route (s : RoutingProtocol) (D S receiver : Nat)
    (rest : List Nat) (fwd : RoutingTableEntry) (hD : D < 2 ^ 32)
    (hown : ∀ j ∈ s.m_socketAddresses, j.2.GetLocal ≠ D)
    (hmain : s.m_routingTable.LookupRoute D = some fwd)
    (hnext : ((s.m_advRoutingTable.LookupRoute D).getD fwd).GetNextHop = S) :
    ∃ s1 : RoutingProtocol,
      s.RecvDsdv (({ m_dst := D, m_hopCount := 3, m_dstSeqNo := 5 } : DsdvHeader).Serialize
          ++ rest) receiver S = some (s1, rest)
      ∧ s1.m_routingTable.LookupRoute D = none
      ∧ s1.m_advRoutingTable.LookupRoute D
        = some ((((s.m_advRoutingTable.LookupRoute D).getD fwd).SetSeqNo 5).SetEntriesChanged
            true)
      ∧ s1.m_simulator = s.m_simulator
      ∧ s1.m_advRoutingTable.m_ipv4Events = s.m_advRoutingTable.m_ipv4Events := by
  have hfwd : fwd.GetDestination = D := RoutingTable_LookupRoute_dst _ _ _ hmain
  refine ⟨s.RecvDsdvUpdate { m_dst := D, m_hopCount := 3, m_dstSeqNo := 5 } receiver S,
    RecvDsdv_Serialize s _ rest receiver S hD (by simp) (by simp), ?_⟩
  rw [RecvDsdvUpdate_known s _ receiver S fwd hown hmain]
  simp only [ne_eq, Nat.reduceMod, not_true_eq_false, if_false]
  have hstage := StageAdvertisement_lookup s D fwd hfwd
  have hdst : ((s.m_advRoutingTable.LookupRoute D).getD fwd).GetDestination = D :=
    RoutingTable_LookupRoute_dst _ _ _ hstage
  obtain ⟨f1, f2, f3, f4, -⟩ := StageAdvertisement_frame s D fwd
  generalize (s.m_advRoutingTable.LookupRoute D).getD fwd = a0 at hstage hdst hnext ⊢
  generalize s.StageAdvertisement D fwd = s0 at hstage f1 f2 f3 f4 ⊢
  simp only [RoutingProtocol.RecvDsdvUnreachable, DsdvHeader.GetDst, DsdvHeader.GetDstSeqno,
    hnext, if_true]
  obtain ⟨d1, d2, d3, -⟩ := DropAlternate_foldl_frame
    (s0.m_altRoutingTable.GetListOfDestinationWithNextHop D)
    (List.foldl RoutingProtocol.PoisonRouted
      { s0 with
          m_routingTable := (s0.m_routingTable.DeleteRoute D).2
          m_altRoutingTable := (s0.m_altRoutingTable.DeleteRoute D).2
          m_advRoutingTable :=
            (s0.m_advRoutingTable.Update ((a0.SetSeqNo 5).SetEntriesChanged true)).2 }
      (s0.m_routingTable.GetListOfDestinationWithNextHop D))
  rw [d1, d2, d3]
  obtain ⟨p1, -, p3, -⟩ := PoisonRouted_foldl_frame
    (s0.m_routingTable.GetListOfDestinationWithNextHop D)
      { s0 with
          m_routingTable := (s0.m_routingTable.DeleteRoute D).2
          m_altRoutingTable := (s0.m_altRoutingTable.DeleteRoute D).2
          m_advRoutingTable :=
            (s0.m_advRoutingTable.Update ((a0.SetSeqNo 5).SetEntriesChanged true)).2 }
  rw [p1, p3, PoisonRouted_foldl_main]
  refine ⟨?_, ?_, f1, ?_⟩
  · simp [RoutingTable_LookupRoute_DeleteRoute]
  · apply PoisonRouted_foldl_adv
    simp only [RoutingTable_LookupRoute_Update, RoutingTableEntry.GetDestination,
      RoutingTableEntry.SetSeqNo, RoutingTableEntry.SetEntriesChanged] at hdst ⊢
    simp [hdst, hstage]
  · simp only [RoutingTable_Update_events]
    exact f4

/-- Witness for C9 as amended: the node holding `(D, seq=4, hop=1, nextHop=S)`. -/
theorem RecvDsdv_odd_update_removes_route_witness :
    (exampleD < 2 ^ 32
      ∧ (∀ j ∈ exampleNodeWithRoute.m_socketAddresses, j.2.GetLocal ≠ exampleD)
      ∧ exampleNodeWithRoute.m_routingTable.LookupRoute exampleD = some exampleRoute
      ∧ ((exampleNodeWithRoute.m_advRoutingTable.LookupRoute exampleD).getD
          exampleRoute).GetNextHop = exampleS)
    ∧ ∃ s1 : RoutingProtocol,
      exampleNodeWithRoute.RecvDsdv
          (({ m_dst := exampleD, m_hopCount := 3, m_dstSeqNo := 5 } : DsdvHeader).Serialize ++ [])
          exampleIface.GetLocal exampleS = some (s1, [])
      ∧ s1.m_routingTable.LookupRoute exampleD = none
      ∧ s1.m_advRoutingTable.LookupRoute exampleD
        = some ((((exampleNodeWithRoute.m_advRoutingTable.LookupRoute exampleD).getD
            exampleRoute).SetSeqNo 5).SetEntriesChanged true)
      ∧ s1.m_simulator = exampleNodeWithRoute.m_simulator
      ∧ s1.m_advRoutingTable.m_ipv4Events
        = exampleNodeWithRoute.m_advRoutingTable.m_ipv4Events :=
  ⟨by decide,
   RecvDsdv_odd_update_removes_route exampleNodeWithRoute exampleD exampleS
     exampleIface.GetLocal [] exampleRoute (by decide) (by decide) (by decide) (by decide)⟩

/-- Counterexample to C9 as stated: the node holding `(D, seq=4, hop=1, nextHop=S)` receives
`(D, seq=5, hop=3)` from `S`; afterwards the main table has no entry for `D`, and no event has
been scheduled or registered. -/
theorem RecvDsdv_scenario3_counterexample :
    exampleNodeWithRoute.m_routingTable.LookupRoute exampleD = some exampleRoute
    ∧ (exampleNodeWithRoute.RecvDsdv
        (({ m_dst := exampleD, m_hopCount := 3, m_dstSeqNo := 5 } : DsdvHeader).Serialize ++ [])
        exampleIface.GetLocal exampleS).map
          (fun r => r.1.m_routingTable.LookupRoute exampleD) = some none
    ∧ (exampleNodeWithRoute.RecvDsdv
        (({ m_dst := exampleD, m_hopCount := 3, m_dstSeqNo := 5 } : DsdvHeader).Serialize ++ [])
        exampleIface.GetLocal exampleS).map
          (fun r => r.1.m_simulator.m_events) = some []
    ∧ (exampleNodeWithRoute.RecvDsdv
        (({ m_dst := exampleD, m_hopCount := 3, m_dstSeqNo := 5 } : DsdvHeader).Serialize ++ [])
        exampleIface.GetLocal exampleS).map
          (fun r => r.1.m_advRoutingTable.m_ipv4Events) = some [] := by
  decide

theorem StageAdvertisement_lookup_ne (s : RoutingProtocol) (D id : Ipv4Address)
    (fwd : RoutingTableEntry) (hfwd : fwd.GetDestination = D) (hne : id ≠ D) :
    (s.StageAdvertisement D fwd).m_advRoutingTable.LookupRoute id
      = s.m_advRoutingTable.LookupRoute id := by
  unfold RoutingProtocol.StageAdvertisement
  cases h : s.m_advRoutingTable.LookupRoute D with
  | none =>
    have : ¬ D = id := fun h => hne h.symm
    simp [RoutingTable_LookupRoute_AddRoute, hfwd, this]
  | some a => rfl

/-- Away from the destination of the update, the lookups in the main and the advertisement
table are not changed by the even-sequence-number branch. -/
theorem RecvDsdvReachable_frame (s0 : RoutingProtocol) (a0 : RoutingTableEntry)
    (h : DsdvHeader) (src id : Ipv4Address) (hdst : a0.GetDestination = h.m_dst)
    (hne : id ≠ h.m_dst) :
    (s0.RecvDsdvReachable a0 h src).m_routingTable.LookupRoute id
        = s0.m_routingTable.LookupRoute id
    ∧ (s0.RecvDsdvReachable a0 h src).m_advRoutingTable.LookupRoute id
        = s0.m_advRoutingTable.LookupRoute id := by
  have hne2 : ¬ h.m_dst = id := fun e => hne e.symm
  have hd : a0.m_dst = h.m_dst := hdst
  simp only [RoutingProtocol.RecvDsdvReachable, DsdvHeader.GetDst, DsdvHeader.GetDstSeqno,
    DsdvHeader.GetHopCount]
  split_ifs <;>
    simp [RoutingTable_LookupRoute_Update, RoutingTable_LookupRoute_AddIpv4Event,
      RoutingTable_LookupRoute_ForceDeleteIpv4Event, RoutingTable_LookupRoute_DeleteRoute,
      RoutingTableEntry.GetDestination,
      RoutingTableEntry.SetSeqNo, RoutingTableEntry.SetLifeTime, RoutingTableEntry.SetFlag,
      RoutingTableEntry.SetEntriesChanged, RoutingTableEntry.SetNextHop,
      RoutingTableEntry.SetHop, RoutingTableEntry.SetSettlingTime, hd, hne2]

/-- The main-table lookup at the destination of the update after the
even-sequence-number branch: unchanged, or an entry whose sequence number is that of the
update and not below that of the advertisement entry. -/
theorem RecvDsdvReachable_main (s0 : RoutingProtocol) (a0 : RoutingTableEntry)
    (h : DsdvHeader) (src : Ipv4Address) (hdst : a0.GetDestination = h.m_dst)
    (hs : h.m_dstSeqNo < 2 ^ 32) (m1 : RoutingTableEntry)
    (hm : (s0.RecvDsdvReachable a0 h src).m_routingTable.LookupRoute h.m_dst = some m1) :
    s0.m_routingTable.LookupRoute h.m_dst = some m1 ∨ a0.GetSeqNo ≤ m1.GetSeqNo := by
  have hd : a0.m_dst = h.m_dst := hdst
  have hs32 : h.m_dstSeqNo % 2 ^ 32 = h.m_dstSeqNo := Nat.mod_eq_of_lt hs
  simp only [RoutingProtocol.RecvDsdvReachable, DsdvHeader.GetDst, DsdvHeader.GetDstSeqno,
    DsdvHeader.GetHopCount] at hm
  split_ifs at hm <;>
    (try simp only [RoutingTable_LookupRoute_Update, RoutingTable_LookupRoute_AddIpv4Event,
      RoutingTable_LookupRoute_ForceDeleteIpv4Event, RoutingTable_LookupRoute_DeleteRoute,
      RoutingTableEntry.GetDestination,
      RoutingTableEntry.SetSeqNo, RoutingTableEntry.SetLifeTime, RoutingTableEntry.SetFlag,
      RoutingTableEntry.SetEntriesChanged, RoutingTableEntry.SetNextHop,
      RoutingTableEntry.SetHop, RoutingTableEntry.SetSettlingTime, hd, if_true,
      Option.map_eq_some'] at hm) <;>
    first
    | exact Or.inl hm
    | (obtain ⟨_, _, rfl⟩ := hm
       right
       simp only [RoutingTableEntry.GetSeqNo, hs32] at *
       omega)

/-- After the even-sequence-number branch, an advertisement entry for the destination of the
update is matched by a main-table entry whose sequence number is not higher, provided this was
so before. -/
theorem RecvDsdvReachable_consistent (s0 : RoutingProtocol) (a0 fwd : RoutingTableEntry)
    (h : DsdvHeader) (src : Ipv4Address) (hdst : a0.GetDestination = h.m_dst)
    (hs : h.m_dstSeqNo < 2 ^ 32)
    (hstage : s0.m_advRoutingTable.LookupRoute h.m_dst = some a0)
    (hmain : s0.m_routingTable.LookupRoute h.m_dst = some fwd)
    (hle : fwd.GetSeqNo ≤ a0.GetSeqNo) (a1 : RoutingTableEntry)
    (ha : (s0.RecvDsdvReachable a0 h src).m_advRoutingTable.LookupRoute h.m_dst = some a1) :
    ∃ m1, (s0.RecvDsdvReachable a0 h src).m_routingTable.LookupRoute h.m_dst = some m1
      ∧ m1.GetSeqNo ≤ a1.GetSeqNo := by
  have hd : a0.m_dst = h.m_dst := hdst
  have hs32 : h.m_dstSeqNo % 2 ^ 32 = h.m_dstSeqNo := Nat.mod_eq_of_lt hs
  simp only [RoutingProtocol.RecvDsdvReachable, DsdvHeader.GetDst, DsdvHeader.GetDstSeqno,
    DsdvHeader.GetHopCount] at ha ⊢
  split_ifs at ha ⊢ <;>
    (try simp only [RoutingTable_LookupRoute_Update, RoutingTable_LookupRoute_AddIpv4Event,
      RoutingTable_LookupRoute_ForceDeleteIpv4Event, RoutingTable_LookupRoute_DeleteRoute,
      RoutingTableEntry.GetDestination,
      RoutingTableEntry.SetSeqNo, RoutingTableEntry.SetLifeTime, RoutingTableEntry.SetFlag,
      RoutingTableEntry.SetEntriesChanged, RoutingTableEntry.SetNextHop,
      RoutingTableEntry.SetHop, RoutingTableEntry.SetSettlingTime, hd, if_true,
      hstage, hmain, Option.map_some', Option.some.injEq] at ha ⊢) <;>
    first
    | (subst ha
       first
       | exact ⟨_, rfl, le_refl _⟩
       | exact ⟨_, rfl, hle⟩
       | (refine ⟨_, rfl, ?_⟩
          simp only [RoutingTableEntry.GetSeqNo, hs32] at *
          omega))
    | exact absurd ha (by simp)

theorem RecvDsdvUpdate_even_consistent (s : RoutingProtocol) (h : DsdvHeader)
    (receiver src : Ipv4Address) (hs : h.m_dstSeqNo < 2 ^ 32) (heven : h.m_dstSeqNo % 2 = 0)
    (hJ : AdvConsistent s) : AdvConsistent (s.RecvDsdvUpdate h receiver src) := by
  have hne : ¬ h.m_dstSeqNo % 2 = 1 := by omega
  by_cases hown : ∀ j ∈ s.m_socketAddresses, j.2.GetLocal ≠ h.m_dst
  · cases hmain : s.m_routingTable.LookupRoute h.m_dst with
    | none =>
      have hadv : s.m_advRoutingTable.LookupRoute h.m_dst = none := by
        cases hx : s.m_advRoutingTable.LookupRoute h.m_dst with
        | none => rfl
        | some a =>
          obtain ⟨m, hm, -⟩ := hJ _ _ hx
          rw [hmain] at hm
          exact absurd hm (by simp)
      intro id a
      simp only [RoutingProtocol.RecvDsdvUpdate, DsdvHeader.GetDst, DsdvHeader.GetDstSeqno,
        not_own_count s h.m_dst hown, hmain, gt_iff_lt, lt_self_iff_false, if_false, ne_eq, hne,
        not_false_eq_true, if_true, RoutingTable_LookupRoute_AddRoute,
        RoutingTableEntry.GetDestination, RoutingTableEntry.SetFlag, RoutingTableEntry.mk9]
      by_cases hid : h.m_dst = id
      · subst hid
        simp only [if_true, hmain, hadv, Option.getD_none, Option.some.injEq]
        intro ha
        subst ha
        exact ⟨_, rfl, le_refl _⟩
      · simp only [hid, if_false]
        exact hJ id a
    | some fwd =>
      have hfwd : fwd.GetDestination = h.m_dst := RoutingTable_LookupRoute_dst _ _ _ hmain
      rw [RecvDsdvUpdate_known s h receiver src fwd hown hmain]
      simp only [ne_eq, hne, not_false_eq_true, if_true]
      have hstage := StageAdvertisement_lookup s h.m_dst fwd hfwd
      have hdst : ((s.m_advRoutingTable.LookupRoute h.m_dst).getD fwd).GetDestination = h.m_dst :=
        RoutingTable_LookupRoute_dst _ _ _ hstage
      have hle :
          fwd.GetSeqNo ≤ ((s.m_advRoutingTable.LookupRoute h.m_dst).getD fwd).GetSeqNo := by
        cases hx : s.m_advRoutingTable.LookupRoute h.m_dst with
        | none => simp
        | some a =>
          obtain ⟨m, hm, hle⟩ := hJ _ _ hx
          rw [hmain] at hm
          simp only [Option.some.injEq] at hm
          subst hm
          simpa using hle
      obtain ⟨-, f2, -, -, -⟩ := StageAdvertisement_frame s h.m_dst fwd
      intro id a ha
      by_cases hid : id = h.m_dst
      · subst hid
        exact RecvDsdvReachable_consistent _ _ fwd h src hdst hs hstage (by rw [f2]; exact hmain)
          hle a ha
      · obtain ⟨g1, g2⟩ := RecvDsdvReachable_frame (s.StageAdvertisement h.m_dst fwd)
          ((s.m_advRoutingTable.LookupRoute h.m_dst).getD fwd) h src id hdst hid
        rw [g2, StageAdvertisement_lookup_ne s h.m_dst id fwd hfwd hid] at ha
        rw [g1, f2]
        exact hJ id a ha
  · have hcount : (s.m_socketAddresses.filter
        (fun j => decide (h.m_dst = j.2.GetLocal))).length > 0 := by
      simp only [not_forall, ne_eq, not_not] at hown
      obtain ⟨j, hj, hj2⟩ := hown
      apply List.length_pos_of_mem (a := j)
      simp [List.mem_filter, hj, hj2]
    simp only [RoutingProtocol.RecvDsdvUpdate, DsdvHeader.GetDst, hcount, if_true]
    exact hJ

theorem RecvDsdvUnreachable_main (s0 : RoutingProtocol) (a0 : RoutingTableEntry)
    (h : DsdvHeader) (src id : Ipv4Address) (m1 : RoutingTableEntry)
    (hm : (s0.RecvDsdvUnreachable a0 h src).m_routingTable.LookupRoute id = some m1) :
    s0.m_routingTable.LookupRoute id = some m1 := by
  simp only [RoutingProtocol.RecvDsdvUnreachable, DsdvHeader.GetDst] at hm
  split_ifs at hm
  · rw [(DropAlternate_foldl_frame _ _).2.1, PoisonRouted_foldl_main] at hm
    split_ifs at hm
    simp only [RoutingTable_LookupRoute_DeleteRoute] at hm
    split_ifs at hm
    exact hm
  · exact hm
  · exact hm

theorem RecvDsdvUpdate_main_mono (s : RoutingProtocol) (h : DsdvHeader)
    (receiver src : Ipv4Address) (hs : h.m_dstSeqNo < 2 ^ 32)
    (hP : ∀ a f, s.m_advRoutingTable.LookupRoute h.m_dst = some a →
      s.m_routingTable.LookupRoute h.m_dst = some f → f.GetSeqNo ≤ a.GetSeqNo)
    (id : Ipv4Address) (m m1 : RoutingTableEntry)
    (hm : s.m_routingTable.LookupRoute id = some m)
    (hm1 : (s.RecvDsdvUpdate h receiver src).m_routingTable.LookupRoute id = some m1) :
    m.GetSeqNo ≤ m1.GetSeqNo := by
  by_cases hown : ∀ j ∈ s.m_socketAddresses, j.2.GetLocal ≠ h.m_dst
  · cases hmain : s.m_routingTable.LookupRoute h.m_dst with
    | none =>
      simp only [RoutingProtocol.RecvDsdvUpdate, DsdvHeader.GetDst, DsdvHeader.GetDstSeqno,
        not_own_count s h.m_dst hown, hmain, gt_iff_lt, lt_self_iff_false, if_false] at hm1
      split_ifs at hm1
      · simp only [RoutingTable_LookupRoute_AddRoute, RoutingTableEntry.GetDestination,
          RoutingTableEntry.SetFlag, RoutingTableEntry.mk9] at hm1
        by_cases hid : h.m_dst = id
        · subst hid
          rw [hmain] at hm
          exact absurd hm (by simp)
        · simp only [hid, if_false] at hm1
          rw [hm] at hm1
          simp only [Option.some.injEq] at hm1
          subst hm1
          exact le_refl _
      · rw [hm] at hm1
        simp only [Option.some.injEq] at hm1
        subst hm1
        exact le_refl _
    | some fwd =>
      have hfwd : fwd.GetDestination = h.m_dst := RoutingTable_LookupRoute_dst _ _ _ hmain
      rw [RecvDsdvUpdate_known s h receiver src fwd hown hmain] at hm1
      have hstage := StageAdvertisement_lookup s h.m_dst fwd hfwd
      have hdst : ((s.m_advRoutingTable.LookupRoute h.m_dst).getD fwd).GetDestination = h.m_dst :=
        RoutingTable_LookupRoute_dst _ _ _ hstage
      have hle :
          fwd.GetSeqNo ≤ ((s.m_advRoutingTable.LookupRoute h.m_dst).getD fwd).GetSeqNo := by
        cases hx : s.m_advRoutingTable.LookupRoute h.m_dst with
        | none => simp
        | some a => simpa using hP a fwd hx hmain
      obtain ⟨-, f2, -, -, -⟩ := StageAdvertisement_frame s h.m_dst fwd
      split_ifs at hm1
      · by_cases hid : id = h.m_dst
        · subst hid
          rw [hmain] at hm
          simp only [Option.some.injEq] at hm
          subst hm
          rcases RecvDsdvReachable_main _ _ h src hdst hs m1 hm1 with h1 | h1
          · rw [f2, hmain] at h1
            simp only [Option.some.injEq] at h1
            subst h1
            exact le_refl _
          · exact le_trans hle h1
        · rw [(RecvDsdvReachable_frame _ _ h src id hdst hid).1, f2, hm] at hm1
          simp only [Option.some.injEq] at hm1
          subst hm1
          exact le_refl _
      · have := RecvDsdvUnreachable_main _ _ h src id m1 hm1
        rw [f2, hm] at this
        simp only [Option.some.injEq] at this
        subst this
        exact le_refl _
  · have hcount : (s.m_socketAddresses.filter
        (fun j => decide (h.m_dst = j.2.GetLocal))).length > 0 := by
      simp only [not_forall, ne_eq, not_not] at hown
      obtain ⟨j, hj, hj2⟩ := hown
      apply List.length_pos_of_mem (a := j)
      simp [List.mem_filter, hj, hj2]
    simp only [RoutingProtocol.RecvDsdvUpdate, DsdvHeader.GetDst, hcount, if_true] at hm1
    rw [hm] at hm1
    simp only [Option.some.injEq] at hm1
    subst hm1
    exact le_refl _

theorem RecvDsdvSeq_even_consistent (updates : List (DsdvHeader × Ipv4Address × Ipv4Address))
    (s : RoutingProtocol) (hJ : AdvConsistent s)
    (hev : ∀ u ∈ updates, u.1.m_dstSeqNo < 2 ^ 32 ∧ u.1.m_dstSeqNo % 2 = 0) :
    AdvConsistent (s.RecvDsdvSeq updates) := by
  induction updates generalizing s with
  | nil => exact hJ
  | cons u l ih =>
    simp only [RoutingProtocol.RecvDsdvSeq, List.foldl_cons]
    apply ih
    · exact RecvDsdvUpdate_even_consistent s u.1 u.2.1 u.2.2 (hev u (by simp)).1
        (hev u (by simp)).2 hJ
    · intro v hv
      exact hev v (by simp [hv])

theorem RecvDsdvSeq_append (s : RoutingProtocol)
    (l1 l2 : List (DsdvHeader × Ipv4Address × Ipv4Address)) :
    s.RecvDsdvSeq (l1 ++ l2) = (s.RecvDsdvSeq l1).RecvDsdvSeq l2 := by
  simp [RoutingProtocol.RecvDsdvSeq, List.foldl_append]

/-- C7, as amended. (1) For every `RecvDsdv` call made in a state in which the advertisement
entry for the destination of the update, if there is one, carries a sequence number that is not
lower than that of the main-table entry for it, the sequence number stored in the main table
for a destination does not decrease while the destination stays in the main table. (2) That
condition holds all along a sequence of updates with even sequence numbers that starts in a
state where every advertisement entry has a main-table entry whose sequence number is not
higher (an empty advertisement table, for one); so in such a sequence, several updates for one
destination included, the main-table sequence number of a destination never decreases from one
step to the next. -/
theorem RecvDsdv_main_seqno_monotone :
    (∀ (s : RoutingProtocol) (h : DsdvHeader) (receiver src : Ipv4Address),
      h.m_dstSeqNo < 2 ^ 32 →
      (∀ a f, s.m_advRoutingTable.LookupRoute h.m_dst = some a →
        s.m_routingTable.LookupRoute h.m_dst = some f → f.GetSeqNo ≤ a.GetSeqNo) →
      ∀ (id : Ipv4Address) (m m1 : RoutingTableEntry),
        s.m_routingTable.LookupRoute id = some m →
        (s.RecvDsdvUpdate h receiver src).m_routingTable.LookupRoute id = some m1 →
        m.GetSeqNo ≤ m1.GetSeqNo)
    ∧ (∀ (s : RoutingProtocol) (updates : List (DsdvHeader × Ipv4Address × Ipv4Address)),
      AdvConsistent s →
      (∀ u ∈ updates, u.1.m_dstSeqNo < 2 ^ 32 ∧ u.1.m_dstSeqNo % 2 = 0) →
      ∀ (pre post : List (DsdvHeader × Ipv4Address × Ipv4Address))
        (u : DsdvHeader × Ipv4Address × Ipv4Address),
        updates = pre ++ u :: post →
        ∀ (id : Ipv4Address) (m m1 : RoutingTableEntry),
          (s.RecvDsdvSeq pre).m_routingTable.LookupRoute id = some m →
          (s.RecvDsdvSeq (pre ++ [u])).m_routingTable.LookupRoute id = some m1 →
          m.GetSeqNo ≤ m1.GetSeqNo) := by
  refine ⟨fun s h receiver src hs hP id m m1 hm hm1 =>
    RecvDsdvUpdate_main_mono s h receiver src hs hP id m m1 hm hm1, ?_⟩
  intro s updates hJ hev pre post u hsplit id m m1 hm hm1
  have hpre : AdvConsistent (s.RecvDsdvSeq pre) :=
    RecvDsdvSeq_even_consistent pre s hJ (fun v hv => hev v (by simp [hsplit, hv]))
  have hu := hev u (by simp [hsplit])
  rw [RecvDsdvSeq_append] at hm1
  simp only [RoutingProtocol.RecvDsdvSeq, List.foldl_cons, List.foldl_nil] at hm1 hm
  refine RecvDsdvUpdate_main_mono _ u.1 u.2.1 u.2.2 hu.1 ?_ id m m1 hm hm1
  intro a f ha hf
  obtain ⟨m2, hm2, hle⟩ := hpre _ _ ha
  simp only [RoutingProtocol.RecvDsdvSeq] at hm2
  rw [hf] at hm2
  simp only [Option.some.injEq] at hm2
  subst hm2
  exact hle

/-- Witness for C7 as amended: the node without a route to `D` receives `(D, seq=4, hop=1)` and
then `(D, seq=6, hop=2)` from `S`; the main-table sequence number of `D` goes from 4 to 6. -/
theorem RecvDsdv_main_seqno_monotone_witness :
    (AdvConsistent exampleNode
      ∧ (∀ u ∈ [(({ m_dst := exampleD, m_hopCount := 1, m_dstSeqNo := 4 } : DsdvHeader),
                  exampleIface.GetLocal, exampleS),
                (({ m_dst := exampleD, m_hopCount := 2, m_dstSeqNo := 6 } : DsdvHeader),
                  exampleIface.GetLocal, exampleS)],
          u.1.m_dstSeqNo < 2 ^ 32 ∧ u.1.m_dstSeqNo % 2 = 0)
      ∧ ((exampleNode.RecvDsdvSeq
            [({ m_dst := exampleD, m_hopCount := 1, m_dstSeqNo := 4 }, exampleIface.GetLocal,
              exampleS)]).m_routingTable.LookupRoute exampleD).map RoutingTableEntry.GetSeqNo
          = some 4
      ∧ ((exampleNode.RecvDsdvSeq
            ([({ m_dst := exampleD, m_hopCount := 1, m_dstSeqNo := 4 }, exampleIface.GetLocal,
              exampleS)] ++
             [({ m_dst := exampleD, m_hopCount := 2, m_dstSeqNo := 6 }, exampleIface.GetLocal,
              exampleS)])).m_routingTable.LookupRoute exampleD).map RoutingTableEntry.GetSeqNo
          = some 6)
    ∧ ∀ (id : Ipv4Address) (m m1 : RoutingTableEntry),
        (exampleNode.RecvDsdvSeq
          [({ m_dst := exampleD, m_hopCount := 1, m_dstSeqNo := 4 }, exampleIface.GetLocal,
            exampleS)]).m_routingTable.LookupRoute id = some m →
        (exampleNode.RecvDsdvSeq
          ([({ m_dst := exampleD, m_hopCount := 1, m_dstSeqNo := 4 }, exampleIface.GetLocal,
            exampleS)] ++
           [({ m_dst := exampleD, m_hopCount := 2, m_dstSeqNo := 6 }, exampleIface.GetLocal,
            exampleS)])).m_routingTable.LookupRoute id = some m1 →
        m.GetSeqNo ≤ m1.GetSeqNo :=
  ⟨⟨fun id a h => by simp [exampleNode, emptyTable, RoutingTable.LookupRoute] at h,
    by decide, by decide, by decide⟩,
   RecvDsdv_main_seqno_monotone.2 exampleNode
     [({ m_dst := exampleD, m_hopCount := 1, m_dstSeqNo := 4 }, exampleIface.GetLocal, exampleS),
      ({ m_dst := exampleD, m_hopCount := 2, m_dstSeqNo := 6 }, exampleIface.GetLocal, exampleS)]
     (fun id a h => by simp [exampleNode, emptyTable, RoutingTable.LookupRoute] at h)
     (by decide)
     [({ m_dst := exampleD, m_hopCount := 1, m_dstSeqNo := 4 }, exampleIface.GetLocal, exampleS)]
     []
     ({ m_dst := exampleD, m_hopCount := 2, m_dstSeqNo := 6 }, exampleIface.GetLocal, exampleS)
     rfl⟩

/-- Counterexample to C7 as stated: the node without a route to `D` receives from `S`, one
after the other, `(D, seq=4, hop=1)`, the unreachability notice `(D, seq=5)`,
`(D, seq=8, hop=1)` and `(D, seq=6, hop=2)`. After the third update the main table holds `D`
with sequence number 8; the fourth, compared with the stale advertisement entry of sequence
number 5, lowers it to 6. -/
theorem RecvDsdv_main_seqno_decrease_counterexample :
    ((exampleNode.RecvDsdvSeq
        [({ m_dst := exampleD, m_hopCount := 1, m_dstSeqNo := 4 }, exampleIface.GetLocal,
          exampleS),
         ({ m_dst := exampleD, m_hopCount := 1, m_dstSeqNo := 5 }, exampleIface.GetLocal,
          exampleS),
         ({ m_dst := exampleD, m_hopCount := 1, m_dstSeqNo := 8 }, exampleIface.GetLocal,
          exampleS)]).m_routingTable.LookupRoute exampleD).map RoutingTableEntry.GetSeqNo
      = some 8
    ∧ ((exampleNode.RecvDsdvSeq
        [({ m_dst := exampleD, m_hopCount := 1, m_dstSeqNo := 4 }, exampleIface.GetLocal,
          exampleS),
         ({ m_dst := exampleD, m_hopCount := 1, m_dstSeqNo := 5 }, exampleIface.GetLocal,
          exampleS),
         ({ m_dst := exampleD, m_hopCount := 1, m_dstSeqNo := 8 }, exampleIface.GetLocal,
          exampleS),
         ({ m_dst := exampleD, m_hopCount := 2, m_dstSeqNo := 6 }, exampleIface.GetLocal,
          exampleS)]).m_routingTable.LookupRoute exampleD).map RoutingTableEntry.GetSeqNo
      = some 6 := by
  decide

/-! ## Settling-timer events -/

theorem find?_key_none_filter (evs : List (Ipv4Address × EventId)) (D : Ipv4Address)
    (h : evs.find? (fun p => decide (p.1 = D)) = none) :
    evs.filter (fun q => !decide (q.1 = D)) = evs := by
  rw [List.filter_eq_self]
  intro a ha
  have := List.find?_eq_none.mp h a ha
  simpa using this

theorem RoutingTable_ForceDeleteIpv4Event_events (t : RoutingTable) (sim : Simulator)
    (D : Ipv4Address) :
    (t.ForceDeleteIpv4Event sim D).2.1.m_ipv4Events
      = t.m_ipv4Events.filter (fun q => !decide (q.1 = D)) := by
  unfold RoutingTable.ForceDeleteIpv4Event
  cases h : t.m_ipv4Events.find? (fun p => decide (p.1 = D)) with
  | none => simp only; exact (find?_key_none_filter _ _ h).symm
  | some p => rfl

theorem RoutingTable_ForceDeleteIpv4Event_sim (t : RoutingTable) (sim : Simulator)
    (D : Ipv4Address) :
    (t.ForceDeleteIpv4Event sim D).2.2
      = match t.m_ipv4Events.find? (fun p => decide (p.1 = D)) with
        | some p => sim.Cancel p.2
        | none => sim := by
  unfold RoutingTable.ForceDeleteIpv4Event
  cases h : t.m_ipv4Events.find? (fun p => decide (p.1 = D)) <;> rfl

theorem RoutingTable_AddIpv4Event_after_ForceDelete (t : RoutingTable) (sim : Simulator)
    (D : Ipv4Address) (e : EventId) :
    ((t.ForceDeleteIpv4Event sim D).2.1.AddIpv4Event D e).2.m_ipv4Events
      = t.m_ipv4Events.filter (fun q => !decide (q.1 = D)) ++ [(D, e)] := by
  have hnone : (t.ForceDeleteIpv4Event sim D).2.1.m_ipv4Events.find?
      (fun p => decide (p.1 = D)) = none := by
    rw [RoutingTable_ForceDeleteIpv4Event_events, List.find?_eq_none]
    intro a ha
    simp only [List.mem_filter, Bool.not_eq_eq_eq_not, Bool.not_true,
      decide_eq_false_iff_not] at ha
    simpa using ha.2
  unfold RoutingTable.AddIpv4Event
  rw [hnone]
  simp only
  rw [RoutingTable_ForceDeleteIpv4Event_events]

theorem RecvDsdvReachable_events_cases (s0 : RoutingProtocol) (a0 : RoutingTableEntry)
    (h : DsdvHeader) (src : Ipv4Address) :
    ((s0.RecvDsdvReachable a0 h src).m_advRoutingTable.m_ipv4Events
        = s0.m_advRoutingTable.m_ipv4Events
      ∧ (s0.RecvDsdvReachable a0 h src).m_simulator = s0.m_simulator)
    ∨ ((s0.RecvDsdvReachable a0 h src).m_advRoutingTable.m_ipv4Events
        = s0.m_advRoutingTable.m_ipv4Events.filter (fun q => !decide (q.1 = h.m_dst))
      ∧ (s0.RecvDsdvReachable a0 h src).m_simulator
        = (s0.m_advRoutingTable.ForceDeleteIpv4Event s0.m_simulator h.m_dst).2.2)
    ∨ (∃ delay : Time,
      (s0.RecvDsdvReachable a0 h src).m_advRoutingTable.m_ipv4Events
        = s0.m_advRoutingTable.m_ipv4Events.filter (fun q => !decide (q.1 = h.m_dst))
          ++ [(h.m_dst,
              ((s0.m_advRoutingTable.ForceDeleteIpv4Event s0.m_simulator h.m_dst).2.2.Schedule
                delay EventImpl.SendTriggeredUpdate).2)]
      ∧ (s0.RecvDsdvReachable a0 h src).m_simulator
        = ((s0.m_advRoutingTable.ForceDeleteIpv4Event s0.m_simulator h.m_dst).2.2.Schedule
            delay EventImpl.SendTriggeredUpdate).1) := by
  simp only [RoutingProtocol.RecvDsdvReachable, DsdvHeader.GetDst]
  split_ifs
  · right; right
    exact ⟨_, by
      simp only [RoutingTable_Update_events, RoutingTable_AddIpv4Event_after_ForceDelete], rfl⟩
  · right; left
    exact ⟨by simp only [RoutingTable_Update_events, RoutingTable_ForceDeleteIpv4Event_events],
      rfl⟩
  · right; right
    exact ⟨_, by
      simp only [RoutingTable_Update_events, RoutingTable_AddIpv4Event_after_ForceDelete], rfl⟩
  · left
    exact ⟨by simp only [RoutingTable_DeleteRoute_events], rfl⟩
  · left
    exact ⟨by simp only [RoutingTable_DeleteRoute_events], rfl⟩
  · left; exact ⟨rfl, rfl⟩
  · left
    exact ⟨by simp only [RoutingTable_DeleteRoute_events], rfl⟩
  · left; exact ⟨rfl, rfl⟩

theorem RecvDsdvUnreachable_events (s0 : RoutingProtocol) (a0 : RoutingTableEntry)
    (h : DsdvHeader) (src : Ipv4Address) :
    (s0.RecvDsdvUnreachable a0 h src).m_advRoutingTable.m_ipv4Events
        = s0.m_advRoutingTable.m_ipv4Events
      ∧ (s0.RecvDsdvUnreachable a0 h src).m_simulator = s0.m_simulator := by
  simp only [RoutingProtocol.RecvDsdvUnreachable, DsdvHeader.GetDst]
  split_ifs
  · rw [(DropAlternate_foldl_frame _ _).1, (DropAlternate_foldl_frame _ _).2.2.1,
      (PoisonRouted_foldl_frame _ _).1, (PoisonRouted_foldl_frame _ _).2.2.1]
    exact ⟨by simp only [RoutingTable_Update_events], rfl⟩
  · exact ⟨by simp only [RoutingTable_DeleteRoute_events], rfl⟩
  · exact ⟨rfl, rfl⟩

theorem own_count (s : RoutingProtocol) (D : Ipv4Address)
    (hown : ¬ ∀ j ∈ s.m_socketAddresses, j.2.GetLocal ≠ D) :
    (s.m_socketAddresses.filter (fun j => decide (D = j.2.GetLocal))).length > 0 := by
  simp only [not_forall, ne_eq, not_not] at hown
  obtain ⟨j, hj, hj2⟩ := hown
  apply List.length_pos_of_mem (a := j)
  simp [List.mem_filter, hj, hj2]

/-- What one `RecvDsdv` call does to the event registry of the advertisement table and to the
scheduler: nothing; or the event registered for the destination is cancelled and its
registration removed; or, after that, a new event is scheduled and registered for the
destination. -/
theorem RecvDsdvUpdate_events_cases (s : RoutingProtocol) (h : DsdvHeader)
    (receiver src : Ipv4Address) :
    ((s.RecvDsdvUpdate h receiver src).m_advRoutingTable.m_ipv4Events
        = s.m_advRoutingTable.m_ipv4Events
      ∧ (s.RecvDsdvUpdate h receiver src).m_simulator = s.m_simulator)
    ∨ ((s.RecvDsdvUpdate h receiver src).m_advRoutingTable.m_ipv4Events
        = s.m_advRoutingTable.m_ipv4Events.filter (fun q => !decide (q.1 = h.m_dst))
      ∧ (s.RecvDsdvUpdate h receiver src).m_simulator
        = (s.m_advRoutingTable.ForceDeleteIpv4Event s.m_simulator h.m_dst).2.2)
    ∨ (∃ delay : Time,
      (s.RecvDsdvUpdate h receiver src).m_advRoutingTable.m_ipv4Events
        = s.m_advRoutingTable.m_ipv4Events.filter (fun q => !decide (q.1 = h.m_dst))
          ++ [(h.m_dst,
              ((s.m_advRoutingTable.ForceDeleteIpv4Event s.m_simulator h.m_dst).2.2.Schedule
                delay EventImpl.SendTriggeredUpdate).2)]
      ∧ (s.RecvDsdvUpdate h receiver src).m_simulator
        = ((s.m_advRoutingTable.ForceDeleteIpv4Event s.m_simulator h.m_dst).2.2.Schedule
            delay EventImpl.SendTriggeredUpdate).1) := by
  by_cases hown : ∀ j ∈ s.m_socketAddresses, j.2.GetLocal ≠ h.m_dst
  · cases hmain : s.m_routingTable.LookupRoute h.m_dst with
    | none =>
      left
      simp only [RoutingProtocol.RecvDsdvUpdate, DsdvHeader.GetDst, DsdvHeader.GetDstSeqno,
        not_own_count s h.m_dst hown, hmain, gt_iff_lt, lt_self_iff_false, if_false]
      split_ifs
      · exact ⟨by simp only [RoutingTable_AddRoute_events], rfl⟩
      · exact ⟨rfl, rfl⟩
    | some fwd =>
      rw [RecvDsdvUpdate_known s h receiver src fwd hown hmain]
      obtain ⟨f1, -, -, f4, -⟩ := StageAdvertisement_frame s h.m_dst fwd
      have hsim : ((s.StageAdvertisement h.m_dst fwd).m_advRoutingTable.ForceDeleteIpv4Event
          (s.StageAdvertisement h.m_dst fwd).m_simulator h.m_dst).2.2
          = (s.m_advRoutingTable.ForceDeleteIpv4Event s.m_simulator h.m_dst).2.2 := by
        rw [RoutingTable_ForceDeleteIpv4Event_sim, RoutingTable_ForceDeleteIpv4Event_sim, f1, f4]
      split_ifs
      · have := RecvDsdvReachable_events_cases (s.StageAdvertisement h.m_dst fwd)
          ((s.m_advRoutingTable.LookupRoute h.m_dst).getD fwd) h src
        rw [hsim, f1, f4] at this
        exact this
      · left
        have := RecvDsdvUnreachable_events (s.StageAdvertisement h.m_dst fwd)
          ((s.m_advRoutingTable.LookupRoute h.m_dst).getD fwd) h src
        rw [f1, f4] at this
        exact this
  · left
    simp only [RoutingProtocol.RecvDsdvUpdate, DsdvHeader.GetDst, own_count s h.m_dst hown,
      if_true, and_self]

theorem find?_key_unique (evs : List (Ipv4Address × EventId)) (D : Ipv4Address)
    (p q : Ipv4Address × EventId) (hnd : (evs.map Prod.fst).Nodup)
    (hp : evs.find? (fun p => decide (p.1 = D)) = some p) (hq : q ∈ evs) (hqD : q.1 = D) :
    q = p := by
  have hpm : p ∈ evs := List.mem_of_find?_eq_some hp
  have hpD : p.1 = D := by simpa using List.find?_some hp
  exact List.inj_on_of_nodup_map hnd hq hpm (hqD.trans hpD.symm)

theorem find?_key_some_of_mem (evs : List (Ipv4Address × EventId)) (q : Ipv4Address × EventId)
    (hq : q ∈ evs) : ∃ p, evs.find? (fun p => decide (p.1 = q.1)) = some p := by
  cases h : evs.find? (fun p => decide (p.1 = q.1)) with
  | some p => exact ⟨p, rfl⟩
  | none =>
    have := List.find?_eq_none.mp h q hq
    simp at this

theorem ForceDelete_sim_uid (t : RoutingTable) (sim : Simulator) (D : Ipv4Address) :
    (t.ForceDeleteIpv4Event sim D).2.2.m_uid = sim.m_uid := by
  rw [RoutingTable_ForceDeleteIpv4Event_sim]
  cases t.m_ipv4Events.find? (fun p => decide (p.1 = D)) <;> rfl

theorem ForceDelete_sim_events (t : RoutingTable) (sim : Simulator) (D : Ipv4Address)
    (e1 : Event) (he : e1 ∈ (t.ForceDeleteIpv4Event sim D).2.2.m_events) :
    ∃ e ∈ sim.m_events, e1.uid = e.uid
      ∧ (e1.cancelled = false → e1 = e
          ∧ ∀ p, t.m_ipv4Events.find? (fun p => decide (p.1 = D)) = some p →
              e.uid ≠ p.2) := by
  rw [RoutingTable_ForceDeleteIpv4Event_sim] at he
  cases h : t.m_ipv4Events.find? (fun p => decide (p.1 = D)) with
  | none =>
    rw [h] at he
    exact ⟨e1, he, rfl, fun _ => ⟨rfl, fun p hp => by simp at hp⟩⟩
  | some p =>
    rw [h] at he
    simp only [Simulator.Cancel, List.mem_map] at he
    obtain ⟨e, hem, rfl⟩ := he
    refine ⟨e, hem, ?_, ?_⟩
    · split <;> rfl
    · intro hc
      by_cases hu : e.uid = p.2
      · simp [hu] at hc
      · simp only [hu, if_false]
        refine ⟨trivial, ?_⟩
        intro p1 hp1
        simp only [Option.some.injEq] at hp1
        subst hp1
        exact hu

theorem ForceDelete_not_running (t : RoutingTable) (sim : Simulator) (D : Ipv4Address)
    (p : Ipv4Address × EventId)
    (hp : t.m_ipv4Events.find? (fun p => decide (p.1 = D)) = some p) :
    ∀ e ∈ (t.ForceDeleteIpv4Event sim D).2.2.m_events, e.uid = p.2 → e.cancelled = true := by
  intro e he hu
  rw [RoutingTable_ForceDeleteIpv4Event_sim, hp] at he
  simp only [Simulator.Cancel, List.mem_map] at he
  obtain ⟨e0, -, rfl⟩ := he
  by_cases h0 : e0.uid = p.2
  · simp [h0]
  · simp only [h0, if_false] at hu

theorem RecvDsdvUpdate_events_invariants (s : RoutingProtocol) (h : DsdvHeader)
    (receiver src : Ipv4Address) (uid0 : Nat) (hwf : EventsWellFormed s)
    (hR : ScheduledAreRegistered uid0 s) :
    EventsWellFormed (s.RecvDsdvUpdate h receiver src)
    ∧ ScheduledAreRegistered uid0 (s.RecvDsdvUpdate h receiver src)
    ∧ s.m_simulator.m_uid ≤ (s.RecvDsdvUpdate h receiver src).m_simulator.m_uid := by
  obtain ⟨hnd, hreg, hsim⟩ := hwf
  have hndf : ((s.m_advRoutingTable.m_ipv4Events.filter
      (fun q => !decide (q.1 = h.m_dst))).map Prod.fst).Nodup :=
    (List.Sublist.map _ (List.filter_sublist _)).nodup hnd
  -- events that survive a forced deletion are registered for another destination
  have hkeep :
      ∀ e1 ∈ (s.m_advRoutingTable.ForceDeleteIpv4Event s.m_simulator h.m_dst).2.2.m_events,
      uid0 ≤ e1.uid → e1.cancelled = false →
      ∃ D, (D, e1.uid) ∈ s.m_advRoutingTable.m_ipv4Events.filter
        (fun q => !decide (q.1 = h.m_dst)) := by
    intro e1 he1 hge hc
    obtain ⟨e, hem, huid, hrest⟩ := ForceDelete_sim_events _ _ _ e1 he1
    obtain ⟨rfl, hne⟩ := hrest hc
    obtain ⟨D, hD⟩ := hR e1 hem hge hc
    refine ⟨D, ?_⟩
    simp only [List.mem_filter, hD, true_and, Bool.not_eq_eq_eq_not, Bool.not_true,
      decide_eq_false_iff_not]
    intro hDD
    obtain ⟨p, hp⟩ := find?_key_some_of_mem _ _ hD
    simp only [hDD] at hp
    have := find?_key_unique _ _ p (D, e1.uid) hnd hp hD hDD
    exact hne p hp (by rw [← this])
  rcases RecvDsdvUpdate_events_cases s h receiver src with
    ⟨h1, h2⟩ | ⟨h1, h2⟩ | ⟨delay, h1, h2⟩
  · refine ⟨⟨by rw [h1]; exact hnd, by rw [h1, h2]; exact hreg, by rw [h2]; exact hsim⟩, ?_,
      by rw [h2]⟩
    intro e he hge hc
    rw [h2] at he
    rw [h1]
    exact hR e he hge hc
  · have huid := ForceDelete_sim_uid s.m_advRoutingTable s.m_simulator h.m_dst
    refine ⟨⟨by rw [h1]; exact hndf, ?_, ?_⟩, ?_, by rw [h2, huid]⟩
    · intro p hp
      rw [h1] at hp
      rw [h2, huid]
      exact hreg p (List.mem_of_mem_filter hp)
    · intro e he
      rw [h2] at he
      rw [h2, huid]
      obtain ⟨e0, hem, hu0, -⟩ := ForceDelete_sim_events _ _ _ e he
      rw [hu0]
      exact hsim e0 hem
    · intro e he hge hc
      rw [h2] at he
      rw [h1]
      exact hkeep e he hge hc
  · have huid := ForceDelete_sim_uid s.m_advRoutingTable s.m_simulator h.m_dst
    simp only [Simulator.Schedule] at h1 h2
    rw [huid] at h1 h2
    refine ⟨⟨?_, ?_, ?_⟩, ?_, by rw [h2]; simp⟩
    · rw [h1, List.map_append, List.nodup_append]
      refine ⟨hndf, by simp, ?_⟩
      intro a ha hb
      simp only [List.map_cons, List.map_nil, List.mem_singleton] at hb
      subst hb
      simp only [List.mem_map, List.mem_filter, Bool.not_eq_eq_eq_not, Bool.not_true,
        decide_eq_false_iff_not] at ha
      obtain ⟨q, ⟨-, hq⟩, hq2⟩ := ha
      exact hq hq2
    · intro p hp
      rw [h1] at hp
      rw [h2]
      simp only [List.mem_append, List.mem_singleton] at hp
      rcases hp with hp | rfl
      · exact Nat.lt_succ_of_lt (hreg p (List.mem_of_mem_filter hp))
      · exact Nat.lt_succ_self _
    · intro e he
      rw [h2] at he ⊢
      simp only [List.mem_append, List.mem_singleton] at he
      rcases he with he | rfl
      · obtain ⟨e0, hem, hu0, -⟩ := ForceDelete_sim_events _ _ _ e he
        rw [hu0]
        exact Nat.lt_succ_of_lt (hsim e0 hem)
      · exact Nat.lt_succ_self _
    · intro e he hge hc
      rw [h2] at he
      rw [h1]
      simp only [List.mem_append, List.mem_singleton] at he
      rcases he with he | rfl
      · obtain ⟨D, hD⟩ := hkeep e he hge hc
        exact ⟨D, List.mem_append_left _ hD⟩
      · exact ⟨h.m_dst, by simp⟩

theorem RecvDsdvSeq_events_invariants
    (updates : List (DsdvHeader × Ipv4Address × Ipv4Address)) (s : RoutingProtocol) (uid0 : Nat)
    (hwf : EventsWellFormed s) (hR : ScheduledAreRegistered uid0 s) :
    EventsWellFormed (s.RecvDsdvSeq updates)
    ∧ ScheduledAreRegistered uid0 (s.RecvDsdvSeq updates) := by
  induction updates generalizing s with
  | nil => exact ⟨hwf, hR⟩
  | cons u l ih =>
    simp only [RoutingProtocol.RecvDsdvSeq, List.foldl_cons]
    obtain ⟨h1, h2, -⟩ := RecvDsdvUpdate_events_invariants s u.1 u.2.1 u.2.2 uid0 hwf hR
    exact ih _ h1 h2

theorem outstanding_le_one (s : RoutingProtocol) (D : Ipv4Address)
    (hnd : (s.m_advRoutingTable.m_ipv4Events.map Prod.fst).Nodup) :
    (s.outstandingSettlingEvents D).length ≤ 1 := by
  unfold RoutingProtocol.outstandingSettlingEvents
  rw [List.length_map]
  have hsub : (s.m_advRoutingTable.m_ipv4Events.filter
      (fun p => decide (p.1 = D) && s.m_simulator.IsRunning p.2)).map Prod.fst
      ⊆ [D] := by
    intro a ha
    simp only [List.mem_map, List.mem_filter, Bool.and_eq_true, decide_eq_true_eq] at ha
    obtain ⟨q, ⟨-, hq, -⟩, rfl⟩ := ha
    simp [hq]
  have hnd2 : ((s.m_advRoutingTable.m_ipv4Events.filter
      (fun p => decide (p.1 = D) && s.m_simulator.IsRunning p.2)).map Prod.fst).Nodup :=
    (List.Sublist.map _ (List.filter_sublist _)).nodup hnd
  have := (List.subperm_of_subset hnd2 hsub).length_le
  simpa using this

theorem RecvDsdvUpdate_cancels_replaced (s : RoutingProtocol) (h : DsdvHeader)
    (receiver src : Ipv4Address) (hwf : EventsWellFormed s) (D : Ipv4Address) (e : EventId)
    (hmem : (D, e) ∈ s.m_advRoutingTable.m_ipv4Events)
    (hgone : (D, e) ∉ (s.RecvDsdvUpdate h receiver src).m_advRoutingTable.m_ipv4Events) :
    (s.RecvDsdvUpdate h receiver src).m_simulator.IsRunning e = false := by
  obtain ⟨hnd, hreg, hsim⟩ := hwf
  -- the registration that went away is the one found for the destination of the update
  have hfound : (D, e) ∉ s.m_advRoutingTable.m_ipv4Events.filter
      (fun q => !decide (q.1 = h.m_dst)) →
      s.m_advRoutingTable.m_ipv4Events.find? (fun p => decide (p.1 = h.m_dst))
        = some (D, e) := by
    intro hf
    have hD : D = h.m_dst := by
      by_contra hne
      exact hf (by simp [List.mem_filter, hmem, hne])
    obtain ⟨p, hp⟩ := find?_key_some_of_mem _ _ hmem
    simp only [hD] at hp
    rw [hp, ← find?_key_unique _ _ p (D, e) hnd hp hmem hD]
  have hcancel : (D, e) ∉ s.m_advRoutingTable.m_ipv4Events.filter
      (fun q => !decide (q.1 = h.m_dst)) →
      ∀ ev ∈ (s.m_advRoutingTable.ForceDeleteIpv4Event s.m_simulator h.m_dst).2.2.m_events,
        ev.uid = e → ev.cancelled = true := fun hf =>
    ForceDelete_not_running _ _ _ _ (hfound hf)
  rcases RecvDsdvUpdate_events_cases s h receiver src with
    ⟨h1, h2⟩ | ⟨h1, h2⟩ | ⟨delay, h1, h2⟩
  · rw [h1] at hgone
    exact absurd hmem hgone
  · rw [h1] at hgone
    rw [h2]
    simp only [Simulator.IsRunning, List.any_eq_false, Bool.and_eq_true, decide_eq_true_eq,
      Bool.not_eq_eq_eq_not, Bool.not_true, not_and, Bool.not_eq_false]
    exact hcancel hgone
  · rw [h1] at hgone
    simp only [List.mem_append, not_or] at hgone
    have huid := ForceDelete_sim_uid s.m_advRoutingTable s.m_simulator h.m_dst
    rw [h2]
    simp only [Simulator.IsRunning, Simulator.Schedule, List.any_eq_false, Bool.and_eq_true,
      decide_eq_true_eq, Bool.not_eq_eq_eq_not, Bool.not_true, not_and, Bool.not_eq_false,
      List.mem_append, List.mem_singleton]
    intro ev hev hu
    rcases hev with hev | rfl
    · exact hcancel hgone.1 ev hev hu
    · simp only [huid] at hu
      have hlt : e < s.m_simulator.m_uid := hreg _ hmem
      rw [hu] at hlt
      exact absurd hlt (lt_irrefl _)

/-! ## The receive loop -/

theorem TypeHeader_Deserialize_Serialize (t : MessageType) (h0 : TypeHeader) (rest : List Nat) :
    TypeHeader.Deserialize h0 ((TypeHeader.mk1 t).Serialize ++ rest)
      = some (TypeHeader.mk1 t, 2) := by
  have hlen : ∀ n, Buffer.GetDistanceFrom rest (Buffer.WriteU16 n ++ rest) = 2 := by
    intro n
    simp only [Buffer.GetDistanceFrom, Buffer.WriteU16, List.cons_append, List.nil_append,
      List.length_cons]
    omega
  cases t <;>
    simp [TypeHeader.Deserialize, TypeHeader.Serialize, TypeHeader.mk1, MessageType.toNat,
      Buffer.ReadU16_WriteU16, hlen]

theorem TypeHeader_Deserialize_unknown (v : Nat) (hv : v < 2 ^ 16)
    (hinv : v ≠ 1 ∧ v ≠ 2 ∧ v ≠ 3) (h0 : TypeHeader) (rest : List Nat) :
    TypeHeader.Deserialize h0 (Buffer.WriteU16 v ++ rest)
      = some ({ h0 with m_valid := false }, 2) := by
  have hlen : Buffer.GetDistanceFrom rest (Buffer.WriteU16 v ++ rest) = 2 := by
    simp only [Buffer.GetDistanceFrom, Buffer.WriteU16, List.cons_append, List.nil_append,
      List.length_cons]
    omega
  simp [TypeHeader.Deserialize, Buffer.ReadU16_WriteU16 v hv, hlen, hinv.1, hinv.2.1, hinv.2.2]

theorem RecvRouteRequest_Serialize (s : RoutingProtocol) (h : RreqHeader) (rest : List Nat)
    (receiver src : Ipv4Address) (hd : h.m_dst < 2 ^ 32) (hr : h.m_reserved < 2 ^ 8) :
    s.RecvRouteRequest (h.Serialize ++ rest) receiver src
      = some (s.RecvRouteRequestHeader h receiver src, rest) := by
  have hdrop : (h.Serialize ++ rest).drop 6 = rest := by
    simp [RreqHeader.Serialize, Buffer.WriteTo, Buffer.WriteHtonU32, Buffer.WriteU16]
  simp only [RoutingProtocol.RecvRouteRequest, RoutingProtocol.RemoveHeader,
    RreqHeader_Deserialize_Serialize h _ hd hr rest, hdrop]

theorem RecvRouteAck_Serialize (s : RoutingProtocol) (h : RackHeader) (rest : List Nat)
    (receiver src : Ipv4Address) (hd : h.m_dst < 2 ^ 32) (hh : h.m_hopCount < 2 ^ 16)
    (hu : h.m_updateTime < 2 ^ 32) :
    s.RecvRouteAck (h.Serialize ++ rest) receiver src
      = some (s.RecvRouteAckHeader h receiver src, rest) := by
  have hdrop : (h.Serialize ++ rest).drop 10 = rest := by
    simp [RackHeader.Serialize, Buffer.WriteTo, Buffer.WriteHtonU32, Buffer.WriteHtonU16]
  simp only [RoutingProtocol.RecvRouteAck, RoutingProtocol.RemoveHeader,
    RackHeader_Deserialize_Serialize h _ hd hh hu rest, hdrop]

theorem Message_encode_length (m : Message) :
    m.encode.length = match m with
      | .dsdv _ => 12
      | .rreq _ => 8
      | .rack _ => 12 := by
  cases m <;> rfl

/-- One iteration of the receive loop on a packet that starts with a well-formed message. -/
theorem RecvEffDsdvLoop_message (receiver sender : Ipv4Address) (fuel : Nat)
    (s : RoutingProtocol) (m : Message) (rest : List Nat) (packetSize : Nat) (c : Bool)
    (hwf : m.WellFormed) (hpos : 0 < packetSize) :
    RoutingProtocol.RecvEffDsdvLoop receiver sender (fuel + 1) s (m.encode ++ rest) packetSize c
      = RoutingProtocol.RecvEffDsdvLoop receiver sender fuel (m.handle receiver sender s) rest
          ((packetSize + 2 ^ 32 - m.encode.length) % 2 ^ 32)
          (match m with
            | .dsdv _ => true
            | _ => c) := by
  cases m with
  | dsdv h =>
    obtain ⟨h1, h2, h3⟩ := hwf
    have hlen : (Message.dsdv h).encode.length = 12 := rfl
    rw [hlen]
    simp only [Message.encode, List.append_assoc]
    rw [RoutingProtocol.RecvEffDsdvLoop]
    have hdrop : ((TypeHeader.mk1 .DSDVTYPE_DSDV).Serialize ++ (h.Serialize ++ rest)).drop 2
        = h.Serialize ++ rest := by
      simp [TypeHeader.Serialize, Buffer.WriteU16]
    simp only [hpos, gt_iff_lt, if_true, RoutingProtocol.RemoveHeader,
      TypeHeader_Deserialize_Serialize, hdrop,
      RecvDsdv_Serialize s h rest receiver sender h1 h2 h3]
    simp only [TypeHeader.IsValid, TypeHeader.mk1, TypeHeader.Get, Bool.not_true,
      Bool.false_eq_true, if_false, Message.handle]
  | rreq h =>
    obtain ⟨h1, h2⟩ := hwf
    have hlen : (Message.rreq h).encode.length = 8 := rfl
    rw [hlen]
    simp only [Message.encode, List.append_assoc]
    rw [RoutingProtocol.RecvEffDsdvLoop]
    have hdrop : ((TypeHeader.mk1 .DSDVTYPE_RREQ).Serialize ++ (h.Serialize ++ rest)).drop 2
        = h.Serialize ++ rest := by
      simp [TypeHeader.Serialize, Buffer.WriteU16]
    simp only [hpos, gt_iff_lt, if_true, RoutingProtocol.RemoveHeader,
      TypeHeader_Deserialize_Serialize, hdrop,
      RecvRouteRequest_Serialize s h rest receiver sender h1 h2]
    simp only [TypeHeader.IsValid, TypeHeader.mk1, TypeHeader.Get, Bool.not_true,
      Bool.false_eq_true, if_false, Message.handle]
  | rack h =>
    obtain ⟨h1, h2, h3⟩ := hwf
    have hlen : (Message.rack h).encode.length = 12 := rfl
    rw [hlen]
    simp only [Message.encode, List.append_assoc]
    rw [RoutingProtocol.RecvEffDsdvLoop]
    have hdrop : ((TypeHeader.mk1 .DSDVTYPE_RACK).Serialize ++ (h.Serialize ++ rest)).drop 2
        = h.Serialize ++ rest := by
      simp [TypeHeader.Serialize, Buffer.WriteU16]
    simp only [hpos, gt_iff_lt, if_true, RoutingProtocol.RemoveHeader,
      TypeHeader_Deserialize_Serialize, hdrop,
      RecvRouteAck_Serialize s h rest receiver sender h1 h2 h3]
    simp only [TypeHeader.IsValid, TypeHeader.mk1, TypeHeader.Get, Bool.not_true,
      Bool.false_eq_true, if_false, Message.handle]

/-- The receive loop on a packet in which well-formed messages are followed by an unknown type
tag: the messages are handled in order, then the loop returns. -/
theorem RecvEffDsdvLoop_at_unknown_tag (receiver sender : Ipv4Address) (v : Nat) (hv : v < 2 ^ 16)
    (hinv : v ≠ 1 ∧ v ≠ 2 ∧ v ≠ 3) (rest : List Nat) (msgs : List Message) :
    ∀ (fuel : Nat) (s : RoutingProtocol) (packetSize : Nat) (c : Bool),
      (∀ m ∈ msgs, m.WellFormed) → msgs.length < fuel →
      packetSize = (Message.encodeAll msgs ++ (Buffer.WriteU16 v ++ rest)).length →
      packetSize < 2 ^ 32 →
      RoutingProtocol.RecvEffDsdvLoop receiver sender fuel s
          (Message.encodeAll msgs ++ (Buffer.WriteU16 v ++ rest)) packetSize c
        = .dropped (msgs.foldl (Message.handle receiver sender) s) := by
  induction msgs with
  | nil =>
    intro fuel s packetSize c _ hfuel hsize _
    obtain ⟨f, rfl⟩ : ∃ f, fuel = f + 1 := ⟨fuel - 1, by simp at hfuel; omega⟩
    have hpos : 0 < packetSize := by
      rw [hsize]; simp [Message.encodeAll, Buffer.WriteU16]
    simp only [Message.encodeAll, List.map_nil, List.flatten_nil, List.nil_append,
      List.foldl_nil]
    rw [RoutingProtocol.RecvEffDsdvLoop]
    simp only [hpos, gt_iff_lt, if_true, RoutingProtocol.RemoveHeader,
      TypeHeader_Deserialize_unknown v hv hinv, TypeHeader.IsValid, Bool.not_false, if_true]
  | cons m msgs ih =>
    intro fuel s packetSize c hwf hfuel hsize hlt
    obtain ⟨f, rfl⟩ : ∃ f, fuel = f + 1 := ⟨fuel - 1, by simp at hfuel; omega⟩
    have henc : Message.encodeAll (m :: msgs) ++ (Buffer.WriteU16 v ++ rest)
        = m.encode ++ (Message.encodeAll msgs ++ (Buffer.WriteU16 v ++ rest)) := by
      simp [Message.encodeAll]
    rw [henc] at hsize ⊢
    have hml : m.encode.length = 12 ∨ m.encode.length = 8 := by
      cases m
      · left; rfl
      · right; rfl
      · left; rfl
    have hpos : 0 < packetSize := by
      rw [hsize, List.length_append]; omega
    rw [RecvEffDsdvLoop_message receiver sender f s m _ packetSize c (hwf m (by simp)) hpos]
    simp only [List.foldl_cons]
    apply ih
    · intro m1 hm1
      exact hwf m1 (by simp [hm1])
    · simp at hfuel; omega
    · have hlt2 : packetSize < 4294967296 := by simpa using hlt
      rw [hsize, List.length_append] at hlt2 ⊢
      simp only [Nat.reducePow]
      omega
    · exact Nat.mod_lt _ (by norm_num)

theorem Message_encodeAll_length (msgs : List Message) :
    msgs.length ≤ (Message.encodeAll msgs).length := by
  induction msgs with
  | nil => simp [Message.encodeAll]
  | cons m l ih =>
    have hml : m.encode.length = 12 ∨ m.encode.length = 8 := by
      cases m
      · left; rfl
      · right; rfl
      · left; rfl
    simp only [Message.encodeAll, List.map_cons, List.flatten_cons, List.length_append,
      List.length_cons] at ih ⊢
    omega

theorem SocketAddressesIndex_frame (s : RoutingProtocol) (socket : Nat) :
    (s.SocketAddressesIndex socket).1.m_routingTable = s.m_routingTable
    ∧ (s.SocketAddressesIndex socket).1.m_advRoutingTable = s.m_advRoutingTable
    ∧ (s.SocketAddressesIndex socket).1.m_altRoutingTable = s.m_altRoutingTable
    ∧ (s.SocketAddressesIndex socket).1.m_simulator = s.m_simulator
    ∧ (s.SocketAddressesIndex socket).1.m_sent = s.m_sent := by
  unfold RoutingProtocol.SocketAddressesIndex
  cases s.m_socketAddresses.find? (fun j => decide (j.1 = socket)) <;>
    exact ⟨rfl, rfl, rfl, rfl, rfl⟩

theorem RecvEffDsdv_at_unknown_tag (s : RoutingProtocol) (socket : Nat) (sender : Ipv4Address)
    (msgs : List Message) (v : Nat) (rest : List Nat) (hwf : ∀ m ∈ msgs, m.WellFormed)
    (hv : v < 2 ^ 16) (hinv : v ≠ 1 ∧ v ≠ 2 ∧ v ≠ 3)
    (hlen : (Message.encodeAll msgs ++ (Buffer.WriteU16 v ++ rest)).length < 2 ^ 32) :
    s.RecvEffDsdv socket (Message.encodeAll msgs ++ (Buffer.WriteU16 v ++ rest)) sender
      = some (msgs.foldl (Message.handle (s.SocketAddressesIndex socket).2.GetLocal sender)
          (s.SocketAddressesIndex socket).1) := by
  have hfuel : msgs.length
      < (Message.encodeAll msgs ++ (Buffer.WriteU16 v ++ rest)).length + 1 := by
    have := Message_encodeAll_length msgs
    rw [List.length_append]
    omega
  unfold RoutingProtocol.RecvEffDsdv
  simp only [Nat.mod_eq_of_lt hlen]
  rw [RecvEffDsdvLoop_at_unknown_tag _ sender v hv hinv rest msgs _ _ _ false hwf hfuel rfl hlen]

/-- C5, as amended: for every inbound packet of fewer than `2^32` bytes in which well-formed
messages `m1 .. mk` are followed by a message whose type tag `v` is not 1, 2 or 3,
`RecvEffDsdv` handles `m1 .. mk` in order, each by its own handler with its full effect, and
then returns at the unknown tag: nothing behind it is processed and the closing triggered
update is not scheduled. When the unknown tag comes first (`k = 0`) the packet is dropped
without side effects: the main, advertisement and alternate tables, the scheduler and the
transmitted datagrams are the same after the call as before it. -/
theorem RecvEffDsdv_unknown_type_drops_rest (s : RoutingProtocol) (socket : Nat)
    (sender : Ipv4Address) (msgs : List Message) (v : Nat) (rest : List Nat)
    (hwf : ∀ m ∈ msgs, m.WellFormed) (hv : v < 2 ^ 16) (hinv : v ≠ 1 ∧ v ≠ 2 ∧ v ≠ 3)
    (hlen : (Message.encodeAll msgs ++ (Buffer.WriteU16 v ++ rest)).length < 2 ^ 32) :
    s.RecvEffDsdv socket (Message.encodeAll msgs ++ (Buffer.WriteU16 v ++ rest)) sender
      = some (msgs.foldl (Message.handle (s.SocketAddressesIndex socket).2.GetLocal sender)
          (s.SocketAddressesIndex socket).1)
    ∧ ∃ s1 : RoutingProtocol,
      s.RecvEffDsdv socket (Buffer.WriteU16 v ++ rest) sender = some s1
      ∧ s1.m_routingTable = s.m_routingTable
      ∧ s1.m_advRoutingTable = s.m_advRoutingTable
      ∧ s1.m_altRoutingTable = s.m_altRoutingTable
      ∧ s1.m_simulator = s.m_simulator
      ∧ s1.m_sent = s.m_sent := by
  refine ⟨RecvEffDsdv_at_unknown_tag s socket sender msgs v rest hwf hv hinv hlen,
    (s.SocketAddressesIndex socket).1, ?_, SocketAddressesIndex_frame s socket⟩
  have hlen0 : (Message.encodeAll [] ++ (Buffer.WriteU16 v ++ rest)).length < 2 ^ 32 := by
    rw [List.length_append] at hlen
    simp only [Message.encodeAll, List.map_nil, List.flatten_nil, List.nil_append]
    omega
  have := RecvEffDsdv_at_unknown_tag s socket sender [] v rest (by simp) hv hinv hlen0
  simpa [Message.encodeAll] using this

/-- Witness for C5 as amended: the update `(D, seq=4, hop=1)` followed by the type tag 4. -/
theorem RecvEffDsdv_unknown_type_drops_rest_witness :
    ((∀ m ∈ [Message.dsdv { m_dst := exampleD, m_hopCount := 1, m_dstSeqNo := 4 }],
        m.WellFormed)
      ∧ 4 < 2 ^ 16 ∧ ((4 : Nat) ≠ 1 ∧ (4 : Nat) ≠ 2 ∧ (4 : Nat) ≠ 3)
      ∧ (Message.encodeAll [Message.dsdv { m_dst := exampleD, m_hopCount := 1, m_dstSeqNo := 4 }]
          ++ (Buffer.WriteU16 4 ++ [])).length < 2 ^ 32)
    ∧ exampleNode.RecvEffDsdv 1
        (Message.encodeAll [Message.dsdv { m_dst := exampleD, m_hopCount := 1, m_dstSeqNo := 4 }]
          ++ (Buffer.WriteU16 4 ++ [])) exampleS
      = some ([Message.dsdv { m_dst := exampleD, m_hopCount := 1, m_dstSeqNo := 4 }].foldl
          (Message.handle (exampleNode.SocketAddressesIndex 1).2.GetLocal exampleS)
          (exampleNode.SocketAddressesIndex 1).1) :=
  ⟨⟨by simp [Message.WellFormed, exampleD], by decide, by decide, by decide⟩,
   (RecvEffDsdv_unknown_type_drops_rest exampleNode 1 exampleS
      [Message.dsdv { m_dst := exampleD, m_hopCount := 1, m_dstSeqNo := 4 }] 4 []
      (by simp [Message.WellFormed, exampleD]) (by decide) (by decide) (by decide)).1⟩

/-- Counterexample to C5 as stated: a packet made of the valid update `(D, seq=4, hop=1)`
followed by the unknown type tag 4. The node had no route to `D` before the call and has one
after it, so the packet was not dropped without side effects. -/
theorem RecvEffDsdv_drop_counterexample :
    exampleNode.m_routingTable.LookupRoute exampleD = none
    ∧ (exampleNode.RecvEffDsdv 1
        (Message.encodeAll [Message.dsdv { m_dst := exampleD, m_hopCount := 1, m_dstSeqNo := 4 }]
          ++ Buffer.WriteU16 4) exampleS).map
        (fun s1 => (s1.m_routingTable.LookupRoute exampleD).map
          (fun e => (e.GetSeqNo, e.GetHop, e.GetNextHop)))
      = some (some (4, 1, exampleS))
    ∧ (exampleNode.RecvEffDsdv 1
        (Message.encodeAll [Message.dsdv { m_dst := exampleD, m_hopCount := 1, m_dstSeqNo := 4 }]
          ++ Buffer.WriteU16 4) exampleS).map
        (fun s1 => decide (s1.m_routingTable = exampleNode.m_routingTable))
      = some false := by
  decide

/-- C10: after any sequence of `RecvDsdv` calls that starts in a state where no destination has
two registered events and no uid in use reaches the next free uid (the initial state, for
one), each destination has at most one settling-timer event registered in the advertisement
table, hence at most one outstanding; every event scheduled during the sequence that is not
cancelled is the registered event of a destination; and a call that removes or replaces the
registration `(D, e)` of a destination has cancelled the event `e`, which is no longer
running. -/
theorem RecvDsdv_one_settling_event_per_destination (s : RoutingProtocol)
    (updates : List (DsdvHeader × Ipv4Address × Ipv4Address)) (hwf : EventsWellFormed s) :
    ((s.RecvDsdvSeq updates).m_advRoutingTable.m_ipv4Events.map Prod.fst).Nodup
    ∧ (∀ D : Ipv4Address, ((s.RecvDsdvSeq updates).outstandingSettlingEvents D).length ≤ 1)
    ∧ (∀ e ∈ (s.RecvDsdvSeq updates).m_simulator.m_events,
        s.m_simulator.m_uid ≤ e.uid → e.cancelled = false →
        ∃ D, (D, e.uid) ∈ (s.RecvDsdvSeq updates).m_advRoutingTable.m_ipv4Events)
    ∧ (∀ (h : DsdvHeader) (receiver src D : Ipv4Address) (e : EventId),
        (D, e) ∈ s.m_advRoutingTable.m_ipv4Events →
        (D, e) ∉ (s.RecvDsdvUpdate h receiver src).m_advRoutingTable.m_ipv4Events →
        (s.RecvDsdvUpdate h receiver src).m_simulator.IsRunning e = false) := by
  have hR : ScheduledAreRegistered s.m_simulator.m_uid s := by
    intro e he hge _
    have := hwf.2.2 e he
    omega
  obtain ⟨h1, h2⟩ := RecvDsdvSeq_events_invariants updates s s.m_simulator.m_uid hwf hR
  exact ⟨h1.1, fun D => outstanding_le_one _ D h1.1, h2,
    fun h receiver src D e hmem hgone =>
      RecvDsdvUpdate_cancels_replaced s h receiver src hwf D e hmem hgone⟩

/-- Witness for C10: the node without a route to `D` receives `(D, seq=4, hop=1)`, then
`(D, seq=6, hop=2)`, which schedules and registers event 4, then `(D, seq=8, hop=3)`, which
cancels event 4 and registers event 5. -/
theorem RecvDsdv_one_settling_event_per_destination_witness :
    EventsWellFormed exampleNode
    ∧ (exampleNode.RecvDsdvSeq
        [({ m_dst := exampleD, m_hopCount := 1, m_dstSeqNo := 4 }, exampleIface.GetLocal,
          exampleS),
         ({ m_dst := exampleD, m_hopCount := 2, m_dstSeqNo := 6 }, exampleIface.GetLocal,
          exampleS),
         ({ m_dst := exampleD, m_hopCount := 3, m_dstSeqNo := 8 }, exampleIface.GetLocal,
          exampleS)]).m_advRoutingTable.m_ipv4Events = [(exampleD, 5)]
    ∧ ∀ D : Ipv4Address,
      ((exampleNode.RecvDsdvSeq
        [({ m_dst := exampleD, m_hopCount := 1, m_dstSeqNo := 4 }, exampleIface.GetLocal,
          exampleS),
         ({ m_dst := exampleD, m_hopCount := 2, m_dstSeqNo := 6 }, exampleIface.GetLocal,
          exampleS),
         ({ m_dst := exampleD, m_hopCount := 3, m_dstSeqNo := 8 }, exampleIface.GetLocal,
          exampleS)]).outstandingSettlingEvents D).length ≤ 1 :=
  ⟨⟨by decide, by decide, by decide⟩, by decide,
   (RecvDsdv_one_settling_event_per_destination exampleNode
      [({ m_dst := exampleD, m_hopCount := 1, m_dstSeqNo := 4 }, exampleIface.GetLocal, exampleS),
       ({ m_dst := exampleD, m_hopCount := 2, m_dstSeqNo := 6 }, exampleIface.GetLocal, exampleS),
       ({ m_dst := exampleD, m_hopCount := 3, m_dstSeqNo := 8 }, exampleIface.GetLocal, exampleS)]
      ⟨by decide, by decide, by decide⟩).2.1⟩

/-! ## Route requests -/

/-- The factory `Seconds (double)` on a whole number of seconds. -/
theorem SecondsD_ofNat (n : Nat) : SecondsD (n : ℚ) = (n : Int) * 1000000000 := by
  unfold SecondsD
  have : ((n : ℚ) * 1000000000) = (((n : Int) * 1000000000 : Int) : ℚ) := by push_cast; ring
  rw [this]
  exact @Int.floor_intCast ℚ _ _ _

/-- The buffer `Seconds (2)` of the aliveness test of the lookups. -/
theorem SecondsD_two : SecondsD 2 = 2000000000 := by
  have := SecondsD_ofNat 2
  simpa using this

/-- The test `IsRouteAlive (rt, bufferInSec)` holds for a `VALID` entry whose lifetime does not
exceed the periodic update interval by more than the buffer. -/
theorem IsRouteAlive_eq_true (s : RoutingProtocol) (rt : RoutingTableEntry) (b : ℚ) :
    s.IsRouteAlive rt b = true ↔
      rt.GetLifeTime s.m_simulator.Now ≤ s.m_periodicUpdateInterval + SecondsD b
        ∧ rt.GetFlag = RouteFlags.VALID := by
  unfold RoutingProtocol.IsRouteAlive
  split_ifs with h1 h2
  · simp only [Bool.false_eq_true, false_iff, not_and]
    intro h; exact absurd h (not_le.mpr h1)
  · simp only [true_iff]; exact ⟨not_lt.mp h1, h2⟩
  · simp [h2]


/-- A draw from the random stream changes nothing but the stream. -/
theorem GetInteger_frame (s : RoutingProtocol) (min max : Nat) :
    (s.GetInteger min max).2.m_routingTable = s.m_routingTable
    ∧ (s.GetInteger min max).2.m_advRoutingTable = s.m_advRoutingTable
    ∧ (s.GetInteger min max).2.m_altRoutingTable = s.m_altRoutingTable
    ∧ (s.GetInteger min max).2.m_socketAddresses = s.m_socketAddresses
    ∧ (s.GetInteger min max).2.m_sent = s.m_sent
    ∧ (s.GetInteger min max).2.m_simulator = s.m_simulator
    ∧ (s.GetInteger min max).2.m_periodicUpdateInterval = s.m_periodicUpdateInterval
    ∧ (s.GetInteger min max).2.m_periodicUpdateTimer = s.m_periodicUpdateTimer := by
  unfold RoutingProtocol.GetInteger
  cases s.m_uniformRandomVariable <;> simp

/-- The broadcast loop of `SendRouteRequest` touches the scheduler and the random stream only:
it appends one `SendTo` event per socket. -/
theorem ScheduleRouteRequest_foldl (h : RreqHeader) (l : List (Nat × Ipv4InterfaceAddress)) :
    ∀ st : RoutingProtocol,
      (l.foldl (RoutingProtocol.ScheduleRouteRequest h) st).m_routingTable = st.m_routingTable
      ∧ (l.foldl (RoutingProtocol.ScheduleRouteRequest h) st).m_advRoutingTable
          = st.m_advRoutingTable
      ∧ (l.foldl (RoutingProtocol.ScheduleRouteRequest h) st).m_altRoutingTable
          = st.m_altRoutingTable
      ∧ (l.foldl (RoutingProtocol.ScheduleRouteRequest h) st).m_sent = st.m_sent
      ∧ (l.foldl (RoutingProtocol.ScheduleRouteRequest h) st).m_simulator.m_currentTs
          = st.m_simulator.m_currentTs
      ∧ ∃ news : List Event,
          (l.foldl (RoutingProtocol.ScheduleRouteRequest h) st).m_simulator.m_events
            = st.m_simulator.m_events ++ news
          ∧ news.map Event.impl
            = l.map (fun j =>
                EventImpl.SendTo j.1 (RoutingProtocol.RouteRequestPacket h)
                  (RoutingProtocol.BroadcastDestination j.2))
          ∧ ∀ e ∈ news, e.cancelled = false := by
  induction l with
  | nil => intro st; simp
  | cons j l ih =>
    intro st
    obtain ⟨h1, h2, h3, h4, h5, news, h6, h7, h8⟩ :=
      ih (RoutingProtocol.ScheduleRouteRequest h st j)
    obtain ⟨g1, g2, g3, -, g5, g6, -, -⟩ := GetInteger_frame st 0 50
    simp only [List.foldl_cons]
    refine ⟨?_, ?_, ?_, ?_, ?_, ?_⟩
    · rw [h1]; simp [RoutingProtocol.ScheduleRouteRequest, g1]
    · rw [h2]; simp [RoutingProtocol.ScheduleRouteRequest, g2]
    · rw [h3]; simp [RoutingProtocol.ScheduleRouteRequest, g3]
    · rw [h4]; simp [RoutingProtocol.ScheduleRouteRequest, g5]
    · rw [h5]; simp [RoutingProtocol.ScheduleRouteRequest, g6, Simulator.Schedule]
    · refine ⟨(Event.mk st.m_simulator.m_uid
          (st.m_simulator.m_currentTs + MilliSeconds (st.GetInteger 0 50).1)
          (EventImpl.SendTo j.1 (RoutingProtocol.RouteRequestPacket h)
            (RoutingProtocol.BroadcastDestination j.2)) false) :: news, ?_, ?_, ?_⟩
      · rw [h6]
        simp only [RoutingProtocol.ScheduleRouteRequest, Simulator.Schedule, g6,
          List.append_assoc, List.singleton_append]
      · simp [h7]
      · intro e he
        rcases List.mem_cons.mp he with rfl | he
        · rfl
        · exact h8 e he


/-- Without an alternate entry for the destination, the rest of `SendRouteRequest` appends the
`INSEARCH` placeholder to the alternate table and schedules one broadcast per socket. -/
theorem BroadcastRouteRequest_of_unknown (s : RoutingProtocol) (dst : Ipv4Address)
    (h : s.m_altRoutingTable.LookupRoute dst = none) :
    (s.BroadcastRouteRequest dst).m_routingTable = s.m_routingTable
    ∧ (s.BroadcastRouteRequest dst).m_advRoutingTable = s.m_advRoutingTable
    ∧ (s.BroadcastRouteRequest dst).m_altRoutingTable
        = { s.m_altRoutingTable with
              m_ipv4AddressEntry :=
                s.m_altRoutingTable.m_ipv4AddressEntry ++ [s.PlaceholderEntry dst] }
    ∧ (s.BroadcastRouteRequest dst).m_simulator.m_currentTs = s.m_simulator.m_currentTs
    ∧ ∃ news : List Event,
        (s.BroadcastRouteRequest dst).m_simulator.m_events = s.m_simulator.m_events ++ news
        ∧ news.map Event.impl
          = s.m_socketAddresses.map (fun j =>
              EventImpl.SendTo j.1
                (RoutingProtocol.RouteRequestPacket (RreqHeader.default.SetDst dst))
                (RoutingProtocol.BroadcastDestination j.2))
        ∧ ∀ e ∈ news, e.cancelled = false := by
  obtain ⟨h1, h2, h3, -, h5, h6⟩ :=
    ScheduleRouteRequest_foldl (RreqHeader.default.SetDst dst)
      (s.InstallPlaceholder dst).m_socketAddresses (s.InstallPlaceholder dst)
  have hd : (s.PlaceholderEntry dst).GetDestination = dst := rfl
  have hadd : (s.m_altRoutingTable.AddRoute (s.PlaceholderEntry dst)).2
        = { s.m_altRoutingTable with
              m_ipv4AddressEntry :=
                s.m_altRoutingTable.m_ipv4AddressEntry ++ [s.PlaceholderEntry dst] } := by
    simp [RoutingTable.AddRoute, hd, h]
  unfold RoutingProtocol.BroadcastRouteRequest
  simp only [RoutingProtocol.InstallPlaceholder, h] at h1 h2 h3 h5 h6 ⊢
  refine ⟨h1, h2, ?_, h5, h6⟩
  rw [h3]; exact hadd

/-- A request that is still in progress makes `SendRouteRequest` return at once. -/
theorem SendRouteRequest_in_progress (s : RoutingProtocol) (dst : Ipv4Address)
    (p : RoutingTableEntry) (h : s.m_altRoutingTable.LookupRoute dst = some p)
    (hf : p.GetFlag = RouteFlags.INSEARCH) (hl : p.GetLifeTime s.m_simulator.Now ≤ Seconds 4) :
    s.SendRouteRequest dst = s := by
  simp [RoutingProtocol.SendRouteRequest, h, hf, hl]

/-- C12: for a destination `D` without an alternate entry, `SendRouteRequest (D)` appends the
`INSEARCH` placeholder for `D` to the alternate table and schedules exactly one route-request
broadcast per socket of `m_socketAddresses` (one on a single-interface node). A second
`SendRouteRequest (D)`, made in any state in which the alternate entry of `D` is `INSEARCH` with a
lifetime of at most 4 seconds, returns with the state as it was: the alternate table is unchanged
and nothing is scheduled. That holds in particular in every state that has the alternate table
left by the first call and a clock at most 4 seconds later. -/
theorem SendRouteRequest_placeholder_then_suppressed (s : RoutingProtocol) (D : Ipv4Address)
    (hD : s.m_altRoutingTable.LookupRoute D = none) :
    (s.SendRouteRequest D).m_altRoutingTable.m_ipv4AddressEntry
        = s.m_altRoutingTable.m_ipv4AddressEntry ++ [s.PlaceholderEntry D]
    ∧ (s.SendRouteRequest D).m_altRoutingTable.LookupRoute D = some (s.PlaceholderEntry D)
    ∧ (s.PlaceholderEntry D).GetFlag = RouteFlags.INSEARCH
    ∧ (∃ news : List Event,
        (s.SendRouteRequest D).m_simulator.m_events = s.m_simulator.m_events ++ news
        ∧ news.length = s.m_socketAddresses.length
        ∧ (s.m_socketAddresses.length = 1 → news.length = 1)
        ∧ news.map Event.impl
            = s.m_socketAddresses.map (fun j =>
                EventImpl.SendTo j.1
                  (RoutingProtocol.RouteRequestPacket (RreqHeader.default.SetDst D))
                  (RoutingProtocol.BroadcastDestination j.2)))
    ∧ (∀ (s2 : RoutingProtocol) (p : RoutingTableEntry),
        s2.m_altRoutingTable.LookupRoute D = some p →
        p.GetFlag = RouteFlags.INSEARCH →
        p.GetLifeTime s2.m_simulator.Now ≤ Seconds 4 →
        s2.SendRouteRequest D = s2)
    ∧ (∀ s2 : RoutingProtocol,
        s2.m_altRoutingTable = (s.SendRouteRequest D).m_altRoutingTable →
        s2.m_simulator.Now ≤ s.m_simulator.Now + Seconds 4 →
        s2.SendRouteRequest D = s2) := by
  have he : s.SendRouteRequest D = s.BroadcastRouteRequest D := by
    simp [RoutingProtocol.SendRouteRequest, hD]
  obtain ⟨-, -, halt, -, news, hev, himpl, -⟩ := BroadcastRouteRequest_of_unknown s D hD
  have hentries : (s.SendRouteRequest D).m_altRoutingTable.m_ipv4AddressEntry
      = s.m_altRoutingTable.m_ipv4AddressEntry ++ [s.PlaceholderEntry D] := by
    rw [he, halt]
  have hlook : (s.SendRouteRequest D).m_altRoutingTable.LookupRoute D
      = some (s.PlaceholderEntry D) := by
    have hnone : s.m_altRoutingTable.m_ipv4AddressEntry.find?
        (fun e => decide (e.GetDestination = D)) = none := hD
    have hd : (s.PlaceholderEntry D).GetDestination = D := rfl
    unfold RoutingTable.LookupRoute
    rw [hentries, List.find?_append, hnone]
    simp [hd]
  have hlen : news.length = s.m_socketAddresses.length := by
    have := congrArg List.length himpl
    simpa using this
  refine ⟨hentries, hlook, rfl,
    ⟨news, by rw [he, hev], hlen, fun h1 => by rw [hlen, h1], himpl⟩,
    fun s2 p h2 hf hl => SendRouteRequest_in_progress s2 D p h2 hf hl, ?_⟩
  intro s2 h2 hnow
  refine SendRouteRequest_in_progress s2 D (s.PlaceholderEntry D) (by rw [h2]; exact hlook) rfl
    ?_
  have : (s.PlaceholderEntry D).GetLifeTime s2.m_simulator.Now
      = s2.m_simulator.Now - s.m_simulator.Now := rfl
  rw [this]
  exact sub_le_iff_le_add'.mpr hnow

/-- Witness for C12: the example node, which has one interface and no alternate entry for `D`,
calls `SendRouteRequest (D)` twice in a row. -/
theorem SendRouteRequest_placeholder_then_suppressed_witness :
    exampleNode.m_altRoutingTable.LookupRoute exampleD = none
    ∧ (exampleNode.SendRouteRequest exampleD).m_altRoutingTable.LookupRoute exampleD
        = some (exampleNode.PlaceholderEntry exampleD)
    ∧ (exampleNode.SendRouteRequest exampleD).m_simulator.m_events.length = 1
    ∧ (exampleNode.SendRouteRequest exampleD).SendRouteRequest exampleD
        = exampleNode.SendRouteRequest exampleD := by
  have h := SendRouteRequest_placeholder_then_suppressed exampleNode exampleD (by decide)
  obtain ⟨-, h2, -, ⟨news, h4, h5, -, -⟩, -, h7⟩ := h
  refine ⟨by decide, h2, ?_, h7 _ rfl ?_⟩
  · rw [h4, List.length_append, h5]; rfl
  · have hnow : (exampleNode.SendRouteRequest exampleD).m_simulator.Now
        = exampleNode.m_simulator.Now := by decide
    rw [hnow]; decide


/-! ## Route lookups -/

/-- The lookup of a destination whose main route is broken and whose alternate entry is
`VALID`: the alternate route is put into the returned entry; an entry older than a third of the
periodic interval makes the lookup call `SendRouteRequest`, and one older than that plus two
seconds is deleted and reported as not usable. -/
theorem LookupRoute_of_valid_alternate (s : RoutingProtocol) (id : Ipv4Address)
    (rt0 e altRt : RoutingTableEntry) (hmain : s.MainRouteBroken id e)
    (halt : s.m_altRoutingTable.LookupRoute id = some altRt)
    (hvalid : altRt.GetFlag = RouteFlags.VALID) :
    s.LookupRoute id rt0 =
      (if (altRt.GetInstallTime s.m_simulator.Now).GetSeconds
          > s.m_periodicUpdateInterval.GetSeconds / 3 + 2 then
        { found := false
          rt := RoutingProtocol.SpliceAlternate e altRt s.m_simulator.Now
          state :=
            { s.SendRouteRequest id with
                m_altRoutingTable :=
                  ((s.SendRouteRequest id).m_altRoutingTable.DeleteRoute id).2 }
          requests := [id] }
      else if (altRt.GetInstallTime s.m_simulator.Now).GetSeconds
          > s.m_periodicUpdateInterval.GetSeconds / 3 then
        { found := true
          rt := RoutingProtocol.SpliceAlternate e altRt s.m_simulator.Now
          state := s.SendRouteRequest id
          requests := [id] }
      else
        { found := true
          rt := RoutingProtocol.SpliceAlternate e altRt s.m_simulator.Now
          state := s
          requests := [] }) := by
  obtain ⟨h1, h2, h3⟩ := hmain
  have hd : altRt.GetDestination = id := RoutingTable_LookupRoute_dst _ _ _ halt
  have hne : altRt.GetFlag ≠ RouteFlags.INSEARCH := by rw [hvalid]; decide
  unfold RoutingProtocol.LookupRoute
  simp only [h1, h2, halt, hvalid, hd]
  by_cases hb : (altRt.GetInstallTime s.m_simulator.Now).GetSeconds
      > s.m_periodicUpdateInterval.GetSeconds / 3 + 2
  · have ha : (altRt.GetInstallTime s.m_simulator.Now).GetSeconds
        > s.m_periodicUpdateInterval.GetSeconds / 3 := by linarith
    simp [h3, hb, ha]
  · by_cases ha : (altRt.GetInstallTime s.m_simulator.Now).GetSeconds
        > s.m_periodicUpdateInterval.GetSeconds / 3
    · simp [h3, hb, ha]
    · simp [h3, hb, ha]


/-- The main route of `exampleNodeStale` to `D` is broken, whatever the alternate table. -/
theorem exampleNodeStale_broken (alt : RoutingTable) :
    ({ exampleNodeStale with m_altRoutingTable := alt } : RoutingProtocol).MainRouteBroken
      exampleD staleRoute := by
  refine ⟨?_, ?_, fun h => h.1 rfl⟩
  · show exampleNodeStale.m_routingTable.LookupRoute exampleD = some staleRoute
    decide
  · simp only [RoutingProtocol.IsRouteAlive, SecondsD_two]
    show (if staleRoute.GetLifeTime exampleNodeStale.m_simulator.Now
        > exampleNodeStale.m_periodicUpdateInterval + 2000000000 then false
      else if staleRoute.GetFlag = RouteFlags.VALID then true else false) = false
    decide

/-- The lookup of a destination that the main table does not hold: not found, nothing done. -/
theorem LookupRoute_of_unknown (s : RoutingProtocol) (id : Ipv4Address)
    (rt0 : RoutingTableEntry) (h : s.m_routingTable.LookupRoute id = none) :
    s.LookupRoute id rt0 = { found := false, rt := rt0, state := s, requests := [] } := by
  simp [RoutingProtocol.LookupRoute, h]

/-- The lookup of a destination whose main route is broken and whose alternate entry is
`INSEARCH`. -/
theorem LookupRoute_of_insearch (s : RoutingProtocol) (id : Ipv4Address)
    (rt0 e altRt : RoutingTableEntry) (hmain : s.MainRouteBroken id e)
    (halt : s.m_altRoutingTable.LookupRoute id = some altRt)
    (hf : altRt.GetFlag = RouteFlags.INSEARCH) :
    s.LookupRoute id rt0
      = { found := false, rt := e, state := s.SendRouteRequest id, requests := [id] } := by
  obtain ⟨h1, h2, h3⟩ := hmain
  unfold RoutingProtocol.LookupRoute
  simp only [h1, h2, halt, hf]
  simp [h3]

/-- The lookup of a destination whose main route is broken and that has no alternate entry. -/
theorem LookupRoute_of_no_alternate (s : RoutingProtocol) (id : Ipv4Address)
    (rt0 e : RoutingTableEntry) (hmain : s.MainRouteBroken id e)
    (halt : s.m_altRoutingTable.LookupRoute id = none) :
    s.LookupRoute id rt0
      = { found := false, rt := e, state := s.SendRouteRequest id, requests := [id] } := by
  obtain ⟨h1, h2, h3⟩ := hmain
  unfold RoutingProtocol.LookupRoute
  simp only [h1, h2, halt]
  simp [h3]

/-- The lookup of a destination whose main route is alive, the destination being a direct
neighbour or the route to the next hop being alive as well. -/
theorem LookupRoute_of_alive (s : RoutingProtocol) (id : Ipv4Address)
    (rt0 e : RoutingTableEntry) (h : s.m_routingTable.LookupRoute id = some e)
    (ha : s.IsRouteAlive e 2 = true)
    (hn : e.GetNextHop = e.GetDestination
      ∨ s.IsRouteAlive
          ((s.m_routingTable.LookupRoute e.GetNextHop).getD
            (RoutingTableEntry.default s.m_simulator.Now)) 2 = true) :
    s.LookupRoute id rt0 = { found := true, rt := e, state := s, requests := [] } := by
  unfold RoutingProtocol.LookupRoute
  simp only [h, ha]
  by_cases hd : e.GetNextHop = e.GetDestination
  · simp [hd]
  · rcases hn with hn | hn
    · exact absurd hn hd
    · simp [hd, hn]

/-- The lookup of a destination whose main route is alive while the route to its next hop,
which is not the destination, is not: the lookup falls through to its end. -/
theorem LookupRoute_of_dead_next_hop (s : RoutingProtocol) (id : Ipv4Address)
    (rt0 e : RoutingTableEntry) (h : s.m_routingTable.LookupRoute id = some e)
    (ha : s.IsRouteAlive e 2 = true) (hd : e.GetNextHop ≠ e.GetDestination)
    (hn : s.IsRouteAlive
          ((s.m_routingTable.LookupRoute e.GetNextHop).getD
            (RoutingTableEntry.default s.m_simulator.Now)) 2 = false) :
    s.LookupRoute id rt0 = { found := false, rt := e, state := s, requests := [] } := by
  unfold RoutingProtocol.LookupRoute
  simp only [h, ha]
  simp [hd, hn]

/-- The lookup of a destination whose main route is not alive while the route to its next hop,
which is not the destination, is. -/
theorem LookupRoute_of_live_segment (s : RoutingProtocol) (id : Ipv4Address)
    (rt0 e : RoutingTableEntry) (h : s.m_routingTable.LookupRoute id = some e)
    (ha : s.IsRouteAlive e 2 = false) (hd : e.GetNextHop ≠ e.GetDestination)
    (hn : s.IsRouteAlive
          ((s.m_routingTable.LookupRoute e.GetNextHop).getD
            (RoutingTableEntry.default s.m_simulator.Now)) 2 = true) :
    s.LookupRoute id rt0 = { found := true, rt := e, state := s, requests := [] } := by
  unfold RoutingProtocol.LookupRoute
  simp only [h, ha]
  simp [hd, hn]


/-- The test `IsRouteAlive (rt, 2)`: a `VALID` entry whose lifetime does not exceed the periodic
update interval by more than two seconds. -/
theorem IsRouteAlive_two (s : RoutingProtocol) (rt : RoutingTableEntry) :
    s.IsRouteAlive rt 2 = true ↔
      rt.GetLifeTime s.m_simulator.Now ≤ s.m_periodicUpdateInterval + Seconds 2
        ∧ rt.GetFlag = RouteFlags.VALID := by
  rw [IsRouteAlive_eq_true, SecondsD_two]
  rfl

/-- C14, as amended: a lookup of `D` that finds the main route of `D` broken (the main entry is not
alive and the route to its next hop is no live next segment) and reports that no usable route
exists has called `SendRouteRequest (D)`, once, before returning; the alternate entry of `D`, if
there is one, is `INSEARCH` or `VALID`, the two flags that the protocol gives alternate entries.
A lookup of a destination that the main table does not hold reports not-found, calls nothing and
leaves the node as it is. -/
theorem LookupRoute_failure_requests_repair (s : RoutingProtocol) (D : Ipv4Address)
    (rt0 : RoutingTableEntry) :
    (s.m_routingTable.LookupRoute D = none →
      (s.LookupRoute D rt0).found = false
      ∧ (s.LookupRoute D rt0).requests = []
      ∧ (s.LookupRoute D rt0).state = s)
    ∧ (∀ e : RoutingTableEntry, s.MainRouteBroken D e →
        (∀ a, s.m_altRoutingTable.LookupRoute D = some a → a.GetFlag ≠ RouteFlags.INVALID) →
        (s.LookupRoute D rt0).found = false →
        (s.LookupRoute D rt0).requests = [D]) := by
  constructor
  · intro h
    rw [LookupRoute_of_unknown s D rt0 h]
    exact ⟨rfl, rfl, rfl⟩
  · intro e hmain hflag hfound
    cases halt : s.m_altRoutingTable.LookupRoute D with
    | none => rw [LookupRoute_of_no_alternate s D rt0 e hmain halt]
    | some a =>
      cases hf : a.GetFlag with
      | INSEARCH => rw [LookupRoute_of_insearch s D rt0 e a hmain halt hf]
      | INVALID => exact absurd hf (hflag a halt)
      | VALID =>
        rw [LookupRoute_of_valid_alternate s D rt0 e a hmain halt hf] at hfound ⊢
        split_ifs at hfound ⊢ with h1 h2
        rfl

/-- Witness for C14 as amended: the example node, which has no route to `D`, and the node with the
stale route to `D` and no alternate entry. -/
theorem LookupRoute_failure_requests_repair_witness :
    exampleNode.m_routingTable.LookupRoute exampleD = none
    ∧ (exampleNode.LookupRoute exampleD (RoutingTableEntry.default (Seconds 20))).requests = []
    ∧ exampleNodeStale.MainRouteBroken exampleD staleRoute
    ∧ (exampleNodeStale.LookupRoute exampleD (RoutingTableEntry.default (Seconds 20))).found
        = false
    ∧ (exampleNodeStale.LookupRoute exampleD (RoutingTableEntry.default (Seconds 20))).requests
        = [exampleD] := by
  have hb : exampleNodeStale.MainRouteBroken exampleD staleRoute :=
    exampleNodeStale_broken exampleNodeStale.m_altRoutingTable
  have hf : (exampleNodeStale.LookupRoute exampleD
      (RoutingTableEntry.default (Seconds 20))).found = false := by
    rw [LookupRoute_of_no_alternate exampleNodeStale exampleD _ staleRoute hb (by decide)]
  exact ⟨by decide,
    ((LookupRoute_failure_requests_repair exampleNode exampleD
      (RoutingTableEntry.default (Seconds 20))).1 (by decide)).2.1,
    hb, hf,
    (LookupRoute_failure_requests_repair exampleNodeStale exampleD
      (RoutingTableEntry.default (Seconds 20))).2 staleRoute hb
      (fun a ha => by
        have hn : exampleNodeStale.m_altRoutingTable.LookupRoute exampleD = none := by decide
        rw [hn] at ha
        exact absurd ha (by simp)) hf⟩

/-- Counterexample to C14 as stated: the example node has no main-table entry for `D`; its lookup
of `D` reports that there is no usable route, calls `SendRouteRequest` not once and schedules
nothing. -/
theorem LookupRoute_unknown_destination_counterexample :
    exampleNode.m_routingTable.LookupRoute exampleD = none
    ∧ (exampleNode.LookupRoute exampleD (RoutingTableEntry.default (Seconds 20))).found = false
    ∧ (exampleNode.LookupRoute exampleD (RoutingTableEntry.default (Seconds 20))).requests = []
    ∧ (exampleNode.LookupRoute exampleD
        (RoutingTableEntry.default (Seconds 20))).state.m_simulator.m_events = []
    ∧ (exampleNode.LookupRoute exampleD
        (RoutingTableEntry.default (Seconds 20))).state.m_altRoutingTable
          = exampleNode.m_altRoutingTable := by
  decide


/-- C15: a lookup of `D` never reports usable on the strength of an `INSEARCH` alternate entry.
When the lookup reaches the alternate-table step (the main route of `D` is broken) and the
alternate entry of `D` is `INSEARCH`, the result is not usable, the returned entry is the
main-table entry, so its next hop is not taken from the alternate entry, and
`SendRouteRequest (D)` is called (which sends a new request when the placeholder is more than 4
seconds old). Whenever a lookup of `D` reports usable while the alternate entry is `INSEARCH`,
the returned entry is the main-table entry and nothing was done. -/
theorem LookupRoute_insearch_not_usable (s : RoutingProtocol) (D : Ipv4Address)
    (rt0 altRt : RoutingTableEntry)
    (halt : s.m_altRoutingTable.LookupRoute D = some altRt)
    (hf : altRt.GetFlag = RouteFlags.INSEARCH) :
    (∀ e : RoutingTableEntry, s.MainRouteBroken D e →
      (s.LookupRoute D rt0).found = false
      ∧ (s.LookupRoute D rt0).rt = e
      ∧ (s.LookupRoute D rt0).rt.GetNextHop = e.GetNextHop
      ∧ (s.LookupRoute D rt0).requests = [D]
      ∧ (s.LookupRoute D rt0).state = s.SendRouteRequest D)
    ∧ ((s.LookupRoute D rt0).found = true →
        s.m_routingTable.LookupRoute D = some (s.LookupRoute D rt0).rt
        ∧ (s.LookupRoute D rt0).state = s
        ∧ (s.LookupRoute D rt0).requests = []) := by
  constructor
  · intro e hmain
    rw [LookupRoute_of_insearch s D rt0 e altRt hmain halt hf]
    exact ⟨rfl, rfl, rfl, rfl, rfl⟩
  · intro hfound
    cases hm : s.m_routingTable.LookupRoute D with
    | none =>
      rw [LookupRoute_of_unknown s D rt0 hm] at hfound
      simp at hfound
    | some e =>
      by_cases hb : s.MainRouteBroken D e
      · rw [LookupRoute_of_insearch s D rt0 e altRt hb halt hf] at hfound
        simp at hfound
      · by_cases ha : s.IsRouteAlive e 2 = true
        · by_cases hd : e.GetNextHop = e.GetDestination
          · rw [LookupRoute_of_alive s D rt0 e hm ha (Or.inl hd)]
            exact ⟨rfl, rfl, rfl⟩
          · by_cases hn : s.IsRouteAlive
                ((s.m_routingTable.LookupRoute e.GetNextHop).getD
                  (RoutingTableEntry.default s.m_simulator.Now)) 2 = true
            · rw [LookupRoute_of_alive s D rt0 e hm ha (Or.inr hn)]
              exact ⟨rfl, rfl, rfl⟩
            · rw [LookupRoute_of_dead_next_hop s D rt0 e hm ha hd
                (by simpa using hn)] at hfound
              simp at hfound
        · have ha2 : s.IsRouteAlive e 2 = false := by simpa using ha
          by_cases hn : e.GetNextHop ≠ e.GetDestination
              ∧ s.IsRouteAlive
                ((s.m_routingTable.LookupRoute e.GetNextHop).getD
                  (RoutingTableEntry.default s.m_simulator.Now)) 2 = true
          · rw [LookupRoute_of_live_segment s D rt0 e hm ha2 hn.1 hn.2]
            exact ⟨rfl, rfl, rfl⟩
          · exact absurd ⟨hm, ha2, hn⟩ hb

/-- Witness for C15: the node with the stale route to `D` and an `INSEARCH` placeholder for `D`. -/
theorem LookupRoute_insearch_not_usable_witness :
    exampleNodeSearching.MainRouteBroken exampleD staleRoute
    ∧ (exampleNodeSearching.LookupRoute exampleD
        (RoutingTableEntry.default (Seconds 20))).found = false
    ∧ (exampleNodeSearching.LookupRoute exampleD
        (RoutingTableEntry.default (Seconds 20))).rt = staleRoute
    ∧ (exampleNodeSearching.LookupRoute exampleD
        (RoutingTableEntry.default (Seconds 20))).requests = [exampleD] := by
  have hb : exampleNodeSearching.MainRouteBroken exampleD staleRoute :=
    exampleNodeStale_broken exampleNodeSearching.m_altRoutingTable
  have h := (LookupRoute_insearch_not_usable exampleNodeSearching exampleD
    (RoutingTableEntry.default (Seconds 20)) placeholderRoute (by decide) (by decide)).1
    staleRoute hb
  exact ⟨hb, h.1, h.2.1, h.2.2.2.1⟩

/-- C16, as amended: a lookup of `D` whose main-table entry `e` is `VALID` with a lifetime of at
most the periodic update interval plus two seconds, `e` being a direct neighbour or the
main-table entry of the next hop of `e` being alive by the same test, reports usable, returns `e`
unchanged, leaves the node as it is and calls `SendRouteRequest` not once. -/
theorem LookupRoute_alive_main_route (s : RoutingProtocol) (D : Ipv4Address)
    (rt0 e : RoutingTableEntry) (h : s.m_routingTable.LookupRoute D = some e)
    (hv : e.GetFlag = RouteFlags.VALID)
    (hl : e.GetLifeTime s.m_simulator.Now ≤ s.m_periodicUpdateInterval + Seconds 2)
    (hn : e.GetNextHop = e.GetDestination
      ∨ ∃ nh : RoutingTableEntry, s.m_routingTable.LookupRoute e.GetNextHop = some nh
          ∧ nh.GetFlag = RouteFlags.VALID
          ∧ nh.GetLifeTime s.m_simulator.Now ≤ s.m_periodicUpdateInterval + Seconds 2) :
    s.LookupRoute D rt0 = { found := true, rt := e, state := s, requests := [] } := by
  refine LookupRoute_of_alive s D rt0 e h ((IsRouteAlive_two s e).mpr ⟨hl, hv⟩) ?_
  rcases hn with hn | ⟨nh, h1, h2, h3⟩
  · exact Or.inl hn
  · right
    rw [h1]
    exact (IsRouteAlive_two s nh).mpr ⟨h3, h2⟩

/-- Witness for C16 as amended: the node that holds the neighbour route to `D`, refreshed two
seconds ago. -/
theorem LookupRoute_alive_main_route_witness :
    exampleNodeWithNeighbour.m_routingTable.LookupRoute exampleD = some neighbourRoute
    ∧ exampleNodeWithNeighbour.LookupRoute exampleD (RoutingTableEntry.default (Seconds 20))
        = { found := true, rt := neighbourRoute, state := exampleNodeWithNeighbour,
            requests := [] } :=
  ⟨by decide,
   LookupRoute_alive_main_route exampleNodeWithNeighbour exampleD
     (RoutingTableEntry.default (Seconds 20)) neighbourRoute (by decide) (by decide) (by decide)
     (Or.inl (by decide))⟩

/-- Counterexample to C16 as stated: the main-table entry of `exampleNodeStale` for the neighbour
`D` is `VALID` and 20 seconds old, which is within the hold-down time of 45 seconds, three
periodic update intervals; the lookup of `D` reports that there is no usable route and calls
`SendRouteRequest (D)`. -/
theorem LookupRoute_holddown_counterexample :
    exampleNodeStale.m_routingTable.LookupRoute exampleD = some staleRoute
    ∧ staleRoute.GetFlag = RouteFlags.VALID
    ∧ staleRoute.GetLifeTime exampleNodeStale.m_simulator.Now
        ≤ exampleNodeStale.Holdtimes * exampleNodeStale.m_periodicUpdateInterval
    ∧ exampleNodeStale.m_routingTable.m_holddownTime
        = exampleNodeStale.Holdtimes * exampleNodeStale.m_periodicUpdateInterval
    ∧ staleRoute.GetNextHop = staleRoute.GetDestination
    ∧ (exampleNodeStale.LookupRoute exampleD (RoutingTableEntry.default (Seconds 20))).found
        = false
    ∧ (exampleNodeStale.LookupRoute exampleD (RoutingTableEntry.default (Seconds 20))).requests
        = [exampleD] := by
  have hb : exampleNodeStale.MainRouteBroken exampleD staleRoute :=
    exampleNodeStale_broken exampleNodeStale.m_altRoutingTable
  rw [LookupRoute_of_no_alternate exampleNodeStale exampleD _ staleRoute hb (by decide)]
  exact ⟨by decide, by decide, by decide, by decide, by decide, rfl, rfl⟩

/-- C17: a lookup of `D` whose main-table entry `e` is not alive (its flag is not `VALID`, or
its lifetime is over the aliveness limit, the periodic update interval plus two seconds) and is
no direct neighbour, the main-table entry of the next hop of `e` being alive: the lookup reports
usable, returns `e` as stored, leaves the node as it is and calls `SendRouteRequest` not once.
The alternate table is not consulted: the result is the same whatever that table holds. -/
theorem LookupRoute_live_next_segment (s : RoutingProtocol) (D : Ipv4Address)
    (rt0 e nh : RoutingTableEntry) (h : s.m_routingTable.LookupRoute D = some e)
    (hdead : e.GetFlag ≠ RouteFlags.VALID
      ∨ e.GetLifeTime s.m_simulator.Now > s.m_periodicUpdateInterval + Seconds 2)
    (hd : e.GetNextHop ≠ e.GetDestination)
    (hnh : s.m_routingTable.LookupRoute e.GetNextHop = some nh)
    (hv : nh.GetFlag = RouteFlags.VALID)
    (hl : nh.GetLifeTime s.m_simulator.Now ≤ s.m_periodicUpdateInterval + Seconds 2) :
    s.LookupRoute D rt0 = { found := true, rt := e, state := s, requests := [] }
    ∧ ∀ alt : RoutingTable,
        ({ s with m_altRoutingTable := alt } : RoutingProtocol).LookupRoute D rt0
          = { found := true
              rt := e
              state := { s with m_altRoutingTable := alt }
              requests := [] } := by
  have key : ∀ alt : RoutingTable,
      ({ s with m_altRoutingTable := alt } : RoutingProtocol).LookupRoute D rt0
        = { found := true
            rt := e
            state := { s with m_altRoutingTable := alt }
            requests := [] } := by
    intro alt
    refine LookupRoute_of_live_segment _ D rt0 e h ?_ hd ?_
    · cases hb : RoutingProtocol.IsRouteAlive
          ({ s with m_altRoutingTable := alt } : RoutingProtocol) e 2 with
      | false => rfl
      | true =>
        have h2 := (IsRouteAlive_two _ e).mp hb
        rcases hdead with hdead | hdead
        · exact absurd h2.2 hdead
        · exact absurd h2.1 (not_le.mpr hdead)
    · show RoutingProtocol.IsRouteAlive ({ s with m_altRoutingTable := alt } : RoutingProtocol)
        ((s.m_routingTable.LookupRoute e.GetNextHop).getD
          (RoutingTableEntry.default s.m_simulator.Now)) 2 = true
      rw [hnh]
      exact (IsRouteAlive_two _ nh).mpr ⟨hl, hv⟩
  exact ⟨key s.m_altRoutingTable, key⟩

/-- Witness for C17: the node with a live route to the neighbour `S` and a stale route to `D` by
way of `S`. -/
theorem LookupRoute_live_next_segment_witness :
    exampleNodeLiveSegment.m_routingTable.LookupRoute exampleD = some staleRouteViaS
    ∧ staleRouteViaS.GetLifeTime exampleNodeLiveSegment.m_simulator.Now
        > exampleNodeLiveSegment.m_periodicUpdateInterval + Seconds 2
    ∧ exampleNodeLiveSegment.LookupRoute exampleD (RoutingTableEntry.default (Seconds 20))
        = { found := true, rt := staleRouteViaS, state := exampleNodeLiveSegment,
            requests := [] } :=
  ⟨by decide, by decide,
   (LookupRoute_live_next_segment exampleNodeLiveSegment exampleD
     (RoutingTableEntry.default (Seconds 20)) staleRouteViaS neighbourRouteS (by decide)
     (Or.inr (by decide)) (by decide) (by decide) (by decide) (by decide)).1⟩

/-- The route-input lookup of a destination whose main route is broken and whose alternate
entry is `INSEARCH`. -/
theorem LookupRouteForRouteInput_of_insearch (s : RoutingProtocol) (id : Ipv4Address)
    (rt0 e altRt : RoutingTableEntry) (forRouteInput : Bool)
    (hmain : s.MainRouteBroken id e)
    (hmain3 : s.m_routingTable.LookupRouteForRouteInput id forRouteInput = some e)
    (halt3 : s.m_altRoutingTable.LookupRouteForRouteInput id forRouteInput = some altRt)
    (hf : altRt.GetFlag = RouteFlags.INSEARCH) :
    s.LookupRouteForRouteInput id rt0 forRouteInput
      = { found := false, rt := e, state := s.SendRouteRequest id, requests := [id] } := by
  obtain ⟨-, h2, h3⟩ := hmain
  unfold RoutingProtocol.LookupRouteForRouteInput
  simp only [hmain3, h2, halt3, hf]
  simp [h3]

/-- The route-input lookup of a destination whose main route is broken and whose alternate
entry is `VALID` and older than a third of the periodic interval. -/
theorem LookupRouteForRouteInput_of_stale_alternate (s : RoutingProtocol) (id : Ipv4Address)
    (rt0 e altRt : RoutingTableEntry) (forRouteInput : Bool)
    (hmain : s.MainRouteBroken id e)
    (hmain3 : s.m_routingTable.LookupRouteForRouteInput id forRouteInput = some e)
    (halt3 : s.m_altRoutingTable.LookupRouteForRouteInput id forRouteInput = some altRt)
    (hd : altRt.GetDestination = id)
    (hvalid : altRt.GetFlag = RouteFlags.VALID)
    (ha : (altRt.GetInstallTime s.m_simulator.Now).GetSeconds
      > s.m_periodicUpdateInterval.GetSeconds / 3) :
    s.LookupRouteForRouteInput id rt0 forRouteInput =
      (if (altRt.GetInstallTime s.m_simulator.Now).GetSeconds
          > s.m_periodicUpdateInterval.GetSeconds / 3 + 2 then
        { found := false
          rt := RoutingProtocol.SpliceAlternate e altRt s.m_simulator.Now
          state :=
            { s.SendRouteRequest id with
                m_altRoutingTable :=
                  ((s.SendRouteRequest id).m_altRoutingTable.DeleteRoute id).2 }
          requests := [id] }
      else
        { found := true
          rt := RoutingProtocol.SpliceAlternate e altRt s.m_simulator.Now
          state := s.SendRouteRequest id
          requests := [id] }) := by
  obtain ⟨-, h2, h3⟩ := hmain
  unfold RoutingProtocol.LookupRouteForRouteInput
  simp only [hmain3, h2, halt3, hvalid, hd]
  by_cases hb : (altRt.GetInstallTime s.m_simulator.Now).GetSeconds
      > s.m_periodicUpdateInterval.GetSeconds / 3 + 2
  · simp [h3, hb, ha]
  · simp [h3, hb, ha]


/-- C18, as amended: the route-input variant `LookupRoute (id, rt, forRouteInput)` issues repair
requests at the alternate-table step as the two-argument variant does. In every state in which
the lookup of `D` reaches the alternate table, the table lookups of the variant finding the
entries that those of the two-argument variant find, and the alternate entry is `INSEARCH`, or
`VALID` and older than a third of the periodic interval, both variants call
`SendRouteRequest (D)` and hand back the same result. -/
theorem LookupRouteForRouteInput_requests_repair (s : RoutingProtocol) (D : Ipv4Address)
    (rt0 e altRt : RoutingTableEntry) (forRouteInput : Bool)
    (hmain : s.MainRouteBroken D e)
    (hmain3 : s.m_routingTable.LookupRouteForRouteInput D forRouteInput = some e)
    (halt : s.m_altRoutingTable.LookupRoute D = some altRt)
    (halt3 : s.m_altRoutingTable.LookupRouteForRouteInput D forRouteInput = some altRt)
    (hstep : altRt.GetFlag = RouteFlags.INSEARCH
      ∨ (altRt.GetFlag = RouteFlags.VALID
        ∧ (altRt.GetInstallTime s.m_simulator.Now).GetSeconds
          > s.m_periodicUpdateInterval.GetSeconds / 3)) :
    (s.LookupRouteForRouteInput D rt0 forRouteInput).requests = [D]
    ∧ (s.LookupRoute D rt0).requests = [D]
    ∧ s.LookupRouteForRouteInput D rt0 forRouteInput = s.LookupRoute D rt0 := by
  rcases hstep with hf | ⟨hv, ha⟩
  · rw [LookupRouteForRouteInput_of_insearch s D rt0 e altRt forRouteInput hmain hmain3 halt3 hf,
      LookupRoute_of_insearch s D rt0 e altRt hmain halt hf]
    exact ⟨rfl, rfl, rfl⟩
  · have hd : altRt.GetDestination = D := RoutingTable_LookupRoute_dst _ _ _ halt
    rw [LookupRouteForRouteInput_of_stale_alternate s D rt0 e altRt forRouteInput hmain hmain3
        halt3 hd hv ha,
      LookupRoute_of_valid_alternate s D rt0 e altRt hmain halt hv]
    by_cases hb : (altRt.GetInstallTime s.m_simulator.Now).GetSeconds
        > s.m_periodicUpdateInterval.GetSeconds / 3 + 2
    · simp [if_pos hb]
    · simp [if_neg hb, if_pos ha]

/-- Witness for C18 as amended: the route-input lookup of `D` on the node with the stale route to
`D` and an `INSEARCH` placeholder for `D`. -/
theorem LookupRouteForRouteInput_requests_repair_witness :
    exampleNodeSearching.MainRouteBroken exampleD staleRoute
    ∧ exampleNodeSearching.m_altRoutingTable.LookupRoute exampleD = some placeholderRoute
    ∧ placeholderRoute.GetFlag = RouteFlags.INSEARCH
    ∧ (exampleNodeSearching.LookupRouteForRouteInput exampleD
        (RoutingTableEntry.default (Seconds 20)) true).requests = [exampleD]
    ∧ exampleNodeSearching.LookupRouteForRouteInput exampleD
        (RoutingTableEntry.default (Seconds 20)) true
        = exampleNodeSearching.LookupRoute exampleD (RoutingTableEntry.default (Seconds 20)) := by
  have hb : exampleNodeSearching.MainRouteBroken exampleD staleRoute :=
    exampleNodeStale_broken exampleNodeSearching.m_altRoutingTable
  have h := LookupRouteForRouteInput_requests_repair exampleNodeSearching exampleD
    (RoutingTableEntry.default (Seconds 20)) staleRoute placeholderRoute true hb (by decide)
    (by decide) (by decide) (Or.inl (by decide))
  exact ⟨hb, by decide, by decide, h.1, h.2.2⟩

/-- Counterexample to C18 as stated: the node holds a stale route to the neighbour `D` and an
`INSEARCH` placeholder for `D` that is five seconds old. The route-input lookup of `D` reaches the
alternate table, calls `SendRouteRequest (D)`, and a route-request broadcast is scheduled. -/
theorem LookupRouteForRouteInput_counterexample :
    exampleNodeSearching.m_routingTable.LookupRouteForRouteInput exampleD true = some staleRoute
    ∧ exampleNodeSearching.m_altRoutingTable.LookupRouteForRouteInput exampleD true
        = some placeholderRoute
    ∧ placeholderRoute.GetFlag = RouteFlags.INSEARCH
    ∧ (exampleNodeSearching.LookupRouteForRouteInput exampleD
        (RoutingTableEntry.default (Seconds 20)) true).found = false
    ∧ (exampleNodeSearching.LookupRouteForRouteInput exampleD
        (RoutingTableEntry.default (Seconds 20)) true).requests = [exampleD]
    ∧ (exampleNodeSearching.LookupRouteForRouteInput exampleD
        (RoutingTableEntry.default (Seconds 20)) true).state.m_simulator.m_events.map Event.impl
        = [EventImpl.SendTo 1
            (RoutingProtocol.RouteRequestPacket (RreqHeader.default.SetDst exampleD))
            exampleIface.GetBroadcast] := by
  have hb : exampleNodeSearching.MainRouteBroken exampleD staleRoute :=
    exampleNodeStale_broken exampleNodeSearching.m_altRoutingTable
  rw [LookupRouteForRouteInput_of_insearch exampleNodeSearching exampleD _ staleRoute
    placeholderRoute true hb (by decide) (by decide) (by decide)]
  exact ⟨by decide, by decide, by decide, rfl, rfl, by decide⟩

/-! ## Route requests received -/

/-- The purge sweep adds no destination to a table. -/
theorem RoutingTable_Purge_LookupRoute_none (t : RoutingTable) (now : Time) (id : Ipv4Address)
    (h : t.LookupRoute id = none) : (t.Purge now).1.LookupRoute id = none := by
  unfold RoutingTable.LookupRoute at h ⊢
  rw [List.find?_eq_none] at h ⊢
  intro x hx
  simp only [RoutingTable.Purge, List.mem_map, List.mem_filter] at hx
  obtain ⟨y, ⟨hy, -⟩, rfl⟩ := hx
  have := h y hy
  split_ifs <;> simpa [RoutingTableEntry.SetFlag, RoutingTableEntry.GetDestination] using this

/-- C13, as amended: a route-request for `D` from the requester `R`. `RecvRouteRequest` first
purges the main table. If the main-table entry for `D` that is left by the purge has next hop
`R`, or if the main table has no entry for `D` and the alternate entry for `D` has next hop `R`,
no acknowledge is sent. -/
theorem RecvRouteRequest_no_ack_to_next_hop (s : RoutingProtocol) (D R receiver : Nat)
    (rest : List Nat) (hD : D < 2 ^ 32) :
    ∃ s1 : RoutingProtocol,
      s.RecvRouteRequest ((RreqHeader.mk2 D 0).Serialize ++ rest) receiver R = some (s1, rest)
      ∧ ((∃ e : RoutingTableEntry,
            (s.m_routingTable.Purge s.m_simulator.Now).1.LookupRoute D = some e
              ∧ e.GetNextHop = R) →
          s1.m_sent = s.m_sent)
      ∧ (s.m_routingTable.LookupRoute D = none →
          (∃ a : RoutingTableEntry, s.m_altRoutingTable.LookupRoute D = some a
            ∧ a.GetNextHop = R) →
          s1.m_sent = s.m_sent) := by
  refine ⟨s.RecvRouteRequestHeader (RreqHeader.mk2 D 0) receiver R,
    RecvRouteRequest_Serialize s _ rest receiver R hD (by simp [RreqHeader.mk2]), ?_, ?_⟩
  · rintro ⟨e, he, hn⟩
    unfold RoutingProtocol.RecvRouteRequestHeader
    simp only [RreqHeader.GetDst, RreqHeader.mk2, he, hn]
    split_ifs <;> rfl
  · rintro hm ⟨a, ha, hn⟩
    have hp := RoutingTable_Purge_LookupRoute_none s.m_routingTable s.m_simulator.Now D hm
    unfold RoutingProtocol.RecvRouteRequestHeader
    simp only [RreqHeader.GetDst, RreqHeader.mk2, hp, ha, hn]
    split_ifs <;> rfl


/-- The handling of a route-request that is answered from the alternate table: the purge leaves
no main-table entry for the destination, and the alternate entry is a `VALID` route to a direct
neighbour that does not lead through the requester. -/
theorem RecvRouteRequestHeader_alternate_ack (s : RoutingProtocol) (h : RreqHeader)
    (receiver src : Ipv4Address) (a : RoutingTableEntry)
    (hdelay : ¬ s.GetDelayLeft.GetSeconds < 1)
    (hmain : (s.m_routingTable.Purge s.m_simulator.Now).1.LookupRoute h.GetDst = none)
    (halt : s.m_altRoutingTable.LookupRoute h.GetDst = some a)
    (hsrc : a.GetNextHop ≠ src) (hdirect : a.GetNextHop = a.GetDestination)
    (hage : (a.GetInstallTime s.m_simulator.Now).GetSeconds ≤ ((Seconds 5 : Int) : ℚ))
    (hvalid : a.GetFlag = RouteFlags.VALID) :
    s.RecvRouteRequestHeader h receiver src
      = RoutingProtocol.SendRouteAck
          { s with m_routingTable := (s.m_routingTable.Purge s.m_simulator.Now).1 } a src
          receiver := by
  unfold RoutingProtocol.RecvRouteRequestHeader
  simp only [hdelay, hmain, halt, if_false]
  rw [if_neg hsrc, if_pos ⟨hage, hvalid⟩]
  simp [hdirect]

/-- Counterexample to C13 as stated: the main-table entry of the node for `D` has the next hop
`S`, and `S` asks for a route to `D`. The purge that `RecvRouteRequest` starts with removes the
entries of `S` and `D`, which are over the hold-down time; the alternate entry for `D` is a direct
route, and an acknowledge is sent to `S`. -/
theorem RecvRouteRequest_purged_route_counterexample :
    (exampleNodeLostNeighbour.m_routingTable.LookupRoute exampleD).map
        RoutingTableEntry.GetNextHop = some exampleS
    ∧ exampleNodeLostNeighbour.m_sent = []
    ∧ (exampleNodeLostNeighbour.RecvRouteRequest ((RreqHeader.mk2 exampleD 0).Serialize ++ [])
        exampleIface.GetLocal exampleS).map
          (fun r => r.1.m_sent.map (fun p => (p.destination, p.port, p.packet.take 2)))
        = some [(exampleS, 269, (TypeHeader.mk1 .DSDVTYPE_RACK).Serialize)] := by
  rw [RecvRouteRequest_Serialize _ _ _ _ _ (by decide) (by decide),
    RecvRouteRequestHeader_alternate_ack exampleNodeLostNeighbour _ _ _ directAlternate
      (by norm_num [RoutingProtocol.GetDelayLeft, exampleNodeLostNeighbour, Time.GetSeconds,
        Seconds, Simulator.Now])
      (by decide) (by decide) (by decide) (by decide)
      (by norm_num [directAlternate, exampleNodeLostNeighbour, RoutingTableEntry.GetInstallTime,
        RoutingTableEntry.SetInstallTime, RoutingTableEntry.SetFlag, RoutingTableEntry.mk9,
        Time.GetSeconds, Seconds, Simulator.Now])
      (by decide)]
  exact ⟨by decide, by decide, by decide⟩

/-- Witness for C13 as amended: the example node with the route to `D` by way of `S` receives a
request for `D` from `S`. -/
theorem RecvRouteRequest_no_ack_to_next_hop_witness :
    (exampleNodeWithRoute.m_routingTable.Purge exampleNodeWithRoute.m_simulator.Now).1.LookupRoute
        exampleD = some exampleRoute
    ∧ exampleRoute.GetNextHop = exampleS
    ∧ ∃ s1 : RoutingProtocol,
        exampleNodeWithRoute.RecvRouteRequest ((RreqHeader.mk2 exampleD 0).Serialize ++ [])
          exampleIface.GetLocal exampleS = some (s1, [])
        ∧ s1.m_sent = exampleNodeWithRoute.m_sent := by
  obtain ⟨s1, h1, h2, -⟩ := RecvRouteRequest_no_ack_to_next_hop exampleNodeWithRoute exampleD
    exampleS exampleIface.GetLocal [] (by decide)
  exact ⟨by decide, by decide, s1, h1, h2 ⟨exampleRoute, by decide, by decide⟩⟩

/-! ## Stale and poisoned updates -/

/-- The handling of an update with an odd sequence number for a destination that the main table
does not hold: an update for an own address is dropped, any other one deletes the alternate
entry of the destination. -/
theorem RecvDsdvUpdate_poison_unknown (s : RoutingProtocol) (h : DsdvHeader)
    (receiver src : Ipv4Address) (hodd : h.m_dstSeqNo % 2 = 1)
    (hmain : s.m_routingTable.LookupRoute h.m_dst = none) :
    s.RecvDsdvUpdate h receiver src
      = if (s.m_socketAddresses.filter (fun j => decide (h.m_dst = j.2.GetLocal))).length > 0
        then s
        else { s with m_altRoutingTable := (s.m_altRoutingTable.DeleteRoute h.m_dst).2 } := by
  simp only [RoutingProtocol.RecvDsdvUpdate, DsdvHeader.GetDst, DsdvHeader.GetDstSeqno, hmain,
    hodd, ne_eq, not_true_eq_false, if_false]

/-- C20, as amended: an update with an odd sequence number for a destination `D` that has no
main-table entry leaves the main table and the advertisement table unchanged. The alternate
table keeps every entry for another destination and, `D` being none of the node's own
addresses, loses its entry for `D`; it is unchanged when it holds no entry for `D`. -/
theorem RecvDsdv_poison_for_unknown_destination (s : RoutingProtocol)
    (D seq hop src receiver : Nat) (rest : List Nat) (hD : D < 2 ^ 32) (hseq : seq < 2 ^ 32)
    (hhop : hop < 2 ^ 16) (hodd : seq % 2 = 1)
    (hmain : s.m_routingTable.LookupRoute D = none) :
    ∃ s1 : RoutingProtocol,
      s.RecvDsdv (({ m_dst := D, m_hopCount := hop, m_dstSeqNo := seq } : DsdvHeader).Serialize
          ++ rest) receiver src = some (s1, rest)
      ∧ s1.m_routingTable = s.m_routingTable
      ∧ s1.m_advRoutingTable = s.m_advRoutingTable
      ∧ (∀ id, id ≠ D →
          s1.m_altRoutingTable.LookupRoute id = s.m_altRoutingTable.LookupRoute id)
      ∧ (s.m_altRoutingTable.LookupRoute D = none → s1.m_altRoutingTable = s.m_altRoutingTable)
      ∧ ((∀ j ∈ s.m_socketAddresses, j.2.GetLocal ≠ D) →
          s1.m_altRoutingTable.LookupRoute D = none) := by
  refine ⟨s.RecvDsdvUpdate { m_dst := D, m_hopCount := hop, m_dstSeqNo := seq } receiver src,
    RecvDsdv_Serialize s _ rest receiver src hD hhop hseq, ?_⟩
  rw [RecvDsdvUpdate_poison_unknown s _ receiver src hodd hmain]
  by_cases hc : (s.m_socketAddresses.filter (fun j => decide (D = j.2.GetLocal))).length > 0
  · rw [if_pos hc]
    refine ⟨rfl, rfl, fun _ _ => rfl, fun _ => rfl, fun hown => ?_⟩
    rw [not_own_count s D hown] at hc
    exact absurd hc (lt_irrefl 0)
  · rw [if_neg hc]
    refine ⟨rfl, rfl, ?_, ?_, ?_⟩
    · intro id hid
      simp only [RoutingTable_LookupRoute_DeleteRoute, if_neg (Ne.symm hid)]
    · intro hn
      simp [RoutingTable.DeleteRoute, hn]
    · intro _
      simp only [RoutingTable_LookupRoute_DeleteRoute, if_pos]

/-- Witness for C20 as amended: the example node, which has no route to `D`, receives `(D, seq=5,
hop=1)`. -/
theorem RecvDsdv_poison_for_unknown_destination_witness :
    exampleNode.m_routingTable.LookupRoute exampleD = none
    ∧ ∃ s1 : RoutingProtocol,
      exampleNode.RecvDsdv
          (({ m_dst := exampleD, m_hopCount := 1, m_dstSeqNo := 5 } : DsdvHeader).Serialize ++ [])
          exampleIface.GetLocal exampleS = some (s1, [])
      ∧ s1.m_routingTable = exampleNode.m_routingTable
      ∧ s1.m_advRoutingTable = exampleNode.m_advRoutingTable
      ∧ s1.m_altRoutingTable = exampleNode.m_altRoutingTable := by
  obtain ⟨s1, h1, h2, h3, -, h5, -⟩ := RecvDsdv_poison_for_unknown_destination exampleNode
    exampleD 5 1 exampleS exampleIface.GetLocal [] (by decide) (by decide) (by decide)
    (by decide) (by decide)
  exact ⟨by decide, s1, h1, h2, h3, h5 (by decide)⟩

/-- Counterexample to C20 as stated: the node has no main-table entry for `D` and an alternate
route to `D`; the update `(D, seq=5, hop=1)` deletes the alternate route. -/
theorem RecvDsdv_poison_drops_alternate_counterexample :
    exampleNodeAlternateOnly.m_routingTable.LookupRoute exampleD = none
    ∧ exampleNodeAlternateOnly.m_altRoutingTable.LookupRoute exampleD
        = some (alternateRoute (Seconds 18))
    ∧ (exampleNodeAlternateOnly.RecvDsdv
          (({ m_dst := exampleD, m_hopCount := 1, m_dstSeqNo := 5 } : DsdvHeader).Serialize ++ [])
          exampleIface.GetLocal exampleS).map
        (fun r => r.1.m_altRoutingTable.LookupRoute exampleD) = some none
    ∧ (exampleNodeAlternateOnly.RecvDsdv
          (({ m_dst := exampleD, m_hopCount := 1, m_dstSeqNo := 5 } : DsdvHeader).Serialize ++ [])
          exampleIface.GetLocal exampleS).map
        (fun r => r.1.m_altRoutingTable.m_ipv4AddressEntry) = some [] := by
  decide


/-- The even-sequence-number branch of `RecvDsdv` for an update that is equal-or-stale against
the advertisement entry: with a settling timer running nothing is done; otherwise the
advertisement entry is deleted, after the main entry was replaced by it, its lifetime
refreshed, when the sequence numbers are equal and the advertised next hop is the sender. -/
theorem RecvDsdvReachable_stale (s0 : RoutingProtocol) (a0 : RoutingTableEntry)
    (h : DsdvHeader) (src : Ipv4Address)
    (hstale : h.m_dstSeqNo < a0.GetSeqNo
      ∨ (h.m_dstSeqNo = a0.GetSeqNo ∧ a0.GetHop ≤ h.m_hopCount)) :
    s0.RecvDsdvReachable a0 h src
      = if s0.m_advRoutingTable.AnyRunningEvent s0.m_simulator h.m_dst = true then s0
        else if h.m_dstSeqNo = a0.GetSeqNo ∧ a0.GetNextHop = src then
          { s0 with
              m_routingTable :=
                (s0.m_routingTable.Update (a0.SetLifeTime s0.m_simulator.Now)).2
              m_advRoutingTable := (s0.m_advRoutingTable.DeleteRoute h.m_dst).2 }
        else { s0 with m_advRoutingTable := (s0.m_advRoutingTable.DeleteRoute h.m_dst).2 } := by
  simp only [RoutingProtocol.RecvDsdvReachable, DsdvHeader.GetDst, DsdvHeader.GetDstSeqno,
    DsdvHeader.GetHopCount]
  rcases hstale with hlt | ⟨heq, hle⟩
  · have h1 : ¬ h.m_dstSeqNo > a0.GetSeqNo := by omega
    have h2 : ¬ h.m_dstSeqNo = a0.GetSeqNo := by omega
    simp only [h1, h2, if_false, false_and]
    cases s0.m_advRoutingTable.AnyRunningEvent s0.m_simulator h.m_dst <;> simp
  · have h1 : ¬ h.m_dstSeqNo > a0.GetSeqNo := by omega
    have h2 : ¬ h.m_hopCount < a0.GetHop := by omega
    simp only [h1, heq, h2, if_false, if_true, true_and]
    cases s0.m_advRoutingTable.AnyRunningEvent s0.m_simulator h.m_dst <;>
      by_cases hn : a0.GetNextHop = src <;> simp [hn]

/-- The test `AnyRunningEvent` reads the event registry of the table only. -/
theorem RoutingTable_AnyRunningEvent_congr (t1 t2 : RoutingTable) (sim : Simulator)
    (address : Ipv4Address) (h : t1.m_ipv4Events = t2.m_ipv4Events) :
    t1.AnyRunningEvent sim address = t2.AnyRunningEvent sim address := by
  unfold RoutingTable.AnyRunningEvent
  rw [h]


/-- C19, as amended: an update `(D, seq, hop)` with even `seq` from the neighbour `src` for a
destination `D` of the main table that is equal-or-stale against the advertisement entry `a0`
(the copy of the main entry when the advertisement table has none): `seq < s0`, or `seq = s0`
and `hop >= h0`. The advertisement entry for `D` is deleted if and only if no settling timer is
running for `D`; otherwise it is left as it is, and so is the whole node when the entry was
there before. The main-table entry for `D` stays as it is, but for one case: with equal
sequence numbers, no timer running and `src` the advertised next hop, it is replaced by the
advertisement entry with the lifetime refreshed. So the main-table entry keeps its sequence
number, hop count and next hop whenever the advertisement entry agrees with it on them. -/
theorem RecvDsdv_discards_stale_update (s : RoutingProtocol) (D seq hop src receiver : Nat)
    (rest : List Nat) (fwd : RoutingTableEntry) (hD : D < 2 ^ 32) (hseq : seq < 2 ^ 32)
    (hhop : hop < 2 ^ 16) (heven : seq % 2 = 0)
    (hown : ∀ j ∈ s.m_socketAddresses, j.2.GetLocal ≠ D)
    (hmain : s.m_routingTable.LookupRoute D = some fwd)
    (hstale : seq < ((s.m_advRoutingTable.LookupRoute D).getD fwd).GetSeqNo
      ∨ (seq = ((s.m_advRoutingTable.LookupRoute D).getD fwd).GetSeqNo
        ∧ ((s.m_advRoutingTable.LookupRoute D).getD fwd).GetHop ≤ hop)) :
    ∃ s1 : RoutingProtocol,
      s.RecvDsdv (({ m_dst := D, m_hopCount := hop, m_dstSeqNo := seq } : DsdvHeader).Serialize
          ++ rest) receiver src = some (s1, rest)
      ∧ s1.m_advRoutingTable.LookupRoute D
          = (if s.m_advRoutingTable.AnyRunningEvent s.m_simulator D = true then
              some ((s.m_advRoutingTable.LookupRoute D).getD fwd)
            else none)
      ∧ (s.m_advRoutingTable.AnyRunningEvent s.m_simulator D = true →
          s.m_advRoutingTable.LookupRoute D ≠ none → s1 = s)
      ∧ s1.m_routingTable.LookupRoute D
          = some (if seq = ((s.m_advRoutingTable.LookupRoute D).getD fwd).GetSeqNo
                ∧ s.m_advRoutingTable.AnyRunningEvent s.m_simulator D = false
                ∧ ((s.m_advRoutingTable.LookupRoute D).getD fwd).GetNextHop = src then
              ((s.m_advRoutingTable.LookupRoute D).getD fwd).SetLifeTime s.m_simulator.Now
            else fwd)
      ∧ (((s.m_advRoutingTable.LookupRoute D).getD fwd).GetSeqNo = fwd.GetSeqNo →
          ((s.m_advRoutingTable.LookupRoute D).getD fwd).GetHop = fwd.GetHop →
          ((s.m_advRoutingTable.LookupRoute D).getD fwd).GetNextHop = fwd.GetNextHop →
          ∃ m1 : RoutingTableEntry, s1.m_routingTable.LookupRoute D = some m1
            ∧ m1.GetSeqNo = fwd.GetSeqNo ∧ m1.GetHop = fwd.GetHop
            ∧ m1.GetNextHop = fwd.GetNextHop)
      ∧ s1.m_altRoutingTable = s.m_altRoutingTable := by
  have hne : ¬ seq % 2 = 1 := by omega
  have hfwd : fwd.GetDestination = D := RoutingTable_LookupRoute_dst _ _ _ hmain
  refine ⟨s.RecvDsdvUpdate { m_dst := D, m_hopCount := hop, m_dstSeqNo := seq } receiver src,
    RecvDsdv_Serialize s _ rest receiver src hD hhop hseq, ?_⟩
  rw [RecvDsdvUpdate_known s _ receiver src fwd hown hmain]
  simp only [ne_eq, hne, not_false_eq_true, if_true]
  have hstage := StageAdvertisement_lookup s D fwd hfwd
  obtain ⟨f1, f2, f3, f4, -⟩ := StageAdvertisement_frame s D fwd
  have hrun : (s.StageAdvertisement D fwd).m_advRoutingTable.AnyRunningEvent
      (s.StageAdvertisement D fwd).m_simulator D
        = s.m_advRoutingTable.AnyRunningEvent s.m_simulator D := by
    rw [f1]
    exact RoutingTable_AnyRunningEvent_congr _ _ _ _ f4
  have hsame : s.m_advRoutingTable.LookupRoute D ≠ none → s.StageAdvertisement D fwd = s := by
    intro hn
    unfold RoutingProtocol.StageAdvertisement
    cases hl : s.m_advRoutingTable.LookupRoute D with
    | none => exact absurd hl hn
    | some a => rfl
  have hdst : ((s.m_advRoutingTable.LookupRoute D).getD fwd).GetDestination = D :=
    RoutingTable_LookupRoute_dst _ _ _ hstage
  rw [RecvDsdvReachable_stale _ _ _ src hstale]
  simp only [DsdvHeader.GetDst, hrun]
  generalize (s.m_advRoutingTable.LookupRoute D).getD fwd = a0 at hstage hdst hstale ⊢
  have hd2 : (a0.SetLifeTime (s.StageAdvertisement D fwd).m_simulator.Now).GetDestination = D :=
    hdst
  have hnow : (s.StageAdvertisement D fwd).m_simulator.Now = s.m_simulator.Now := by rw [f1]
  cases hr : s.m_advRoutingTable.AnyRunningEvent s.m_simulator D with
  | true =>
    rw [if_pos rfl]
    refine ⟨?_, ?_, ?_, ?_, ?_⟩
    · rw [hstage, if_pos rfl]
    · intro _ hn; exact hsame hn
    · rw [f2, hmain]; simp
    · intro _ _ _; exact ⟨fwd, by rw [f2]; exact hmain, rfl, rfl, rfl⟩
    · exact f3
  | false =>
    rw [if_neg (by simp)]
    by_cases hc : seq = a0.GetSeqNo ∧ a0.GetNextHop = src
    · rw [if_pos hc]
      have hm1 : ((s.StageAdvertisement D fwd).m_routingTable.Update
          (a0.SetLifeTime (s.StageAdvertisement D fwd).m_simulator.Now)).2.LookupRoute D
            = some (a0.SetLifeTime s.m_simulator.Now) := by
        rw [RoutingTable_LookupRoute_Update, if_pos hd2, f2, hmain, hnow]
        rfl
      refine ⟨?_, ?_, ?_, ?_, ?_⟩
      · simp [RoutingTable_LookupRoute_DeleteRoute]
      · intro h; exact absurd h (by simp)
      · show ((s.StageAdvertisement D fwd).m_routingTable.Update
          (a0.SetLifeTime (s.StageAdvertisement D fwd).m_simulator.Now)).2.LookupRoute D = _
        rw [hm1, if_pos ⟨hc.1, rfl, hc.2⟩]
      · intro h1 h2 h3
        exact ⟨a0.SetLifeTime s.m_simulator.Now, hm1, h1, h2, h3⟩
      · exact f3
    · rw [if_neg hc]
      refine ⟨?_, ?_, ?_, ?_, ?_⟩
      · simp [RoutingTable_LookupRoute_DeleteRoute]
      · intro h; exact absurd h (by simp)
      · show (s.StageAdvertisement D fwd).m_routingTable.LookupRoute D = _
        rw [f2, hmain, if_neg (fun h => hc ⟨h.1, h.2.2⟩)]
      · intro _ _ _; exact ⟨fwd, by rw [← hmain, ← f2], rfl, rfl, rfl⟩
      · exact f3

/-- Witness for C19 as amended: the node with the route `(D, seq=4, hop=1, nextHop=S)` and no
advertisement entry for `D` receives `(D, seq=4, hop=1)` from `S`. -/
theorem RecvDsdv_discards_stale_update_witness :
    exampleNodeWithRoute.m_routingTable.LookupRoute exampleD = some exampleRoute
    ∧ ∃ (s1 : RoutingProtocol) (m1 : RoutingTableEntry),
      exampleNodeWithRoute.RecvDsdv
          (({ m_dst := exampleD, m_hopCount := 1, m_dstSeqNo := 4 } : DsdvHeader).Serialize ++ [])
          exampleIface.GetLocal exampleS = some (s1, [])
      ∧ s1.m_advRoutingTable.LookupRoute exampleD = none
      ∧ s1.m_routingTable.LookupRoute exampleD = some m1
      ∧ m1.GetSeqNo = 4 ∧ m1.GetHop = 1 ∧ m1.GetNextHop = exampleS := by
  obtain ⟨s1, h1, h2, -, -, h5, -⟩ := RecvDsdv_discards_stale_update exampleNodeWithRoute
    exampleD 4 1 exampleS exampleIface.GetLocal [] exampleRoute (by decide) (by decide)
    (by decide) (by decide) (by decide) (by decide) (Or.inr (by decide))
  obtain ⟨m1, hm, g1, g2, g3⟩ := h5 (by decide) (by decide) (by decide)
  exact ⟨by decide, s1, m1, h1, h2, hm, g1, g2, g3⟩

/-- Counterexample to C19 as stated: the main table holds `(D, seq=4, hop=1, nextHop=S)`, the
advertisement table `(D, seq=6, hop=1, nextHop=S)` and no settling timer is running for `D`. The
update `(D, seq=6, hop=1)` from `S` is equal to the advertisement entry; after it the main-table
entry for `D` has the sequence number 6. -/
theorem RecvDsdv_stale_update_rewrites_main_counterexample :
    (exampleNodePending.m_routingTable.LookupRoute exampleD).map
        (fun m => (m.GetSeqNo, m.GetHop, m.GetNextHop)) = some (4, 1, exampleS)
    ∧ (exampleNodePending.m_advRoutingTable.LookupRoute exampleD).map
        (fun a => (a.GetSeqNo, a.GetHop, a.GetNextHop)) = some (6, 1, exampleS)
    ∧ exampleNodePending.m_advRoutingTable.AnyRunningEvent exampleNodePending.m_simulator
        exampleD = false
    ∧ (exampleNodePending.RecvDsdv
          (({ m_dst := exampleD, m_hopCount := 1, m_dstSeqNo := 6 } : DsdvHeader).Serialize ++ [])
          exampleIface.GetLocal exampleS).map
        (fun r => (r.1.m_routingTable.LookupRoute exampleD).map
          (fun m => (m.GetSeqNo, m.GetHop, m.GetNextHop))) = some (some (6, 1, exampleS)) := by
  decide


/-! ## Suppressed updates and requests -/

theorem own_count_pos (s : RoutingProtocol) (D : Ipv4Address)
    (hown : ∃ j ∈ s.m_socketAddresses, j.2.GetLocal = D) :
    (s.m_socketAddresses.filter (fun j => decide (D = j.2.GetLocal))).length > 0 := by
  obtain ⟨j, hj, hd⟩ := hown
  apply List.length_pos_of_mem (a := j)
  simp [List.mem_filter, hj, hd]

/-- C23: an update whose destination is the local address of one of the interfaces of the node
(the interfaces of `m_socketAddresses`, on which the protocol has a socket), whatever its
sequence number, hop count and sender: `RecvDsdv` returns with the node as it was, so the
main, advertisement and alternate tables are unchanged and no timer is scheduled. -/
theorem RecvDsdv_discards_own_address (s : RoutingProtocol) (D seq hop src receiver : Nat)
    (rest : List Nat) (hD : D < 2 ^ 32) (hseq : seq < 2 ^ 32) (hhop : hop < 2 ^ 16)
    (hown : ∃ j ∈ s.m_socketAddresses, j.2.GetLocal = D) :
    s.RecvDsdv (({ m_dst := D, m_hopCount := hop, m_dstSeqNo := seq } : DsdvHeader).Serialize
        ++ rest) receiver src = some (s, rest)
    ∧ ∃ s1 : RoutingProtocol,
      s.RecvDsdv (({ m_dst := D, m_hopCount := hop, m_dstSeqNo := seq } : DsdvHeader).Serialize
          ++ rest) receiver src = some (s1, rest)
      ∧ s1.m_routingTable = s.m_routingTable
      ∧ s1.m_advRoutingTable = s.m_advRoutingTable
      ∧ s1.m_altRoutingTable = s.m_altRoutingTable
      ∧ s1.m_simulator.m_events = s.m_simulator.m_events := by
  have h : s.RecvDsdv (({ m_dst := D, m_hopCount := hop, m_dstSeqNo := seq } :
      DsdvHeader).Serialize ++ rest) receiver src = some (s, rest) := by
    rw [RecvDsdv_Serialize s _ rest receiver src hD hhop hseq]
    have hc := own_count_pos s D hown
    simp only [RoutingProtocol.RecvDsdvUpdate, DsdvHeader.GetDst, hc, if_true]
  exact ⟨h, s, h, rfl, rfl, rfl, rfl⟩

/-- Witness for C23: the example node, whose address is `10.1.1.1`, receives an update for
`10.1.1.1`. -/
theorem RecvDsdv_discards_own_address_witness :
    (∃ j ∈ exampleNodeWithRoute.m_socketAddresses, j.2.GetLocal = 167837953)
    ∧ exampleNodeWithRoute.RecvDsdv
        (({ m_dst := 167837953, m_hopCount := 2, m_dstSeqNo := 8 } : DsdvHeader).Serialize ++ [])
        exampleIface.GetLocal exampleS = some (exampleNodeWithRoute, []) :=
  ⟨⟨(1, exampleIface), by decide, by decide⟩,
   (RecvDsdv_discards_own_address exampleNodeWithRoute 167837953 8 2 exampleS
     exampleIface.GetLocal [] (by decide) (by decide) (by decide)
     ⟨(1, exampleIface), by decide, by decide⟩).1⟩

/-- C26: a route-request received while the periodic update of the node is due in less than one
second: `RecvRouteRequest` returns with the node as it was. No acknowledge is sent, no purge is
run and the main, advertisement and alternate tables are unchanged. -/
theorem RecvRouteRequest_suppressed_when_update_due (s : RoutingProtocol) (h : RreqHeader)
    (R receiver : Nat) (rest : List Nat) (hd : h.m_dst < 2 ^ 32) (hr : h.m_reserved < 2 ^ 8)
    (hdue : s.GetDelayLeft.GetSeconds < 1) :
    s.RecvRouteRequest (h.Serialize ++ rest) receiver R = some (s, rest)
    ∧ ∃ s1 : RoutingProtocol,
      s.RecvRouteRequest (h.Serialize ++ rest) receiver R = some (s1, rest)
      ∧ s1.m_sent = s.m_sent
      ∧ s1.m_routingTable = s.m_routingTable
      ∧ s1.m_advRoutingTable = s.m_advRoutingTable
      ∧ s1.m_altRoutingTable = s.m_altRoutingTable := by
  have hs : s.RecvRouteRequest (h.Serialize ++ rest) receiver R = some (s, rest) := by
    rw [RecvRouteRequest_Serialize s h rest receiver R hd hr]
    simp only [RoutingProtocol.RecvRouteRequestHeader, hdue, if_true]
  exact ⟨hs, s, hs, rfl, rfl, rfl, rfl⟩

theorem exampleNodeDue_delay : exampleNodeDue.GetDelayLeft.GetSeconds = 1 / 2 := by
  norm_num [RoutingProtocol.GetDelayLeft, exampleNodeDue, exampleNodeWithRoute, exampleNode,
    Time.GetSeconds, Seconds, MilliSeconds, Simulator.Now]

/-- Witness for C26: the node holds a live route to `D`, its periodic update is due in half a
second, and the neighbour `10.1.1.3` asks for a route to `D`. -/
theorem RecvRouteRequest_suppressed_when_update_due_witness :
    exampleNodeDue.GetDelayLeft.GetSeconds < 1
    ∧ exampleNodeDue.RecvRouteRequest ((RreqHeader.mk2 exampleD 0).Serialize ++ [])
        exampleIface.GetLocal 167837955 = some (exampleNodeDue, []) :=
  ⟨by rw [exampleNodeDue_delay]; norm_num,
   (RecvRouteRequest_suppressed_when_update_due exampleNodeDue (RreqHeader.mk2 exampleD 0)
     167837955 exampleIface.GetLocal [] (by decide) (by decide)
     (by rw [exampleNodeDue_delay]; norm_num)).1⟩


/-- The handling of a route-request for a destination of which the node holds no route, neither
in the purged main table nor in the alternate table: the request is dropped. -/
theorem RecvRouteRequestHeader_no_route (s : RoutingProtocol) (h : RreqHeader)
    (receiver src : Ipv4Address) (hdelay : ¬ s.GetDelayLeft.GetSeconds < 1)
    (hmain : (s.m_routingTable.Purge s.m_simulator.Now).1.LookupRoute h.GetDst = none)
    (halt : s.m_altRoutingTable.LookupRoute h.GetDst = none) :
    s.RecvRouteRequestHeader h receiver src
      = { s with m_routingTable := (s.m_routingTable.Purge s.m_simulator.Now).1 } := by
  unfold RoutingProtocol.RecvRouteRequestHeader
  simp only [hdelay, hmain, halt, if_false]

theorem exampleNode_delay : exampleNode.GetDelayLeft.GetSeconds = 10 := by
  norm_num [RoutingProtocol.GetDelayLeft, exampleNode, Time.GetSeconds, Seconds, Simulator.Now]

/-- C27, the code at the failing input: the example node, whose only address is `10.1.1.1` and
whose periodic update is due in ten seconds, receives from `S` a route-request for `10.1.1.1`.
No acknowledge is sent: the node holds no table entry for its own address, and
`RecvRouteRequest` answers from table entries only. -/
theorem RecvRouteRequest_for_own_address_unanswered :
    exampleNode.m_mainAddress = 167837953
    ∧ exampleNode.IsMyOwnAddress 167837953 = true
    ∧ ¬ exampleNode.GetDelayLeft.GetSeconds < 1
    ∧ (exampleNode.RecvRouteRequest ((RreqHeader.mk2 167837953 0).Serialize ++ [])
        exampleIface.GetLocal exampleS).map (fun r => r.1.m_sent) = some [] := by
  have hd : ¬ exampleNode.GetDelayLeft.GetSeconds < 1 := by
    rw [exampleNode_delay]; norm_num
  refine ⟨by decide, by decide, hd, ?_⟩
  rw [RecvRouteRequest_Serialize _ _ _ _ _ (by decide) (by decide),
    RecvRouteRequestHeader_no_route exampleNode _ _ _ hd (by decide) (by decide)]
  decide


/-- The broadcast loop of `SendRouteRequest` does not read the periodic update timer. -/
theorem ScheduleRouteRequest_foldl_timer (h : RreqHeader)
    (l : List (Nat × Ipv4InterfaceAddress)) (timer : Option Time) :
    ∀ st : RoutingProtocol,
      l.foldl (RoutingProtocol.ScheduleRouteRequest h)
          ({ st with m_periodicUpdateTimer := timer } : RoutingProtocol)
        = { l.foldl (RoutingProtocol.ScheduleRouteRequest h) st with
            m_periodicUpdateTimer := timer } := by
  induction l with
  | nil => intro st; rfl
  | cons j l ih =>
    intro st
    simp only [List.foldl_cons]
    rw [← ih]
    congr 1
    cases st with
    | mk a1 a2 a3 a4 a5 a6 a7 a8 a9 a10 a11 a12 a13 a14 rv sim sent =>
      cases rv <;> rfl

/-- The rest of `SendRouteRequest` does not read the periodic update timer. -/
theorem BroadcastRouteRequest_timer (s : RoutingProtocol) (D : Ipv4Address)
    (timer : Option Time) :
    RoutingProtocol.BroadcastRouteRequest
        ({ s with m_periodicUpdateTimer := timer } : RoutingProtocol) D
      = { s.BroadcastRouteRequest D with m_periodicUpdateTimer := timer } := by
  unfold RoutingProtocol.BroadcastRouteRequest
  have hp : RoutingProtocol.InstallPlaceholder
      ({ s with m_periodicUpdateTimer := timer } : RoutingProtocol) D
        = { s.InstallPlaceholder D with m_periodicUpdateTimer := timer } := by
    unfold RoutingProtocol.InstallPlaceholder
    cases s.m_altRoutingTable.LookupRoute D <;> rfl
  simp only [hp]
  exact ScheduleRouteRequest_foldl_timer _ _ timer _

/-- C24, as amended: `SendRouteRequest (D)` takes no account of the periodic update timer. It
does the same whenever the periodic update is due; in particular, when the update is due in less
than one second and `D` has no alternate entry, it installs the `INSEARCH` placeholder for `D`
and schedules one request broadcast per socket. -/
theorem SendRouteRequest_ignores_periodic_timer (s : RoutingProtocol) (D : Ipv4Address) :
    (∀ timer : Option Time,
      RoutingProtocol.SendRouteRequest
          ({ s with m_periodicUpdateTimer := timer } : RoutingProtocol) D
        = { s.SendRouteRequest D with m_periodicUpdateTimer := timer })
    ∧ (s.GetDelayLeft.GetSeconds < 1 → s.m_altRoutingTable.LookupRoute D = none →
        (s.SendRouteRequest D).m_altRoutingTable.LookupRoute D = some (s.PlaceholderEntry D)
        ∧ (s.SendRouteRequest D).m_simulator.m_events.length
            = s.m_simulator.m_events.length + s.m_socketAddresses.length) := by
  constructor
  · intro timer
    unfold RoutingProtocol.SendRouteRequest
    cases hl : s.m_altRoutingTable.LookupRoute D with
    | none =>
      simp only [hl]
      exact BroadcastRouteRequest_timer s D timer
    | some rt =>
      simp only [hl]
      split_ifs
      · rfl
      · exact BroadcastRouteRequest_timer
          { s with m_altRoutingTable := (s.m_altRoutingTable.DeleteRoute D).2 } D timer
      · exact BroadcastRouteRequest_timer s D timer
  · intro _ hD
    have he : s.SendRouteRequest D = s.BroadcastRouteRequest D := by
      simp [RoutingProtocol.SendRouteRequest, hD]
    obtain ⟨-, -, halt, -, news, hev, himpl, -⟩ := BroadcastRouteRequest_of_unknown s D hD
    have hlen : news.length = s.m_socketAddresses.length := by
      have := congrArg List.length himpl
      simpa using this
    rw [he, hev, halt, List.length_append, hlen]
    refine ⟨?_, rfl⟩
    have hnone : s.m_altRoutingTable.m_ipv4AddressEntry.find?
        (fun e => decide (e.GetDestination = D)) = none := hD
    have hd : (s.PlaceholderEntry D).GetDestination = D := rfl
    unfold RoutingTable.LookupRoute
    simp only [List.find?_append, hnone]
    simp [hd]

/-- Witness for C24 as amended: the example node, half a second before its periodic update. -/
theorem SendRouteRequest_ignores_periodic_timer_witness :
    exampleNodeDue.GetDelayLeft.GetSeconds < 1
    ∧ exampleNodeDue.m_altRoutingTable.LookupRoute exampleD = none
    ∧ (exampleNodeDue.SendRouteRequest exampleD).m_altRoutingTable.LookupRoute exampleD
        = some (exampleNodeDue.PlaceholderEntry exampleD)
    ∧ (exampleNodeDue.SendRouteRequest exampleD).m_simulator.m_events.length = 1 := by
  have hd : exampleNodeDue.GetDelayLeft.GetSeconds < 1 := by
    rw [exampleNodeDue_delay]; norm_num
  have h := (SendRouteRequest_ignores_periodic_timer exampleNodeDue exampleD).2 hd (by decide)
  exact ⟨hd, by decide, h.1, by rw [h.2]; rfl⟩

/-- Counterexample to C24 as stated: the periodic update of the node is due in half a second;
`SendRouteRequest (D)` installs the `INSEARCH` placeholder for `D` and schedules the broadcast of
the request on the interface of the node. -/
theorem SendRouteRequest_before_periodic_update_counterexample :
    exampleNodeDue.GetDelayLeft.GetSeconds < 1
    ∧ exampleNodeDue.m_altRoutingTable.LookupRoute exampleD = none
    ∧ ((exampleNodeDue.SendRouteRequest exampleD).m_altRoutingTable.LookupRoute exampleD).map
        RoutingTableEntry.GetFlag = some RouteFlags.INSEARCH
    ∧ (exampleNodeDue.SendRouteRequest exampleD).m_simulator.m_events.map Event.impl
        = [EventImpl.SendTo 1
            (RoutingProtocol.RouteRequestPacket (RreqHeader.default.SetDst exampleD))
            exampleIface.GetBroadcast] := by
  refine ⟨by rw [exampleNodeDue_delay]; norm_num, by decide, by decide, by decide⟩


/-- C25: for a destination `D` whose alternate entry is `INSEARCH` with a lifetime of more than
4 seconds, `SendRouteRequest (D)` replaces the entry: afterwards the alternate table holds
exactly one entry for `D`, the new placeholder, which is `INSEARCH`, has hop count 0, the main
address of the node as next hop and a lifetime that starts at the current time; the entries of
other destinations are as before, and one request broadcast per socket is scheduled. -/
theorem SendRouteRequest_replaces_expired_placeholder (s : RoutingProtocol) (D : Ipv4Address)
    (p : RoutingTableEntry) (h : s.m_altRoutingTable.LookupRoute D = some p)
    (hf : p.GetFlag = RouteFlags.INSEARCH)
    (hl : p.GetLifeTime s.m_simulator.Now > Seconds 4) :
    (s.SendRouteRequest D).m_altRoutingTable.m_ipv4AddressEntry.filter
        (fun e => decide (e.GetDestination = D)) = [s.PlaceholderEntry D]
    ∧ (s.SendRouteRequest D).m_altRoutingTable.LookupRoute D = some (s.PlaceholderEntry D)
    ∧ (s.PlaceholderEntry D).GetFlag = RouteFlags.INSEARCH
    ∧ (s.PlaceholderEntry D).GetHop = 0
    ∧ (s.PlaceholderEntry D).GetNextHop = s.m_mainAddress
    ∧ (s.PlaceholderEntry D).GetLifeTime s.m_simulator.Now = 0
    ∧ (∀ id, id ≠ D →
        (s.SendRouteRequest D).m_altRoutingTable.LookupRoute id
          = s.m_altRoutingTable.LookupRoute id)
    ∧ ∃ news : List Event,
        (s.SendRouteRequest D).m_simulator.m_events = s.m_simulator.m_events ++ news
        ∧ news.length = s.m_socketAddresses.length
        ∧ news.map Event.impl
            = s.m_socketAddresses.map (fun j =>
                EventImpl.SendTo j.1
                  (RoutingProtocol.RouteRequestPacket (RreqHeader.default.SetDst D))
                  (RoutingProtocol.BroadcastDestination j.2)) := by
  have hnl : ¬ p.GetLifeTime s.m_simulator.Now ≤ Seconds 4 := not_le.mpr hl
  have he : s.SendRouteRequest D
      = RoutingProtocol.BroadcastRouteRequest
          { s with m_altRoutingTable := (s.m_altRoutingTable.DeleteRoute D).2 } D := by
    simp [RoutingProtocol.SendRouteRequest, h, hf, hnl, hl]
  have hdel : (s.m_altRoutingTable.DeleteRoute D).2.LookupRoute D = none := by
    rw [RoutingTable_LookupRoute_DeleteRoute, if_pos rfl]
  have hdelEntries : (s.m_altRoutingTable.DeleteRoute D).2.m_ipv4AddressEntry
      = s.m_altRoutingTable.m_ipv4AddressEntry.filter
          (fun e => !decide (e.GetDestination = D)) := by
    simp [RoutingTable.DeleteRoute, h]
  obtain ⟨-, -, halt, -, news, hev, himpl, -⟩ := BroadcastRouteRequest_of_unknown
    ({ s with m_altRoutingTable := (s.m_altRoutingTable.DeleteRoute D).2 } : RoutingProtocol) D
    hdel
  have hph : RoutingProtocol.PlaceholderEntry
      ({ s with m_altRoutingTable := (s.m_altRoutingTable.DeleteRoute D).2 } : RoutingProtocol) D
        = s.PlaceholderEntry D := rfl
  rw [hph] at halt
  have hd : (s.PlaceholderEntry D).GetDestination = D := rfl
  have hlen : news.length = s.m_socketAddresses.length := by
    have := congrArg List.length himpl
    simpa using this
  have hlook : ∀ id, (s.SendRouteRequest D).m_altRoutingTable.LookupRoute id
      = if id = D then some (s.PlaceholderEntry D) else s.m_altRoutingTable.LookupRoute id := by
    intro id
    rw [he, halt]
    have hfind : ∀ l : List RoutingTableEntry,
        (l ++ [s.PlaceholderEntry D]).find? (fun e => decide (e.GetDestination = id))
          = (l.find? (fun e => decide (e.GetDestination = id))).or
              (if id = D then some (s.PlaceholderEntry D) else none) := by
      intro l
      rw [List.find?_append]
      congr 1
      by_cases hid : id = D
      · simp [hid, hd]
      · have : ¬ D = id := fun h => hid h.symm
        simp [hid, hd, this]
    have hl2 := RoutingTable_LookupRoute_DeleteRoute s.m_altRoutingTable D id
    unfold RoutingTable.LookupRoute at hl2 ⊢
    simp only [hfind, hl2]
    by_cases hid : id = D
    · simp [hid]
    · have : ¬ D = id := fun h => hid h.symm
      simp [hid, this]
  refine ⟨?_, ?_, rfl, rfl, rfl, ?_, ?_, ⟨news, by rw [he]; exact hev, hlen, himpl⟩⟩
  · rw [he, halt]
    simp only [hdelEntries, List.filter_append, List.filter_filter]
    simp [hd]
  · rw [hlook, if_pos rfl]
  · simp [RoutingProtocol.PlaceholderEntry, RoutingTableEntry.GetLifeTime,
      RoutingTableEntry.SetFlag, RoutingTableEntry.mk9]
  · intro id hid
    rw [hlook, if_neg hid]

/-- Witness for C25: the node whose placeholder for `D` is five seconds old. -/
theorem SendRouteRequest_replaces_expired_placeholder_witness :
    exampleNodeSearching.m_altRoutingTable.LookupRoute exampleD = some placeholderRoute
    ∧ placeholderRoute.GetFlag = RouteFlags.INSEARCH
    ∧ placeholderRoute.GetLifeTime exampleNodeSearching.m_simulator.Now > Seconds 4
    ∧ (exampleNodeSearching.SendRouteRequest exampleD).m_altRoutingTable.m_ipv4AddressEntry
        = [exampleNodeSearching.PlaceholderEntry exampleD]
    ∧ (exampleNodeSearching.PlaceholderEntry exampleD).GetLifeTime
        exampleNodeSearching.m_simulator.Now = 0
    ∧ (exampleNodeSearching.SendRouteRequest exampleD).m_simulator.m_events.length = 1 := by
  obtain ⟨-, -, -, -, -, h6, -, news, h8, h9, -⟩ :=
    SendRouteRequest_replaces_expired_placeholder exampleNodeSearching exampleD placeholderRoute
      (by decide) (by decide) (by decide)
  exact ⟨by decide, by decide, by decide, by decide, h6,
    by rw [h8, List.length_append, h9]; rfl⟩

/-! ## Acknowledges and the alternate table -/

/-- The handling of an acknowledge that is not redundant. -/
theorem RecvRouteAckHeader_of_fresh (s : RoutingProtocol) (h : RackHeader)
    (receiver sender : Ipv4Address) (hfresh : ¬ s.AckIsRedundant h sender) :
    s.RecvRouteAckHeader h receiver sender
      = match s.m_altRoutingTable.LookupRoute h.GetDst with
        | some rt =>
          if rt.GetFlag = RouteFlags.INSEARCH then
            { s with
                m_altRoutingTable :=
                  (s.m_altRoutingTable.Update (s.AcknowledgedEntry h receiver sender)).2 }
          else if h.GetHopCount % 2 ^ 8 ≤ rt.GetHop then
            if h.GetHopCount % 2 ^ 8 = rt.GetHop then
              if h.GetUpdateTime.GetSeconds < ((rt.GetLifeTime s.m_simulator.Now : Int) : ℚ) then
                { s with
                    m_altRoutingTable :=
                      (s.m_altRoutingTable.Update
                        (((rt.SetNextHop sender).SetLifeTime
                          (s.m_simulator.Now - h.GetUpdateTime)).SetInstallTime
                          s.m_simulator.Now)).2 }
              else s
            else
              { s with
                  m_altRoutingTable :=
                    (s.m_altRoutingTable.Update
                      ((((rt.SetNextHop sender).SetLifeTime
                        (s.m_simulator.Now - h.GetUpdateTime)).SetHop
                        (h.GetHopCount % 2 ^ 8)).SetInstallTime s.m_simulator.Now)).2 }
          else s
        | none =>
          { s with
              m_altRoutingTable :=
                (s.m_altRoutingTable.AddRoute (s.AcknowledgedEntry h receiver sender)).2 } := by
  unfold RoutingProtocol.RecvRouteAckHeader
  cases hm : s.m_routingTable.LookupRoute h.GetDst with
  | none => simp only [hm, Bool.false_eq_true, if_false]; rfl
  | some m =>
    have hr : (decide (m.GetNextHop = sender) &&
        decide (intOfDouble (m.GetLifeTime s.m_simulator.Now).GetSeconds
          - intOfDouble h.GetUpdateTime.GetSeconds > Seconds 1)) = false := by
      simp only [Bool.and_eq_false_imp, decide_eq_true_eq, decide_eq_false_iff_not]
      intro hn hgt
      exact hfresh ⟨m, hm, hn, hgt⟩
    simp only [hm, hr, Bool.false_eq_true, if_false]
    rfl

/-- A table without an entry for a destination lists none. -/
theorem RoutingTable_filter_of_lookup_none (t : RoutingTable) (D : Ipv4Address)
    (h : t.LookupRoute D = none) :
    t.m_ipv4AddressEntry.filter (fun x => decide (x.GetDestination = D)) = [] := by
  unfold RoutingTable.LookupRoute at h
  rw [List.find?_eq_none] at h
  rw [List.filter_eq_nil_iff]
  exact h

/-- In a table with at most one entry per destination, the entry found for a destination is
the only one. -/
theorem RoutingTable_filter_of_lookup_some (t : RoutingTable) (D : Ipv4Address)
    (p : RoutingTableEntry)
    (hone : (t.m_ipv4AddressEntry.map RoutingTableEntry.GetDestination).Nodup)
    (h : t.LookupRoute D = some p) :
    t.m_ipv4AddressEntry.filter (fun x => decide (x.GetDestination = D)) = [p] := by
  unfold RoutingTable.LookupRoute at h
  obtain ⟨l, ev, hold⟩ := t
  simp only at hone h ⊢
  induction l with
  | nil => simp at h
  | cons a l ih =>
    simp only [List.map_cons, List.nodup_cons, List.mem_map, not_exists, not_and] at hone
    by_cases ha : a.GetDestination = D
    · simp only [List.find?_cons, ha, decide_True, Option.some.injEq] at h
      subst h
      simp only [List.filter_cons, ha, decide_True, if_true, List.cons.injEq, true_and]
      rw [List.filter_eq_nil_iff]
      intro x hx
      have := hone.1 x hx
      simp only [decide_eq_true_eq]
      intro hxd
      exact this (hxd.trans ha.symm)
    · simp only [List.find?_cons, ha, decide_False] at h
      simp only [List.filter_cons, ha, decide_False, Bool.false_eq_true, if_false]
      exact ih hone.2 h

/-- After `AddRoute` of an entry for a destination that the table lacked, the table holds
exactly that entry for the destination. -/
theorem RoutingTable_AddRoute_filter (t : RoutingTable) (rt : RoutingTableEntry)
    (h : t.LookupRoute rt.GetDestination = none) :
    (t.AddRoute rt).2.m_ipv4AddressEntry.filter
      (fun x => decide (x.GetDestination = rt.GetDestination)) = [rt] := by
  unfold RoutingTable.AddRoute
  simp only [h, List.filter_append, RoutingTable_filter_of_lookup_none t _ h, List.nil_append]
  simp

/-- After `Update` with an entry for a destination of which the table held one entry, the table
holds exactly the new entry for the destination. -/
theorem RoutingTable_Update_filter (t : RoutingTable) (rt p : RoutingTableEntry)
    (hone : (t.m_ipv4AddressEntry.map RoutingTableEntry.GetDestination).Nodup)
    (h : t.LookupRoute rt.GetDestination = some p) :
    (t.Update rt).2.m_ipv4AddressEntry.filter
      (fun x => decide (x.GetDestination = rt.GetDestination)) = [rt] := by
  have hf := RoutingTable_filter_of_lookup_some t _ p hone h
  unfold RoutingTable.Update
  simp only [h]
  have hmap : ∀ l : List RoutingTableEntry,
      (l.map (fun e => if e.GetDestination = rt.GetDestination then rt else e)).filter
        (fun x => decide (x.GetDestination = rt.GetDestination))
      = (l.filter (fun x => decide (x.GetDestination = rt.GetDestination))).map (fun _ => rt) := by
    intro l
    induction l with
    | nil => rfl
    | cons a l ih =>
      by_cases ha : a.GetDestination = rt.GetDestination
      · simp only [List.map_cons, List.filter_cons, ha, if_true, decide_True, ih]
      · simp only [List.map_cons, List.filter_cons, ha, if_false, decide_False,
          Bool.false_eq_true, ih]
  rw [hmap, hf]
  rfl

/-- C28, as amended: an acknowledge for `D` from `S` that is not discarded as redundant
reaches a node whose alternate table, with at most one entry per destination, holds no entry for
`D` or an `INSEARCH` placeholder. Afterwards the alternate table holds exactly one entry for `D`;
it is `VALID`, its next hop is `S`, and its hop count is the hop count of the acknowledge reduced
modulo 256, which is the hop count of the acknowledge when that is below 256. The main and the
advertisement table are as before. -/
theorem RecvRouteAck_installs_alternate (s : RoutingProtocol) (h : RackHeader)
    (S receiver : Ipv4Address) (rest : List Nat) (hd : h.m_dst < 2 ^ 32)
    (hh : h.m_hopCount < 2 ^ 16) (hu : h.m_updateTime < 2 ^ 32)
    (hfresh : ¬ s.AckIsRedundant h S)
    (hone : (s.m_altRoutingTable.m_ipv4AddressEntry.map RoutingTableEntry.GetDestination).Nodup)
    (halt : ∀ p, s.m_altRoutingTable.LookupRoute h.GetDst = some p
      → p.GetFlag = RouteFlags.INSEARCH) :
    ∃ (s1 : RoutingProtocol) (e : RoutingTableEntry),
      s.RecvRouteAck (h.Serialize ++ rest) receiver S = some (s1, rest)
      ∧ s1.m_altRoutingTable.m_ipv4AddressEntry.filter
          (fun x => decide (x.GetDestination = h.GetDst)) = [e]
      ∧ e.GetFlag = RouteFlags.VALID
      ∧ e.GetNextHop = S
      ∧ e.GetHop = h.GetHopCount % 2 ^ 8
      ∧ (h.GetHopCount < 2 ^ 8 → e.GetHop = h.GetHopCount)
      ∧ s1.m_routingTable = s.m_routingTable
      ∧ s1.m_advRoutingTable = s.m_advRoutingTable := by
  have hhop : (s.AcknowledgedEntry h receiver S).GetHop = h.GetHopCount % 2 ^ 8 :=
    Nat.mod_eq_of_lt (lt_trans (Nat.mod_lt _ (by norm_num)) (by norm_num))
  refine ⟨s.RecvRouteAckHeader h receiver S, s.AcknowledgedEntry h receiver S,
    RecvRouteAck_Serialize s h rest receiver S hd hh hu, ?_, rfl, rfl, hhop,
    fun hlt => hhop.trans (Nat.mod_eq_of_lt hlt), ?_, ?_⟩
  · rw [RecvRouteAckHeader_of_fresh s h receiver S hfresh]
    have hdst : (s.AcknowledgedEntry h receiver S).GetDestination = h.GetDst := rfl
    cases hl : s.m_altRoutingTable.LookupRoute h.GetDst with
    | none =>
      simp only
      rw [← hdst] at hl ⊢
      exact RoutingTable_AddRoute_filter _ _ hl
    | some p =>
      simp only [halt p hl, if_true]
      rw [← hdst] at hl ⊢
      exact RoutingTable_Update_filter _ _ p hone hl
  · rw [RecvRouteAckHeader_of_fresh s h receiver S hfresh]
    cases hl : s.m_altRoutingTable.LookupRoute h.GetDst with
    | none => rfl
    | some p => simp only [halt p hl, if_true]
  · rw [RecvRouteAckHeader_of_fresh s h receiver S hfresh]
    cases hl : s.m_altRoutingTable.LookupRoute h.GetDst with
    | none => rfl
    | some p => simp only [halt p hl, if_true]

/-- Witness for C28 as amended: the node that searches for a route to `D` receives from `S` an
acknowledge `(D, hop=2)`; its main-table entry for `D` does not go through `S`. -/
theorem RecvRouteAck_installs_alternate_witness :
    ¬ exampleNodeSearching.AckIsRedundant
        (RackHeader.mk exampleD 2 500) exampleS
    ∧ (∃ p, exampleNodeSearching.m_altRoutingTable.LookupRoute exampleD = some p
        ∧ p.GetFlag = RouteFlags.INSEARCH)
    ∧ ∃ (s1 : RoutingProtocol) (e : RoutingTableEntry),
      exampleNodeSearching.RecvRouteAck
        ((RackHeader.mk exampleD 2 500).Serialize
          ++ []) exampleIface.GetLocal exampleS = some (s1, [])
      ∧ s1.m_altRoutingTable.m_ipv4AddressEntry.filter
          (fun x => decide (x.GetDestination = exampleD)) = [e]
      ∧ e.GetFlag = RouteFlags.VALID
      ∧ e.GetNextHop = exampleS
      ∧ e.GetHop = 2 := by
  have hfresh : ¬ exampleNodeSearching.AckIsRedundant
      (RackHeader.mk exampleD 2 500) exampleS := by
    rintro ⟨m, hm, hn, -⟩
    have hs : exampleNodeSearching.m_routingTable.LookupRoute exampleD = some staleRoute := by
      decide
    rw [show RackHeader.GetDst (RackHeader.mk exampleD 2 500)
      = exampleD from rfl, hs, Option.some.injEq] at hm
    subst hm
    exact absurd hn (by decide)
  obtain ⟨s1, e, h1, h2, h3, h4, h5, -⟩ :=
    RecvRouteAck_installs_alternate exampleNodeSearching
      (RackHeader.mk exampleD 2 500) exampleS exampleIface.GetLocal
      [] (by decide) (by decide) (by decide) hfresh (by decide)
      (fun p hp => by
        have hs : exampleNodeSearching.m_altRoutingTable.LookupRoute exampleD
            = some placeholderRoute := by decide
        rw [show RackHeader.GetDst (RackHeader.mk exampleD 2 500)
          = exampleD from rfl, hs, Option.some.injEq] at hp
        subst hp
        decide)
  exact ⟨hfresh, ⟨placeholderRoute, by decide, by decide⟩, s1, e, h1, h2, h3, h4, h5⟩

/-- Counterexample to C28 as stated: the example node, which holds no entry for `D` in any
table, receives from `S` an acknowledge `(D, hop=300)`. The alternate entry that is installed has
the hop count 44, not the hop count 300 of the acknowledge. -/
theorem RecvRouteAck_wide_hop_count_counterexample :
    exampleNode.m_routingTable.LookupRoute exampleD = none
    ∧ exampleNode.m_altRoutingTable.LookupRoute exampleD = none
    ∧ ∃ (s1 : RoutingProtocol) (e : RoutingTableEntry),
      exampleNode.RecvRouteAck
        ((RackHeader.mk exampleD 300 500).Serialize ++ []) exampleIface.GetLocal exampleS
        = some (s1, [])
      ∧ s1.m_altRoutingTable.LookupRoute exampleD = some e
      ∧ e.GetNextHop = exampleS
      ∧ e.GetHop = 44
      ∧ e.GetHop ≠ (RackHeader.mk exampleD 300 500).GetHopCount :=
  ⟨by decide, by decide, exampleNode.RecvRouteAckHeader (RackHeader.mk exampleD 300 500)
      exampleIface.GetLocal exampleS,
    exampleNode.AcknowledgedEntry (RackHeader.mk exampleD 300 500) exampleIface.GetLocal exampleS,
    RecvRouteAck_Serialize _ _ _ _ _ (by decide) (by decide) (by decide),
    by decide, by decide, by decide, by decide⟩

/-- An acknowledge for `D` from `S` reaches a node whose alternate table holds a `VALID` entry
for `D` with hop count `h0`. With the hop count of the acknowledge reduced modulo 256: if it is
above `h0`, the node is left as it was; the next hop of the alternate entry for `D` changes only
if it is at most `h0`; and if it is below `h0` and the acknowledge is not redundant, the entry
takes the next hop `S` and that hop count. -/
theorem RecvRouteAck_keeps_shorter_alternate (s : RoutingProtocol) (h : RackHeader)
    (S receiver : Ipv4Address) (rest : List Nat) (rt : RoutingTableEntry)
    (hd : h.m_dst < 2 ^ 32) (hh : h.m_hopCount < 2 ^ 16) (hu : h.m_updateTime < 2 ^ 32)
    (halt : s.m_altRoutingTable.LookupRoute h.GetDst = some rt)
    (hvalid : rt.GetFlag = RouteFlags.VALID) :
    ∃ s1 : RoutingProtocol,
      s.RecvRouteAck (h.Serialize ++ rest) receiver S = some (s1, rest)
      ∧ (h.GetHopCount % 2 ^ 8 > rt.GetHop → s1 = s)
      ∧ (h.GetHopCount < 2 ^ 8 → h.GetHopCount > rt.GetHop
          → s1.m_altRoutingTable = s.m_altRoutingTable)
      ∧ (∀ e, s1.m_altRoutingTable.LookupRoute h.GetDst = some e
          → e.GetNextHop ≠ rt.GetNextHop → h.GetHopCount % 2 ^ 8 ≤ rt.GetHop)
      ∧ (¬ s.AckIsRedundant h S → h.GetHopCount % 2 ^ 8 < rt.GetHop
          → ∃ e, s1.m_altRoutingTable.LookupRoute h.GetDst = some e
            ∧ e.GetNextHop = S ∧ e.GetHop = h.GetHopCount % 2 ^ 8
            ∧ e.GetFlag = RouteFlags.VALID) := by
  have hins : ¬ rt.GetFlag = RouteFlags.INSEARCH := by rw [hvalid]; decide
  have hkeep : h.GetHopCount % 2 ^ 8 > rt.GetHop → s.RecvRouteAckHeader h receiver S = s := by
    intro hgt
    by_cases hred : s.AckIsRedundant h S
    · obtain ⟨m, hm, hn, hlt⟩ := hred
      unfold RoutingProtocol.RecvRouteAckHeader
      simp only [hm, hn, hlt, decide_True, Bool.and_self, if_true]
    · rw [RecvRouteAckHeader_of_fresh s h receiver S hred]
      simp only [halt, hins, if_false, Nat.not_le.mpr hgt]
  refine ⟨s.RecvRouteAckHeader h receiver S,
    RecvRouteAck_Serialize s h rest receiver S hd hh hu, hkeep, ?_, ?_, ?_⟩
  · intro hlt hgt
    rw [hkeep (by rw [Nat.mod_eq_of_lt hlt]; exact hgt)]
  · intro e he hne
    by_contra hgt
    rw [hkeep (Nat.not_le.mp hgt), halt, Option.some.injEq] at he
    exact hne (by rw [he])
  · intro hfresh hlt
    have hdst : rt.GetDestination = h.GetDst := RoutingTable_LookupRoute_dst _ _ _ halt
    refine ⟨(((rt.SetNextHop S).SetLifeTime (s.m_simulator.Now - h.GetUpdateTime)).SetHop
      (h.GetHopCount % 2 ^ 8)).SetInstallTime s.m_simulator.Now, ?_, rfl, ?_, hvalid⟩
    · rw [RecvRouteAckHeader_of_fresh s h receiver S hfresh]
      simp only [halt, hins, if_false, Nat.le_of_lt hlt, Nat.ne_of_lt hlt, if_true]
      rw [RoutingTable_LookupRoute_Update]
      rw [if_pos (by exact hdst), halt]
      rfl
    · exact Nat.mod_eq_of_lt (lt_trans (Nat.mod_lt _ (by norm_num)) (by norm_num))

/-- C29: the node whose alternate table holds `(D, hop=2, nextHop=S)`, refreshed 2 seconds ago,
receives from the neighbour `10.1.1.3` an acknowledge `(D, hop=2)` whose information is 3
seconds old. The hop counts are equal and the acknowledge is the older of the two, yet the
alternate entry takes the next hop `10.1.1.3` and the age of 3 seconds: the test
`rackHeader.GetUpdateTime ().GetSeconds () < rt.GetLifeTime ()` compares the number 3 with the
2 000 000 000 nanoseconds of the lifetime. -/
theorem RecvRouteAck_equal_hop_older_replaces :
    exampleNodeAlternateOnly.m_altRoutingTable.LookupRoute exampleD
        = some (alternateRoute (Seconds 18))
    ∧ (alternateRoute (Seconds 18)).GetFlag = RouteFlags.VALID
    ∧ (alternateRoute (Seconds 18)).GetHop = 2
    ∧ (alternateRoute (Seconds 18)).GetNextHop = exampleS
    ∧ (alternateRoute (Seconds 18)).GetLifeTime exampleNodeAlternateOnly.m_simulator.Now
        = Seconds 2
    ∧ (RackHeader.mk exampleD 2 3000).GetHopCount = 2
    ∧ (RackHeader.mk exampleD 2 3000).GetUpdateTime = Seconds 3
    ∧ ∃ (s1 : RoutingProtocol) (e : RoutingTableEntry),
      exampleNodeAlternateOnly.RecvRouteAck ((RackHeader.mk exampleD 2 3000).Serialize ++ [])
        exampleIface.GetLocal 167837955 = some (s1, [])
      ∧ s1.m_altRoutingTable.LookupRoute exampleD = some e
      ∧ e.GetNextHop = 167837955
      ∧ e.GetHop = 2
      ∧ e.GetLifeTime s1.m_simulator.Now = Seconds 3 := by
  have hfresh : ¬ exampleNodeAlternateOnly.AckIsRedundant (RackHeader.mk exampleD 2 3000)
      167837955 := by
    rintro ⟨m, hm, -⟩
    have hnone : exampleNodeAlternateOnly.m_routingTable.LookupRoute
        (RackHeader.mk exampleD 2 3000).GetDst = none := by decide
    rw [hnone] at hm
    exact Option.noConfusion hm
  have halt : exampleNodeAlternateOnly.m_altRoutingTable.LookupRoute
      (RackHeader.mk exampleD 2 3000).GetDst = some (alternateRoute (Seconds 18)) := by decide
  have hold : (RackHeader.mk exampleD 2 3000).GetUpdateTime.GetSeconds
      < (((alternateRoute (Seconds 18)).GetLifeTime exampleNodeAlternateOnly.m_simulator.Now
          : Int) : ℚ) := by
    have h1 : (RackHeader.mk exampleD 2 3000).GetUpdateTime = 3000000000 := by decide
    have h2 : (alternateRoute (Seconds 18)).GetLifeTime
        exampleNodeAlternateOnly.m_simulator.Now = 2000000000 := by decide
    rw [h1, h2]
    norm_num [Time.GetSeconds]
  have hstate : exampleNodeAlternateOnly.RecvRouteAckHeader (RackHeader.mk exampleD 2 3000)
      exampleIface.GetLocal 167837955
      = { exampleNodeAlternateOnly with
          m_altRoutingTable :=
            (exampleNodeAlternateOnly.m_altRoutingTable.Update
              ((((alternateRoute (Seconds 18)).SetNextHop 167837955).SetLifeTime
                (exampleNodeAlternateOnly.m_simulator.Now
                  - (RackHeader.mk exampleD 2 3000).GetUpdateTime)).SetInstallTime
                exampleNodeAlternateOnly.m_simulator.Now)).2 } := by
    rw [RecvRouteAckHeader_of_fresh _ _ _ _ hfresh]
    simp only [halt]
    rw [if_neg (by decide), if_pos (by decide), if_pos (by decide), if_pos hold]
  refine ⟨by decide, by decide, by decide, by decide, by decide, by decide, by decide,
    _,
    (((alternateRoute (Seconds 18)).SetNextHop 167837955).SetLifeTime
      (Seconds 20 - Seconds 3)).SetInstallTime (Seconds 20),
    RecvRouteAck_Serialize _ _ _ _ _ (by decide) (by decide) (by decide), ?_, ?_, ?_, ?_⟩
  · rw [hstate]
    decide
  · decide
  · decide
  · rw [hstate]
    decide

/-! ## The cascade of an unreachable next hop -/

/-- The entries of a table after `DeleteRoute`: those for another destination. -/
theorem RoutingTable_DeleteRoute_entries (t : RoutingTable) (dst : Ipv4Address) :
    (t.DeleteRoute dst).2.m_ipv4AddressEntry
      = t.m_ipv4AddressEntry.filter (fun e => !decide (e.GetDestination = dst)) := by
  unfold RoutingTable.DeleteRoute
  cases hl : t.LookupRoute dst with
  | some e => rfl
  | none =>
    simp only
    unfold RoutingTable.LookupRoute at hl
    rw [List.find?_eq_none] at hl
    symm
    rw [List.filter_eq_self]
    intro a ha
    have := hl a ha
    simpa using this

/-- The infinite-metric branch of `RecvDsdv` for an update that came from the next hop of the
advertisement entry compared against. -/
theorem RecvDsdvUpdate_poisoned (s : RoutingProtocol) (h : DsdvHeader)
    (receiver src : Ipv4Address) (fwd : RoutingTableEntry) (hodd : h.m_dstSeqNo % 2 = 1)
    (hown : ∀ j ∈ s.m_socketAddresses, j.2.GetLocal ≠ h.m_dst)
    (hmain : s.m_routingTable.LookupRoute h.m_dst = some fwd)
    (hnext : ((s.m_advRoutingTable.LookupRoute h.m_dst).getD fwd).GetNextHop = src) :
    s.RecvDsdvUpdate h receiver src
      = (s.m_altRoutingTable.GetListOfDestinationWithNextHop h.m_dst).foldl
          RoutingProtocol.DropAlternate
          ((s.m_routingTable.GetListOfDestinationWithNextHop h.m_dst).foldl
            RoutingProtocol.PoisonRouted
            { s.StageAdvertisement h.m_dst fwd with
                m_routingTable := (s.m_routingTable.DeleteRoute h.m_dst).2
                m_altRoutingTable := (s.m_altRoutingTable.DeleteRoute h.m_dst).2
                m_advRoutingTable :=
                  ((s.StageAdvertisement h.m_dst fwd).m_advRoutingTable.Update
                    ((((s.m_advRoutingTable.LookupRoute h.m_dst).getD fwd).SetSeqNo
                      h.m_dstSeqNo).SetEntriesChanged true)).2 }) := by
  rw [RecvDsdvUpdate_known s h receiver src fwd hown hmain]
  obtain ⟨-, f2, f3, -, -⟩ := StageAdvertisement_frame s h.m_dst fwd
  simp only [hodd, ne_eq, not_true_eq_false, if_false, RoutingProtocol.RecvDsdvUnreachable,
    DsdvHeader.GetDst, DsdvHeader.GetDstSeqno, hnext, if_true, f2, f3]

/-- The entries of the main table after the first loop of the infinite-metric branch: entries
that were there before, for destinations that the loop did not visit. -/
theorem PoisonRouted_foldl_main_entries (l : List RoutingTableEntry) (st : RoutingProtocol)
    (e : RoutingTableEntry)
    (he : e ∈ (l.foldl RoutingProtocol.PoisonRouted st).m_routingTable.m_ipv4AddressEntry) :
    e ∈ st.m_routingTable.m_ipv4AddressEntry
    ∧ e.GetDestination ∉ l.map RoutingTableEntry.GetDestination := by
  induction l generalizing st with
  | nil => exact ⟨he, by simp⟩
  | cons i l ih =>
    simp only [List.foldl_cons] at he
    obtain ⟨h1, h2⟩ := ih _ he
    simp only [RoutingProtocol.PoisonRouted, RoutingTable_DeleteRoute_entries,
      List.mem_filter, Bool.not_eq_true', decide_eq_false_iff_not] at h1
    refine ⟨h1.1, ?_⟩
    simp only [List.map_cons, List.mem_cons, not_or]
    exact ⟨h1.2, h2⟩

/-- The advertisement entry that the first loop of the infinite-metric branch makes for a
destination of which the advertisement table held no entry: the first entry of the list for that
destination, its sequence number raised by one and marked changed. -/
theorem PoisonRouted_foldl_adv_new (l : List RoutingTableEntry) (st : RoutingProtocol)
    (X : Ipv4Address) (m : RoutingTableEntry)
    (hnone : st.m_advRoutingTable.LookupRoute X = none)
    (hm : l.find? (fun e => decide (e.GetDestination = X)) = some m) :
    (l.foldl RoutingProtocol.PoisonRouted st).m_advRoutingTable.LookupRoute X
      = some ((m.SetSeqNo (m.GetSeqNo + 1)).SetEntriesChanged true) := by
  induction l generalizing st with
  | nil => simp at hm
  | cons i l ih =>
    simp only [List.foldl_cons]
    by_cases hi : i.GetDestination = X
    · simp only [List.find?_cons, hi, decide_True, Option.some.injEq] at hm
      subst hm
      apply PoisonRouted_foldl_adv
      have hd : ((i.SetSeqNo (i.GetSeqNo + 1)).SetEntriesChanged true).GetDestination = X := hi
      simp only [RoutingProtocol.PoisonRouted, RoutingTable_LookupRoute_AddRoute, hd, if_true,
        hnone, Option.getD_none]
    · simp only [List.find?_cons, hi, decide_False] at hm
      apply ih _ _ hm
      have hd : ¬ ((i.SetSeqNo (i.GetSeqNo + 1)).SetEntriesChanged true).GetDestination = X := hi
      simp only [RoutingProtocol.PoisonRouted, RoutingTable_LookupRoute_AddRoute, hd, if_false,
        hnone]

/-- The entry found for a destination is found in every sublist by a test that it passes. -/
theorem find_filter_of_find (l : List RoutingTableEntry) (p q : RoutingTableEntry → Bool)
    (m : RoutingTableEntry) (hm : l.find? q = some m) (hp : p m = true) :
    (l.filter p).find? q = some m := by
  induction l with
  | nil => simp at hm
  | cons a l ih =>
    by_cases hq : q a = true
    · simp only [List.find?_cons, hq, Option.some.injEq] at hm
      subst hm
      simp only [List.filter_cons, hp, if_true, List.find?_cons, hq]
    · simp only [List.find?_cons, hq] at hm
      by_cases hpa : p a = true
      · simp only [List.filter_cons, hpa, if_true, List.find?_cons, hq]
        exact ih hm
      · simp only [List.filter_cons, hpa, if_false]
        exact ih hm

/-- The lookups in the alternate table after the second loop of the infinite-metric branch. -/
theorem DropAlternate_foldl_alt (l : List RoutingTableEntry) (st : RoutingProtocol)
    (id : Ipv4Address) :
    (l.foldl RoutingProtocol.DropAlternate st).m_altRoutingTable.LookupRoute id
      = if id ∈ l.map RoutingTableEntry.GetDestination then none
        else st.m_altRoutingTable.LookupRoute id := by
  induction l generalizing st with
  | nil => simp
  | cons i l ih =>
    simp only [List.foldl_cons, List.map_cons, List.mem_cons]
    rw [ih]
    by_cases h1 : id ∈ l.map RoutingTableEntry.GetDestination
    · simp [h1]
    · simp only [h1, if_false, or_false]
      simp only [RoutingProtocol.DropAlternate, RoutingTable_LookupRoute_DeleteRoute]
      by_cases h2 : i.GetDestination = id
      · simp [h2]
      · have h3 : ¬ id = i.GetDestination := fun e => h2 e.symm
        simp [h2, h3]

/-- The entries of the alternate table after the second loop of the infinite-metric branch:
entries that were there before, for destinations that the loop did not visit. -/
theorem DropAlternate_foldl_alt_entries (l : List RoutingTableEntry) (st : RoutingProtocol)
    (e : RoutingTableEntry)
    (he : e ∈ (l.foldl RoutingProtocol.DropAlternate st).m_altRoutingTable.m_ipv4AddressEntry) :
    e ∈ st.m_altRoutingTable.m_ipv4AddressEntry
    ∧ e.GetDestination ∉ l.map RoutingTableEntry.GetDestination := by
  induction l generalizing st with
  | nil => exact ⟨he, by simp⟩
  | cons i l ih =>
    simp only [List.foldl_cons] at he
    obtain ⟨h1, h2⟩ := ih _ he
    simp only [RoutingProtocol.DropAlternate, RoutingTable_DeleteRoute_entries,
      List.mem_filter, Bool.not_eq_true', decide_eq_false_iff_not] at h1
    refine ⟨h1.1, ?_⟩
    simp only [List.map_cons, List.mem_cons, not_or]
    exact ⟨h1.2, h2⟩

/-- C21, as amended: an update with an odd sequence number for `D` comes from the next hop of
the advertisement entry for `D` (of the main-table entry, when the advertisement table holds
none). After `RecvDsdv` the main table has no entry for `D` and no entry whose next hop is `D`;
the advertisement entry for `D` is marked changed and has the sequence number of the update;
and every other destination `X` that was routed through `D` and had no advertisement entry has
an advertisement entry marked changed whose sequence number is the previous main-table sequence
number of `X` plus 1, as a 32-bit number. -/
theorem RecvDsdv_poison_cascade (s : RoutingProtocol) (h : DsdvHeader)
    (src receiver : Ipv4Address) (rest : List Nat) (fwd : RoutingTableEntry)
    (hd : h.m_dst < 2 ^ 32) (hh : h.m_hopCount < 2 ^ 16) (hs : h.m_dstSeqNo < 2 ^ 32)
    (hodd : h.m_dstSeqNo % 2 = 1)
    (hown : ∀ j ∈ s.m_socketAddresses, j.2.GetLocal ≠ h.m_dst)
    (hmain : s.m_routingTable.LookupRoute h.m_dst = some fwd)
    (hnext : ((s.m_advRoutingTable.LookupRoute h.m_dst).getD fwd).GetNextHop = src) :
    ∃ s1 : RoutingProtocol,
      s.RecvDsdv (h.Serialize ++ rest) receiver src = some (s1, rest)
      ∧ s1.m_routingTable.LookupRoute h.m_dst = none
      ∧ (∀ e ∈ s1.m_routingTable.m_ipv4AddressEntry, e.GetNextHop ≠ h.m_dst)
      ∧ (∃ a, s1.m_advRoutingTable.LookupRoute h.m_dst = some a
          ∧ a.GetEntriesChanged = true
          ∧ a.GetSeqNo = h.m_dstSeqNo)
      ∧ (∀ (X : Ipv4Address) (m : RoutingTableEntry), X ≠ h.m_dst
          → s.m_routingTable.LookupRoute X = some m → m.GetNextHop = h.m_dst
          → s.m_advRoutingTable.LookupRoute X = none
          → ∃ a, s1.m_advRoutingTable.LookupRoute X = some a
            ∧ a.GetEntriesChanged = true
            ∧ a.GetSeqNo = (m.GetSeqNo + 1) % 2 ^ 32) := by
  have hfwd : fwd.GetDestination = h.m_dst := RoutingTable_LookupRoute_dst _ _ _ hmain
  have hstage := StageAdvertisement_lookup s h.m_dst fwd hfwd
  have hdst : ((s.m_advRoutingTable.LookupRoute h.m_dst).getD fwd).GetDestination
      = h.m_dst := RoutingTable_LookupRoute_dst _ _ _ hstage
  have hdst2 : ((((s.m_advRoutingTable.LookupRoute h.m_dst).getD fwd).SetSeqNo
      h.m_dstSeqNo).SetEntriesChanged true).GetDestination = h.m_dst := hdst
  refine ⟨s.RecvDsdvUpdate h receiver src, RecvDsdv_Serialize s h rest receiver src hd hh hs,
    ?_, ?_, ?_, ?_⟩
  · rw [RecvDsdvUpdate_poisoned s h receiver src fwd hodd hown hmain hnext,
      (DropAlternate_foldl_frame _ _).2.1, PoisonRouted_foldl_main]
    simp [RoutingTable_LookupRoute_DeleteRoute]
  · intro e he hne
    rw [RecvDsdvUpdate_poisoned s h receiver src fwd hodd hown hmain hnext,
      (DropAlternate_foldl_frame _ _).2.1] at he
    obtain ⟨h1, h2⟩ := PoisonRouted_foldl_main_entries _ _ e he
    simp only [RoutingTable_DeleteRoute_entries, List.mem_filter] at h1
    apply h2
    rw [List.mem_map]
    refine ⟨e, ?_, rfl⟩
    simp only [RoutingTable.GetListOfDestinationWithNextHop, List.mem_filter,
      decide_eq_true_eq]
    exact ⟨h1.1, hne⟩
  · refine ⟨(((s.m_advRoutingTable.LookupRoute h.m_dst).getD fwd).SetSeqNo
      h.m_dstSeqNo).SetEntriesChanged true, ?_, rfl, Nat.mod_eq_of_lt hs⟩
    rw [RecvDsdvUpdate_poisoned s h receiver src fwd hodd hown hmain hnext,
      (DropAlternate_foldl_frame _ _).2.2.1]
    apply PoisonRouted_foldl_adv
    simp only [RoutingTable_LookupRoute_Update, hdst2, if_true, hstage, Option.map_some']
  · intro X m hX hm hmn hadv
    refine ⟨(m.SetSeqNo (m.GetSeqNo + 1)).SetEntriesChanged true, ?_, rfl, rfl⟩
    rw [RecvDsdvUpdate_poisoned s h receiver src fwd hodd hown hmain hnext,
      (DropAlternate_foldl_frame _ _).2.2.1]
    apply PoisonRouted_foldl_adv_new
    · have hne : ¬ h.m_dst = X := fun e => hX e.symm
      simp only [RoutingTable_LookupRoute_Update, hdst2, hne, if_false,
        StageAdvertisement_lookup_ne s h.m_dst X fwd hfwd hX, hadv]
    · exact find_filter_of_find _ _ _ m hm (by simp [hmn])

/-- Witness for C21 as amended: the node that reaches `D` by way of the neighbour `S` receives
`(S, seq=7)` from `S`; the advertisement entry made for `D` has the sequence number 5. -/
theorem RecvDsdv_poison_cascade_witness :
    exampleNodeThroughS.m_routingTable.LookupRoute exampleS = some neighbourRouteS
    ∧ neighbourRouteS.GetNextHop = exampleS
    ∧ exampleNodeThroughS.m_routingTable.LookupRoute exampleD = some routeViaS
    ∧ routeViaS.GetNextHop = exampleS
    ∧ routeViaS.GetSeqNo = 4
    ∧ ∃ s1 : RoutingProtocol,
      exampleNodeThroughS.RecvDsdv
        ((DsdvHeader.mk exampleS 0 7).Serialize ++ []) exampleIface.GetLocal exampleS
        = some (s1, [])
      ∧ s1.m_routingTable.LookupRoute exampleS = none
      ∧ (∀ e ∈ s1.m_routingTable.m_ipv4AddressEntry, e.GetNextHop ≠ exampleS)
      ∧ ∃ a, s1.m_advRoutingTable.LookupRoute exampleD = some a
        ∧ a.GetEntriesChanged = true
        ∧ a.GetSeqNo = 5 := by
  obtain ⟨s1, h1, h2, h3, -, h4⟩ :=
    RecvDsdv_poison_cascade exampleNodeThroughS (DsdvHeader.mk exampleS 0 7) exampleS
      exampleIface.GetLocal [] neighbourRouteS (by decide) (by decide) (by decide) (by decide)
      (by decide) (by decide) (by decide)
  exact ⟨by decide, by decide, by decide, by decide, by decide, s1, h1, h2, h3,
    h4 exampleD routeViaS (by decide) (by decide) (by decide) (by decide)⟩

/-- Counterexample to C21 as stated: the main-table entry for `D` is `(D, seq=4, nextHop=S)`,
and the advertisement table holds a newer entry for `D` whose next hop is `10.1.1.3`. The node
receives `(D, seq=7)` from `S`, the next hop of its main-table entry. Afterwards the main table
still holds the entry for `D`. -/
theorem RecvDsdv_poison_from_main_next_hop_counterexample :
    exampleNodePendingViaN.m_routingTable.LookupRoute exampleD = some exampleRoute
    ∧ exampleRoute.GetNextHop = exampleS
    ∧ (exampleNodePendingViaN.m_advRoutingTable.LookupRoute exampleD).map
        RoutingTableEntry.GetNextHop = some 167837955
    ∧ ∃ s1 : RoutingProtocol,
      exampleNodePendingViaN.RecvDsdv
        ((DsdvHeader.mk exampleD 1 7).Serialize ++ []) exampleIface.GetLocal exampleS
        = some (s1, [])
      ∧ s1.m_routingTable.LookupRoute exampleD = some exampleRoute :=
  ⟨by decide, by decide, by decide,
    exampleNodePendingViaN.RecvDsdvUpdate (DsdvHeader.mk exampleD 1 7) exampleIface.GetLocal
      exampleS,
    RecvDsdv_Serialize _ _ _ _ _ (by decide) (by decide) (by decide), by decide⟩

/-- The cascade at a destination that has an advertisement entry already: the node reaches
`D` by way of the neighbour `S` with the main-table entry `(D, seq=4)`, and its advertisement
table holds `(D, seq=6)`, which waits to be advertised. It receives `(S, seq=7)` from `S`.
Afterwards the advertisement entry for `D` is still the one with the sequence number 6: the
`AddRoute` of the cascade does not replace an entry. -/
theorem RecvDsdv_poison_cascade_keeps_pending :
    exampleNodeThroughSPending.m_routingTable.LookupRoute exampleS = some neighbourRouteS
    ∧ neighbourRouteS.GetNextHop = exampleS
    ∧ exampleNodeThroughSPending.m_routingTable.LookupRoute exampleD = some routeViaS
    ∧ routeViaS.GetNextHop = exampleS
    ∧ routeViaS.GetSeqNo = 4
    ∧ ∃ (s1 : RoutingProtocol) (a : RoutingTableEntry),
      exampleNodeThroughSPending.RecvDsdv
        ((DsdvHeader.mk exampleS 0 7).Serialize ++ []) exampleIface.GetLocal exampleS
        = some (s1, [])
      ∧ s1.m_routingTable.LookupRoute exampleD = none
      ∧ s1.m_advRoutingTable.LookupRoute exampleD = some a
      ∧ a.GetSeqNo = 6
      ∧ a.GetSeqNo ≠ routeViaS.GetSeqNo + 1 := by
  refine ⟨by decide, by decide, by decide, by decide, by decide,
    exampleNodeThroughSPending.RecvDsdvUpdate (DsdvHeader.mk exampleS 0 7)
      exampleIface.GetLocal exampleS,
    (((((routeViaS.SetSeqNo 6).SetLifeTime (Seconds 20)).SetFlag
      RouteFlags.VALID).SetEntriesChanged true).SetNextHop exampleS).SetHop 2,
    RecvDsdv_Serialize _ _ _ _ _ (by decide) (by decide) (by decide),
    by decide, by decide, by decide, by decide⟩

/-- C22, as amended: an update with an odd sequence number for `D` comes from the next hop of
the advertisement entry for `D` (of the main-table entry, when the advertisement table holds
none). After `RecvDsdv` the alternate table holds no entry for `D` and no entry whose next hop is
`D`; for any other destination `X` without an alternate entry whose next hop is `D`, the
alternate table answers as before, whatever the main-table next hop of `X` was. -/
theorem RecvDsdv_poison_drops_alternates (s : RoutingProtocol) (h : DsdvHeader)
    (src receiver : Ipv4Address) (rest : List Nat) (fwd : RoutingTableEntry)
    (hd : h.m_dst < 2 ^ 32) (hh : h.m_hopCount < 2 ^ 16) (hs : h.m_dstSeqNo < 2 ^ 32)
    (hodd : h.m_dstSeqNo % 2 = 1)
    (hown : ∀ j ∈ s.m_socketAddresses, j.2.GetLocal ≠ h.m_dst)
    (hmain : s.m_routingTable.LookupRoute h.m_dst = some fwd)
    (hnext : ((s.m_advRoutingTable.LookupRoute h.m_dst).getD fwd).GetNextHop = src) :
    ∃ s1 : RoutingProtocol,
      s.RecvDsdv (h.Serialize ++ rest) receiver src = some (s1, rest)
      ∧ s1.m_altRoutingTable.LookupRoute h.m_dst = none
      ∧ (∀ e ∈ s1.m_altRoutingTable.m_ipv4AddressEntry, e.GetNextHop ≠ h.m_dst)
      ∧ (∀ X : Ipv4Address, X ≠ h.m_dst
          → (∀ e ∈ s.m_altRoutingTable.m_ipv4AddressEntry,
              e.GetDestination = X → e.GetNextHop ≠ h.m_dst)
          → s1.m_altRoutingTable.LookupRoute X = s.m_altRoutingTable.LookupRoute X) := by
  refine ⟨s.RecvDsdvUpdate h receiver src, RecvDsdv_Serialize s h rest receiver src hd hh hs,
    ?_, ?_, ?_⟩
  · rw [RecvDsdvUpdate_poisoned s h receiver src fwd hodd hown hmain hnext,
      DropAlternate_foldl_alt, (PoisonRouted_foldl_frame _ _).2.1]
    simp [RoutingTable_LookupRoute_DeleteRoute]
  · intro e he hne
    rw [RecvDsdvUpdate_poisoned s h receiver src fwd hodd hown hmain hnext] at he
    obtain ⟨h1, h2⟩ := DropAlternate_foldl_alt_entries _ _ e he
    rw [(PoisonRouted_foldl_frame _ _).2.1] at h1
    simp only [RoutingTable_DeleteRoute_entries, List.mem_filter] at h1
    apply h2
    rw [List.mem_map]
    refine ⟨e, ?_, rfl⟩
    simp only [RoutingTable.GetListOfDestinationWithNextHop, List.mem_filter,
      decide_eq_true_eq]
    exact ⟨h1.1, hne⟩
  · intro X hX hfree
    have hne : ¬ h.m_dst = X := fun e => hX e.symm
    have hnot : X ∉ (s.m_altRoutingTable.GetListOfDestinationWithNextHop h.m_dst).map
        RoutingTableEntry.GetDestination := by
      rw [List.mem_map]
      rintro ⟨e, he, hed⟩
      simp only [RoutingTable.GetListOfDestinationWithNextHop, List.mem_filter,
        decide_eq_true_eq] at he
      exact hfree e he.1 hed he.2
    rw [RecvDsdvUpdate_poisoned s h receiver src fwd hodd hown hmain hnext,
      DropAlternate_foldl_alt, if_neg hnot, (PoisonRouted_foldl_frame _ _).2.1]
    simp only [RoutingTable_LookupRoute_DeleteRoute, hne, if_false]

/-- Witness for C22 as amended: the node that reaches `D` by way of the neighbour `S`, with an
alternate route to `D` by way of `10.1.1.3`, receives `(S, seq=7)` from `S`. -/
theorem RecvDsdv_poison_drops_alternates_witness :
    exampleNodeThroughS.m_routingTable.LookupRoute exampleS = some neighbourRouteS
    ∧ neighbourRouteS.GetNextHop = exampleS
    ∧ ∃ s1 : RoutingProtocol,
      exampleNodeThroughS.RecvDsdv
        ((DsdvHeader.mk exampleS 0 7).Serialize ++ []) exampleIface.GetLocal exampleS
        = some (s1, [])
      ∧ s1.m_altRoutingTable.LookupRoute exampleS = none
      ∧ (∀ e ∈ s1.m_altRoutingTable.m_ipv4AddressEntry, e.GetNextHop ≠ exampleS)
      ∧ s1.m_altRoutingTable.LookupRoute exampleD
        = exampleNodeThroughS.m_altRoutingTable.LookupRoute exampleD := by
  obtain ⟨s1, h1, h2, h3, h4⟩ :=
    RecvDsdv_poison_drops_alternates exampleNodeThroughS (DsdvHeader.mk exampleS 0 7) exampleS
      exampleIface.GetLocal [] neighbourRouteS (by decide) (by decide) (by decide) (by decide)
      (by decide) (by decide) (by decide)
  exact ⟨by decide, by decide, s1, h1, h2, h3, h4 exampleD (by decide) (by decide)⟩

/-- Counterexample to C22 as stated: the node reaches `D` by way of the neighbour `S` and holds
an alternate route to `D` by way of `10.1.1.3`. It receives `(S, seq=7)` from `S`. The cascade
removes the main-table route to `D`, and the alternate table still holds its entry for `D`. -/
theorem RecvDsdv_poison_keeps_alternate_counterexample :
    exampleNodeThroughS.m_routingTable.LookupRoute exampleS = some neighbourRouteS
    ∧ neighbourRouteS.GetNextHop = exampleS
    ∧ exampleNodeThroughS.m_routingTable.LookupRoute exampleD = some routeViaS
    ∧ routeViaS.GetNextHop = exampleS
    ∧ ∃ s1 : RoutingProtocol,
      exampleNodeThroughS.RecvDsdv
        ((DsdvHeader.mk exampleS 0 7).Serialize ++ []) exampleIface.GetLocal exampleS
        = some (s1, [])
      ∧ s1.m_routingTable.LookupRoute exampleD = none
      ∧ s1.m_altRoutingTable.LookupRoute exampleD = some alternateViaN :=
  ⟨by decide, by decide, by decide, by decide,
    exampleNodeThroughS.RecvDsdvUpdate (DsdvHeader.mk exampleS 0 7) exampleIface.GetLocal
      exampleS,
    RecvDsdv_Serialize _ _ _ _ _ (by decide) (by decide) (by decide), by decide, by decide⟩

/-! ## Triggered updates -/

theorem InMapOrder_mem (l : List RoutingTableEntry) (i : RoutingTableEntry) :
    i ∈ RoutingProtocol.InMapOrder l ↔ i ∈ l :=
  (List.perm_insertionSort _ l).mem_iff

/-- Removing the registrations of one destination does not change what is found for
another. -/
theorem find_event_filter_ne (evs : List (Ipv4Address × EventId)) (a d : Ipv4Address)
    (hne : d ≠ a) :
    (evs.filter (fun q => !decide (q.1 = a))).find? (fun p => decide (p.1 = d))
      = evs.find? (fun p => decide (p.1 = d)) := by
  induction evs with
  | nil => rfl
  | cons e l ih =>
    by_cases hea : e.1 = a
    · have hed : ¬ e.1 = d := fun h => hne (h.symm.trans hea)
      have had : ¬ a = d := fun h => hne h.symm
      simp only [List.filter_cons, hea, decide_True, Bool.not_true, Bool.false_eq_true,
        if_false, List.find?_cons, had, decide_False]
      exact ih
    · simp only [List.filter_cons, hea, decide_False, Bool.not_false, if_true, List.find?_cons]
      rw [ih]

theorem find_event_filter_self (evs : List (Ipv4Address × EventId)) (a : Ipv4Address) :
    (evs.filter (fun q => !decide (q.1 = a))).find? (fun p => decide (p.1 = a)) = none := by
  rw [List.find?_eq_none]
  intro x hx
  simp only [List.mem_filter, Bool.not_eq_true', decide_eq_false_iff_not] at hx
  simp [hx.2]

/-- The call `DeleteIpv4Event` removes no registration of a running event: the test
`AnyRunningEvent` answers as before, for every destination. -/
theorem RoutingTable_AnyRunningEvent_DeleteIpv4Event (t : RoutingTable) (sim : Simulator)
    (a d : Ipv4Address) :
    (t.DeleteIpv4Event sim a).2.AnyRunningEvent sim d = t.AnyRunningEvent sim d := by
  unfold RoutingTable.DeleteIpv4Event
  cases hf : t.m_ipv4Events.find? (fun p => decide (p.1 = a)) with
  | none => rfl
  | some p =>
    simp only
    cases hr : sim.IsRunning p.2 with
    | true => simp only [if_true]
    | false =>
      simp only [Bool.false_eq_true, if_false]
      unfold RoutingTable.AnyRunningEvent
      by_cases hda : d = a
      · subst hda
        simp only [find_event_filter_self, hf, hr]
      · simp only [find_event_filter_ne _ _ _ hda]

theorem RoutingTable_LookupRoute_DeleteIpv4Event (t : RoutingTable) (sim : Simulator)
    (a id : Ipv4Address) :
    (t.DeleteIpv4Event sim a).2.LookupRoute id = t.LookupRoute id := by
  unfold RoutingTable.DeleteIpv4Event
  cases t.m_ipv4Events.find? (fun p => decide (p.1 = a)) with
  | none => rfl
  | some p =>
    simp only
    split <;> rfl

/-- The inner loop body of `SendTriggeredUpdate` on an entry that is flushed. -/
theorem FlushAdvertisement_of_due (acc : RoutingProtocol × Packet) (i : RoutingTableEntry)
    (hdue : i.GetEntriesChanged = true
      ∧ acc.1.m_advRoutingTable.AnyRunningEvent acc.1.m_simulator i.GetDestination = false) :
    ∃ r, RoutingProtocol.FlushAdvertisement acc i = some r
      ∧ r.1.m_simulator = acc.1.m_simulator
      ∧ r.1.m_routingTable
        = (if i.GetSeqNo % 2 = 0 then
            (acc.1.m_routingTable.Update
              ((i.SetFlag RouteFlags.VALID).SetEntriesChanged false)).2
          else acc.1.m_routingTable)
      ∧ r.1.m_advRoutingTable
        = ((acc.1.m_advRoutingTable.DeleteIpv4Event acc.1.m_simulator
            i.GetDestination).2.DeleteRoute i.GetDestination).2 := by
  refine ⟨({ acc.1 with
      m_routingTable :=
        if i.GetSeqNo % 2 = 0 then
          (acc.1.m_routingTable.Update
            ((i.SetFlag RouteFlags.VALID).SetEntriesChanged false)).2
        else acc.1.m_routingTable
      m_advRoutingTable :=
        ((acc.1.m_advRoutingTable.DeleteIpv4Event acc.1.m_simulator
          i.GetDestination).2.DeleteRoute i.GetDestination).2 },
    (TypeHeader.mk1 .DSDVTYPE_DSDV).Serialize
      ++ (((DsdvHeader.default.SetDst i.GetDestination).SetDstSeqno i.GetSeqNo).SetHopCount
        ((i.GetHop + 1) % 2 ^ 32)).Serialize ++ acc.2), ?_, rfl, rfl, rfl⟩
  simp only [RoutingProtocol.FlushAdvertisement, hdue, and_self, if_true]
  rfl

/-- The inner loop body of `SendTriggeredUpdate` on an entry that is not flushed: the node and
the packet stay as they are if an event is registered for the destination, and the run stops
at the assertion if none is. -/
theorem FlushAdvertisement_of_not_due (acc : RoutingProtocol × Packet)
    (i : RoutingTableEntry)
    (hdue : ¬ (i.GetEntriesChanged = true
      ∧ acc.1.m_advRoutingTable.AnyRunningEvent acc.1.m_simulator i.GetDestination = false)) :
    RoutingProtocol.FlushAdvertisement acc i
      = if acc.1.m_advRoutingTable.GetEventId i.GetDestination ≠ 0 then some acc else none := by
  simp only [RoutingProtocol.FlushAdvertisement, hdue, if_false]

/-- The inner loop body of `SendTriggeredUpdate` leaves the scheduler alone, and the test
`AnyRunningEvent` answers after it as before, for every destination. -/
theorem FlushAdvertisement_running (acc r : RoutingProtocol × Packet) (i : RoutingTableEntry)
    (h : RoutingProtocol.FlushAdvertisement acc i = some r) :
    r.1.m_simulator = acc.1.m_simulator
    ∧ ∀ d, r.1.m_advRoutingTable.AnyRunningEvent
        acc.1.m_simulator d = acc.1.m_advRoutingTable.AnyRunningEvent acc.1.m_simulator d := by
  by_cases hdue : i.GetEntriesChanged = true
      ∧ acc.1.m_advRoutingTable.AnyRunningEvent acc.1.m_simulator i.GetDestination = false
  · obtain ⟨r1, h1, h2, -, h4⟩ := FlushAdvertisement_of_due acc i hdue
    rw [h1, Option.some.injEq] at h
    subst h
    refine ⟨h2, fun d => ?_⟩
    rw [h4, RoutingTable_AnyRunningEvent_congr _ _ _ _ (RoutingTable_DeleteRoute_events _ _),
      RoutingTable_AnyRunningEvent_DeleteIpv4Event]
  · rw [FlushAdvertisement_of_not_due acc i hdue] at h
    split_ifs at h
    rw [Option.some.injEq] at h
    subst h
    exact ⟨rfl, fun d => rfl⟩

/-- The lookups in the advertisement table and in the main table after the inner loop body of
`SendTriggeredUpdate`. -/
theorem FlushAdvertisement_lookup (acc r : RoutingProtocol × Packet) (i : RoutingTableEntry)
    (d : Ipv4Address) (h : RoutingProtocol.FlushAdvertisement acc i = some r) :
    r.1.m_advRoutingTable.LookupRoute d
      = (if (i.GetEntriesChanged = true
            ∧ acc.1.m_advRoutingTable.AnyRunningEvent acc.1.m_simulator i.GetDestination = false)
            ∧ i.GetDestination = d
          then none else acc.1.m_advRoutingTable.LookupRoute d)
    ∧ r.1.m_routingTable.LookupRoute d
      = (if (i.GetEntriesChanged = true
            ∧ acc.1.m_advRoutingTable.AnyRunningEvent acc.1.m_simulator i.GetDestination = false)
            ∧ i.GetDestination = d ∧ i.GetSeqNo % 2 = 0
          then (acc.1.m_routingTable.LookupRoute d).map
            (fun _ => (i.SetFlag RouteFlags.VALID).SetEntriesChanged false)
          else acc.1.m_routingTable.LookupRoute d) := by
  have hdst : ((i.SetFlag RouteFlags.VALID).SetEntriesChanged false).GetDestination
      = i.GetDestination := rfl
  by_cases hdue : i.GetEntriesChanged = true
      ∧ acc.1.m_advRoutingTable.AnyRunningEvent acc.1.m_simulator i.GetDestination = false
  · obtain ⟨r1, h1, -, h3, h4⟩ := FlushAdvertisement_of_due acc i hdue
    rw [h1, Option.some.injEq] at h
    subst h
    rw [h3, h4]
    simp only [hdue, and_self, true_and, RoutingTable_LookupRoute_DeleteRoute,
      RoutingTable_LookupRoute_DeleteIpv4Event]
    by_cases he : i.GetSeqNo % 2 = 0
    · simp only [he, if_true, and_true, RoutingTable_LookupRoute_Update, hdst]
    · simp only [he, if_false, and_false]
  · rw [FlushAdvertisement_of_not_due acc i hdue] at h
    split_ifs at h
    rw [Option.some.injEq] at h
    subst h
    simp only [hdue, if_false, false_and, and_self]

/-- The event registered for a destination after the inner loop body of
`SendTriggeredUpdate`: a destination without one stays without one, and the event of a
destination other than that of a flushed entry stays. -/
theorem FlushAdvertisement_event (acc r : RoutingProtocol × Packet) (i : RoutingTableEntry)
    (h : RoutingProtocol.FlushAdvertisement acc i = some r) (d : Ipv4Address) :
    (acc.1.m_advRoutingTable.GetEventId d = 0 → r.1.m_advRoutingTable.GetEventId d = 0)
    ∧ (d ≠ i.GetDestination → r.1.m_advRoutingTable.GetEventId d
        = acc.1.m_advRoutingTable.GetEventId d) := by
  by_cases hdue : i.GetEntriesChanged = true
      ∧ acc.1.m_advRoutingTable.AnyRunningEvent acc.1.m_simulator i.GetDestination = false
  · obtain ⟨r1, h1, -, -, h4⟩ := FlushAdvertisement_of_due acc i hdue
    rw [h1, Option.some.injEq] at h
    subst h
    have hev : r1.1.m_advRoutingTable.m_ipv4Events
        = (acc.1.m_advRoutingTable.DeleteIpv4Event acc.1.m_simulator
            i.GetDestination).2.m_ipv4Events := by
      rw [h4]
      exact RoutingTable_DeleteRoute_events _ _
    unfold RoutingTable.GetEventId
    rw [hev]
    unfold RoutingTable.DeleteIpv4Event
    cases hf : acc.1.m_advRoutingTable.m_ipv4Events.find?
        (fun p => decide (p.1 = i.GetDestination)) with
    | none => exact ⟨fun h0 => h0, fun _ => rfl⟩
    | some p =>
      simp only
      split_ifs
      · exact ⟨fun h0 => h0, fun _ => rfl⟩
      · simp only
        by_cases hd : d = i.GetDestination
        · subst hd
          refine ⟨fun _ => ?_, fun hne => absurd rfl hne⟩
          rw [find_event_filter_self]
        · rw [find_event_filter_ne _ _ _ hd]
          exact ⟨fun h0 => h0, fun _ => rfl⟩
  · rw [FlushAdvertisement_of_not_due acc i hdue] at h
    split_ifs at h
    rw [Option.some.injEq] at h
    subst h
    exact ⟨fun h0 => h0, fun _ => rfl⟩

/-- A loop in the `Option` monad gets through an element and the rest. -/
theorem foldlM_cons_some {α β : Type} (f : β → α → Option β) (a : α) (l : List α) (b r : β) :
    (a :: l).foldlM f b = some r ↔ ∃ b1, f b a = some b1 ∧ l.foldlM f b1 = some r := by
  rw [List.foldlM_cons]
  cases f b a with
  | none => simp
  | some b1 => simp

/-- The test `AnyRunningEvent` answers after the inner loop of `SendTriggeredUpdate` as
before. -/
theorem FlushAdvertisement_foldlM_running (l : List RoutingTableEntry)
    (acc r : RoutingProtocol × Packet)
    (h : l.foldlM RoutingProtocol.FlushAdvertisement acc = some r) :
    r.1.m_simulator = acc.1.m_simulator
    ∧ ∀ d, r.1.m_advRoutingTable.AnyRunningEvent
        acc.1.m_simulator d = acc.1.m_advRoutingTable.AnyRunningEvent acc.1.m_simulator d := by
  induction l generalizing acc with
  | nil =>
    simp only [List.foldlM_nil, pure, Option.some.injEq] at h
    subst h
    exact ⟨rfl, fun d => rfl⟩
  | cons i l ih =>
    obtain ⟨r1, hr1, hrest⟩ := (foldlM_cons_some _ _ _ _ _).mp h
    obtain ⟨h1, h2⟩ := ih r1 hrest
    obtain ⟨g1, g2⟩ := FlushAdvertisement_running acc r1 i hr1
    rw [g1] at h1 h2
    exact ⟨h1, fun d => (h2 d).trans (g2 d)⟩

/-- A destination none of whose entries in the list is due keeps its entries in the
advertisement and in the main table through the inner loop of `SendTriggeredUpdate`. -/
theorem FlushAdvertisement_foldlM_keep (l : List RoutingTableEntry)
    (acc r : RoutingProtocol × Packet) (D : Ipv4Address)
    (hno : ∀ i ∈ l, i.GetDestination = D → ¬ (i.GetEntriesChanged = true
      ∧ acc.1.m_advRoutingTable.AnyRunningEvent acc.1.m_simulator D = false))
    (h : l.foldlM RoutingProtocol.FlushAdvertisement acc = some r) :
    r.1.m_advRoutingTable.LookupRoute D = acc.1.m_advRoutingTable.LookupRoute D
    ∧ r.1.m_routingTable.LookupRoute D = acc.1.m_routingTable.LookupRoute D := by
  induction l generalizing acc with
  | nil =>
    simp only [List.foldlM_nil, pure, Option.some.injEq] at h
    subst h
    exact ⟨rfl, rfl⟩
  | cons i l ih =>
    obtain ⟨r1, hr1, hrest⟩ := (foldlM_cons_some _ _ _ _ _).mp h
    obtain ⟨g1, g2⟩ := FlushAdvertisement_running acc r1 i hr1
    obtain ⟨k1, k2⟩ := FlushAdvertisement_lookup acc r1 i D hr1
    have hstep : ¬ ((i.GetEntriesChanged = true
        ∧ acc.1.m_advRoutingTable.AnyRunningEvent acc.1.m_simulator i.GetDestination = false)
        ∧ i.GetDestination = D) := by
      rintro ⟨⟨h1, h2⟩, h3⟩
      rw [h3] at h2
      exact hno i (List.mem_cons_self _ _) h3 ⟨h1, h2⟩
    have hstep2 : ¬ ((i.GetEntriesChanged = true
        ∧ acc.1.m_advRoutingTable.AnyRunningEvent acc.1.m_simulator i.GetDestination = false)
        ∧ i.GetDestination = D ∧ i.GetSeqNo % 2 = 0) := fun h => hstep ⟨h.1, h.2.1⟩
    rw [if_neg hstep] at k1
    rw [if_neg hstep2] at k2
    obtain ⟨h1, h2⟩ := ih r1 (by
      intro x hx hxd
      rw [g1, g2]
      exact hno x (List.mem_cons_of_mem _ hx) hxd) hrest
    exact ⟨h1.trans k1, h2.trans k2⟩

/-- A destination whose only entry in the list is `a`, which is due: the inner loop of
`SendTriggeredUpdate` deletes its advertisement entry and, the sequence number being even,
writes `a` over its main-table entry. -/
theorem FlushAdvertisement_foldlM_flush (l : List RoutingTableEntry)
    (acc r : RoutingProtocol × Packet) (D : Ipv4Address) (a : RoutingTableEntry)
    (hdst : a.GetDestination = D) (hch : a.GetEntriesChanged = true)
    (hnr : acc.1.m_advRoutingTable.AnyRunningEvent acc.1.m_simulator D = false)
    (huniq : ∀ i ∈ l, i.GetDestination = D → i = a)
    (h : l.foldlM RoutingProtocol.FlushAdvertisement acc = some r) :
    r.1.m_advRoutingTable.LookupRoute D
      = (if a ∈ l then none else acc.1.m_advRoutingTable.LookupRoute D)
    ∧ r.1.m_routingTable.LookupRoute D
      = (if a ∈ l ∧ a.GetSeqNo % 2 = 0
          then (acc.1.m_routingTable.LookupRoute D).map
            (fun _ => (a.SetFlag RouteFlags.VALID).SetEntriesChanged false)
          else acc.1.m_routingTable.LookupRoute D) := by
  induction l generalizing acc with
  | nil =>
    simp only [List.foldlM_nil, pure, Option.some.injEq] at h
    subst h
    simp
  | cons i l ih =>
    obtain ⟨r1, hr1, hrest⟩ := (foldlM_cons_some _ _ _ _ _).mp h
    obtain ⟨g1, g2⟩ := FlushAdvertisement_running acc r1 i hr1
    obtain ⟨k1, k2⟩ := FlushAdvertisement_lookup acc r1 i D hr1
    obtain ⟨h1, h2⟩ := ih r1 (by rw [g1, g2]; exact hnr)
      (fun x hx hxd => huniq x (List.mem_cons_of_mem _ hx) hxd) hrest
    by_cases hid : i.GetDestination = D
    · have hia : i = a := huniq i (List.mem_cons_self _ _) hid
      subst hia
      have hnr2 : acc.1.m_advRoutingTable.AnyRunningEvent acc.1.m_simulator i.GetDestination
          = false := by rw [hid]; exact hnr
      rw [if_pos ⟨⟨hch, hnr2⟩, hid⟩] at k1
      constructor
      · rw [if_pos (List.mem_cons_self _ _), h1, k1]
        split <;> rfl
      · by_cases he : i.GetSeqNo % 2 = 0
        · rw [if_pos ⟨⟨hch, hnr2⟩, hid, he⟩] at k2
          rw [if_pos ⟨List.mem_cons_self _ _, he⟩, h2, k2]
          cases acc.1.m_routingTable.LookupRoute D <;> simp
        · rw [if_neg (fun h => he h.2.2)] at k2
          rw [if_neg (fun h => he h.2), h2, k2, if_neg (fun h => he h.2)]
    · have hia : ¬ a = i := fun h => hid (h ▸ hdst)
      rw [if_neg (fun h => hid h.2)] at k1
      rw [if_neg (fun h => hid h.2.1)] at k2
      rw [h1, h2, k1, k2]
      simp only [List.mem_cons, hia, false_or, and_self]

/-- The inner loop of `SendTriggeredUpdate` stops at the assertion when the list holds an
entry that is not flushed and has no event registered for its destination. -/
theorem FlushAdvertisement_foldlM_abort (l : List RoutingTableEntry)
    (acc : RoutingProtocol × Packet) (i : RoutingTableEntry) (hi : i ∈ l)
    (hdue : ¬ (i.GetEntriesChanged = true
      ∧ acc.1.m_advRoutingTable.AnyRunningEvent acc.1.m_simulator i.GetDestination = false))
    (hev : acc.1.m_advRoutingTable.GetEventId i.GetDestination = 0) :
    l.foldlM RoutingProtocol.FlushAdvertisement acc = none := by
  induction l generalizing acc with
  | nil => simp at hi
  | cons x l ih =>
    rw [List.foldlM_cons]
    cases hx : RoutingProtocol.FlushAdvertisement acc x with
    | none => rfl
    | some r1 =>
      obtain ⟨g1, g2⟩ := FlushAdvertisement_running acc r1 x hx
      have hev1 := (FlushAdvertisement_event acc r1 x hx i.GetDestination).1 hev
      rcases List.mem_cons.mp hi with rfl | hil
      · rw [FlushAdvertisement_of_not_due acc i hdue, if_neg (by simp [hev])] at hx
        exact Option.noConfusion hx
      · exact ih r1 hil (by rw [g1, g2]; exact hdue) hev1

/-- The inner loop of `SendTriggeredUpdate` over entries of a snapshot with at most one
entry per destination gets through when every entry of the snapshot that is not flushed has
an event registered for its destination, and this is still so afterwards. -/
theorem FlushAdvertisement_foldlM_ok (L l : List RoutingTableEntry)
    (acc : RoutingProtocol × Packet) (hsub : ∀ x ∈ l, x ∈ L)
    (huniq : ∀ x ∈ L, ∀ y ∈ L, x.GetDestination = y.GetDestination → x = y)
    (hassert : ∀ x ∈ L, ¬ (x.GetEntriesChanged = true
        ∧ acc.1.m_advRoutingTable.AnyRunningEvent acc.1.m_simulator x.GetDestination = false) →
      acc.1.m_advRoutingTable.GetEventId x.GetDestination ≠ 0) :
    ∃ r, l.foldlM RoutingProtocol.FlushAdvertisement acc = some r
      ∧ ∀ x ∈ L, ¬ (x.GetEntriesChanged = true
          ∧ acc.1.m_advRoutingTable.AnyRunningEvent acc.1.m_simulator x.GetDestination
            = false) →
        r.1.m_advRoutingTable.GetEventId x.GetDestination ≠ 0 := by
  induction l generalizing acc with
  | nil => exact ⟨acc, rfl, hassert⟩
  | cons x l ih =>
    have hxL : x ∈ L := hsub x (List.mem_cons_self _ _)
    have hstep : ∃ r1, RoutingProtocol.FlushAdvertisement acc x = some r1
        ∧ ∀ y ∈ L, ¬ (y.GetEntriesChanged = true
            ∧ acc.1.m_advRoutingTable.AnyRunningEvent acc.1.m_simulator y.GetDestination
              = false) →
          r1.1.m_advRoutingTable.GetEventId y.GetDestination ≠ 0 := by
      by_cases hdue : x.GetEntriesChanged = true
          ∧ acc.1.m_advRoutingTable.AnyRunningEvent acc.1.m_simulator x.GetDestination = false
      · obtain ⟨r1, h1, -⟩ := FlushAdvertisement_of_due acc x hdue
        refine ⟨r1, h1, fun y hy hny => ?_⟩
        have hne : y.GetDestination ≠ x.GetDestination := by
          intro hd
          have := huniq y hy x hxL hd
          subst this
          exact hny hdue
        rw [(FlushAdvertisement_event acc r1 x h1 y.GetDestination).2 hne]
        exact hassert y hy hny
      · refine ⟨acc, ?_, hassert⟩
        rw [FlushAdvertisement_of_not_due acc x hdue, if_pos (hassert x hxL hdue)]
    obtain ⟨r1, hr1, hH⟩ := hstep
    obtain ⟨g1, g2⟩ := FlushAdvertisement_running acc r1 x hr1
    obtain ⟨r, hr, hHr⟩ := ih r1 (fun y hy => hsub y (List.mem_cons_of_mem _ hy)) (by
      intro y hy hny
      rw [g1, g2] at hny
      exact hH y hy hny)
    refine ⟨r, (foldlM_cons_some _ _ _ _ _).mpr ⟨r1, hr1, hr⟩, fun y hy hny => ?_⟩
    exact hHr y hy (by rw [g1, g2]; exact hny)

/-- The outer loop body of `SendTriggeredUpdate` gets through exactly when its inner loop
does, and the tables and the scheduler after it are those after the inner loop. -/
theorem SendTriggeredUpdateOn_some (l : List RoutingTableEntry) (st r1 : RoutingProtocol)
    (j : Nat × Ipv4InterfaceAddress) :
    RoutingProtocol.SendTriggeredUpdateOn l st j = some r1
      ↔ ∃ r, l.foldlM RoutingProtocol.FlushAdvertisement (st, []) = some r
          ∧ r1 = (if r.2.length ≥ 12 then
              { r.1 with
                  m_sent := r.1.m_sent ++
                    [{ socket := some j.1
                       packet :=
                        (TypeHeader.mk1 .DSDVTYPE_DSDV).Serialize
                          ++ (((DsdvHeader.default.SetDst
                                (r.1.m_ipv4.GetAddress 1).GetLocal).SetDstSeqno
                              ((r.1.m_routingTable.LookupRoute
                                  (r.1.m_ipv4.GetAddress 1).GetBroadcast).getD
                                (RoutingTableEntry.default
                                  r.1.m_simulator.Now)).GetSeqNo).SetHopCount
                            ((((r.1.m_routingTable.LookupRoute
                                  (r.1.m_ipv4.GetAddress 1).GetBroadcast).getD
                                (RoutingTableEntry.default r.1.m_simulator.Now)).GetHop + 1)
                              % 2 ^ 32)).Serialize
                          ++ r.2
                       destination := RoutingProtocol.BroadcastDestination j.2
                       port := RoutingProtocol.DSDV_PORT }] }
            else r.1) := by
  unfold RoutingProtocol.SendTriggeredUpdateOn
  cases hf : l.foldlM RoutingProtocol.FlushAdvertisement (st, []) with
  | none => simp
  | some r =>
    simp only [Option.some.injEq, exists_eq_left']
    split_ifs <;> exact ⟨fun h => (Option.some.inj h).symm, fun h => congrArg some h.symm⟩

/-- The tables and the scheduler after the outer loop body of `SendTriggeredUpdate` are those
after its inner loop. -/
theorem SendTriggeredUpdateOn_tables (l : List RoutingTableEntry) (st r1 : RoutingProtocol)
    (j : Nat × Ipv4InterfaceAddress)
    (h : RoutingProtocol.SendTriggeredUpdateOn l st j = some r1) :
    ∃ r, l.foldlM RoutingProtocol.FlushAdvertisement (st, []) = some r
      ∧ r1.m_routingTable = r.1.m_routingTable
      ∧ r1.m_advRoutingTable = r.1.m_advRoutingTable
      ∧ r1.m_simulator = r.1.m_simulator := by
  obtain ⟨r, hr, h1⟩ := (SendTriggeredUpdateOn_some l st r1 j).mp h
  refine ⟨r, hr, ?_⟩
  rw [h1]
  split_ifs <;> exact ⟨rfl, rfl, rfl⟩

/-- The test `AnyRunningEvent` answers after the outer loop body of `SendTriggeredUpdate` as
before. -/
theorem SendTriggeredUpdateOn_running (l : List RoutingTableEntry) (st r1 : RoutingProtocol)
    (j : Nat × Ipv4InterfaceAddress) (d : Ipv4Address)
    (h : RoutingProtocol.SendTriggeredUpdateOn l st j = some r1) :
    r1.m_advRoutingTable.AnyRunningEvent r1.m_simulator d
      = st.m_advRoutingTable.AnyRunningEvent st.m_simulator d := by
  obtain ⟨r, hr, -, t2, t3⟩ := SendTriggeredUpdateOn_tables l st r1 j h
  obtain ⟨g1, g2⟩ := FlushAdvertisement_foldlM_running l (st, []) r hr
  rw [t2, t3, g1]
  exact g2 d

/-- A destination none of whose entries in the snapshot is due keeps its entries in the
advertisement and in the main table through the outer loop of `SendTriggeredUpdate`. -/
theorem SendTriggeredUpdateOn_foldlM_keep (js : List (Nat × Ipv4InterfaceAddress))
    (l : List RoutingTableEntry) (st r : RoutingProtocol) (D : Ipv4Address)
    (hno : ∀ i ∈ l, i.GetDestination = D → ¬ (i.GetEntriesChanged = true
      ∧ st.m_advRoutingTable.AnyRunningEvent st.m_simulator D = false))
    (h : js.foldlM (RoutingProtocol.SendTriggeredUpdateOn l) st = some r) :
    r.m_advRoutingTable.LookupRoute D = st.m_advRoutingTable.LookupRoute D
    ∧ r.m_routingTable.LookupRoute D = st.m_routingTable.LookupRoute D := by
  induction js generalizing st with
  | nil =>
    simp only [List.foldlM_nil, pure, Option.some.injEq] at h
    subst h
    exact ⟨rfl, rfl⟩
  | cons j js ih =>
    obtain ⟨r1, hr1, hrest⟩ := (foldlM_cons_some _ _ _ _ _).mp h
    obtain ⟨q, hq, t1, t2, -⟩ := SendTriggeredUpdateOn_tables l st r1 j hr1
    obtain ⟨k1, k2⟩ := FlushAdvertisement_foldlM_keep l (st, []) q D hno hq
    obtain ⟨h1, h2⟩ := ih r1 (by
      intro x hx hxd
      rw [SendTriggeredUpdateOn_running l st r1 j D hr1]
      exact hno x hx hxd) hrest
    rw [t2] at h1
    rw [t1] at h2
    exact ⟨h1.trans k1, h2.trans k2⟩

/-- A destination whose only entry in the snapshot is `a`, which is due: the outer loop of
`SendTriggeredUpdate`, run for at least one socket, deletes its advertisement entry and, the
sequence number being even, writes `a` over its main-table entry. -/
theorem SendTriggeredUpdateOn_foldlM_flush (js : List (Nat × Ipv4InterfaceAddress))
    (l : List RoutingTableEntry) (st r : RoutingProtocol) (D : Ipv4Address)
    (a : RoutingTableEntry) (hdst : a.GetDestination = D) (hch : a.GetEntriesChanged = true)
    (hnr : st.m_advRoutingTable.AnyRunningEvent st.m_simulator D = false)
    (huniq : ∀ i ∈ l, i.GetDestination = D → i = a) (hmem : a ∈ l)
    (h : js.foldlM (RoutingProtocol.SendTriggeredUpdateOn l) st = some r) :
    r.m_advRoutingTable.LookupRoute D
      = (if js = [] then st.m_advRoutingTable.LookupRoute D else none)
    ∧ r.m_routingTable.LookupRoute D
      = (if js = [] ∨ ¬ a.GetSeqNo % 2 = 0 then st.m_routingTable.LookupRoute D
          else (st.m_routingTable.LookupRoute D).map
            (fun _ => (a.SetFlag RouteFlags.VALID).SetEntriesChanged false)) := by
  induction js generalizing st with
  | nil =>
    simp only [List.foldlM_nil, pure, Option.some.injEq] at h
    subst h
    simp
  | cons j js ih =>
    obtain ⟨r1, hr1, hrest⟩ := (foldlM_cons_some _ _ _ _ _).mp h
    obtain ⟨q, hq, t1, t2, -⟩ := SendTriggeredUpdateOn_tables l st r1 j hr1
    obtain ⟨k1, k2⟩ := FlushAdvertisement_foldlM_flush l (st, []) q D a hdst hch hnr huniq hq
    rw [if_pos hmem] at k1
    obtain ⟨h1, h2⟩ := ih r1 (by
      rw [SendTriggeredUpdateOn_running l st r1 j D hr1]; exact hnr) hrest
    rw [t2, k1] at h1
    rw [t1, k2] at h2
    constructor
    · rw [h1, if_neg (List.cons_ne_nil _ _)]
      split <;> rfl
    · rw [h2]
      by_cases he : a.GetSeqNo % 2 = 0
      · simp only [he, and_true, hmem, if_true, not_true_eq_false, or_false,
          List.cons_ne_nil, if_false]
        cases st.m_routingTable.LookupRoute D <;> simp
      · simp only [he, and_false, if_false, not_false_eq_true, or_true, if_true]

/-- The outer loop of `SendTriggeredUpdate`, run for at least one socket, stops at the
assertion when the snapshot holds an entry that is not flushed and has no event registered for
its destination. -/
theorem SendTriggeredUpdateOn_foldlM_abort (js : List (Nat × Ipv4InterfaceAddress))
    (l : List RoutingTableEntry) (st : RoutingProtocol) (i : RoutingTableEntry)
    (hjs : js ≠ []) (hi : i ∈ l)
    (hdue : ¬ (i.GetEntriesChanged = true
      ∧ st.m_advRoutingTable.AnyRunningEvent st.m_simulator i.GetDestination = false))
    (hev : st.m_advRoutingTable.GetEventId i.GetDestination = 0) :
    js.foldlM (RoutingProtocol.SendTriggeredUpdateOn l) st = none := by
  cases js with
  | nil => exact absurd rfl hjs
  | cons j js =>
    rw [List.foldlM_cons]
    have hnone : RoutingProtocol.SendTriggeredUpdateOn l st j = none := by
      unfold RoutingProtocol.SendTriggeredUpdateOn
      rw [FlushAdvertisement_foldlM_abort l (st, []) i hi hdue hev]
    rw [hnone]
    rfl

/-- The outer loop of `SendTriggeredUpdate` over a snapshot with at most one entry per
destination gets through when every entry of the snapshot that is not flushed has an event
registered for its destination. -/
theorem SendTriggeredUpdateOn_foldlM_ok (js : List (Nat × Ipv4InterfaceAddress))
    (l : List RoutingTableEntry) (st : RoutingProtocol)
    (huniq : ∀ x ∈ l, ∀ y ∈ l, x.GetDestination = y.GetDestination → x = y)
    (hassert : ∀ x ∈ l, ¬ (x.GetEntriesChanged = true
        ∧ st.m_advRoutingTable.AnyRunningEvent st.m_simulator x.GetDestination = false) →
      st.m_advRoutingTable.GetEventId x.GetDestination ≠ 0) :
    ∃ r, js.foldlM (RoutingProtocol.SendTriggeredUpdateOn l) st = some r := by
  induction js generalizing st with
  | nil => exact ⟨st, rfl⟩
  | cons j js ih =>
    obtain ⟨q, hq, hH⟩ := FlushAdvertisement_foldlM_ok l l (st, []) (fun _ h => h) huniq
      hassert
    obtain ⟨r1, hr1⟩ : ∃ r1, RoutingProtocol.SendTriggeredUpdateOn l st j = some r1 :=
      ⟨_, (SendTriggeredUpdateOn_some l st _ j).mpr ⟨q, hq, rfl⟩⟩
    obtain ⟨q2, hq2, -, t2, -⟩ := SendTriggeredUpdateOn_tables l st r1 j hr1
    have hqq : q2 = q := by
      rw [hq, Option.some.injEq] at hq2
      exact hq2.symm
    subst hqq
    obtain ⟨r, hr⟩ := ih r1 (by
      intro x hx hnx
      rw [SendTriggeredUpdateOn_running l st r1 j _ hr1] at hnx
      rw [t2]
      exact hH x hx hnx)
    exact ⟨r, (foldlM_cons_some _ _ _ _ _).mpr ⟨r1, hr1, hr⟩⟩

/-- C30, as amended: `SendTriggeredUpdate` runs on a node with at least one socket whose
advertisement table, with at most one entry per destination, holds the entry `a` for `D`. If
every `VALID` entry that is not flushed has an event registered for its destination, as the
assertion of the loop demands, the function returns, and: if `a` is `VALID`, marked changed and
without a running settling timer, then afterwards the advertisement table has no entry for
`D`; if the sequence number of `a` is even, the main-table entry for `D`, when there is one, is
`a` with the flag `VALID` and the changed mark cleared, and if it is odd the main table answers
for `D` as before; in every other case, such as a running timer, the advertisement table still
holds `a` and the main table answers for `D` as before. If some `VALID` entry that is not
flushed has no event registered, the run stops at the assertion. -/
theorem SendTriggeredUpdate_flushes_due_entries (s : RoutingProtocol) (D : Ipv4Address)
    (a : RoutingTableEntry) (hsock : s.m_socketAddresses ≠ [])
    (hone : (s.m_advRoutingTable.m_ipv4AddressEntry.map RoutingTableEntry.GetDestination).Nodup)
    (ha : s.m_advRoutingTable.LookupRoute D = some a) :
    (s.TriggeredUpdateAsserts →
      ∃ r, s.SendTriggeredUpdate = some r
        ∧ ((a.GetFlag = RouteFlags.VALID ∧ a.GetEntriesChanged = true
            ∧ s.m_advRoutingTable.AnyRunningEvent s.m_simulator D = false)
          → r.m_advRoutingTable.LookupRoute D = none
            ∧ (a.GetSeqNo % 2 = 0
              → r.m_routingTable.LookupRoute D
                = (s.m_routingTable.LookupRoute D).map
                    (fun _ => (a.SetFlag RouteFlags.VALID).SetEntriesChanged false))
            ∧ (a.GetSeqNo % 2 = 1
              → r.m_routingTable.LookupRoute D = s.m_routingTable.LookupRoute D))
        ∧ (¬ (a.GetFlag = RouteFlags.VALID ∧ a.GetEntriesChanged = true
            ∧ s.m_advRoutingTable.AnyRunningEvent s.m_simulator D = false)
          → r.m_advRoutingTable.LookupRoute D = some a
            ∧ r.m_routingTable.LookupRoute D = s.m_routingTable.LookupRoute D))
    ∧ (¬ s.TriggeredUpdateAsserts → s.SendTriggeredUpdate = none) := by
  have hdst : a.GetDestination = D := RoutingTable_LookupRoute_dst _ _ _ ha
  have hfilter := RoutingTable_filter_of_lookup_some _ D a hone ha
  have hvalid_mem : ∀ i ∈ RoutingProtocol.InMapOrder
      s.m_advRoutingTable.GetListOfAllValidRoutes,
      i ∈ s.m_advRoutingTable.m_ipv4AddressEntry ∧ i.GetFlag = RouteFlags.VALID := by
    intro i hi
    rw [InMapOrder_mem] at hi
    simpa [RoutingTable.GetListOfAllValidRoutes] using hi
  have huniq : ∀ i ∈ RoutingProtocol.InMapOrder s.m_advRoutingTable.GetListOfAllValidRoutes,
      i.GetDestination = D → i = a := by
    intro i hi hid
    have : i ∈ s.m_advRoutingTable.m_ipv4AddressEntry.filter
        (fun x => decide (x.GetDestination = D)) := by
      simp only [List.mem_filter, decide_eq_true_eq]
      exact ⟨(hvalid_mem i hi).1, hid⟩
    rw [hfilter] at this
    simpa using this
  constructor
  · intro hassert
    obtain ⟨r, hr⟩ := SendTriggeredUpdateOn_foldlM_ok s.m_socketAddresses
      (RoutingProtocol.InMapOrder s.m_advRoutingTable.GetListOfAllValidRoutes) s
      (fun x hx y hy hxy =>
        List.inj_on_of_nodup_map hone (hvalid_mem x hx).1 (hvalid_mem y hy).1 hxy)
      (fun x hx hnx => hassert x ((InMapOrder_mem _ _).mp hx) hnx)
    refine ⟨r, hr, ?_, ?_⟩
    · rintro ⟨hvalid, hch, hnr⟩
      have hmem : a ∈ RoutingProtocol.InMapOrder
          s.m_advRoutingTable.GetListOfAllValidRoutes := by
        rw [InMapOrder_mem]
        simp only [RoutingTable.GetListOfAllValidRoutes, List.mem_filter, decide_eq_true_eq]
        exact ⟨List.mem_of_find?_eq_some ha, hvalid⟩
      obtain ⟨h1, h2⟩ := SendTriggeredUpdateOn_foldlM_flush s.m_socketAddresses _ s r D a hdst
        hch hnr huniq hmem hr
      rw [if_neg hsock] at h1
      refine ⟨h1, fun he => ?_, fun ho => ?_⟩
      · exact h2.trans (by simp [hsock, he])
      · have he : ¬ a.GetSeqNo % 2 = 0 := by omega
        exact h2.trans (by simp [he])
    · intro hnot
      have hno : ∀ i ∈ RoutingProtocol.InMapOrder
          s.m_advRoutingTable.GetListOfAllValidRoutes,
          i.GetDestination = D → ¬ (i.GetEntriesChanged = true
            ∧ s.m_advRoutingTable.AnyRunningEvent s.m_simulator D = false) := by
        intro i hi hid hdue
        have hia := huniq i hi hid
        subst hia
        exact hnot ⟨(hvalid_mem i hi).2, hdue.1, hdue.2⟩
      obtain ⟨h1, h2⟩ := SendTriggeredUpdateOn_foldlM_keep s.m_socketAddresses _ s r D hno hr
      exact ⟨h1.trans ha, h2⟩
  · intro hfail
    unfold RoutingProtocol.TriggeredUpdateAsserts at hfail
    push_neg at hfail
    obtain ⟨i, hi, hnd, hev⟩ := hfail
    exact SendTriggeredUpdateOn_foldlM_abort s.m_socketAddresses _ s i hsock
      ((InMapOrder_mem _ _).mpr hi) (fun h => hnd h.1 h.2) hev

/-- Witness for C30 as amended: the node whose advertisement table holds `(D, seq=6)`, marked
changed and without a timer, over the main-table entry `(D, seq=4)`. `SendTriggeredUpdate`
returns; afterwards the advertisement table has no entry for `D` and the main-table entry for
`D` is the flushed one. On the node whose advertisement entry for `D` is unchanged and has no
event registered, the run stops at the assertion. -/
theorem SendTriggeredUpdate_flushes_due_entries_witness :
    exampleNodePending.m_advRoutingTable.LookupRoute exampleD = some pendingRoute
    ∧ exampleNodePending.TriggeredUpdateAsserts
    ∧ pendingRoute.GetFlag = RouteFlags.VALID
    ∧ pendingRoute.GetEntriesChanged = true
    ∧ pendingRoute.GetSeqNo = 6
    ∧ exampleNodePending.m_advRoutingTable.AnyRunningEvent exampleNodePending.m_simulator
        exampleD = false
    ∧ (∃ r, exampleNodePending.SendTriggeredUpdate = some r
      ∧ r.m_advRoutingTable.LookupRoute exampleD = none
      ∧ r.m_routingTable.LookupRoute exampleD
        = (exampleNodePending.m_routingTable.LookupRoute exampleD).map
            (fun _ => (pendingRoute.SetFlag RouteFlags.VALID).SetEntriesChanged false))
    ∧ exampleNodeUnchangedAdvertisement.m_advRoutingTable.LookupRoute exampleD
        = some exampleRoute
    ∧ ¬ exampleNodeUnchangedAdvertisement.TriggeredUpdateAsserts
    ∧ exampleNodeUnchangedAdvertisement.SendTriggeredUpdate = none := by
  have hassert : exampleNodePending.TriggeredUpdateAsserts := by
    unfold RoutingProtocol.TriggeredUpdateAsserts
    decide
  have hfail : ¬ exampleNodeUnchangedAdvertisement.TriggeredUpdateAsserts := by
    unfold RoutingProtocol.TriggeredUpdateAsserts
    decide
  obtain ⟨r, hr, h1, -⟩ :=
    (SendTriggeredUpdate_flushes_due_entries exampleNodePending exampleD pendingRoute
      (by decide) (by decide) (by decide)).1 hassert
  obtain ⟨k1, k2, -⟩ := h1 ⟨by decide, by decide, by decide⟩
  exact ⟨by decide, hassert, by decide, by decide, by decide, by decide,
    ⟨r, hr, k1, k2 (by decide)⟩, by decide, hfail,
    (SendTriggeredUpdate_flushes_due_entries exampleNodeUnchangedAdvertisement exampleD
      exampleRoute (by decide) (by decide) (by decide)).2 hfail⟩

/-- Counterexample to C30 as stated: the advertisement table of the node holds
`(D, seq=5)`, marked changed, without a running settling timer and with the flag `INVALID`, and
the node has a socket. `SendTriggeredUpdate` returns, leaves the entry in the advertisement
table and sends nothing. -/
theorem SendTriggeredUpdate_skips_invalid_counterexample :
    exampleNodeInvalidPoisoned.m_socketAddresses ≠ []
    ∧ exampleNodeInvalidPoisoned.m_advRoutingTable.LookupRoute exampleD
        = some invalidPoisonedRoute
    ∧ invalidPoisonedRoute.GetEntriesChanged = true
    ∧ invalidPoisonedRoute.GetFlag = RouteFlags.INVALID
    ∧ exampleNodeInvalidPoisoned.m_advRoutingTable.AnyRunningEvent
        exampleNodeInvalidPoisoned.m_simulator exampleD = false
    ∧ exampleNodeInvalidPoisoned.SendTriggeredUpdate.map
        (fun r => r.m_advRoutingTable.LookupRoute exampleD)
        = some (some invalidPoisonedRoute)
    ∧ exampleNodeInvalidPoisoned.SendTriggeredUpdate.map (fun r => r.m_sent) = some [] := by
  decide

/-! ## The bytes of an update -/

/-- C34: for every destination address `a.b.c.d`, 16-bit hop count `h` and 32-bit sequence
number `q`, `DsdvHeader::Serialize` writes exactly the 10 bytes `a`, `b`, `c`, `d`, then `h` as
two bytes, most significant first, then `q` as four bytes, most significant first. -/
theorem DsdvHeader_Serialize_bytes (a b c d h q : Nat) (ha : a < 256) (hb : b < 256)
    (hc : c < 256) (hd : d < 256) (hh : h < 2 ^ 16) (hq : q < 2 ^ 32) :
    ({ m_dst := a * 2 ^ 24 + b * 2 ^ 16 + c * 2 ^ 8 + d, m_hopCount := h, m_dstSeqNo := q } :
        DsdvHeader).Serialize
      = [a, b, c, d, h / 2 ^ 8, h % 2 ^ 8, q / 2 ^ 24, q / 2 ^ 16 % 2 ^ 8, q / 2 ^ 8 % 2 ^ 8,
          q % 2 ^ 8]
    ∧ (({ m_dst := a * 2 ^ 24 + b * 2 ^ 16 + c * 2 ^ 8 + d, m_hopCount := h, m_dstSeqNo := q } :
        DsdvHeader).Serialize).length = 10 := by
  refine ⟨?_, rfl⟩
  simp only [DsdvHeader.Serialize, Buffer.WriteTo, Buffer.WriteHtonU32, Buffer.WriteHtonU16,
    List.cons_append, List.nil_append, Nat.reducePow] at *
  have e1 : (a * 16777216 + b * 65536 + c * 256 + d) / 16777216 % 256 = a := by omega
  have e2 : (a * 16777216 + b * 65536 + c * 256 + d) / 65536 % 256 = b := by omega
  have e3 : (a * 16777216 + b * 65536 + c * 256 + d) / 256 % 256 = c := by omega
  have e4 : (a * 16777216 + b * 65536 + c * 256 + d) % 256 = d := by omega
  have e5 : h / 256 % 256 = h / 256 := by omega
  have e6 : q / 16777216 % 256 = q / 16777216 := by omega
  rw [e1, e2, e3, e4, e5, e6]

/-- Witness for C34: the update `(10.1.1.4, hop=2, seq=258)`. -/
theorem DsdvHeader_Serialize_bytes_witness :
    (10 : Nat) * 2 ^ 24 + 1 * 2 ^ 16 + 1 * 2 ^ 8 + 4 = exampleD
    ∧ ({ m_dst := 10 * 2 ^ 24 + 1 * 2 ^ 16 + 1 * 2 ^ 8 + 4, m_hopCount := 2,
         m_dstSeqNo := 258 } : DsdvHeader).Serialize
      = [10, 1, 1, 4, 2 / 2 ^ 8, 2 % 2 ^ 8, 258 / 2 ^ 24, 258 / 2 ^ 16 % 2 ^ 8,
          258 / 2 ^ 8 % 2 ^ 8, 258 % 2 ^ 8] :=
  ⟨by decide,
   (DsdvHeader_Serialize_bytes 10 1 1 4 2 258 (by decide) (by decide) (by decide) (by decide)
     (by decide) (by decide)).1⟩

/-! ## The weighted settling time -/

/-- The conversion `Time (double)` of 5.375: five ticks. -/
theorem Time_ofDouble_example : Time.ofDouble (43 / 8) = 5 := by
  unfold Time.ofDouble
  rw [if_pos (by norm_num)]
  show ⌊((43 / 8 : ℚ) + 1 / 2)⌋ = 5
  rw [Int.floor_eq_iff]
  norm_num

/-- C33, the code at the failing input: weighted settling time is enabled, the weighted factor
is 0.875, and the main-table entry for `D` has a settling time of 5 seconds and a lifetime of 8
seconds. `GetSettlingTime (D)` returns the `Time` built from the number 5.375, which is 5 ticks
of a nanosecond and not 5.375 seconds. -/
theorem GetSettlingTime_weighted_is_ticks :
    exampleNodeSettling.EnableWST = true
    ∧ exampleNodeSettling.m_weightedFactor = 7 / 8
    ∧ exampleNodeSettling.m_routingTable.LookupRoute exampleD = some settlingRoute
    ∧ settlingRoute.GetSettlingTime = Seconds 5
    ∧ settlingRoute.GetLifeTime exampleNodeSettling.m_simulator.Now = Seconds 8
    ∧ exampleNodeSettling.GetSettlingTime exampleD = 5
    ∧ exampleNodeSettling.GetSettlingTime exampleD ≠ Seconds 5 + MilliSeconds 375 := by
  have hl : exampleNodeSettling.m_routingTable.LookupRoute exampleD = some settlingRoute := by
    decide
  have hv : exampleNodeSettling.GetSettlingTime exampleD = 5 := by
    unfold RoutingProtocol.GetSettlingTime
    rw [hl]
    have hne : ¬ settlingRoute.GetSettlingTime = Seconds 0 := by decide
    have hw : exampleNodeSettling.EnableWST = true := rfl
    simp only [Option.getD_some, hw, if_true, hne, if_false]
    have harg : exampleNodeSettling.m_weightedFactor * settlingRoute.GetSettlingTime.GetSeconds
        + (1 - exampleNodeSettling.m_weightedFactor)
          * (settlingRoute.GetLifeTime exampleNodeSettling.m_simulator.Now).GetSeconds
        = 43 / 8 := by
      norm_num [exampleNodeSettling, exampleNode, settlingRoute, RoutingTableEntry.mk9,
        RoutingTableEntry.GetSettlingTime, RoutingTableEntry.GetLifeTime, Time.GetSeconds,
        Seconds, Simulator.Now]
    rw [harg]
    exact Time_ofDouble_example
  refine ⟨rfl, rfl, hl, by decide, by decide, hv, ?_⟩
  rw [hv]
  decide

/-! ## Aliveness and narrowing -/

/-- The factory `Seconds (double)` is monotone. -/
theorem SecondsD_mono (b c : ℚ) (h : b ≤ c) : SecondsD b ≤ SecondsD c := by
  unfold SecondsD
  exact Int.floor_mono (mul_le_mul_of_nonneg_right h (by norm_num))

/-- C36: `IsRouteAlive` is monotone in its buffer argument. Therefore, whenever
`RecvRouteRequest` answers a request for `D` with an acknowledge from a main-table route (the
purged main table holds an entry for `D`, and a datagram is sent), `LookupRoute (D)` reports
usable, on the node as the purge leaves it and on the node as `RecvRouteRequest` leaves it. -/
theorem IsRouteAlive_monotone_ack_implies_usable (s : RoutingProtocol) :
    (∀ (rt : RoutingTableEntry) (b c : ℚ), b ≤ c →
      s.IsRouteAlive rt b = true → s.IsRouteAlive rt c = true)
    ∧ ∀ (h : RreqHeader) (receiver R : Ipv4Address) (rt0 e : RoutingTableEntry),
        (s.m_routingTable.Purge s.m_simulator.Now).1.LookupRoute h.GetDst = some e →
        (s.RecvRouteRequestHeader h receiver R).m_sent ≠ s.m_sent →
        (RoutingProtocol.LookupRoute
            ({ s with m_routingTable := (s.m_routingTable.Purge s.m_simulator.Now).1 } :
              RoutingProtocol) h.GetDst rt0).found = true
        ∧ ((s.RecvRouteRequestHeader h receiver R).LookupRoute h.GetDst rt0).found = true := by
  have hmono : ∀ (st : RoutingProtocol) (rt : RoutingTableEntry) (b c : ℚ), b ≤ c →
      st.IsRouteAlive rt b = true → st.IsRouteAlive rt c = true := by
    intro st rt b c hbc hb
    rw [IsRouteAlive_eq_true] at hb ⊢
    exact ⟨hb.1.trans (add_le_add_left (SecondsD_mono b c hbc) _), hb.2⟩
  refine ⟨hmono s, ?_⟩
  intro h receiver R rt0 e he hsent
  have key : ∀ st : RoutingProtocol,
      st.m_routingTable = (s.m_routingTable.Purge s.m_simulator.Now).1 →
      st.m_simulator = s.m_simulator →
      st.m_periodicUpdateInterval = s.m_periodicUpdateInterval →
      (∀ rt b, st.IsRouteAlive rt b
        = RoutingProtocol.IsRouteAlive
            ({ s with m_routingTable := (s.m_routingTable.Purge s.m_simulator.Now).1 } :
              RoutingProtocol) rt b) →
      (s.RecvRouteRequestHeader h receiver R).m_sent ≠ s.m_sent →
      (st.LookupRoute h.GetDst rt0).found = true := by
    intro st hmain hsim hint halive hsent
    have hlook : st.m_routingTable.LookupRoute h.GetDst = some e := by rw [hmain]; exact he
    unfold RoutingProtocol.RecvRouteRequestHeader at hsent
    simp only [he] at hsent
    split_ifs at hsent with h1 h2 h3 h4 h5
    · exact absurd rfl hsent
    · exact absurd rfl hsent
    · -- the next hop is alive
      rw [LookupRoute_of_alive st h.GetDst rt0 e hlook
        (by rw [halive]; exact hmono _ e 0 2 (by norm_num) h3)
        (Or.inr (by
          rw [halive, hmain, hsim]
          exact hmono _ _ 0 2 (by norm_num) h5))]
    · exact absurd rfl hsent
    · -- the destination is a direct neighbour
      rw [LookupRoute_of_alive st h.GetDst rt0 e hlook
        (by rw [halive]; exact hmono _ e 0 2 (by norm_num) h3)
        (Or.inl (not_not.mp h4))]
    · exact absurd rfl hsent
  constructor
  · exact key _ rfl rfl rfl (fun _ _ => rfl) hsent
  · have hstate : s.RecvRouteRequestHeader h receiver R
        = RoutingProtocol.SendRouteAck
            ({ s with m_routingTable := (s.m_routingTable.Purge s.m_simulator.Now).1 } :
              RoutingProtocol) e R receiver := by
      unfold RoutingProtocol.RecvRouteRequestHeader at hsent ⊢
      simp only [he] at hsent ⊢
      split_ifs at hsent ⊢ <;> first | rfl | exact absurd rfl hsent
    rw [hstate]
    exact key _ rfl rfl rfl (fun _ _ => rfl) hsent

/-- The handling of a route-request that is answered from the main table: the purge leaves a
`VALID` route to a direct neighbour that is not the requester, refreshed within the periodic
update interval. -/
theorem RecvRouteRequestHeader_main_ack (s : RoutingProtocol) (h : RreqHeader)
    (receiver src : Ipv4Address) (e : RoutingTableEntry)
    (hdelay : ¬ s.GetDelayLeft.GetSeconds < 1)
    (hmain : (s.m_routingTable.Purge s.m_simulator.Now).1.LookupRoute h.GetDst = some e)
    (hsrc : e.GetNextHop ≠ src) (hdirect : e.GetNextHop = e.GetDestination)
    (hage : e.GetLifeTime s.m_simulator.Now ≤ s.m_periodicUpdateInterval)
    (hvalid : e.GetFlag = RouteFlags.VALID) :
    s.RecvRouteRequestHeader h receiver src
      = RoutingProtocol.SendRouteAck
          ({ s with m_routingTable := (s.m_routingTable.Purge s.m_simulator.Now).1 } :
            RoutingProtocol) e src receiver := by
  have halive : RoutingProtocol.IsRouteAlive
      ({ s with m_routingTable := (s.m_routingTable.Purge s.m_simulator.Now).1 } :
        RoutingProtocol) e 0 = true := by
    rw [IsRouteAlive_eq_true]
    have h0 : SecondsD 0 = 0 := by simpa using SecondsD_ofNat 0
    rw [h0, add_zero]
    exact ⟨hage, hvalid⟩
  unfold RoutingProtocol.RecvRouteRequestHeader
  simp only [hdelay, if_false, hmain]
  rw [if_neg hsrc, if_pos halive, if_neg (not_not.mpr hdirect)]

theorem exampleNodeWithNeighbour_delay :
    exampleNodeWithNeighbour.GetDelayLeft.GetSeconds = 10 := by
  norm_num [RoutingProtocol.GetDelayLeft, exampleNodeWithNeighbour, exampleNode,
    Time.GetSeconds, Seconds, Simulator.Now]

/-- Witness for C36: the node that holds the neighbour route to `D`, refreshed two seconds ago,
answers the request of `S` for `D`, and its lookup of `D` reports usable. -/
theorem IsRouteAlive_monotone_ack_implies_usable_witness :
    (exampleNodeWithNeighbour.m_routingTable.Purge
        exampleNodeWithNeighbour.m_simulator.Now).1.LookupRoute exampleD = some neighbourRoute
    ∧ (exampleNodeWithNeighbour.RecvRouteRequestHeader (RreqHeader.mk2 exampleD 0)
        exampleIface.GetLocal exampleS).m_sent ≠ exampleNodeWithNeighbour.m_sent
    ∧ ((exampleNodeWithNeighbour.RecvRouteRequestHeader (RreqHeader.mk2 exampleD 0)
        exampleIface.GetLocal exampleS).LookupRoute exampleD
          (RoutingTableEntry.default (Seconds 20))).found = true := by
  have hp : (exampleNodeWithNeighbour.m_routingTable.Purge
      exampleNodeWithNeighbour.m_simulator.Now).1.LookupRoute
        (RreqHeader.mk2 exampleD 0).GetDst = some neighbourRoute := by decide
  have hs : (exampleNodeWithNeighbour.RecvRouteRequestHeader (RreqHeader.mk2 exampleD 0)
      exampleIface.GetLocal exampleS).m_sent ≠ exampleNodeWithNeighbour.m_sent := by
    rw [RecvRouteRequestHeader_main_ack exampleNodeWithNeighbour _ _ _ neighbourRoute
      (by rw [exampleNodeWithNeighbour_delay]; norm_num) hp (by decide) (by decide) (by decide)
      (by decide)]
    decide
  exact ⟨hp, hs,
    ((IsRouteAlive_monotone_ack_implies_usable exampleNodeWithNeighbour).2
      (RreqHeader.mk2 exampleD 0) exampleIface.GetLocal exampleS
      (RoutingTableEntry.default (Seconds 20)) neighbourRoute hp hs).2⟩

/-- C37: `RecvRouteAck` narrows the 16-bit hop count of the acknowledge to 8 bits before it
uses it. The handling of an acknowledge with hop count `h` is that of the acknowledge with hop
count `h mod 256`; the entry installed for a destination without a `VALID` alternate entry has
hop count `h mod 256`; and an acknowledge with `h = 256` that is not discarded as redundant
replaces a `VALID` alternate entry of any positive hop count by an entry with hop count 0 and
the sender as next hop. -/
theorem RecvRouteAck_narrows_hop_count (s : RoutingProtocol) (D hop elapsed : Nat)
    (S receiver : Ipv4Address) (rest : List Nat) (hD : D < 2 ^ 32) (hhop : hop < 2 ^ 16)
    (helapsed : elapsed < 2 ^ 32) :
    s.RecvRouteAck ((RackHeader.mk D hop elapsed).Serialize ++ rest) receiver S
        = some (s.RecvRouteAckHeader (RackHeader.mk D hop elapsed) receiver S, rest)
    ∧ s.RecvRouteAckHeader (RackHeader.mk D hop elapsed) receiver S
        = s.RecvRouteAckHeader (RackHeader.mk D (hop % 2 ^ 8) elapsed) receiver S
    ∧ (¬ s.AckIsRedundant (RackHeader.mk D hop elapsed) S →
        (∀ p, s.m_altRoutingTable.LookupRoute D = some p → p.GetFlag = RouteFlags.INSEARCH) →
        ∃ e, (s.RecvRouteAckHeader (RackHeader.mk D hop elapsed)
            receiver S).m_altRoutingTable.LookupRoute D = some e
          ∧ e.GetHop = hop % 2 ^ 8 ∧ e.GetNextHop = S)
    ∧ (∀ rt : RoutingTableEntry, hop = 256 →
        ¬ s.AckIsRedundant (RackHeader.mk D hop elapsed) S →
        s.m_altRoutingTable.LookupRoute D = some rt → rt.GetFlag = RouteFlags.VALID →
        0 < rt.GetHop →
        ∃ e, (s.RecvRouteAckHeader (RackHeader.mk D hop elapsed)
            receiver S).m_altRoutingTable.LookupRoute D = some e
          ∧ e.GetHop = 0 ∧ e.GetNextHop = S ∧ e.GetFlag = RouteFlags.VALID) := by
  refine ⟨RecvRouteAck_Serialize s _ rest receiver S hD hhop helapsed, ?_, ?_, ?_⟩
  · unfold RoutingProtocol.RecvRouteAckHeader
    simp only [RackHeader.GetHopCount, RackHeader.GetDst, RackHeader.GetUpdateTime,
      Nat.mod_mod]
  · intro hfresh halt
    have hdst : (s.AcknowledgedEntry (RackHeader.mk D hop elapsed) receiver S).GetDestination
        = D := rfl
    refine ⟨s.AcknowledgedEntry (RackHeader.mk D hop elapsed) receiver S, ?_,
      Nat.mod_eq_of_lt (lt_trans (Nat.mod_lt _ (by norm_num)) (by norm_num)), rfl⟩
    have hd : (RackHeader.mk D hop elapsed).GetDst = D := rfl
    rw [RecvRouteAckHeader_of_fresh s _ receiver S hfresh]
    cases hl : s.m_altRoutingTable.LookupRoute D with
    | none =>
      simp only [hd, hl, RoutingTable_LookupRoute_AddRoute, hdst, if_true, Option.getD_none]
    | some p =>
      simp only [hd, hl, halt p hl, if_true, RoutingTable_LookupRoute_Update, hdst,
        Option.map_some']
  · intro rt h256 hfresh halt hvalid hpos
    subst h256
    have hins : ¬ rt.GetFlag = RouteFlags.INSEARCH := by rw [hvalid]; decide
    have hdst : rt.GetDestination = D := RoutingTable_LookupRoute_dst _ _ _ halt
    have hzero : (RackHeader.mk D 256 elapsed).GetHopCount % 2 ^ 8 = 0 := by
      simp [RackHeader.GetHopCount]
    have hlt : (RackHeader.mk D 256 elapsed).GetHopCount % 2 ^ 8 < rt.GetHop := by
      rw [hzero]; exact hpos
    refine ⟨(((rt.SetNextHop S).SetLifeTime
      (s.m_simulator.Now - (RackHeader.mk D 256 elapsed).GetUpdateTime)).SetHop
      ((RackHeader.mk D 256 elapsed).GetHopCount % 2 ^ 8)).SetInstallTime s.m_simulator.Now,
      ?_, by rw [hzero]; rfl, rfl, hvalid⟩
    rw [RecvRouteAckHeader_of_fresh s _ receiver S hfresh]
    have halt2 : s.m_altRoutingTable.LookupRoute (RackHeader.mk D 256 elapsed).GetDst
        = some rt := halt
    simp only [halt2, hins, if_false, Nat.le_of_lt hlt, Nat.ne_of_lt hlt, if_true]
    rw [RoutingTable_LookupRoute_Update]
    rw [if_pos (by exact hdst)]
    show Option.map _ (s.m_altRoutingTable.LookupRoute D) = _
    rw [halt]
    rfl

/-- Witness for C37: the node whose alternate table holds `(D, hop=2, nextHop=S)` receives
from the neighbour `10.1.1.3` an acknowledge `(D, hop=256)`. -/
theorem RecvRouteAck_narrows_hop_count_witness :
    exampleNodeAlternateOnly.m_altRoutingTable.LookupRoute exampleD
        = some (alternateRoute (Seconds 18))
    ∧ 0 < (alternateRoute (Seconds 18)).GetHop
    ∧ ∃ e, (exampleNodeAlternateOnly.RecvRouteAckHeader (RackHeader.mk exampleD 256 500)
          exampleIface.GetLocal 167837955).m_altRoutingTable.LookupRoute exampleD = some e
        ∧ e.GetHop = 0 ∧ e.GetNextHop = 167837955 ∧ e.GetFlag = RouteFlags.VALID := by
  have hfresh : ¬ exampleNodeAlternateOnly.AckIsRedundant (RackHeader.mk exampleD 256 500)
      167837955 := by
    rintro ⟨m, hm, -, -⟩
    have hs : exampleNodeAlternateOnly.m_routingTable.LookupRoute
        (RackHeader.mk exampleD 256 500).GetDst = none := by decide
    rw [hs] at hm
    exact absurd hm (by simp)
  exact ⟨by decide, by decide,
    (RecvRouteAck_narrows_hop_count exampleNodeAlternateOnly exampleD 256 500 167837955
      exampleIface.GetLocal [] (by decide) (by decide) (by decide)).2.2.2
      (alternateRoute (Seconds 18)) rfl hfresh (by decide) (by decide) (by decide)⟩

/-! ## The receive loop on well-formed packets -/

theorem Message_encodeAll_append (pre post : List Message) :
    Message.encodeAll (pre ++ post) = Message.encodeAll pre ++ Message.encodeAll post := by
  simp [Message.encodeAll]

/-- The receive loop on a packet of well-formed messages, after as many iterations as the
messages `pre` in front: these have been handled in order, the bytes of the others are left, and
the counter holds their number. -/
theorem RecvEffDsdvLoop_prefix (receiver sender : Ipv4Address) (pre post : List Message) :
    ∀ (fuel : Nat) (s : RoutingProtocol) (c : Bool),
      (∀ m ∈ pre, m.WellFormed) →
      (Message.encodeAll (pre ++ post)).length < 2 ^ 32 →
      RoutingProtocol.RecvEffDsdvLoop receiver sender (fuel + pre.length) s
          (Message.encodeAll (pre ++ post)) (Message.encodeAll (pre ++ post)).length c
        = RoutingProtocol.RecvEffDsdvLoop receiver sender fuel
            (pre.foldl (Message.handle receiver sender) s)
            (Message.encodeAll post) (Message.encodeAll post).length
            (c || pre.any Message.IsUpdate) := by
  induction pre with
  | nil =>
    intro fuel s c _ _
    simp
  | cons m pre ih =>
    intro fuel s c hwf hlen
    have henc : Message.encodeAll (m :: pre ++ post)
        = m.encode ++ Message.encodeAll (pre ++ post) := by
      simp [Message.encodeAll]
    have hml : m.encode.length = 12 ∨ m.encode.length = 8 := by
      cases m
      · left; rfl
      · right; rfl
      · left; rfl
    rw [henc] at hlen ⊢
    rw [List.length_append] at hlen ⊢
    have hlen2 : m.encode.length + (Message.encodeAll (pre ++ post)).length < 4294967296 := by
      simpa using hlen
    have hpos : 0 < m.encode.length + (Message.encodeAll (pre ++ post)).length := by omega
    have hfuel : fuel + (m :: pre).length = (fuel + pre.length) + 1 := by
      simp only [List.length_cons]; omega
    rw [hfuel, RecvEffDsdvLoop_message receiver sender _ s m _ _ c (hwf m (by simp)) hpos]
    have hsize : (m.encode.length + (Message.encodeAll (pre ++ post)).length + 2 ^ 32
        - m.encode.length) % 2 ^ 32 = (Message.encodeAll (pre ++ post)).length := by
      simp only [Nat.reducePow]
      omega
    rw [hsize, ih fuel _ _ (fun m1 hm1 => hwf m1 (by simp [hm1])) (by
      simp only [Nat.reducePow]; omega)]
    simp only [List.foldl_cons, List.any_cons]
    cases m <;> simp [Message.IsUpdate]

/-- C38: for every inbound packet of fewer than `2^32` bytes that is the concatenation of `n`
well-formed messages, the receive loop of `RecvEffDsdv` ends after exactly `n` iterations. After
the first `k` iterations the first `k` messages have been handled, each once and in order, and
the counter holds the number of bytes of the other messages, 12, 8 or 12 bytes less for each
message handled; with `n + 1` units of fuel the loop finds the counter at 0 and ends, with `n`
or fewer it does not; and `RecvEffDsdv` returns. -/
theorem RecvEffDsdv_loop_terminates (s : RoutingProtocol) (socket : Nat)
    (receiver sender : Ipv4Address) (msgs : List Message) (c : Bool)
    (hwf : ∀ m ∈ msgs, m.WellFormed) (hlen : (Message.encodeAll msgs).length < 2 ^ 32) :
    (∀ (pre post : List Message) (fuel : Nat), msgs = pre ++ post →
      RoutingProtocol.RecvEffDsdvLoop receiver sender (fuel + pre.length) s
          (Message.encodeAll msgs) (Message.encodeAll msgs).length c
        = RoutingProtocol.RecvEffDsdvLoop receiver sender fuel
            (pre.foldl (Message.handle receiver sender) s)
            (Message.encodeAll post) (Message.encodeAll post).length
            (c || pre.any Message.IsUpdate))
    ∧ (Message.encodeAll msgs).length
        = (msgs.map (fun m => match m with
            | .dsdv _ => 12
            | .rreq _ => 8
            | .rack _ => 12)).sum
    ∧ RoutingProtocol.RecvEffDsdvLoop receiver sender (msgs.length + 1) s
          (Message.encodeAll msgs) (Message.encodeAll msgs).length c
        = .finished (msgs.foldl (Message.handle receiver sender) s)
            (c || msgs.any Message.IsUpdate)
    ∧ (∀ fuel, fuel ≤ msgs.length →
        RoutingProtocol.RecvEffDsdvLoop receiver sender fuel s
          (Message.encodeAll msgs) (Message.encodeAll msgs).length c = .outOfFuel)
    ∧ ∃ s1 : RoutingProtocol,
        s.RecvEffDsdv socket (Message.encodeAll msgs) sender = some s1 := by
  have hpre : ∀ (pre post : List Message) (fuel : Nat) (st : RoutingProtocol) (r : Ipv4Address)
      (b : Bool), msgs = pre ++ post →
      RoutingProtocol.RecvEffDsdvLoop r sender (fuel + pre.length) st
          (Message.encodeAll msgs) (Message.encodeAll msgs).length b
        = RoutingProtocol.RecvEffDsdvLoop r sender fuel
            (pre.foldl (Message.handle r sender) st)
            (Message.encodeAll post) (Message.encodeAll post).length
            (b || pre.any Message.IsUpdate) := by
    intro pre post fuel st r b hsplit
    subst hsplit
    exact RecvEffDsdvLoop_prefix r sender pre post fuel st b
      (fun m hm => hwf m (by simp [hm])) hlen
  have hend : ∀ (fuel : Nat) (st : RoutingProtocol) (r : Ipv4Address) (b : Bool),
      RoutingProtocol.RecvEffDsdvLoop r sender (fuel + 1) st (Message.encodeAll [])
          (Message.encodeAll []).length b = .finished st b := by
    intro fuel st r b
    rw [RoutingProtocol.RecvEffDsdvLoop]
    simp [Message.encodeAll]
  refine ⟨fun pre post fuel h => hpre pre post fuel s receiver c h, ?_, ?_, ?_, ?_⟩
  · clear hpre hend hwf hlen
    induction msgs with
    | nil => rfl
    | cons m l ih =>
      simp only [Message.encodeAll, List.map_cons, List.flatten_cons, List.length_append,
        List.sum_cons] at ih ⊢
      rw [ih]
      cases m <;> rfl
  · have h := hpre msgs [] 1 s receiver c (by simp)
    rw [Nat.add_comm] at h
    rw [h, hend 0]
  · intro fuel hfuel
    have h := hpre (msgs.take fuel) (msgs.drop fuel) 0 s receiver c
      (List.take_append_drop fuel msgs).symm
    rw [List.length_take, Nat.min_eq_left hfuel, Nat.zero_add] at h
    rw [h]
    rfl
  · have hn := Message_encodeAll_length msgs
    obtain ⟨k, hk⟩ : ∃ k, (Message.encodeAll msgs).length + 1 = (k + 1) + msgs.length :=
      ⟨(Message.encodeAll msgs).length - msgs.length, by omega⟩
    unfold RoutingProtocol.RecvEffDsdv
    simp only [Nat.mod_eq_of_lt hlen]
    rw [hk, hpre msgs [] (k + 1) _ _ false (by simp), hend k]
    simp only
    split_ifs <;> exact ⟨_, rfl⟩

/-- Witness for C38: an update, a route-request and a route-acknowledge in one packet of 32
bytes; the loop ends after three iterations. -/
theorem RecvEffDsdv_loop_terminates_witness :
    (Message.encodeAll
      [.dsdv (DsdvHeader.mk exampleD 1 4), .rreq (RreqHeader.mk exampleD 0),
       .rack (RackHeader.mk exampleD 2 500)]).length = 32
    ∧ RoutingProtocol.RecvEffDsdvLoop exampleIface.GetLocal exampleS 4 exampleNode
        (Message.encodeAll
          [.dsdv (DsdvHeader.mk exampleD 1 4), .rreq (RreqHeader.mk exampleD 0),
           .rack (RackHeader.mk exampleD 2 500)]) 32 false
      = .finished
          ([Message.dsdv (DsdvHeader.mk exampleD 1 4), .rreq (RreqHeader.mk exampleD 0),
            .rack (RackHeader.mk exampleD 2 500)].foldl
              (Message.handle exampleIface.GetLocal exampleS) exampleNode) true :=
  ⟨by decide,
   (RecvEffDsdv_loop_terminates exampleNode 1 exampleIface.GetLocal exampleS
      [.dsdv (DsdvHeader.mk exampleD 1 4), .rreq (RreqHeader.mk exampleD 0),
       .rack (RackHeader.mk exampleD 2 500)] false
      (by
        intro m hm
        simp only [List.mem_cons, List.mem_singleton, List.not_mem_nil, or_false] at hm
        rcases hm with rfl | rfl | rfl
        · exact ⟨by decide, by decide, by decide⟩
        · exact ⟨by decide, by decide⟩
        · exact ⟨by decide, by decide, by decide⟩)
      (by decide)).2.2.1⟩

/-! ## A live route over a next hop that is not alive -/

/-- C35, as amended: the main-table entry `e` of `D` is alive (`VALID`, with a lifetime of at
most the periodic update interval plus two seconds) and `D` is no direct neighbour; the main
table holds an entry for the next hop of `e`, and that entry is not alive. Then `LookupRoute (D)`
reports not usable, returns `e` as stored, calls `SendRouteRequest` not once and leaves the node
as it is; the alternate table is not consulted: the result is the same whatever it holds. -/
theorem LookupRoute_dead_next_hop_falls_through (s : RoutingProtocol) (D : Ipv4Address)
    (rt0 e nh : RoutingTableEntry) (h : s.m_routingTable.LookupRoute D = some e)
    (hv : e.GetFlag = RouteFlags.VALID)
    (hl : e.GetLifeTime s.m_simulator.Now ≤ s.m_periodicUpdateInterval + Seconds 2)
    (hd : e.GetNextHop ≠ e.GetDestination)
    (hnh : s.m_routingTable.LookupRoute e.GetNextHop = some nh)
    (hdead : nh.GetFlag ≠ RouteFlags.VALID
      ∨ nh.GetLifeTime s.m_simulator.Now > s.m_periodicUpdateInterval + Seconds 2) :
    s.LookupRoute D rt0 = { found := false, rt := e, state := s, requests := [] }
    ∧ ∀ alt : RoutingTable,
        ({ s with m_altRoutingTable := alt } : RoutingProtocol).LookupRoute D rt0
          = { found := false
              rt := e
              state := { s with m_altRoutingTable := alt }
              requests := [] } := by
  have key : ∀ alt : RoutingTable,
      ({ s with m_altRoutingTable := alt } : RoutingProtocol).LookupRoute D rt0
        = { found := false
            rt := e
            state := { s with m_altRoutingTable := alt }
            requests := [] } := by
    intro alt
    refine LookupRoute_of_dead_next_hop _ D rt0 e h ((IsRouteAlive_two _ e).mpr ⟨hl, hv⟩) hd ?_
    show RoutingProtocol.IsRouteAlive ({ s with m_altRoutingTable := alt } : RoutingProtocol)
      ((s.m_routingTable.LookupRoute e.GetNextHop).getD
        (RoutingTableEntry.default s.m_simulator.Now)) 2 = false
    rw [hnh, Option.getD_some]
    cases hb : RoutingProtocol.IsRouteAlive
        ({ s with m_altRoutingTable := alt } : RoutingProtocol) nh 2 with
    | false => rfl
    | true =>
      have h2 := (IsRouteAlive_two _ nh).mp hb
      rcases hdead with hdead | hdead
      · exact absurd h2.2 hdead
      · exact absurd h2.1 (not_le.mpr hdead)
  refine ⟨?_, key⟩
  have := key s.m_altRoutingTable
  exact this

/-- Witness for C35 as amended: the node whose route to `D` by way of `S` is alive while its
route to `S` is 20 seconds old; the alternate table holds a fresh route to `D`. -/
theorem LookupRoute_dead_next_hop_falls_through_witness :
    exampleNodeDeadNextHop.m_routingTable.LookupRoute exampleD = some routeViaS
    ∧ exampleNodeDeadNextHop.m_routingTable.LookupRoute routeViaS.GetNextHop
        = some staleNeighbourS
    ∧ exampleNodeDeadNextHop.m_altRoutingTable.LookupRoute exampleD = some alternateViaN
    ∧ exampleNodeDeadNextHop.LookupRoute exampleD (RoutingTableEntry.default (Seconds 20))
        = { found := false, rt := routeViaS, state := exampleNodeDeadNextHop, requests := [] } :=
  ⟨by decide, by decide, by decide,
   (LookupRoute_dead_next_hop_falls_through exampleNodeDeadNextHop exampleD
     (RoutingTableEntry.default (Seconds 20)) routeViaS staleNeighbourS (by decide) (by decide)
     (by decide) (by decide) (by decide) (Or.inr (by decide))).1⟩

/-- Counterexample to C35 as stated: the main-table entry `(D, hop=1, nextHop=S)` is alive,
`D` is not its own next hop, and the main table has no entry for the next hop `S`. The lookup of
`D` reports usable: the entry that the failed lookup of `S` leaves to be tested is a
default-constructed one, `VALID` and refreshed now. -/
theorem LookupRoute_missing_next_hop_counterexample :
    exampleNodeWithRoute.m_routingTable.LookupRoute exampleD = some exampleRoute
    ∧ exampleRoute.GetFlag = RouteFlags.VALID
    ∧ exampleRoute.GetLifeTime exampleNodeWithRoute.m_simulator.Now
        ≤ exampleNodeWithRoute.m_periodicUpdateInterval + Seconds 2
    ∧ exampleRoute.GetNextHop ≠ exampleRoute.GetDestination
    ∧ exampleNodeWithRoute.m_routingTable.LookupRoute exampleRoute.GetNextHop = none
    ∧ (exampleNodeWithRoute.LookupRoute exampleD
        (RoutingTableEntry.default (Seconds 20))).found = true := by
  refine ⟨by decide, by decide, by decide, by decide, by decide, ?_⟩
  rw [LookupRoute_of_alive exampleNodeWithRoute exampleD _ exampleRoute (by decide)
    ((IsRouteAlive_two _ _).mpr ⟨by decide, by decide⟩)
    (Or.inr ((IsRouteAlive_two _ _).mpr ⟨by decide, by decide⟩))]

/-! ## Merging before a periodic update -/

/-- The loop body of `MergeTriggerPeriodicUpdates` leaves the scheduler and the event registry
of the advertisement table alone. -/
theorem MergeAdvertisement_running (st : RoutingProtocol) (i : RoutingTableEntry) :
    (st.MergeAdvertisement i).m_simulator = st.m_simulator
    ∧ ∀ d, (st.MergeAdvertisement i).m_advRoutingTable.AnyRunningEvent st.m_simulator d
        = st.m_advRoutingTable.AnyRunningEvent st.m_simulator d := by
  by_cases hdue : i.GetEntriesChanged = true
      ∧ st.m_advRoutingTable.AnyRunningEvent st.m_simulator i.GetDestination = false
  · simp only [RoutingProtocol.MergeAdvertisement, hdue, and_self, if_true, true_and]
    intro d
    rw [RoutingTable_AnyRunningEvent_congr _ _ _ _ (RoutingTable_DeleteRoute_events _ _)]
  · simp only [RoutingProtocol.MergeAdvertisement, hdue, if_false, true_and, implies_true]

/-- The lookups in the advertisement table and in the main table after the loop body of
`MergeTriggerPeriodicUpdates`. -/
theorem MergeAdvertisement_lookup (st : RoutingProtocol) (i : RoutingTableEntry)
    (d : Ipv4Address) :
    (st.MergeAdvertisement i).m_advRoutingTable.LookupRoute d
      = (if (i.GetEntriesChanged = true
            ∧ st.m_advRoutingTable.AnyRunningEvent st.m_simulator i.GetDestination = false)
            ∧ i.GetDestination = d
          then none else st.m_advRoutingTable.LookupRoute d)
    ∧ (st.MergeAdvertisement i).m_routingTable.LookupRoute d
      = (if (i.GetEntriesChanged = true
            ∧ st.m_advRoutingTable.AnyRunningEvent st.m_simulator i.GetDestination = false)
            ∧ i.GetDestination = d ∧ i.GetSeqNo % 2 = 0
          then (st.m_routingTable.LookupRoute d).map
            (fun _ => (i.SetFlag RouteFlags.VALID).SetEntriesChanged false)
          else st.m_routingTable.LookupRoute d) := by
  have hdst : ((i.SetFlag RouteFlags.VALID).SetEntriesChanged false).GetDestination
      = i.GetDestination := rfl
  by_cases hdue : i.GetEntriesChanged = true
      ∧ st.m_advRoutingTable.AnyRunningEvent st.m_simulator i.GetDestination = false
  · simp only [RoutingProtocol.MergeAdvertisement, hdue, and_self, if_true, true_and,
      RoutingTable_LookupRoute_DeleteRoute]
    by_cases he : i.GetSeqNo % 2 = 0
    · simp only [he, if_true, and_true, RoutingTable_LookupRoute_Update, hdst]
    · simp only [he, if_false, and_false]
  · simp only [RoutingProtocol.MergeAdvertisement, hdue, if_false, false_and, and_self]

/-- A destination none of whose entries in the list is due keeps its entries in the
advertisement and in the main table through the loop of `MergeTriggerPeriodicUpdates`. -/
theorem MergeAdvertisement_foldl_keep (l : List RoutingTableEntry) (st : RoutingProtocol)
    (D : Ipv4Address)
    (hno : ∀ i ∈ l, i.GetDestination = D → ¬ (i.GetEntriesChanged = true
      ∧ st.m_advRoutingTable.AnyRunningEvent st.m_simulator D = false)) :
    (l.foldl RoutingProtocol.MergeAdvertisement st).m_advRoutingTable.LookupRoute D
      = st.m_advRoutingTable.LookupRoute D
    ∧ (l.foldl RoutingProtocol.MergeAdvertisement st).m_routingTable.LookupRoute D
      = st.m_routingTable.LookupRoute D := by
  induction l generalizing st with
  | nil => exact ⟨rfl, rfl⟩
  | cons i l ih =>
    simp only [List.foldl_cons]
    obtain ⟨g1, g2⟩ := MergeAdvertisement_running st i
    obtain ⟨k1, k2⟩ := MergeAdvertisement_lookup st i D
    have hstep : ¬ ((i.GetEntriesChanged = true
        ∧ st.m_advRoutingTable.AnyRunningEvent st.m_simulator i.GetDestination = false)
        ∧ i.GetDestination = D) := by
      rintro ⟨⟨h1, h2⟩, h3⟩
      rw [h3] at h2
      exact hno i (List.mem_cons_self _ _) h3 ⟨h1, h2⟩
    have hstep2 : ¬ ((i.GetEntriesChanged = true
        ∧ st.m_advRoutingTable.AnyRunningEvent st.m_simulator i.GetDestination = false)
        ∧ i.GetDestination = D ∧ i.GetSeqNo % 2 = 0) := fun h => hstep ⟨h.1, h.2.1⟩
    rw [if_neg hstep] at k1
    rw [if_neg hstep2] at k2
    obtain ⟨h1, h2⟩ := ih (st.MergeAdvertisement i) (by
      intro x hx hxd
      rw [g1, g2]
      exact hno x (List.mem_cons_of_mem _ hx) hxd)
    exact ⟨h1.trans k1, h2.trans k2⟩

/-- A destination whose only entry in the list is `a`, which is due: the loop of
`MergeTriggerPeriodicUpdates` deletes its advertisement entry and, the sequence number being
even, writes `a` over its main-table entry. -/
theorem MergeAdvertisement_foldl_flush (l : List RoutingTableEntry) (st : RoutingProtocol)
    (D : Ipv4Address) (a : RoutingTableEntry)
    (hdst : a.GetDestination = D) (hch : a.GetEntriesChanged = true)
    (hnr : st.m_advRoutingTable.AnyRunningEvent st.m_simulator D = false)
    (huniq : ∀ i ∈ l, i.GetDestination = D → i = a) :
    (l.foldl RoutingProtocol.MergeAdvertisement st).m_advRoutingTable.LookupRoute D
      = (if a ∈ l then none else st.m_advRoutingTable.LookupRoute D)
    ∧ (l.foldl RoutingProtocol.MergeAdvertisement st).m_routingTable.LookupRoute D
      = (if a ∈ l ∧ a.GetSeqNo % 2 = 0
          then (st.m_routingTable.LookupRoute D).map
            (fun _ => (a.SetFlag RouteFlags.VALID).SetEntriesChanged false)
          else st.m_routingTable.LookupRoute D) := by
  induction l generalizing st with
  | nil => simp
  | cons i l ih =>
    simp only [List.foldl_cons]
    obtain ⟨g1, g2⟩ := MergeAdvertisement_running st i
    obtain ⟨k1, k2⟩ := MergeAdvertisement_lookup st i D
    obtain ⟨h1, h2⟩ := ih (st.MergeAdvertisement i) (by rw [g1, g2]; exact hnr)
      (fun x hx hxd => huniq x (List.mem_cons_of_mem _ hx) hxd)
    by_cases hid : i.GetDestination = D
    · have hia : i = a := huniq i (List.mem_cons_self _ _) hid
      subst hia
      have hnr2 : st.m_advRoutingTable.AnyRunningEvent st.m_simulator i.GetDestination
          = false := by rw [hid]; exact hnr
      rw [if_pos ⟨⟨hch, hnr2⟩, hid⟩] at k1
      constructor
      · rw [if_pos (List.mem_cons_self _ _), h1, k1]
        split <;> rfl
      · by_cases he : i.GetSeqNo % 2 = 0
        · rw [if_pos ⟨⟨hch, hnr2⟩, hid, he⟩] at k2
          rw [if_pos ⟨List.mem_cons_self _ _, he⟩, h2, k2]
          cases st.m_routingTable.LookupRoute D <;> simp
        · rw [if_neg (fun h => he h.2.2)] at k2
          rw [if_neg (fun h => he h.2), h2, k2, if_neg (fun h => he h.2)]
    · have hia : ¬ a = i := fun h => hid (h ▸ hdst)
      rw [if_neg (fun h => hid h.2)] at k1
      rw [if_neg (fun h => hid h.2.1)] at k2
      rw [h1, h2, k1, k2]
      simp only [List.mem_cons, hia, false_or, and_self]

/-- The member `MergeTriggerPeriodicUpdates` as a loop over the snapshot. -/
theorem MergeTriggerPeriodicUpdates_eq_foldl (s : RoutingProtocol) :
    s.MergeTriggerPeriodicUpdates
      = (RoutingProtocol.InMapOrder s.m_advRoutingTable.GetListOfAllValidRoutes).foldl
          RoutingProtocol.MergeAdvertisement s := by
  unfold RoutingProtocol.MergeTriggerPeriodicUpdates
  simp only
  split_ifs with h
  · rfl
  · have : RoutingProtocol.InMapOrder s.m_advRoutingTable.GetListOfAllValidRoutes = [] :=
      List.length_eq_zero.mp (by omega)
    rw [this]
    rfl

/-- The loop of `SendPeriodicUpdate` over the sockets leaves the advertisement table alone. -/
theorem SendPeriodicUpdateOn_foldl_adv (allRoutes removed : List RoutingTableEntry)
    (js : List (Nat × Ipv4InterfaceAddress)) (st : RoutingProtocol) :
    (js.foldl (RoutingProtocol.SendPeriodicUpdateOn allRoutes removed) st).m_advRoutingTable
      = st.m_advRoutingTable := by
  have hstep : ∀ (acc : RoutingProtocol × Packet) (i : RoutingTableEntry),
      (RoutingProtocol.AdvertiseRoute acc i).1.m_advRoutingTable = acc.1.m_advRoutingTable := by
    intro acc i
    unfold RoutingProtocol.AdvertiseRoute
    simp only
    split_ifs <;> rfl
  have hfold : ∀ (l : List RoutingTableEntry) (acc : RoutingProtocol × Packet),
      (l.foldl RoutingProtocol.AdvertiseRoute acc).1.m_advRoutingTable
        = acc.1.m_advRoutingTable := by
    intro l
    induction l with
    | nil => intro acc; rfl
    | cons i l ih =>
      intro acc
      simp only [List.foldl_cons]
      rw [ih, hstep]
  induction js generalizing st with
  | nil => rfl
  | cons j js ih =>
    simp only [List.foldl_cons]
    rw [ih]
    simp only [RoutingProtocol.SendPeriodicUpdateOn]
    exact hfold allRoutes (st, [])

/-- The advertisement table after `SendPeriodicUpdate` is the one that
`MergeTriggerPeriodicUpdates`, run after the sweep of the main table, leaves. -/
theorem SendPeriodicUpdate_adv (s : RoutingProtocol) :
    s.SendPeriodicUpdate.m_advRoutingTable
      = (RoutingProtocol.MergeTriggerPeriodicUpdates
          { s with m_routingTable := (s.m_routingTable.Purge s.m_simulator.Now).1 }
        ).m_advRoutingTable := by
  unfold RoutingProtocol.SendPeriodicUpdate
  simp only
  split_ifs
  · rfl
  · exact ((GetInteger_frame _ 0 1000).2.1).trans (SendPeriodicUpdateOn_foldl_adv _ _ _ _)

/-- C31, as amended: `MergeTriggerPeriodicUpdates` on a node whose advertisement table, with at
most one entry per destination, holds the entry `a` for `D`. If `a` is `VALID`, marked changed
and without a running settling timer, then afterwards the advertisement table has no entry for
`D`; if the sequence number of `a` is even, the main-table entry for `D`, when there is one, is
`a` with the flag `VALID` and the changed mark cleared, and if it is odd the main table answers
for `D` as before. In every other case, such as a running timer, the advertisement table still
holds `a` and the main table answers for `D` as before. `SendPeriodicUpdate` leaves the
advertisement table as `MergeTriggerPeriodicUpdates`, run after the sweep of the main table,
leaves it. -/
theorem MergeTriggerPeriodicUpdates_merges_due_entries (s : RoutingProtocol) (D : Ipv4Address)
    (a : RoutingTableEntry)
    (hone : (s.m_advRoutingTable.m_ipv4AddressEntry.map RoutingTableEntry.GetDestination).Nodup)
    (ha : s.m_advRoutingTable.LookupRoute D = some a) :
    ((a.GetFlag = RouteFlags.VALID ∧ a.GetEntriesChanged = true
        ∧ s.m_advRoutingTable.AnyRunningEvent s.m_simulator D = false)
      → s.MergeTriggerPeriodicUpdates.m_advRoutingTable.LookupRoute D = none
        ∧ (a.GetSeqNo % 2 = 0
          → s.MergeTriggerPeriodicUpdates.m_routingTable.LookupRoute D
            = (s.m_routingTable.LookupRoute D).map
                (fun _ => (a.SetFlag RouteFlags.VALID).SetEntriesChanged false))
        ∧ (a.GetSeqNo % 2 = 1
          → s.MergeTriggerPeriodicUpdates.m_routingTable.LookupRoute D
            = s.m_routingTable.LookupRoute D))
    ∧ (¬ (a.GetFlag = RouteFlags.VALID ∧ a.GetEntriesChanged = true
        ∧ s.m_advRoutingTable.AnyRunningEvent s.m_simulator D = false)
      → s.MergeTriggerPeriodicUpdates.m_advRoutingTable.LookupRoute D = some a
        ∧ s.MergeTriggerPeriodicUpdates.m_routingTable.LookupRoute D
          = s.m_routingTable.LookupRoute D)
    ∧ s.SendPeriodicUpdate.m_advRoutingTable
      = (RoutingProtocol.MergeTriggerPeriodicUpdates
          { s with m_routingTable := (s.m_routingTable.Purge s.m_simulator.Now).1 }
        ).m_advRoutingTable := by
  have hdst : a.GetDestination = D := RoutingTable_LookupRoute_dst _ _ _ ha
  have hfilter := RoutingTable_filter_of_lookup_some _ D a hone ha
  have huniq : ∀ i ∈ RoutingProtocol.InMapOrder s.m_advRoutingTable.GetListOfAllValidRoutes,
      i.GetDestination = D → i = a := by
    intro i hi hid
    rw [InMapOrder_mem] at hi
    simp only [RoutingTable.GetListOfAllValidRoutes, List.mem_filter] at hi
    have : i ∈ s.m_advRoutingTable.m_ipv4AddressEntry.filter
        (fun x => decide (x.GetDestination = D)) := by
      simp only [List.mem_filter, decide_eq_true_eq]
      exact ⟨hi.1, hid⟩
    rw [hfilter] at this
    simpa using this
  refine ⟨?_, ?_, SendPeriodicUpdate_adv s⟩ <;> rw [MergeTriggerPeriodicUpdates_eq_foldl]
  · rintro ⟨hvalid, hch, hnr⟩
    have hmem : a ∈ RoutingProtocol.InMapOrder s.m_advRoutingTable.GetListOfAllValidRoutes := by
      rw [InMapOrder_mem]
      simp only [RoutingTable.GetListOfAllValidRoutes, List.mem_filter, decide_eq_true_eq]
      exact ⟨List.mem_of_find?_eq_some ha, hvalid⟩
    obtain ⟨h1, h2⟩ := MergeAdvertisement_foldl_flush _ s D a hdst hch hnr huniq
    rw [if_pos hmem] at h1
    refine ⟨h1, fun he => ?_, fun ho => ?_⟩
    · rw [h2, if_pos ⟨hmem, he⟩]
    · have he : ¬ a.GetSeqNo % 2 = 0 := by omega
      rw [h2, if_neg (fun h => he h.2)]
  · intro hnot
    have hno : ∀ i ∈ RoutingProtocol.InMapOrder s.m_advRoutingTable.GetListOfAllValidRoutes,
        i.GetDestination = D → ¬ (i.GetEntriesChanged = true
          ∧ s.m_advRoutingTable.AnyRunningEvent s.m_simulator D = false) := by
      intro i hi hid hdue
      have hia := huniq i hi hid
      subst hia
      rw [InMapOrder_mem] at hi
      simp only [RoutingTable.GetListOfAllValidRoutes, List.mem_filter,
        decide_eq_true_eq] at hi
      exact hnot ⟨hi.2, hdue.1, hdue.2⟩
    obtain ⟨h1, h2⟩ := MergeAdvertisement_foldl_keep _ s D hno
    exact ⟨h1.trans ha, h2⟩

/-- Witness for C31 as amended: the node whose advertisement table holds `(D, seq=6)`, marked
changed and without a timer, over the main-table entry `(D, seq=4)`. -/
theorem MergeTriggerPeriodicUpdates_merges_due_entries_witness :
    exampleNodePending.m_advRoutingTable.LookupRoute exampleD = some pendingRoute
    ∧ pendingRoute.GetFlag = RouteFlags.VALID
    ∧ pendingRoute.GetEntriesChanged = true
    ∧ pendingRoute.GetSeqNo = 6
    ∧ exampleNodePending.m_advRoutingTable.AnyRunningEvent exampleNodePending.m_simulator
        exampleD = false
    ∧ exampleNodePending.MergeTriggerPeriodicUpdates.m_advRoutingTable.LookupRoute exampleD
        = none
    ∧ exampleNodePending.MergeTriggerPeriodicUpdates.m_routingTable.LookupRoute exampleD
      = (exampleNodePending.m_routingTable.LookupRoute exampleD).map
          (fun _ => (pendingRoute.SetFlag RouteFlags.VALID).SetEntriesChanged false) :=
  ⟨by decide, by decide, by decide, by decide, by decide,
    ((MergeTriggerPeriodicUpdates_merges_due_entries exampleNodePending exampleD pendingRoute
      (by decide) (by decide)).1 ⟨by decide, by decide, by decide⟩).1,
    ((MergeTriggerPeriodicUpdates_merges_due_entries exampleNodePending exampleD pendingRoute
      (by decide) (by decide)).1 ⟨by decide, by decide, by decide⟩).2.1 (by decide)⟩

/-- Counterexample to C31 as stated: the advertisement table of the node holds `(D, seq=5)`,
marked changed, without a running settling timer and with the flag `INVALID`.
`MergeTriggerPeriodicUpdates` leaves the entry in the advertisement table. -/
theorem MergeTriggerPeriodicUpdates_skips_invalid_counterexample :
    exampleNodeInvalidPoisoned.m_advRoutingTable.LookupRoute exampleD
        = some invalidPoisonedRoute
    ∧ invalidPoisonedRoute.GetEntriesChanged = true
    ∧ invalidPoisonedRoute.GetFlag = RouteFlags.INVALID
    ∧ exampleNodeInvalidPoisoned.m_advRoutingTable.AnyRunningEvent
        exampleNodeInvalidPoisoned.m_simulator exampleD = false
    ∧ exampleNodeInvalidPoisoned.MergeTriggerPeriodicUpdates.m_advRoutingTable.LookupRoute
        exampleD = some invalidPoisonedRoute := by
  decide

/-! ## The sequence number of the node itself -/

/-- The call `Update` keeps the destinations of the table, in order. -/
theorem RoutingTable_Update_keys (t : RoutingTable) (rt : RoutingTableEntry) :
    (t.Update rt).2.m_ipv4AddressEntry.map RoutingTableEntry.GetDestination
      = t.m_ipv4AddressEntry.map RoutingTableEntry.GetDestination := by
  unfold RoutingTable.Update
  cases t.LookupRoute rt.GetDestination with
  | none => rfl
  | some e =>
    simp only [List.map_map]
    apply List.map_congr_left
    intro a _
    simp only [Function.comp]
    split_ifs with h
    · exact h.symm
    · rfl

/-- What holds of every entry of the table and of the new entry holds of every entry after
`Update`. -/
theorem RoutingTable_Update_forall (P : RoutingTableEntry → Prop) (t : RoutingTable)
    (rt : RoutingTableEntry) (hall : ∀ e ∈ t.m_ipv4AddressEntry, P e) (hrt : P rt) :
    ∀ e ∈ (t.Update rt).2.m_ipv4AddressEntry, P e := by
  unfold RoutingTable.Update
  cases t.LookupRoute rt.GetDestination with
  | none => exact hall
  | some e =>
    intro x hx
    simp only [List.mem_map] at hx
    obtain ⟨y, hy, rfl⟩ := hx
    split_ifs
    · exact hrt
    · exact hall y hy

/-- The sweep keeps at most one entry per destination. -/
theorem RoutingTable_Purge_keys (t : RoutingTable) (now : Time)
    (hone : (t.m_ipv4AddressEntry.map RoutingTableEntry.GetDestination).Nodup) :
    ((t.Purge now).1.m_ipv4AddressEntry.map RoutingTableEntry.GetDestination).Nodup := by
  simp only [RoutingTable.Purge, List.map_map]
  have hf : ∀ (p : RoutingTableEntry → Bool) (l : List RoutingTableEntry),
      List.map (RoutingTableEntry.GetDestination ∘ fun e =>
          if p e = true then e.SetFlag RouteFlags.INVALID else e) l
        = List.map RoutingTableEntry.GetDestination l := by
    intro p l
    apply List.map_congr_left
    intro a _
    simp only [Function.comp]
    split_ifs <;> rfl
  rw [hf]
  exact hone.sublist ((List.filter_sublist _).map _)

/-- Every entry of the swept table stems from an entry of the table with the same destination
and hop count. -/
theorem RoutingTable_Purge_entries (t : RoutingTable) (now : Time) :
    ∀ e ∈ (t.Purge now).1.m_ipv4AddressEntry, ∃ e0 ∈ t.m_ipv4AddressEntry,
      e.GetDestination = e0.GetDestination ∧ e.GetHop = e0.GetHop := by
  intro e he
  simp only [RoutingTable.Purge, List.mem_map, List.mem_filter] at he
  obtain ⟨y, ⟨hy, -⟩, rfl⟩ := he
  refine ⟨y, hy, ?_⟩
  split_ifs <;> exact ⟨rfl, rfl⟩

/-- The sweep keeps an entry with hop count 0 whose next hop is its own destination, in a table
with at most one entry per destination; the sequence number, the hop count and the next hop of
the entry stay. -/
theorem RoutingTable_Purge_own (t : RoutingTable) (now : Time) (B : Ipv4Address)
    (own : RoutingTableEntry)
    (hone : (t.m_ipv4AddressEntry.map RoutingTableEntry.GetDestination).Nodup)
    (hown : t.LookupRoute B = some own) (hhop : own.GetHop = 0) (hnext : own.GetNextHop = B) :
    ∃ own1, (t.Purge now).1.LookupRoute B = some own1 ∧ own1.GetHop = 0
      ∧ own1.GetNextHop = B ∧ own1.GetSeqNo = own.GetSeqNo := by
  have hfilter := RoutingTable_filter_of_lookup_some t B own hone hown
  have huniq : ∀ e ∈ t.m_ipv4AddressEntry, e.GetDestination = B → e = own := by
    intro e he hd
    have : e ∈ t.m_ipv4AddressEntry.filter (fun x => decide (x.GetDestination = B)) := by
      simp only [List.mem_filter, decide_eq_true_eq]
      exact ⟨he, hd⟩
    rw [hfilter] at this
    simpa using this
  have hgen : ∀ (p : RoutingTableEntry → Bool) (f : RoutingTableEntry → RoutingTableEntry)
      (l : List RoutingTableEntry),
      (∀ e, (f e).GetDestination = e.GetDestination) →
      (∀ e ∈ l, e.GetDestination = B → p e = true) →
      ((l.filter p).map f).find? (fun e => decide (e.GetDestination = B))
        = (l.find? (fun e => decide (e.GetDestination = B))).map f := by
    intro p f l hf
    induction l with
    | nil => intro _; rfl
    | cons a l ih =>
      intro hp
      have ih2 := ih (fun e he hd => hp e (List.mem_cons_of_mem _ he) hd)
      by_cases ha : a.GetDestination = B
      · have hpa := hp a (List.mem_cons_self _ _) ha
        simp only [List.filter_cons, hpa, if_true, List.map_cons, List.find?_cons, hf, ha,
          decide_True, Option.map_some']
      · by_cases hpa : p a = true
        · simp only [List.filter_cons, hpa, if_true, List.map_cons, List.find?_cons, hf, ha,
            decide_False]
          exact ih2
        · simp only [List.filter_cons, hpa, if_false, List.find?_cons, ha, decide_False]
          exact ih2
  unfold RoutingTable.LookupRoute at hown ⊢
  simp only [RoutingTable.Purge]
  rw [hgen _ _ _ (by intro e; split_ifs <;> rfl), hown]
  · refine ⟨_, rfl, ?_⟩
    simp only
    split_ifs <;> exact ⟨hhop, hnext, rfl⟩
  · intro e he hd
    have heo := huniq e he hd
    subst heo
    have h1 : ¬ e.GetHop = 1 := by rw [hhop]; decide
    simp only [h1, decide_False, Bool.and_false, Bool.false_or, Bool.not_eq_true',
      List.contains_eq_any_beq, List.any_eq_false, List.mem_map, List.mem_filter,
      decide_eq_true_eq, beq_iff_eq, forall_exists_index, and_imp]
    intro x y hy hover hy1 hyx
    have hyd : y.GetDestination = B := by rw [hy1, ← hyx, hnext]
    have := huniq y hy hyd
    subst this
    simp only [Bool.and_eq_true, decide_eq_true_eq] at hover
    exact h1 hover.2

/-- The loop body of `MergeTriggerPeriodicUpdates` touches the main and the advertisement table
only; it keeps the destinations of the main table and adds no advertisement entry. -/
theorem MergeAdvertisement_frame (st : RoutingProtocol) (i : RoutingTableEntry) :
    (st.MergeAdvertisement i).m_ipv4 = st.m_ipv4
    ∧ (st.MergeAdvertisement i).m_socketAddresses = st.m_socketAddresses
    ∧ (st.MergeAdvertisement i).m_sent = st.m_sent
    ∧ (st.MergeAdvertisement i).m_routingTable.m_ipv4AddressEntry.map
          RoutingTableEntry.GetDestination
        = st.m_routingTable.m_ipv4AddressEntry.map RoutingTableEntry.GetDestination
    ∧ ∀ a ∈ (st.MergeAdvertisement i).m_advRoutingTable.m_ipv4AddressEntry,
        a ∈ st.m_advRoutingTable.m_ipv4AddressEntry := by
  by_cases hdue : i.GetEntriesChanged = true
      ∧ st.m_advRoutingTable.AnyRunningEvent st.m_simulator i.GetDestination = false
  · simp only [RoutingProtocol.MergeAdvertisement, hdue, and_self, if_true, true_and,
      RoutingTable_DeleteRoute_entries]
    refine ⟨?_, fun a ha => (List.mem_filter.mp ha).1⟩
    split_ifs
    · exact RoutingTable_Update_keys _ _
    · rfl
  · simp only [RoutingProtocol.MergeAdvertisement, hdue, if_false, true_and, imp_self,
      implies_true]

/-- What holds of every entry of the main table and of every merged entry holds of every entry
of the main table after the loop body of `MergeTriggerPeriodicUpdates`. -/
theorem MergeAdvertisement_forall (P : RoutingTableEntry → Prop) (st : RoutingProtocol)
    (i : RoutingTableEntry) (hall : ∀ e ∈ st.m_routingTable.m_ipv4AddressEntry, P e)
    (hi : P ((i.SetFlag RouteFlags.VALID).SetEntriesChanged false)) :
    ∀ e ∈ (st.MergeAdvertisement i).m_routingTable.m_ipv4AddressEntry, P e := by
  by_cases hdue : i.GetEntriesChanged = true
      ∧ st.m_advRoutingTable.AnyRunningEvent st.m_simulator i.GetDestination = false
  · simp only [RoutingProtocol.MergeAdvertisement, hdue, and_self, if_true]
    split_ifs
    · exact RoutingTable_Update_forall P _ _ hall hi
    · exact hall
  · simp only [RoutingProtocol.MergeAdvertisement, hdue, if_false]
    exact hall

/-- The loop of `MergeTriggerPeriodicUpdates` touches the main and the advertisement table
only; it keeps the destinations of the main table and adds no advertisement entry. -/
theorem MergeAdvertisement_foldl_frame (l : List RoutingTableEntry) (st : RoutingProtocol) :
    (l.foldl RoutingProtocol.MergeAdvertisement st).m_ipv4 = st.m_ipv4
    ∧ (l.foldl RoutingProtocol.MergeAdvertisement st).m_socketAddresses
        = st.m_socketAddresses
    ∧ (l.foldl RoutingProtocol.MergeAdvertisement st).m_sent = st.m_sent
    ∧ (l.foldl RoutingProtocol.MergeAdvertisement st).m_routingTable.m_ipv4AddressEntry.map
          RoutingTableEntry.GetDestination
        = st.m_routingTable.m_ipv4AddressEntry.map RoutingTableEntry.GetDestination
    ∧ ∀ a ∈
        (l.foldl RoutingProtocol.MergeAdvertisement st).m_advRoutingTable.m_ipv4AddressEntry,
        a ∈ st.m_advRoutingTable.m_ipv4AddressEntry := by
  induction l generalizing st with
  | nil => exact ⟨rfl, rfl, rfl, rfl, fun _ h => h⟩
  | cons i l ih =>
    simp only [List.foldl_cons]
    obtain ⟨a1, a2, a3, a4, a5⟩ := MergeAdvertisement_frame st i
    obtain ⟨b1, b2, b3, b4, b5⟩ := ih (st.MergeAdvertisement i)
    exact ⟨b1.trans a1, b2.trans a2, b3.trans a3, b4.trans a4, fun a ha => a5 a (b5 a ha)⟩

/-- What holds of every entry of the main table and of every merged entry holds of every entry
of the main table after the loop of `MergeTriggerPeriodicUpdates`. -/
theorem MergeAdvertisement_foldl_forall (P : RoutingTableEntry → Prop)
    (l : List RoutingTableEntry) (st : RoutingProtocol)
    (hall : ∀ e ∈ st.m_routingTable.m_ipv4AddressEntry, P e)
    (hl : ∀ i ∈ l, P ((i.SetFlag RouteFlags.VALID).SetEntriesChanged false)) :
    ∀ e ∈ (l.foldl RoutingProtocol.MergeAdvertisement st).m_routingTable.m_ipv4AddressEntry,
      P e := by
  induction l generalizing st with
  | nil => exact hall
  | cons i l ih =>
    simp only [List.foldl_cons]
    exact ih (st.MergeAdvertisement i)
      (MergeAdvertisement_forall P st i hall (hl i (List.mem_cons_self _ _)))
      (fun x hx => hl x (List.mem_cons_of_mem _ hx))

/-- One round of the first inner loop of `SendPeriodicUpdate`, on a node that stores the entry
`o` for the broadcast address `B` of interface 1, for a listed entry `i` that either has a
positive hop count or has the sequence number `q`. -/
theorem AdvertiseRoute_step (st : RoutingProtocol) (pkt : Packet) (i : RoutingTableEntry)
    (A B : Ipv4Address) (o : RoutingTableEntry) (q : Nat)
    (hA : (st.m_ipv4.GetAddress 1).GetLocal = A)
    (hB : (st.m_ipv4.GetAddress 1).GetBroadcast = B)
    (ho : st.m_routingTable.LookupRoute B = some o)
    (hq : i.GetHop = 0 → i.GetSeqNo = q) :
    RoutingProtocol.AdvertiseRoute (st, pkt) i
      = (if i.GetHop = 0 then
            { st with
                m_routingTable := (st.m_routingTable.Update (o.SetSeqNo ((q + 2) % 2 ^ 32))).2 }
          else st,
         Message.encode
            (Message.dsdv
              (if i.GetHop = 0 then
                { m_dst := A, m_hopCount := 1, m_dstSeqNo := (q + 2) % 2 ^ 32 }
              else
                { m_dst := i.GetDestination, m_hopCount := (i.GetHop + 1) % 2 ^ 32 % 2 ^ 16,
                  m_dstSeqNo := i.GetSeqNo % 2 ^ 32 }))
          ++ pkt) := by
  by_cases h0 : i.GetHop = 0
  · have hseq := hq h0
    simp only [RoutingProtocol.AdvertiseRoute, h0, if_true, hA, hB, ho, Option.getD_some, hseq,
      DsdvHeader.SetDst, DsdvHeader.SetDstSeqno, DsdvHeader.SetHopCount, DsdvHeader.GetDstSeqno,
      DsdvHeader.default, Nat.mod_mod, Message.encode, List.append_assoc]
    rfl
  · simp only [RoutingProtocol.AdvertiseRoute, h0, if_false,
      DsdvHeader.SetDst, DsdvHeader.SetDstSeqno, DsdvHeader.SetHopCount,
      DsdvHeader.default, Message.encode, List.append_assoc]

/-- The first inner loop of `SendPeriodicUpdate` on a node that stores the entry `o` for the
broadcast address `B` of interface 1, over listed entries each of which either has a positive
hop count or has the sequence number `q`: the loop touches the main table only, where it keeps
the destinations and, if an entry with hop count 0 is listed, stores `q + 2` in `o`; and it puts
one update per listed entry in front of the packet, that of the last entry first. -/
theorem AdvertiseRoute_foldl (l : List RoutingTableEntry) (st : RoutingProtocol) (pkt : Packet)
    (A B : Ipv4Address) (o : RoutingTableEntry) (q : Nat)
    (hA : (st.m_ipv4.GetAddress 1).GetLocal = A)
    (hB : (st.m_ipv4.GetAddress 1).GetBroadcast = B)
    (ho : st.m_routingTable.LookupRoute B = some o)
    (hq : ∀ i ∈ l, i.GetHop = 0 → i.GetSeqNo = q) :
    (l.foldl RoutingProtocol.AdvertiseRoute (st, pkt)).1.m_ipv4 = st.m_ipv4
    ∧ (l.foldl RoutingProtocol.AdvertiseRoute (st, pkt)).1.m_socketAddresses
        = st.m_socketAddresses
    ∧ (l.foldl RoutingProtocol.AdvertiseRoute (st, pkt)).1.m_sent = st.m_sent
    ∧ (l.foldl RoutingProtocol.AdvertiseRoute (st, pkt)).1.m_advRoutingTable
        = st.m_advRoutingTable
    ∧ (l.foldl RoutingProtocol.AdvertiseRoute (st, pkt)).1.m_routingTable.m_ipv4AddressEntry.map
          RoutingTableEntry.GetDestination
        = st.m_routingTable.m_ipv4AddressEntry.map RoutingTableEntry.GetDestination
    ∧ (l.foldl RoutingProtocol.AdvertiseRoute (st, pkt)).1.m_routingTable.LookupRoute B
        = some (if ∃ i ∈ l, i.GetHop = 0 then o.SetSeqNo ((q + 2) % 2 ^ 32) else o)
    ∧ (∀ P : RoutingTableEntry → Prop,
        (∀ e ∈ st.m_routingTable.m_ipv4AddressEntry, P e) →
        P (o.SetSeqNo ((q + 2) % 2 ^ 32)) →
        ∀ e ∈
          (l.foldl RoutingProtocol.AdvertiseRoute (st, pkt)).1.m_routingTable.m_ipv4AddressEntry,
          P e)
    ∧ (l.foldl RoutingProtocol.AdvertiseRoute (st, pkt)).2
        = Message.encodeAll (l.reverse.map (fun i =>
            Message.dsdv
              (if i.GetHop = 0 then
                { m_dst := A, m_hopCount := 1, m_dstSeqNo := (q + 2) % 2 ^ 32 }
              else
                { m_dst := i.GetDestination, m_hopCount := (i.GetHop + 1) % 2 ^ 32 % 2 ^ 16,
                  m_dstSeqNo := i.GetSeqNo % 2 ^ 32 })))
          ++ pkt := by
  induction l generalizing st pkt o with
  | nil =>
    refine ⟨rfl, rfl, rfl, rfl, rfl, ?_, fun _ h _ => h, ?_⟩
    · simp [ho]
    · simp [Message.encodeAll]
  | cons i l ih =>
    simp only [List.foldl_cons]
    rw [AdvertiseRoute_step st pkt i A B o q hA hB ho (hq i (List.mem_cons_self _ _))]
    have hdo : o.GetDestination = B := RoutingTable_LookupRoute_dst _ _ _ ho
    have hq2 : ∀ x ∈ l, x.GetHop = 0 → x.GetSeqNo = q :=
      fun x hx => hq x (List.mem_cons_of_mem _ hx)
    by_cases h0 : i.GetHop = 0
    · simp only [h0, if_true]
      have hd2 : (o.SetSeqNo ((q + 2) % 2 ^ 32)).GetDestination = B := hdo
      have ho2 : (st.m_routingTable.Update (o.SetSeqNo ((q + 2) % 2 ^ 32))).2.LookupRoute B
          = some (o.SetSeqNo ((q + 2) % 2 ^ 32)) := by
        rw [RoutingTable_LookupRoute_Update, if_pos hd2, ho]
        rfl
      have hidem : (o.SetSeqNo ((q + 2) % 2 ^ 32)).SetSeqNo ((q + 2) % 2 ^ 32)
          = o.SetSeqNo ((q + 2) % 2 ^ 32) := by
        simp only [RoutingTableEntry.SetSeqNo, Nat.mod_mod]
      obtain ⟨a1, a2, a3, a4, a5, a6, a7, a8⟩ := ih
        { st with
            m_routingTable := (st.m_routingTable.Update (o.SetSeqNo ((q + 2) % 2 ^ 32))).2 }
        _ (o.SetSeqNo ((q + 2) % 2 ^ 32)) hA hB ho2 hq2
      refine ⟨a1, a2, a3, a4, a5.trans (RoutingTable_Update_keys _ _), ?_, ?_, ?_⟩
      · rw [a6, hidem, ite_self, if_pos ⟨i, List.mem_cons_self _ _, h0⟩]
      · intro P hall hP
        rw [hidem] at a7
        exact a7 P (RoutingTable_Update_forall P _ _ hall hP) hP
      · rw [a8, List.reverse_cons, List.map_append, Message_encodeAll_append]
        simp only [List.map_cons, List.map_nil, h0, if_true, Message.encodeAll,
          List.flatten_cons, List.flatten_nil, List.append_nil, List.append_assoc]
    · simp only [h0, if_false]
      obtain ⟨a1, a2, a3, a4, a5, a6, a7, a8⟩ := ih st _ o hA hB ho hq2
      refine ⟨a1, a2, a3, a4, a5, ?_, a7, ?_⟩
      · rw [a6]
        congr 1
        apply if_congr _ rfl rfl
        constructor
        · rintro ⟨x, hx, hx0⟩
          exact ⟨x, List.mem_cons_of_mem _ hx, hx0⟩
        · rintro ⟨x, hx, hx0⟩
          rcases List.mem_cons.mp hx with rfl | hx
          · exact absurd hx0 h0
          · exact ⟨x, hx, hx0⟩
      · rw [a8, List.reverse_cons, List.map_append, Message_encodeAll_append]
        simp only [List.map_cons, List.map_nil, h0, if_false, Message.encodeAll,
          List.flatten_cons, List.flatten_nil, List.append_nil, List.append_assoc]

/-- The second inner loop of `SendPeriodicUpdate` puts one update per removed entry in front of
the packet, that of the last entry first. -/
theorem AdvertiseRemoved_foldl (l : List RoutingTableEntry) (pkt : Packet) :
    l.foldl RoutingProtocol.AdvertiseRemoved pkt
      = Message.encodeAll (l.reverse.map (fun rm =>
          Message.dsdv
            { m_dst := rm.GetDestination, m_hopCount := (rm.GetHop + 1) % 2 ^ 32 % 2 ^ 16,
              m_dstSeqNo := (rm.GetSeqNo + 1) % 2 ^ 32 % 2 ^ 32 }))
        ++ pkt := by
  induction l generalizing pkt with
  | nil => simp [Message.encodeAll]
  | cons i l ih =>
    simp only [List.foldl_cons]
    rw [ih, List.reverse_cons, List.map_append, Message_encodeAll_append]
    simp only [List.map_cons, List.map_nil, Message.encodeAll, List.flatten_cons,
      List.flatten_nil, List.append_nil, List.append_assoc, RoutingProtocol.AdvertiseRemoved,
      DsdvHeader.SetDst, DsdvHeader.SetDstSeqno, DsdvHeader.SetHopCount, DsdvHeader.default,
      Message.encode]

/-- A draw from the random stream leaves the addresses of the interfaces alone. -/
theorem GetInteger_ipv4 (s : RoutingProtocol) (a b : Nat) :
    (s.GetInteger a b).2.m_ipv4 = s.m_ipv4 := by
  unfold RoutingProtocol.GetInteger
  cases s.m_uniformRandomVariable <;> rfl

/-- The members of `SendPeriodicUpdate` on a node with one socket whose list of routes, after
the sweep and the merge, is not empty. -/
theorem SendPeriodicUpdate_single (s s1 : RoutingProtocol) (j : Nat × Ipv4InterfaceAddress)
    (hs1 : s1 = RoutingProtocol.MergeTriggerPeriodicUpdates
      { s with m_routingTable := (s.m_routingTable.Purge s.m_simulator.Now).1 })
    (hj : s1.m_socketAddresses = [j])
    (hne : (RoutingProtocol.InMapOrder s1.m_routingTable.GetListOfAllRoutes).isEmpty = false) :
    s.SendPeriodicUpdate.m_routingTable
      = ((RoutingProtocol.InMapOrder s1.m_routingTable.GetListOfAllRoutes).foldl
          RoutingProtocol.AdvertiseRoute (s1, [])).1.m_routingTable
    ∧ s.SendPeriodicUpdate.m_ipv4
      = ((RoutingProtocol.InMapOrder s1.m_routingTable.GetListOfAllRoutes).foldl
          RoutingProtocol.AdvertiseRoute (s1, [])).1.m_ipv4
    ∧ s.SendPeriodicUpdate.m_socketAddresses
      = ((RoutingProtocol.InMapOrder s1.m_routingTable.GetListOfAllRoutes).foldl
          RoutingProtocol.AdvertiseRoute (s1, [])).1.m_socketAddresses
    ∧ s.SendPeriodicUpdate.m_sent
      = ((RoutingProtocol.InMapOrder s1.m_routingTable.GetListOfAllRoutes).foldl
          RoutingProtocol.AdvertiseRoute (s1, [])).1.m_sent
        ++ [{ socket := some j.1
              packet :=
                (RoutingProtocol.InMapOrder
                    (s.m_routingTable.Purge s.m_simulator.Now).2.1).foldl
                  RoutingProtocol.AdvertiseRemoved
                  ((RoutingProtocol.InMapOrder s1.m_routingTable.GetListOfAllRoutes).foldl
                    RoutingProtocol.AdvertiseRoute (s1, [])).2
              destination := RoutingProtocol.BroadcastDestination j.2
              port := RoutingProtocol.DSDV_PORT }] := by
  subst hs1
  unfold RoutingProtocol.SendPeriodicUpdate
  simp only
  rw [if_neg (by rw [hne]; decide), hj]
  exact ⟨(GetInteger_frame _ 0 1000).1, GetInteger_ipv4 _ 0 1000,
    (GetInteger_frame _ 0 1000).2.2.2.1, (GetInteger_frame _ 0 1000).2.2.2.2.1⟩

/-- One periodic update on a node that stores the sequence number `q` in its own entry, the only
listed entry with hop count 0: the node is left in such a state, stores `q + 2`, and hands one
datagram to its socket, among whose updates is that of the address of interface 1 with hop
count 1 and the sequence number `q + 2`. -/
theorem SendPeriodicUpdate_step (s : RoutingProtocol) (q : Nat) (h : s.OwnEntryOnly)
    (hq : s.OwnSeqNo = some q) :
    s.SendPeriodicUpdate.OwnEntryOnly
    ∧ s.SendPeriodicUpdate.m_ipv4 = s.m_ipv4
    ∧ s.SendPeriodicUpdate.OwnSeqNo = some ((q + 2) % 2 ^ 32)
    ∧ ∃ j msgs, s.m_socketAddresses = [j]
        ∧ s.SendPeriodicUpdate.m_sent
          = s.m_sent ++ [{ socket := some j.1, packet := Message.encodeAll msgs,
                           destination := RoutingProtocol.BroadcastDestination j.2,
                           port := RoutingProtocol.DSDV_PORT }]
        ∧ Message.dsdv { m_dst := (s.m_ipv4.GetAddress 1).GetLocal, m_hopCount := 1,
                         m_dstSeqNo := (q + 2) % 2 ^ 32 } ∈ msgs := by
  obtain ⟨hnd, ⟨own, hown, hhop, hnext⟩, hBl, hlist, hadv, ⟨j, hj⟩⟩ := h
  have hqown : own.GetSeqNo = q := by
    simpa [RoutingProtocol.OwnSeqNo, hown] using hq
  obtain ⟨own1, hp1, hp2, hp3, hp4⟩ := RoutingTable_Purge_own s.m_routingTable
    s.m_simulator.Now _ own hnd hown hhop hnext
  obtain ⟨s1, hs1def⟩ : ∃ s1, s1 = RoutingProtocol.MergeTriggerPeriodicUpdates
      { s with m_routingTable := (s.m_routingTable.Purge s.m_simulator.Now).1 } := ⟨_, rfl⟩
  have hs1 := hs1def
  rw [MergeTriggerPeriodicUpdates_eq_foldl] at hs1
  obtain ⟨m1, m2, m3, m4, m5⟩ := MergeAdvertisement_foldl_frame
    (RoutingProtocol.InMapOrder s.m_advRoutingTable.GetListOfAllValidRoutes)
    { s with m_routingTable := (s.m_routingTable.Purge s.m_simulator.Now).1 }
  have hLadv : ∀ i ∈ RoutingProtocol.InMapOrder s.m_advRoutingTable.GetListOfAllValidRoutes,
      i ∈ s.m_advRoutingTable.m_ipv4AddressEntry := by
    intro i hi
    rw [InMapOrder_mem] at hi
    exact (List.mem_filter.mp hi).1
  have mkeep := (MergeAdvertisement_foldl_keep
    (RoutingProtocol.InMapOrder s.m_advRoutingTable.GetListOfAllValidRoutes)
    { s with m_routingTable := (s.m_routingTable.Purge s.m_simulator.Now).1 }
    (s.m_ipv4.GetAddress 1).GetBroadcast
    (fun i hi hd => absurd hd (hadv i (hLadv i hi)).2)).2
  have hQ1 := MergeAdvertisement_foldl_forall
    (fun e => e.GetDestination ≠ Ipv4Address.GetLoopback → e.GetHop = 0 →
      e.GetDestination = (s.m_ipv4.GetAddress 1).GetBroadcast)
    (RoutingProtocol.InMapOrder s.m_advRoutingTable.GetListOfAllValidRoutes)
    { s with m_routingTable := (s.m_routingTable.Purge s.m_simulator.Now).1 }
    (by
      intro e he hl h0
      obtain ⟨e0, he0, hd, hh⟩ := RoutingTable_Purge_entries _ _ e he
      rw [hd] at hl ⊢
      rw [hh] at h0
      refine hlist e0 ?_ h0
      simp only [RoutingTable.GetListOfAllRoutes, List.mem_filter, Bool.not_eq_true',
        decide_eq_false_iff_not]
      exact ⟨he0, hl⟩)
    (fun i hi _ h0 => absurd h0 (hadv i (hLadv i hi)).1)
  rw [← hs1] at m1 m2 m3 m4 m5 mkeep hQ1
  simp only at m1 m2 m3 m4 m5 mkeep hQ1
  have hs1own : s1.m_routingTable.LookupRoute (s.m_ipv4.GetAddress 1).GetBroadcast
      = some own1 := mkeep.trans hp1
  have hs1nd :
      (s1.m_routingTable.m_ipv4AddressEntry.map RoutingTableEntry.GetDestination).Nodup := by
    rw [m4]
    exact RoutingTable_Purge_keys _ _ hnd
  have hd1 : own1.GetDestination = (s.m_ipv4.GetAddress 1).GetBroadcast :=
    RoutingTable_LookupRoute_dst _ _ _ hs1own
  have hmem : own1 ∈ RoutingProtocol.InMapOrder s1.m_routingTable.GetListOfAllRoutes := by
    rw [InMapOrder_mem]
    simp only [RoutingTable.GetListOfAllRoutes, List.mem_filter, Bool.not_eq_true',
      decide_eq_false_iff_not]
    exact ⟨List.mem_of_find?_eq_some hs1own, by rw [hd1]; exact hBl⟩
  have hne : (RoutingProtocol.InMapOrder s1.m_routingTable.GetListOfAllRoutes).isEmpty
      = false := by
    cases hall : RoutingProtocol.InMapOrder s1.m_routingTable.GetListOfAllRoutes with
    | nil => rw [hall] at hmem; simp at hmem
    | cons a l => rfl
  have hqall : ∀ i ∈ RoutingProtocol.InMapOrder s1.m_routingTable.GetListOfAllRoutes,
      i.GetHop = 0 → i.GetSeqNo = q := by
    intro i hi h0
    rw [InMapOrder_mem] at hi
    simp only [RoutingTable.GetListOfAllRoutes, List.mem_filter, Bool.not_eq_true',
      decide_eq_false_iff_not] at hi
    have hdi := hQ1 i hi.1 hi.2 h0
    have hf := RoutingTable_filter_of_lookup_some s1.m_routingTable _ own1 hs1nd hs1own
    have : i ∈ s1.m_routingTable.m_ipv4AddressEntry.filter
        (fun x => decide (x.GetDestination = (s.m_ipv4.GetAddress 1).GetBroadcast)) := by
      simp only [List.mem_filter, decide_eq_true_eq]
      exact ⟨hi.1, hdi⟩
    rw [hf] at this
    have hio : i = own1 := by simpa using this
    rw [hio, hp4, hqown]
  obtain ⟨a1, a2, a3, a4, a5, a6, a7, a8⟩ := AdvertiseRoute_foldl
    (RoutingProtocol.InMapOrder s1.m_routingTable.GetListOfAllRoutes) s1 []
    (s.m_ipv4.GetAddress 1).GetLocal (s.m_ipv4.GetAddress 1).GetBroadcast own1 q
    (by rw [m1]) (by rw [m1]) hs1own hqall
  rw [if_pos ⟨own1, hmem, hp2⟩] at a6
  obtain ⟨e1, e2, e3, e4⟩ := SendPeriodicUpdate_single s s1 j hs1def (m2.trans hj) hne
  have eadv : s.SendPeriodicUpdate.m_advRoutingTable = s1.m_advRoutingTable := by
    rw [SendPeriodicUpdate_adv, hs1def]
  have eipv4 : s.SendPeriodicUpdate.m_ipv4 = s.m_ipv4 := e2.trans (a1.trans m1)
  have esent := e4
  rw [a3, m3, a8, AdvertiseRemoved_foldl, List.append_nil, ← Message_encodeAll_append] at esent
  refine ⟨?_, eipv4, ?_, j, _, hj, esent, ?_⟩
  · unfold RoutingProtocol.OwnEntryOnly
    rw [eipv4, e1, eadv, e3, a2, m2, a5]
    refine ⟨hs1nd, ⟨_, a6, hp2, hp3⟩, hBl, ?_, fun a ha => hadv a (m5 a ha), j, hj⟩
    intro e he h0
    simp only [RoutingTable.GetListOfAllRoutes, List.mem_filter, Bool.not_eq_true',
      decide_eq_false_iff_not] at he
    exact a7 _ hQ1 (fun _ _ => hd1) e he.1 he.2 h0
  · unfold RoutingProtocol.OwnSeqNo
    rw [eipv4, e1, a6]
    simp only [Option.map_some', RoutingTableEntry.SetSeqNo, RoutingTableEntry.GetSeqNo,
      Nat.mod_mod]
  · rw [List.mem_append]
    right
    rw [List.mem_map]
    exact ⟨own1, List.mem_reverse.mpr hmem, by rw [if_pos hp2]⟩

/-- The member `NotifyInterfaceUp` for interface 1, whose address is not the loopback address,
on a node whose main table has no entry for the broadcast address of the interface: the node
then stores the sequence number 0 for itself. -/
theorem NotifyInterfaceUp_own_sequence_number (s : RoutingProtocol)
    (hlo : (s.m_ipv4.GetAddress 1).GetLocal ≠ 0x7f000001)
    (hnew : s.m_routingTable.LookupRoute (s.m_ipv4.GetAddress 1).GetBroadcast = none) :
    (s.NotifyInterfaceUp 1).OwnSeqNo = some 0 := by
  unfold RoutingProtocol.NotifyInterfaceUp RoutingProtocol.OwnSeqNo
  simp only [Nat.cast_one, hlo, if_false]
  rw [RoutingTable_LookupRoute_AddRoute]
  simp [hnew, RoutingTableEntry.mk9, RoutingTableEntry.GetDestination,
    RoutingTableEntry.GetSeqNo]

/-- A run of periodic updates on a node that stores the sequence number `q` in its own entry,
the only listed entry with hop count 0: the node is left in such a state and stores `q` plus
twice the number of updates. -/
theorem PeriodicUpdatesAt_own (ts : List Time) :
    ∀ (s : RoutingProtocol) (q : Nat), q < 2 ^ 32 → s.OwnEntryOnly → s.OwnSeqNo = some q →
      (s.PeriodicUpdatesAt ts).OwnEntryOnly
      ∧ (s.PeriodicUpdatesAt ts).m_ipv4 = s.m_ipv4
      ∧ (s.PeriodicUpdatesAt ts).OwnSeqNo = some ((q + 2 * ts.length) % 2 ^ 32) := by
  induction ts with
  | nil =>
    intro s q hq32 h hq
    refine ⟨h, rfl, ?_⟩
    rw [List.length_nil, Nat.mul_zero, Nat.add_zero, Nat.mod_eq_of_lt hq32]
    exact hq
  | cons t ts ih =>
    intro s q _ h hq
    obtain ⟨k1, k2, k3, -⟩ := SendPeriodicUpdate_step
      { s with m_simulator := { s.m_simulator with m_currentTs := t } } q h hq
    obtain ⟨i1, i2, i3⟩ := ih _ _ (Nat.mod_lt _ (by norm_num)) k1 k3
    refine ⟨i1, i2.trans k2, ?_⟩
    show RoutingProtocol.OwnSeqNo (RoutingProtocol.PeriodicUpdatesAt _ ts) = _
    rw [i3]
    congr 1
    simp only [List.length_cons, Nat.reducePow]
    omega

/-- C32: a node with one socket whose own entry, the main-table entry for the broadcast address
of interface 1, is the only listed entry with hop count 0 and stores the sequence number `q`, a
`uint32_t`. `SendPeriodicUpdate` stores `q + 2`, in the arithmetic of `uint32_t`, in the own
entry and hands one datagram to the socket, among whose updates is that of the address of
interface 1 with hop count 1 and the sequence number `q + 2`. After a run of periodic updates
at any times the node stores `q` plus twice the number of updates, which is even if `q` is, as
is the initial `q = 0`; and the next update advertises that number plus 2. -/
theorem SendPeriodicUpdate_own_sequence_number (s : RoutingProtocol) (q : Nat)
    (hq32 : q < 2 ^ 32) (h : s.OwnEntryOnly) (hq : s.OwnSeqNo = some q) :
    s.SendPeriodicUpdate.OwnSeqNo = some ((q + 2) % 2 ^ 32)
    ∧ (∃ j msgs, s.m_socketAddresses = [j]
        ∧ s.SendPeriodicUpdate.m_sent
          = s.m_sent ++ [{ socket := some j.1, packet := Message.encodeAll msgs,
                           destination := RoutingProtocol.BroadcastDestination j.2,
                           port := RoutingProtocol.DSDV_PORT }]
        ∧ Message.dsdv { m_dst := (s.m_ipv4.GetAddress 1).GetLocal, m_hopCount := 1,
                         m_dstSeqNo := (q + 2) % 2 ^ 32 } ∈ msgs)
    ∧ ∀ ts : List Time,
        (s.PeriodicUpdatesAt ts).OwnSeqNo = some ((q + 2 * ts.length) % 2 ^ 32)
        ∧ (q % 2 = 0 → (q + 2 * ts.length) % 2 ^ 32 % 2 = 0)
        ∧ ∀ t : Time, ∃ (j : Nat × Ipv4InterfaceAddress) (msgs : List Message),
            (s.PeriodicUpdatesAt (ts ++ [t])).m_sent
              = (s.PeriodicUpdatesAt ts).m_sent
                ++ [{ socket := some j.1, packet := Message.encodeAll msgs,
                      destination := RoutingProtocol.BroadcastDestination j.2,
                      port := RoutingProtocol.DSDV_PORT }]
            ∧ Message.dsdv { m_dst := (s.m_ipv4.GetAddress 1).GetLocal, m_hopCount := 1,
                             m_dstSeqNo := (q + 2 * (ts.length + 1)) % 2 ^ 32 } ∈ msgs := by
  obtain ⟨-, -, k3, k4⟩ := SendPeriodicUpdate_step s q h hq
  refine ⟨k3, k4, fun ts => ?_⟩
  obtain ⟨i1, i2, i3⟩ := PeriodicUpdatesAt_own ts s q hq32 h hq
  refine ⟨i3, fun he => ?_, fun t => ?_⟩
  · simp only [Nat.reducePow]
    omega
  · obtain ⟨-, -, -, j, msgs, -, n2, n3⟩ := SendPeriodicUpdate_step
      { s.PeriodicUpdatesAt ts with
          m_simulator := { (s.PeriodicUpdatesAt ts).m_simulator with m_currentTs := t } }
      _ i1 i3
    refine ⟨j, msgs, ?_, ?_⟩
    · unfold RoutingProtocol.PeriodicUpdatesAt at n2 ⊢
      rw [List.foldl_append]
      exact n2
    · have hA : (s.PeriodicUpdatesAt ts).m_ipv4 = s.m_ipv4 := i2
      have hmod : ((q + 2 * ts.length) % 2 ^ 32 + 2) % 2 ^ 32
          = (q + 2 * (ts.length + 1)) % 2 ^ 32 := by
        simp only [Nat.reducePow]
        omega
      simp only [hA, hmod] at n3
      exact n3

/-- Witness for C32: the example node as `NotifyInterfaceUp` leaves it at the start of the
simulation, with the sequence number 0 in its own entry; after one periodic update it stores 2,
and after the updates at seconds 15 and 30 it stores 4. -/
theorem SendPeriodicUpdate_own_sequence_number_witness :
    (exampleNodeStarting.NotifyInterfaceUp 1).OwnEntryOnly
    ∧ (exampleNodeStarting.NotifyInterfaceUp 1).OwnSeqNo = some 0
    ∧ (exampleNodeStarting.NotifyInterfaceUp 1).SendPeriodicUpdate.OwnSeqNo = some 2
    ∧ ((exampleNodeStarting.NotifyInterfaceUp 1).PeriodicUpdatesAt
        [Seconds 15, Seconds 30]).OwnSeqNo = some 4 :=
  ⟨⟨by decide, ⟨broadcastRoute, by decide, by decide, by decide⟩, by decide, by decide,
      by decide, ⟨_, rfl⟩⟩,
    by decide,
    (SendPeriodicUpdate_own_sequence_number (exampleNodeStarting.NotifyInterfaceUp 1) 0
      (by norm_num)
      ⟨by decide, ⟨broadcastRoute, by decide, by decide, by decide⟩, by decide, by decide,
        by decide, ⟨_, rfl⟩⟩ (by decide)).1,
    ((SendPeriodicUpdate_own_sequence_number (exampleNodeStarting.NotifyInterfaceUp 1) 0
      (by norm_num)
      ⟨by decide, ⟨broadcastRoute, by decide, by decide, by decide⟩, by decide, by decide,
        by decide, ⟨_, rfl⟩⟩ (by decide)).2.2 [Seconds 15, Seconds 30]).1⟩

end effdsdv

end ns3
